import Mathlib

/-!
# SmartBall firmware: OTA update state machine and framer

A shallow embedding of `firmware/src/ota.cpp` (with the constants of
`firmware/include/ota.h` and `firmware/include/protocol.h`), of the framer and the GET_ID
handler of `firmware/src/ble_parser.cpp`, of `firmware/src/device_id.cpp`, and of the boot
gate of `firmware/smartball_app/src/main.c`.

The C module keeps its state in file-level statics; here they are the fields of
one record `Ota` that every entry point takes and returns. The internal flash
is a field of that record (a map from address to byte), and every observable
action of the module (a call of the send hook, of the yield hook, a flash
erase or program, a delay, a system reset) is appended to `Ota.trace`.
What the hardware answers during one call (`flash.init()`, `millis()`) is the
argument `Hw`.

Unsigned 32-bit and 16-bit values are natural numbers, reduced `% 2^32` or
`% 2^16` wherever the C arithmetic can wrap.
-/

namespace SmartBall

/-! ## Constants (ota.h, protocol.h, ota.cpp) -/

/-- One byte (`uint8_t`). -/
abbrev Byte := Fin 256

@[reducible] def OTA_MAGIC : Nat := 0x53424F54

@[reducible] def OTA_CHUNK_MAX : Nat := 480

@[reducible] def OTA_DATA_PAGE : Nat := 256

@[reducible] def OTA_STAGING_SIZE : Nat := 496 * 1024

/-- The base address of slot A, the primary image (ota.h). -/
@[reducible] def OTA_SLOT_A_ADDR : Nat := 0x00026000

@[reducible] def OTA_SLOT_B_ADDR : Nat := 0x00080000

@[reducible] def OTA_ERASE_SECTOR : Nat := 4096

@[reducible] def OTA_PROGRESS_INTERVAL_MS : Nat := 250

@[reducible] def OTA_LOG_ENTRIES : Nat := 64

@[reducible] def OTA_LOG_ENTRY_SIZE : Nat := 4

@[reducible] def OTA_FLAG_ADDR : Nat := 0x000FE000

@[reducible] def OTA_FLAG_MAGIC : Nat := 0x4F544146

@[reducible] def CMD_OTA_START : Nat := 0x10

@[reducible] def CMD_OTA_DATA : Nat := 0x11

@[reducible] def CMD_OTA_FINISH : Nat := 0x12

@[reducible] def CMD_OTA_ABORT : Nat := 0x13

@[reducible] def CMD_OTA_STATUS : Nat := 0x16

@[reducible] def CMD_OTA_CONFIRM : Nat := 0x17

@[reducible] def CMD_OTA_REBOOT : Nat := 0x18

@[reducible] def CMD_OTA_GET_LOG : Nat := 0x19

@[reducible] def RSP_OTA_OK_START : Nat := 0x00

@[reducible] def RSP_OTA_OK_FINISH : Nat := 0x01

@[reducible] def RSP_OTA_ERR_SIZE : Nat := 0x02

@[reducible] def RSP_OTA_ERR_SIZE_MISMATCH : Nat := 0x03

@[reducible] def RSP_OTA_ERR_CHUNK : Nat := 0x04

@[reducible] def RSP_OTA_ERR_BAD_MAGIC : Nat := 0x05

@[reducible] def RSP_OTA_ERR_CHUNK_CRC : Nat := 0x06

@[reducible] def RSP_OTA_ERR_BAD_OFFSET : Nat := 0x07

@[reducible] def RSP_OTA_ERR_CRC_MISMATCH : Nat := 0x08

@[reducible] def MSG_OTA_PROGRESS : Nat := 0x91

@[reducible] def MSG_OTA_READY : Nat := 0x92

@[reducible] def RSP_OTA : Nat := 0x90

/-! ## Data model -/

/-- The states of the OTA state machine (`ota_state_t`), in declaration order. -/
inductive ota_state_t
  | OTA_IDLE
  | OTA_PREPARE_ERASE
  | OTA_READY_FOR_DATA
  | OTA_RECEIVING
  | OTA_VERIFYING
  | OTA_PENDING_REBOOT
  | OTA_TEST_BOOT
  | OTA_ERROR
  deriving DecidableEq, Repr

/-- The numeric value of an `ota_state_t` enumerator. -/
def ota_state_t.toNat : ota_state_t → Nat
  | .OTA_IDLE => 0
  | .OTA_PREPARE_ERASE => 1
  | .OTA_READY_FOR_DATA => 2
  | .OTA_RECEIVING => 3
  | .OTA_VERIFYING => 4
  | .OTA_PENDING_REBOOT => 5
  | .OTA_TEST_BOOT => 6
  | .OTA_ERROR => 7

/-- The error codes kept in the session context (`ota_error_t`). -/
inductive ota_error_t
  | OTA_ERR_NONE
  | OTA_ERR_SIZE
  | OTA_ERR_SIZE_MISMATCH
  | OTA_ERR_CHUNK
  | OTA_ERR_BAD_MAGIC
  | OTA_ERR_CHUNK_CRC
  | OTA_ERR_BAD_OFFSET
  | OTA_ERR_CRC_MISMATCH
  deriving DecidableEq, Repr

/-- The numeric value of an `ota_error_t` enumerator. -/
def ota_error_t.toNat : ota_error_t → Nat
  | .OTA_ERR_NONE => 0
  | .OTA_ERR_SIZE => 1
  | .OTA_ERR_SIZE_MISMATCH => 2
  | .OTA_ERR_CHUNK => 3
  | .OTA_ERR_BAD_MAGIC => 4
  | .OTA_ERR_CHUNK_CRC => 5
  | .OTA_ERR_BAD_OFFSET => 6
  | .OTA_ERR_CRC_MISMATCH => 7

/-- The session context (`ota_ctx_t`). -/
structure ota_ctx_t where
  slot : Nat
  version : Nat
  total_size : Nat
  expected_crc32 : Nat
  bytes_received : Nat
  crc32_accum : Nat
  next_expected_offset : Nat
  erase_progress_bytes : Nat
  last_ota_error : ota_error_t
  active_slot : Nat
  pending_slot : Nat
  deriving DecidableEq, Repr

/-- The persistent flag record (`struct ota_flag`, packed, 16 bytes). -/
structure ota_flag where
  magic : Nat
  pending : Nat
  confirmed : Nat
  slot : Nat
  _res : Nat
  size : Nat
  crc32 : Nat
  deriving DecidableEq, Repr

/-- An observable action of the module, in the order the code performs it. -/
inductive Effect
  | send (ty : Nat) (payload : List Byte)
  | yield
  | flash_erase (addr : Nat) (size : Nat)
  | flash_program (addr : Nat) (bytes : List Byte)
  | delay (ms : Nat)
  | system_reset
  deriving DecidableEq, Repr

/-- What the hardware answers during one call of an entry point: whether
`flash.init()` returns 0, and the values of the two `millis()` reads of `ota_poll`. -/
structure Hw where
  flash_init_ok : Bool
  millis_start : Nat
  millis_now : Nat

/-- The file-level statics of `ota.cpp`, the flash, and the trace of actions. -/
structure Ota where
  crc32_table_init : Bool
  ctx : ota_ctx_t
  s_send : Bool
  s_yield : Bool
  s_state : ota_state_t
  s_erase_addr : Nat
  s_erase_total : Nat
  s_last_progress_ms : Nat
  s_erase_started : Bool
  s_log_ring : List Byte
  s_log_head : Nat
  s_log_count : Nat
  flash : Nat → Byte
  trace : List Effect

/-! ## Integer helpers -/

/-- Conversion to `uint8_t`. -/
def u8 (x : Nat) : Byte := ⟨x % 256, Nat.mod_lt x (by decide)⟩

/-- Conversion to `uint16_t`. -/
def u16 (x : Nat) : Nat := x % 2 ^ 16

/-- Conversion to `uint32_t`. -/
def u32 (x : Nat) : Nat := x % 2 ^ 32

/-- The expression `b0 | (b1 << 8)` stored in a `uint16_t`. -/
def le16 (b0 b1 : Byte) : Nat := u16 (b0.val ||| (b1.val <<< 8))

/-- The expression `b0 | (b1<<8) | (b2<<16) | (b3<<24)` stored in a `uint32_t`. -/
def le32 (b0 b1 b2 b3 : Byte) : Nat :=
  u32 (b0.val ||| (b1.val <<< 8) ||| (b2.val <<< 16) ||| (b3.val <<< 24))

/-- The four bytes `memcpy` reads from a `uint32_t` (little-endian target). -/
def bytes_of_u32 (x : Nat) : List Byte := [u8 x, u8 (x >>> 8), u8 (x >>> 16), u8 (x >>> 24)]

/-! ## CRC-32 -/

/-- The entry `crc32_table[i]` that `crc32_init_table` computes. -/
def crc32_table_entry (i : Nat) : Nat :=
  (List.range 8).foldl
    (fun c _ => if c &&& 1 ≠ 0 then 0xEDB88320 ^^^ (c >>> 1) else c >>> 1) i

/-- The static `crc32_table`: all zero until `crc32_init_table` has run. -/
def crc32_table (init : Bool) (i : Nat) : Nat :=
  if init then crc32_table_entry i else 0

/-- The function `crc32_update(crc, data, len)` over the table `tbl`; `data` holds the `len` bytes. -/
def crc32_update (tbl : Nat → Nat) (crc : Nat) (data : List Byte) : Nat :=
  let crc := crc ^^^ 0xFFFFFFFF
  let crc := data.foldl (fun crc b => tbl ((crc ^^^ b.val) &&& 0xFF) ^^^ (crc >>> 8)) crc
  crc ^^^ 0xFFFFFFFF

/-! ## Flash -/

/-- Modelled from the spec: `FlashIAP::erase(addr, size)`, which sets the bytes of
`[addr, addr + size)` to 0xFF (the mbed flash driver is not part of the sources). -/
def flash_erase (fl : Nat → Byte) (addr size : Nat) : Nat → Byte :=
  fun a => if addr ≤ a ∧ a < addr + size then 0xFF else fl a

/-- Modelled from the spec: `FlashIAP::program(buf, addr, size)`, which stores the
given bytes at `[addr, addr + size)` (the mbed flash driver is not part of the sources). -/
def flash_program (fl : Nat → Byte) (addr : Nat) (bytes : List Byte) : Nat → Byte :=
  fun a => if addr ≤ a ∧ a < addr + bytes.length then bytes.getD (a - addr) 0 else fl a

/-- The `n` bytes of memory-mapped flash starting at `addr`. -/
def flash_read (fl : Nat → Byte) (addr n : Nat) : List Byte :=
  (List.range n).map (fun i => fl (addr + i))

/-- A 32-bit little-endian load from memory-mapped flash. -/
def flash_read32 (fl : Nat → Byte) (addr : Nat) : Nat :=
  le32 (fl addr) (fl (addr + 1)) (fl (addr + 2)) (fl (addr + 3))

/-! ## Hooks -/

/-- The statement `if (s_send) s_send(ty, payload, len)`. -/
def send_hook (s : Ota) (ty : Nat) (payload : List Byte) : Ota :=
  if s.s_send then { s with trace := s.trace ++ [Effect.send ty payload] } else s

/-- The statement `if (s_yield) s_yield()`. -/
def yield_hook (s : Ota) : Ota :=
  if s.s_yield then { s with trace := s.trace ++ [Effect.yield] } else s

/-! ## Event log -/

/-- The function `ota_log_event(event, param)`. -/
def ota_log_event (s : Ota) (event : Nat) (param : Nat) : Ota :=
  let p := s.s_log_head * OTA_LOG_ENTRY_SIZE
  let ring := s.s_log_ring.set p (u8 event)
  let ring := ring.set (p + 1) (u8 param)
  let ring := ring.set (p + 2) (u8 (param >>> 8))
  let ring := ring.set (p + 3) (u8 (param >>> 16))
  { s with
    s_log_ring := ring
    s_log_head := (s.s_log_head + 1) % OTA_LOG_ENTRIES
    s_log_count := if s.s_log_count < OTA_LOG_ENTRIES then s.s_log_count + 1 else s.s_log_count }

/-- The function `ota_get_log(buf, max_entries)`: the bytes written to `buf` and the count returned. -/
def ota_get_log (s : Ota) (max_entries : Nat) : List Byte × Nat :=
  let n := if max_entries ≤ s.s_log_count then max_entries else s.s_log_count
  let start := (s.s_log_head + OTA_LOG_ENTRIES - s.s_log_count) % OTA_LOG_ENTRIES
  let buf := (List.range n).flatMap (fun i =>
    (List.range OTA_LOG_ENTRY_SIZE).map (fun j =>
      s.s_log_ring.getD (((start + i) % OTA_LOG_ENTRIES) * OTA_LOG_ENTRY_SIZE + j) 0))
  (buf, n)

/-! ## Session reset and initialisation -/

/-- The context after `memset(&ctx, 0, sizeof(ctx))`. -/
def ctx_zero : ota_ctx_t :=
  { slot := 0, version := 0, total_size := 0, expected_crc32 := 0, bytes_received := 0,
    crc32_accum := 0, next_expected_offset := 0, erase_progress_bytes := 0,
    last_ota_error := .OTA_ERR_NONE, active_slot := 0, pending_slot := 0 }

/-- The function `ota_reset()`. -/
def ota_reset (s : Ota) : Ota :=
  { s with
    s_state := .OTA_IDLE
    ctx := { ctx_zero with last_ota_error := .OTA_ERR_NONE }
    s_erase_addr := 0
    s_erase_total := 0
    s_erase_started := false }

/-- The function `ota_init(send_fn)`; `send_fn` tells whether the hook is non-null. -/
def ota_init (s : Ota) (send_fn : Bool) : Ota :=
  ota_reset { s with s_send := send_fn, crc32_table_init := true }

/-- The function `ota_set_yield(yield_fn)`; `yield_fn` tells whether the hook is non-null. -/
def ota_set_yield (s : Ota) (yield_fn : Bool) : Ota :=
  { s with s_yield := yield_fn }

/-- The function `set_error(e)`. -/
def set_error (s : Ota) (e : ota_error_t) : Ota :=
  { s with ctx := { s.ctx with last_ota_error := e } }

/-! ## Persistent flag -/

/-- The 16 bytes of a packed `struct ota_flag`. -/
def flag_bytes (f : ota_flag) : List Byte :=
  bytes_of_u32 f.magic ++ [u8 f.pending, u8 f.confirmed, u8 f.slot, u8 f._res] ++
    bytes_of_u32 f.size ++ bytes_of_u32 f.crc32

/-- The function `ota_write_flag(f)`. -/
def ota_write_flag (hw : Hw) (s : Ota) (f : ota_flag) : Ota :=
  if hw.flash_init_ok = false then s
  else
    { s with
      flash := flash_program (flash_erase s.flash OTA_FLAG_ADDR 4096) OTA_FLAG_ADDR (flag_bytes f)
      trace := s.trace ++
        [Effect.flash_erase OTA_FLAG_ADDR 4096, Effect.flash_program OTA_FLAG_ADDR (flag_bytes f)] }

/-- The function `ota_read_flag(f)`: the record stored at `OTA_FLAG_ADDR`. -/
def ota_read_flag (fl : Nat → Byte) : ota_flag :=
  { magic := flash_read32 fl OTA_FLAG_ADDR
    pending := (fl (OTA_FLAG_ADDR + 4)).val
    confirmed := (fl (OTA_FLAG_ADDR + 5)).val
    slot := (fl (OTA_FLAG_ADDR + 6)).val
    _res := (fl (OTA_FLAG_ADDR + 7)).val
    size := flash_read32 fl (OTA_FLAG_ADDR + 8)
    crc32 := flash_read32 fl (OTA_FLAG_ADDR + 12) }

/-- The function `ota_is_pending_confirm()`. -/
def ota_is_pending_confirm (s : Ota) : Bool :=
  let f := ota_read_flag s.flash
  decide (f.magic = OTA_FLAG_MAGIC ∧ f.pending = 1 ∧ f.confirmed = 0)

/-- The function `ota_clear_pending_confirm()`. -/
def ota_clear_pending_confirm (hw : Hw) (s : Ota) : Ota :=
  let f := ota_read_flag s.flash
  if f.magic ≠ OTA_FLAG_MAGIC then s
  else ota_write_flag hw s { f with confirmed := 1, pending := 0 }

/-- The function `ota_confirm()`. -/
def ota_confirm (hw : Hw) (s : Ota) : Ota :=
  ota_clear_pending_confirm hw s

/-- The function `ota_rollback_pending()`. -/
def ota_rollback_pending (hw : Hw) (s : Ota) : Ota :=
  let f := ota_read_flag s.flash
  if f.magic ≠ OTA_FLAG_MAGIC then s
  else ota_write_flag hw s { f with pending := 0, confirmed := 0 }

/-! ## Background erase -/

/-- The size `n` of the erase that `ota_poll` issues at `s_erase_addr`. -/
def poll_erase_size (s : Ota) : Nat :=
  if u32 (s.s_erase_addr + OTA_ERASE_SECTOR) > u32 (OTA_SLOT_B_ADDR + s.s_erase_total) then
    u32 (u32 (OTA_SLOT_B_ADDR + s.s_erase_total) + 2 ^ 32 - s.s_erase_addr)
  else OTA_ERASE_SECTOR

/-- The erase step of `ota_poll`, after `flash.init()` succeeded: erase `n` bytes,
advance, yield, and report progress when the interval has elapsed. The 32-bit difference
`s_erase_addr - OTA_SLOT_B_ADDR` is written as the sum with `2^32 - OTA_SLOT_B_ADDR`. -/
def ota_poll_erase (hw : Hw) (s : Ota) : Ota :=
  let n := poll_erase_size s
  let addr := u32 (s.s_erase_addr + n)
  let s := yield_hook
    { s with
      flash := flash_erase s.flash s.s_erase_addr n
      trace := s.trace ++ [Effect.flash_erase s.s_erase_addr n]
      s_erase_addr := addr
      ctx := { s.ctx with erase_progress_bytes := u32 ((2 ^ 32 - OTA_SLOT_B_ADDR) + addr) } }
  let now := hw.millis_now
  if u32 (now + 2 ^ 32 - s.s_last_progress_ms) ≥ OTA_PROGRESS_INTERVAL_MS then
    send_hook { s with s_last_progress_ms := now } MSG_OTA_PROGRESS
      (bytes_of_u32 s.ctx.erase_progress_bytes)
  else s

/-- The function `ota_poll()`: one sector per call. -/
def ota_poll (hw : Hw) (s : Ota) : Ota :=
  if s.s_state ≠ .OTA_PREPARE_ERASE ∨ s.s_erase_total = 0 then s
  else
    let s :=
      if s.s_erase_started = false then
        { s with s_erase_started := true, s_erase_addr := OTA_SLOT_B_ADDR,
                 s_last_progress_ms := hw.millis_start }
      else s
    if s.s_erase_addr ≥ u32 (OTA_SLOT_B_ADDR + s.s_erase_total) then
      let s := { s with s_state := .OTA_READY_FOR_DATA,
                        ctx := { s.ctx with erase_progress_bytes := s.s_erase_total } }
      let s := ota_log_event s 4 s.s_erase_total
      let s := send_hook s MSG_OTA_READY [0]
      { s with s_erase_started := false }
    else
      let s := yield_hook s
      if hw.flash_init_ok = false then s
      else ota_poll_erase hw s

/-! ## Command handlers of `ota_feed` -/

/-- The `CMD_OTA_START` case of `ota_feed`. -/
def ota_feed_start (s : Ota) (payload : List Byte) (paylen : Nat) : Ota :=
  if paylen < 11 then s
  else
    let s := if s.s_state ≠ .OTA_IDLE then ota_reset s else s
    let s := { s with ctx := { s.ctx with
      slot := (payload.getD 0 0).val
      version := le16 (payload.getD 1 0) (payload.getD 2 0)
      total_size := le32 (payload.getD 3 0) (payload.getD 4 0) (payload.getD 5 0) (payload.getD 6 0)
      expected_crc32 :=
        le32 (payload.getD 7 0) (payload.getD 8 0) (payload.getD 9 0) (payload.getD 10 0)
      bytes_received := 0
      crc32_accum := 0
      next_expected_offset := 0
      erase_progress_bytes := 0 } }
    let s := set_error s .OTA_ERR_NONE
    if s.ctx.total_size = 0 ∨ s.ctx.total_size > OTA_STAGING_SIZE then
      let s := set_error s .OTA_ERR_SIZE
      send_hook s RSP_OTA [u8 RSP_OTA_ERR_SIZE]
    else
      let s := { s with s_state := .OTA_PREPARE_ERASE }
      let total := u32 (s.ctx.total_size + (OTA_ERASE_SECTOR - 1)) &&& 0xFFFFF000
      let s := { s with s_erase_total := total }
      let s := if s.s_erase_total < OTA_ERASE_SECTOR then
        { s with s_erase_total := OTA_ERASE_SECTOR } else s
      let s := { s with s_erase_started := false }
      let s := ota_log_event s 1 s.ctx.total_size
      send_hook s RSP_OTA [u8 RSP_OTA_OK_START]

/-- The page loop of the `CMD_OTA_DATA` case: `while (remain > 0) ...`, with at most
`fuel` iterations. -/
def program_pages (yield_fn : Bool) :
    Nat → (Nat → Byte) → List Effect → Nat → List Byte → Nat → (Nat → Byte) × List Effect
  | 0, fl, tr, _, _, _ => (fl, tr)
  | fuel + 1, fl, tr, addr, p, remain =>
    if remain > 0 then
      let n := if remain > OTA_DATA_PAGE then OTA_DATA_PAGE else remain
      let fl := flash_program fl addr (p.take n)
      let tr := tr ++ [Effect.flash_program addr (p.take n)]
      let addr := u32 (addr + n)
      let p := p.drop n
      let remain := remain - n
      let tr := if yield_fn = true ∧ remain > 0 then tr ++ [Effect.yield] else tr
      program_pages yield_fn fuel fl tr addr p remain
    else (fl, tr)

/-- The accept path of the `CMD_OTA_DATA` case (from `s_state = OTA_RECEIVING` to the ACK):
the chunk passed the bounds, order and CRC checks. -/
def ota_data_accept (hw : Hw) (s : Ota) (offset chunk_len : Nat) (chunk : List Byte) : Ota :=
  let s := { s with s_state := .OTA_RECEIVING }
  let s := { s with ctx := { s.ctx with
    crc32_accum := crc32_update (crc32_table s.crc32_table_init) s.ctx.crc32_accum chunk } }
  let s := { s with ctx := { s.ctx with
    bytes_received := u32 (s.ctx.bytes_received + chunk_len) } }
  let s :=
    if hw.flash_init_ok = true then
      let r := program_pages s.s_yield chunk_len s.flash s.trace
        (u32 (OTA_SLOT_B_ADDR + offset)) chunk chunk_len
      { s with flash := r.1, trace := r.2 }
    else s
  let s := { s with ctx := { s.ctx with next_expected_offset := u32 (offset + chunk_len) } }
  send_hook s RSP_OTA
    (0 :: (bytes_of_u32 s.ctx.next_expected_offset ++ bytes_of_u32 s.ctx.total_size))

/-- The `CMD_OTA_DATA` case of `ota_feed`. -/
def ota_feed_data (hw : Hw) (s : Ota) (payload : List Byte) (paylen : Nat) : Ota :=
  if paylen < 8 then s
  else if s.s_state = .OTA_PREPARE_ERASE then
    send_hook s MSG_OTA_PROGRESS (bytes_of_u32 s.ctx.erase_progress_bytes)
  else if s.s_state ≠ .OTA_READY_FOR_DATA ∧ s.s_state ≠ .OTA_RECEIVING then s
  else
    let offset := le32 (payload.getD 0 0) (payload.getD 1 0) (payload.getD 2 0) (payload.getD 3 0)
    let chunk_len := u16 (paylen - 8)
    let chunk_crc := le32 (payload.getD (paylen - 4) 0) (payload.getD (paylen - 3) 0)
      (payload.getD (paylen - 2) 0) (payload.getD (paylen - 1) 0)
    if u32 (offset + chunk_len) > s.ctx.total_size ∨ chunk_len > OTA_CHUNK_MAX then
      let s := set_error s .OTA_ERR_CHUNK
      let s := { s with s_state := .OTA_ERROR }
      send_hook s RSP_OTA [u8 RSP_OTA_ERR_CHUNK]
    else
      let cap := u32 (s.ctx.total_size + 2 ^ 32 - offset)
      let chunk_len := if chunk_len > cap then u16 cap else chunk_len
      if offset > s.ctx.next_expected_offset then
        let s := set_error s .OTA_ERR_BAD_OFFSET
        send_hook s RSP_OTA (u8 RSP_OTA_ERR_BAD_OFFSET :: bytes_of_u32 s.ctx.next_expected_offset)
      else if offset < s.ctx.next_expected_offset then
        send_hook s RSP_OTA (0 :: (bytes_of_u32 offset ++ bytes_of_u32 s.ctx.total_size))
      else
        let chunk := (payload.drop 4).take chunk_len
        let computed := crc32_update (crc32_table s.crc32_table_init) 0 chunk
        if computed ≠ chunk_crc then
          let s := set_error s .OTA_ERR_CHUNK_CRC
          send_hook s RSP_OTA [u8 RSP_OTA_ERR_CHUNK_CRC]
        else ota_data_accept hw s offset chunk_len chunk

/-- The `CMD_OTA_FINISH` case of `ota_feed`. -/
def ota_feed_finish (hw : Hw) (s : Ota) : Ota :=
  if s.s_state ≠ .OTA_RECEIVING then s
  else
    let s := { s with s_state := .OTA_VERIFYING }
    if s.ctx.bytes_received ≠ s.ctx.total_size then
      let s := { s with s_state := .OTA_ERROR }
      let s := set_error s .OTA_ERR_SIZE_MISMATCH
      send_hook s RSP_OTA [u8 RSP_OTA_ERR_SIZE_MISMATCH]
    else if s.ctx.crc32_accum ≠ s.ctx.expected_crc32 then
      let s := { s with s_state := .OTA_ERROR }
      let s := set_error s .OTA_ERR_CRC_MISMATCH
      send_hook s RSP_OTA (u8 RSP_OTA_ERR_CRC_MISMATCH :: bytes_of_u32 s.ctx.crc32_accum)
    else if flash_read32 s.flash OTA_SLOT_B_ADDR ≠ OTA_MAGIC then
      let s := { s with s_state := .OTA_ERROR }
      let s := set_error s .OTA_ERR_BAD_MAGIC
      send_hook s RSP_OTA [u8 RSP_OTA_ERR_BAD_MAGIC]
    else
      let f : ota_flag :=
        { magic := OTA_FLAG_MAGIC, pending := 1, confirmed := 0, slot := 1, _res := 0,
          size := s.ctx.total_size, crc32 := s.ctx.expected_crc32 }
      let s := ota_write_flag hw s f
      let s := { s with s_state := .OTA_PENDING_REBOOT }
      let s := send_hook s RSP_OTA [u8 RSP_OTA_OK_FINISH]
      { s with trace := s.trace ++ [Effect.delay 50, Effect.system_reset] }

/-- The `CMD_OTA_ABORT` case of `ota_feed`. -/
def ota_feed_abort (s : Ota) : Ota :=
  send_hook (ota_reset s) RSP_OTA []

/-- The `CMD_OTA_STATUS` case of `ota_feed`. -/
def ota_feed_status (s : Ota) : Ota :=
  let f := ota_read_flag s.flash
  let s := { s with ctx := { s.ctx with
    active_slot := if f.slot = 1 ∧ f.confirmed ≠ 0 then 1 else 0 } }
  let s := { s with ctx := { s.ctx with
    pending_slot := if f.pending ≠ 0 ∧ f.confirmed = 0 then 1 else 0 } }
  let rsp : List Byte :=
    [u8 s.s_state.toNat] ++ bytes_of_u32 s.ctx.next_expected_offset ++
      bytes_of_u32 s.ctx.bytes_received ++ bytes_of_u32 s.ctx.total_size ++
      bytes_of_u32 s.ctx.erase_progress_bytes ++
      [u8 s.ctx.last_ota_error.toNat, u8 s.ctx.active_slot, u8 s.ctx.pending_slot] ++
      bytes_of_u32 s.ctx.expected_crc32
  send_hook s RSP_OTA rsp

/-- The `CMD_OTA_CONFIRM` case of `ota_feed`. -/
def ota_feed_confirm (hw : Hw) (s : Ota) : Ota :=
  send_hook (ota_confirm hw s) RSP_OTA [0]

/-- The `CMD_OTA_REBOOT` case of `ota_feed`. -/
def ota_feed_reboot (s : Ota) : Ota :=
  let s := ota_log_event s 8 0
  let s := send_hook s RSP_OTA [0]
  { s with trace := s.trace ++ [Effect.delay 100, Effect.system_reset] }

/-- The `CMD_OTA_GET_LOG` case of `ota_feed`. -/
def ota_feed_get_log (s : Ota) : Ota :=
  let r := ota_get_log s OTA_LOG_ENTRIES
  send_hook s RSP_OTA (r.1.take (u16 (r.2 * OTA_LOG_ENTRY_SIZE)))

/-- The function `ota_feed(data, len)`, with `len = data.length`. -/
def ota_feed (hw : Hw) (s : Ota) (data : List Byte) : Ota :=
  let len := data.length
  if len < 3 then s
  else
    let ty := (data.getD 0 0).val
    let paylen := le16 (data.getD 1 0) (data.getD 2 0)
    if ¬ (len ≥ 3 + paylen) ∨ paylen > len - 3 then s
    else
      let payload := data.drop 3
      if ty = CMD_OTA_START then ota_feed_start s payload paylen
      else if ty = CMD_OTA_DATA then ota_feed_data hw s payload paylen
      else if ty = CMD_OTA_FINISH then ota_feed_finish hw s
      else if ty = CMD_OTA_ABORT then ota_feed_abort s
      else if ty = CMD_OTA_STATUS then ota_feed_status s
      else if ty = CMD_OTA_CONFIRM then ota_feed_confirm hw s
      else if ty = CMD_OTA_REBOOT then ota_feed_reboot s
      else if ty = CMD_OTA_GET_LOG then ota_feed_get_log s
      else s

/-- The function `ota_get_state()`. -/
def ota_get_state (s : Ota) : ota_state_t := s.s_state

/-- The function `ota_get_ctx()`. -/
def ota_get_ctx (s : Ota) : ota_ctx_t := s.ctx

/-! ## Calls, runs and reachable states -/

/-- One call of an entry point of the module. -/
inductive Call
  | feed (data : List Byte)
  | poll
  | reset
  | set_yield (yield_fn : Bool)
  | confirm
  | clear_pending_confirm
  | rollback_pending
  | log_event (event : Nat) (param : Nat)

/-- The state after one call, the hardware answering `hw` during it. -/
def ota_call (hw : Hw) (s : Ota) : Call → Ota
  | .feed data => ota_feed hw s data
  | .poll => ota_poll hw s
  | .reset => ota_reset s
  | .set_yield yield_fn => ota_set_yield s yield_fn
  | .confirm => ota_confirm hw s
  | .clear_pending_confirm => ota_clear_pending_confirm hw s
  | .rollback_pending => ota_rollback_pending hw s
  | .log_event event param => ota_log_event s event param

/-- The state after a sequence of calls, each with the hardware answers during it. -/
def run (s : Ota) : List (Hw × Call) → Ota
  | [] => s
  | x :: rest => run (ota_call x.1 s x.2) rest

/-- A state the module can be in: `ota_init` on any statics, then any calls. -/
def Reachable (s : Ota) : Prop :=
  ∃ (s0 : Ota) (send_fn : Bool) (calls : List (Hw × Call)), run (ota_init s0 send_fn) calls = s

/-- The hardware answers of every call of the sequence have `flash.init()` succeed. -/
def flash_ok (calls : List (Hw × Call)) : Prop :=
  ∀ x ∈ calls, x.1.flash_init_ok = true

instance flash_ok_decidable (calls : List (Hw × Call)) : Decidable (flash_ok calls) :=
  inferInstanceAs (Decidable (∀ x ∈ calls, x.1.flash_init_ok = true))

/-! ## Frames as the host builds them, and their fields -/

/-- The `paylen` that `ota_feed` reads from the frame header. -/
def frame_paylen (data : List Byte) : Nat := le16 (data.getD 1 0) (data.getD 2 0)

/-- The frame `data` has type byte `ty` and passes the length checks of `ota_feed`:
three header bytes followed by at least `paylen` payload bytes. -/
def is_frame (ty : Nat) (data : List Byte) : Prop :=
  3 ≤ data.length ∧ (data.getD 0 0).val = ty ∧ 3 + frame_paylen data ≤ data.length

instance is_frame_decidable (ty : Nat) (data : List Byte) : Decidable (is_frame ty data) :=
  inferInstanceAs
    (Decidable (3 ≤ data.length ∧ (data.getD 0 0).val = ty ∧ 3 + frame_paylen data ≤ data.length))

/-- The `offset` field of a DATA frame: payload bytes 0..3, little-endian. -/
def data_offset (data : List Byte) : Nat :=
  le32 (data.getD 3 0) (data.getD 4 0) (data.getD 5 0) (data.getD 6 0)

/-- The chunk length of a DATA frame: `paylen - 8`. -/
def data_chunk_len (data : List Byte) : Nat := frame_paylen data - 8

/-- The chunk of a DATA frame: the payload bytes between the offset and the trailing CRC. -/
def data_chunk (data : List Byte) : List Byte := (data.drop 7).take (data_chunk_len data)

/-- The `chunk_crc32` field of a DATA frame: the last four payload bytes, little-endian. -/
def data_chunk_crc (data : List Byte) : Nat :=
  le32 (data.getD (3 + frame_paylen data - 4) 0) (data.getD (3 + frame_paylen data - 3) 0)
    (data.getD (3 + frame_paylen data - 2) 0) (data.getD (3 + frame_paylen data - 1) 0)

/-- The frame `[ty, len_lo, len_hi, payload...]`. -/
def mk_frame (ty : Nat) (payload : List Byte) : List Byte :=
  u8 ty :: u8 payload.length :: u8 (payload.length >>> 8) :: payload

/-- A START frame: slot(1) version(2) total_size(4) expected_crc32(4). -/
def start_frame (slot version total_size expected_crc32 : Nat) : List Byte :=
  mk_frame CMD_OTA_START
    ([u8 slot, u8 version, u8 (version >>> 8)] ++ bytes_of_u32 total_size ++
      bytes_of_u32 expected_crc32)

/-- A DATA frame with the given trailing CRC: offset(4) chunk(N) chunk_crc32(4). -/
def data_frame (offset : Nat) (chunk : List Byte) (chunk_crc : Nat) : List Byte :=
  mk_frame CMD_OTA_DATA (bytes_of_u32 offset ++ chunk ++ bytes_of_u32 chunk_crc)

/-- The CRC-32 as the host computes it (zero initial value, initialised table). -/
def crc32 (data : List Byte) : Nat := crc32_update (crc32_table true) 0 data

/-- A DATA frame whose trailing CRC is the CRC-32 of its chunk. -/
def good_data_frame (offset : Nat) (chunk : List Byte) : List Byte :=
  data_frame offset chunk (crc32 chunk)

/-- A FINISH frame (empty payload). -/
def finish_frame : List Byte := mk_frame CMD_OTA_FINISH []

/-- The frames handed to the send hook, oldest first. -/
def sent : List Effect → List (Nat × List Byte)
  | [] => []
  | Effect.send ty payload :: rest => (ty, payload) :: sent rest
  | _ :: rest => sent rest

/-- The actions `ota_feed` performs on the frame `data`: what it appends to the trace. -/
def feed_actions (hw : Hw) (s : Ota) (data : List Byte) : List Effect :=
  (ota_feed hw s data).trace.drop s.trace.length

/-- The staged image: the first `n` bytes of the staging slot. -/
def staged (s : Ota) (n : Nat) : List Byte := flash_read s.flash OTA_SLOT_B_ADDR n

/-- The statics at power-up (zero-initialised), over the flash content `fl`. -/
def power_up (fl : Nat → Byte) : Ota :=
  { crc32_table_init := false, ctx := ctx_zero, s_send := false, s_yield := false,
    s_state := .OTA_IDLE, s_erase_addr := 0, s_erase_total := 0, s_last_progress_ms := 0,
    s_erase_started := false, s_log_ring := List.replicate 256 0, s_log_head := 0,
    s_log_count := 0, flash := fl, trace := [] }

/-- Hardware answers with `flash.init()` succeeding and the clock at `t`. -/
def hw_ok (t : Nat) : Hw := { flash_init_ok := true, millis_start := t, millis_now := t }

/-- Hardware answers with `flash.init()` failing and the clock at `t`. -/
def hw_flash_fails (t : Nat) : Hw :=
  { flash_init_ok := false, millis_start := t, millis_now := t }

/-! ## Definitions used in the statements and proofs -/

/-- What holds of the session in every reachable state. -/
structure Inv (s : Ota) : Prop where
  tbl : s.crc32_table_init = true
  total_lt : s.ctx.total_size < 2 ^ 32
  exp_lt : s.ctx.expected_crc32 < 2 ^ 32
  acc_lt : s.ctx.crc32_accum < 2 ^ 32
  br_eq : s.ctx.bytes_received = s.ctx.next_expected_offset
  neo_le : s.ctx.next_expected_offset ≤ s.ctx.total_size
  size_ok : s.s_state ≠ .OTA_IDLE → 1 ≤ s.ctx.total_size ∧ s.ctx.total_size ≤ OTA_STAGING_SIZE
  fresh : (s.s_state = .OTA_IDLE ∨ s.s_state = .OTA_PREPARE_ERASE ∨
      s.s_state = .OTA_READY_FOR_DATA) →
    s.ctx.next_expected_offset = 0 ∧ s.ctx.crc32_accum = 0
  erase_le : s.s_erase_total ≤ OTA_STAGING_SIZE

/-- The fields of the context the invariant speaks about. -/
def ctx_core (c : ota_ctx_t) : Nat × Nat × Nat × Nat × Nat :=
  (c.total_size, c.expected_crc32, c.crc32_accum, c.bytes_received, c.next_expected_offset)

/-- The conditions under which the DATA handler reaches its accept path. -/
structure DataAccepted (s : Ota) (data : List Byte) : Prop where
  frame : is_frame CMD_OTA_DATA data
  paylen : 8 ≤ frame_paylen data
  state : s.s_state = .OTA_READY_FOR_DATA ∨ s.s_state = .OTA_RECEIVING
  in_order : data_offset data = s.ctx.next_expected_offset
  max : data_chunk_len data ≤ OTA_CHUNK_MAX
  fits : data_offset data + data_chunk_len data ≤ s.ctx.total_size
  crc : data_chunk_crc data = crc32_update (crc32_table s.crc32_table_init) 0 (data_chunk data)

/-- The checks of FINISH all pass: state, size, accumulated CRC, image magic. -/
def finish_checks (s : Ota) : Prop :=
  s.s_state = .OTA_RECEIVING ∧ s.ctx.bytes_received = s.ctx.total_size ∧
  s.ctx.crc32_accum = s.ctx.expected_crc32 ∧ flash_read32 s.flash OTA_SLOT_B_ADDR = OTA_MAGIC

instance finish_checks_decidable (s : Ota) : Decidable (finish_checks s) :=
  inferInstanceAs (Decidable (s.s_state = .OTA_RECEIVING ∧
    s.ctx.bytes_received = s.ctx.total_size ∧ s.ctx.crc32_accum = s.ctx.expected_crc32 ∧
    flash_read32 s.flash OTA_SLOT_B_ADDR = OTA_MAGIC))

/-- The record FINISH arms. -/
def armed_flag (s : Ota) : ota_flag :=
  { magic := OTA_FLAG_MAGIC, pending := 1, confirmed := 0, slot := 1, _res := 0,
    size := s.ctx.total_size, crc32 := s.ctx.expected_crc32 }

/-- A record whose fields fit their C types. -/
def flag_wf (f : ota_flag) : Prop :=
  f.magic < 2 ^ 32 ∧ f.pending < 256 ∧ f.confirmed < 256 ∧ f.slot < 256 ∧ f._res < 256 ∧
    f.size < 2 ^ 32 ∧ f.crc32 < 2 ^ 32

instance DataAccepted_decidable (s : Ota) (data : List Byte) : Decidable (DataAccepted s data) :=
  decidable_of_iff
    (is_frame CMD_OTA_DATA data ∧ 8 ≤ frame_paylen data ∧
      (s.s_state = .OTA_READY_FOR_DATA ∨ s.s_state = .OTA_RECEIVING) ∧
      data_offset data = s.ctx.next_expected_offset ∧ data_chunk_len data ≤ OTA_CHUNK_MAX ∧
      data_offset data + data_chunk_len data ≤ s.ctx.total_size ∧
      data_chunk_crc data = crc32_update (crc32_table s.crc32_table_init) 0 (data_chunk data))
    ⟨fun ⟨a, b, c, d, e, f, g⟩ => ⟨a, b, c, d, e, f, g⟩,
     fun ⟨a, b, c, d, e, f, g⟩ => ⟨a, b, c, d, e, f, g⟩⟩

/-- The chunks accepted so far in the current session, oldest first, after the call `c`
made in state `s`: an accepted DATA frame appends its chunk; a START with a full payload,
an ABORT and `ota_reset` start over; every other call leaves the list as it is. -/
def session_log (log : List (List Byte)) (s : Ota) : Call → List (List Byte)
  | .feed data =>
    if DataAccepted s data then log ++ [data_chunk data]
    else if (is_frame CMD_OTA_START data ∧ 11 ≤ frame_paylen data) ∨
        is_frame CMD_OTA_ABORT data then []
    else log
  | .reset => []
  | _ => log

/-- The chunks accepted in the current session after the calls `calls` from state `s`,
where `log` lists those accepted before. -/
def run_log (log : List (List Byte)) (s : Ota) : List (Hw × Call) → List (List Byte)
  | [] => log
  | x :: rest => run_log (session_log log s x.2) (ota_call x.1 s x.2) rest

/-- The call starts the session over: `ota_reset`, or `ota_feed` on a START frame with a
full payload or on an ABORT frame. -/
def restarts_session : Call → Bool
  | .feed data =>
    decide ((is_frame CMD_OTA_START data ∧ 11 ≤ frame_paylen data) ∨ is_frame CMD_OTA_ABORT data)
  | .reset => true
  | _ => false

/-- The staged bytes and the accumulated CRC agree with the chunks accepted in the session. -/
def SessionInv (s : Ota) (log : List (List Byte)) : Prop :=
  staged s s.ctx.bytes_received = log.flatten ∧ s.ctx.crc32_accum = crc32 log.flatten

/-- An 8-byte image: the magic `SBOT` (little-endian `OTA_MAGIC`) and four more bytes. -/
def example_image : List Byte := [0x54, 0x4F, 0x42, 0x53, 1, 2, 3, 4]

/-- A session for `example_image` that has reached `OTA_READY_FOR_DATA`: init with a send
hook on erased flash, START, and two polls (one sector to erase). -/
def session_ready : Ota :=
  run (ota_init (power_up (fun _ => 0xFF)) true)
    [(hw_ok 0, Call.feed (start_frame 1 1 8 (crc32 example_image))),
     (hw_ok 0, Call.poll), (hw_ok 0, Call.poll)]

/-- The session after the first four bytes of `example_image` were accepted. -/
def session_half : Ota :=
  run session_ready [(hw_ok 0, Call.feed (good_data_frame 0 (example_image.take 4)))]

/-- The session after all eight bytes of `example_image` were accepted. -/
def session_full : Ota :=
  run session_half [(hw_ok 0, Call.feed (good_data_frame 4 (example_image.drop 4)))]

/-- The call is `ota_poll`, or `ota_feed` on a frame whose type byte is neither START nor
ABORT. -/
def no_start_abort : Call → Bool
  | .feed data =>
    decide ((data.getD 0 0).val ≠ CMD_OTA_START ∧ (data.getD 0 0).val ≠ CMD_OTA_ABORT)
  | .poll => true
  | _ => false

/-- A chunk of 480 zero bytes. -/
def chunk_480 : List Byte := List.replicate 480 0

/-- A session for a 960-byte image that has reached READY_FOR_DATA. -/
def session_960_ready : Ota :=
  run (ota_init (power_up (fun _ => 0xFF)) true)
    [(hw_ok 0, Call.feed (start_frame 1 1 960 0)), (hw_ok 0, Call.poll), (hw_ok 0, Call.poll)]

/-- The session after its first 480-byte chunk was acknowledged. -/
def session_960_after_first_chunk : Ota :=
  ota_feed (hw_ok 0) session_960_ready (good_data_frame 0 chunk_480)

/-- The three parts of a 1 KiB image that starts with `OTA_MAGIC`: 480, 480 and 64 bytes. -/
def image_part0 : List Byte := [0x54, 0x4F, 0x42, 0x53] ++ List.replicate 476 0

/-- The second part of the 1 KiB image. -/
def image_part1 : List Byte := List.replicate 480 1

/-- The third part of the 1 KiB image. -/
def image_part2 : List Byte := List.replicate 64 2

/-- A session for the 1 KiB image, started with its CRC-32, that has reached
READY_FOR_DATA. -/
def session_1k_image : Ota :=
  run (ota_feed (hw_ok 0) (ota_init (power_up (fun _ => 0xFF)) true)
      (start_frame 1 1 1024 (crc32 (image_part0 ++ image_part1 ++ image_part2))))
    [(hw_ok 0, Call.poll), (hw_ok 0, Call.poll)]

/-- FINISH succeeds: the one reply is RSP_OTA `[0x01]` (OK_FINISH) and the flag record read
back is the armed record of the session. -/
def finish_succeeds (hw : Hw) (s : Ota) : Prop :=
  sent (feed_actions hw s finish_frame) = [(RSP_OTA, [0x01])] ∧
  ota_read_flag (ota_feed hw s finish_frame).flash = armed_flag s

instance finish_succeeds_decidable (hw : Hw) (s : Ota) : Decidable (finish_succeeds hw s) :=
  inferInstanceAs (Decidable (sent (feed_actions hw s finish_frame) = [(RSP_OTA, [0x01])] ∧
    ota_read_flag (ota_feed hw s finish_frame).flash = armed_flag s))

/-- A session whose 4-byte image `01 02 03 04` is fully staged with the CRC announced by
START, but does not begin with `OTA_MAGIC`. -/
def session_bad_magic : Ota :=
  run (ota_init (power_up (fun _ => 0xFF)) true)
    [(hw_ok 0, Call.feed (start_frame 1 1 4 (crc32 [1, 2, 3, 4]))),
     (hw_ok 0, Call.poll), (hw_ok 0, Call.poll),
     (hw_ok 0, Call.feed (good_data_frame 0 [1, 2, 3, 4]))]

/-- A session for the 5-byte image `54 4F 42 53 FF` after only its first four bytes were
sent: the fifth staged byte is the erased 0xFF, so the staged bytes already have the
announced CRC. -/
def session_short : Ota :=
  run (ota_init (power_up (fun _ => 0)) true)
    [(hw_ok 0, Call.feed (start_frame 1 1 5 (crc32 [0x54, 0x4F, 0x42, 0x53, 0xFF]))),
     (hw_ok 0, Call.poll), (hw_ok 0, Call.poll),
     (hw_ok 0, Call.feed (good_data_frame 0 [0x54, 0x4F, 0x42, 0x53]))]

/-- The 4096 bytes of the persistent flag sector. -/
def flag_sector (s : Ota) : List Byte := flash_read s.flash OTA_FLAG_ADDR 4096

/-- A session started with `total_size = 1024` that has reached READY_FOR_DATA. -/
def session_1k_ready : Ota :=
  run (ota_init (power_up (fun _ => 0xFF)) true)
    [(hw_ok 0, Call.feed (start_frame 1 1 1024 0)), (hw_ok 0, Call.poll), (hw_ok 0, Call.poll)]

/-- An ABORT frame (empty payload). -/
def abort_frame : List Byte := mk_frame CMD_OTA_ABORT []

/-- A DATA frame at offset 0 with a 9-byte chunk: one byte more than the 8-byte
`example_image` holds. -/
def overrun_frame : List Byte := data_frame 0 (List.replicate 9 0) 0

/-- The session for `example_image` after `overrun_frame` was fed in READY_FOR_DATA. -/
def session_error : Ota := ota_feed (hw_ok 0) session_ready overrun_frame

/-- A DATA frame at offset 4 with a 4-byte chunk. -/
def ahead_frame : List Byte := data_frame 4 [5, 6, 7, 8] 0

/-- A DATA frame with the one-byte chunk `00` at offset `0xFFFFFFFF`, the largest 32-bit
offset, and the right chunk CRC. -/
def wrap_frame : List Byte := good_data_frame 0xFFFFFFFF [0]

/-- A DATA frame at offset 0 with the first four bytes of `example_image` and a trailing
CRC of zero, which is not the CRC-32 of the chunk. -/
def bad_crc_frame : List Byte := data_frame 0 (example_image.take 4) 0

/-! ## The fields of a START frame -/

/-- The `slot` field of a START frame: payload byte 0. -/
def start_slot (data : List Byte) : Nat := (data.getD 3 0).val

/-- The `version` field of a START frame: payload bytes 1..2, little-endian. -/
def start_version (data : List Byte) : Nat :=
  (data.getD 4 0).val + (data.getD 5 0).val * 256

/-- The `total_size` field of a START frame: payload bytes 3..6, little-endian. -/
def start_total_size (data : List Byte) : Nat :=
  (data.getD 6 0).val + (data.getD 7 0).val * 256 + (data.getD 8 0).val * 65536 +
    (data.getD 9 0).val * 16777216

/-- The `expected_crc32` field of a START frame: payload bytes 7..10, little-endian. -/
def start_expected_crc32 (data : List Byte) : Nat :=
  (data.getD 10 0).val + (data.getD 11 0).val * 256 + (data.getD 12 0).val * 65536 +
    (data.getD 13 0).val * 16777216

/-! ## The framer (ble_parser.cpp) -/

@[reducible] def FRAME_HEADER_SIZE : Nat := 3

@[reducible] def MAX_PAYLOAD_SIZE : Nat := 512

@[reducible] def MAX_FRAME_SIZE : Nat := FRAME_HEADER_SIZE + MAX_PAYLOAD_SIZE

/-- The statics of `ble_parser.cpp` that the receive path uses, and the calls of the frame
handler: `s_handler` tells whether the handler is non-null, `s_rx_buf` is the accumulation
buffer (index to byte), `s_rx_len` its fill count; `handled` lists the calls
`s_handler(type, payload, len)` made so far, oldest first, with the `len` payload bytes the
pointer `payload` refers to. -/
structure BleParser where
  s_handler : Bool
  s_rx_buf : Nat → Byte
  s_rx_len : Nat
  handled : List (Byte × List Byte × Nat)

/-- The array store `buf[i] = b`. -/
def buf_store (buf : Nat → Byte) (i : Nat) (b : Byte) : Nat → Byte :=
  fun j => if j = i then b else buf j

/-- The function `ble_parser_init(handler)`; `handler` tells whether the pointer is non-null. -/
def ble_parser_init (p : BleParser) (handler : Bool) : BleParser :=
  { p with s_handler := handler, s_rx_len := 0 }

/-- The body of the loop of `ble_parser_feed` for the input byte `b`: store it, and once the
header is in, deliver the frame if the buffer holds `FRAME_HEADER_SIZE + paylen` bytes. -/
def ble_parser_feed_byte (p : BleParser) (b : Byte) : BleParser :=
  let p := { p with
    s_rx_buf := buf_store p.s_rx_buf p.s_rx_len b
    s_rx_len := u16 (p.s_rx_len + 1) }
  if p.s_rx_len ≥ FRAME_HEADER_SIZE then
    let paylen := le16 (p.s_rx_buf 1) (p.s_rx_buf 2)
    if p.s_rx_len ≥ FRAME_HEADER_SIZE + paylen then
      let p :=
        if p.s_handler then
          { p with handled := p.handled ++
              [(p.s_rx_buf 0, (List.range paylen).map (fun i => p.s_rx_buf (FRAME_HEADER_SIZE + i)),
                paylen)] }
        else p
      { p with s_rx_len := 0 }
    else p
  else p

/-- The loop `for (i = 0; i < len && s_rx_len < MAX_FRAME_SIZE; i++)` of `ble_parser_feed`
over the input bytes `data`. -/
def ble_parser_feed_loop : BleParser → List Byte → BleParser
  | p, [] => p
  | p, b :: rest =>
    if p.s_rx_len < MAX_FRAME_SIZE then ble_parser_feed_loop (ble_parser_feed_byte p b) rest
    else p

/-- The function `ble_parser_feed(data, len)`, with `len = data.length`. -/
def ble_parser_feed (p : BleParser) (data : List Byte) : BleParser :=
  let p := ble_parser_feed_loop p data
  if p.s_rx_len ≥ MAX_FRAME_SIZE then { p with s_rx_len := 0 } else p

/-- The function `ble_send_frame(type, payload, len)`: the buffers handed to
`writeValue`, none when `tx_ready` is false (no TX characteristic, or the peer is not
subscribed). `payload` holds the `len` bytes behind the (non-null) pointer; `stack` is what
the local buffer holds where the function does not write it. -/
def ble_send_frame (tx_ready : Bool) (stack : Nat → Byte) (type : Byte) (payload : List Byte)
    (len : Nat) : List (List Byte) :=
  if tx_ready = false then []
  else
    let buf : Nat → Byte := fun i =>
      if i = 0 then type
      else if i = 1 then u8 (len &&& 0xFF)
      else if i = 2 then u8 (len >>> 8)
      else if 0 < len ∧ len ≤ MAX_PAYLOAD_SIZE then payload.getD (i - FRAME_HEADER_SIZE) 0
      else stack i
    [(List.range (FRAME_HEADER_SIZE + len)).map buf]

/-- The framer statics at power-up (zero-initialised). -/
def parser_power_up : BleParser :=
  { s_handler := false, s_rx_buf := fun _ => 0, s_rx_len := 0, handled := [] }

/-- The byte stream a peer receives when the frames `(type, payload)` are sent one after the
other with `ble_send_frame`. -/
def frames_stream (stack : Nat → Byte) (frames : List (Byte × List Byte)) : List Byte :=
  (frames.flatMap (fun f => ble_send_frame true stack f.1 f.2 f.2.length)).flatten

/-- The framer after the consecutive calls `ble_parser_feed(part)` for the parts of a
stream. -/
def feed_parts (p : BleParser) (parts : List (List Byte)) : BleParser :=
  parts.foldl ble_parser_feed p

/-- The 515 bytes `00 FF FF 00 ... 00`: a header that announces a payload of 65535 bytes,
and 512 more bytes. -/
def oversize_junk : List Byte := 0 :: 0xFF :: 0xFF :: List.replicate 512 0

/-- The buffer after the bytes `q` were stored from index 0 on. -/
def rx_filled (q : List Byte) (old : Nat → Byte) : Nat → Byte :=
  fun i => if i < q.length then q.getD i 0 else old i

/-! ## The standard CRC-32, bit by bit -/

/-- One step of the reflected CRC-32 shift register for one input bit already folded into
the register: shift right by one, and subtract (XOR) the polynomial 0xEDB88320 when the bit
shifted out is 1. -/
def crc32_shift (reg : Nat) : Nat :=
  if reg % 2 = 1 then (reg / 2) ^^^ 0xEDB88320 else reg / 2

/-- The standard CRC-32 of zlib and Ethernet, defined bit by bit as the spec words it:
reflected polynomial 0xEDB88320, initial register 0xFFFFFFFF, each byte XORed into the low
end of the register and followed by eight bit steps, final XOR 0xFFFFFFFF. -/
def crc32_bitwise (d : List Byte) : Nat :=
  (d.foldl (fun reg b => Nat.iterate crc32_shift 8 (reg ^^^ b.val)) 0xFFFFFFFF) ^^^ 0xFFFFFFFF

/-- The nine ASCII bytes of the check string `123456789`. -/
def check_string : List Byte := [0x31, 0x32, 0x33, 0x34, 0x35, 0x36, 0x37, 0x38, 0x39]

/-! ## Frames and flash contents for the flag and STATUS statements -/

/-- A STATUS frame (empty payload). -/
def status_frame : List Byte := mk_frame CMD_OTA_STATUS []

/-- A CONFIRM frame (empty payload). -/
def confirm_frame : List Byte := mk_frame CMD_OTA_CONFIRM []

/-- A flag record with pending set, for the read-back example. -/
def example_flag : ota_flag :=
  { magic := OTA_FLAG_MAGIC, pending := 1, confirmed := 0, slot := 1, _res := 0,
    size := 1024, crc32 := 0xCBF43926 }

/-- A flash whose flag sector holds the valid record `example_flag`, erased elsewhere. -/
def flash_with_flag : Nat → Byte := flash_program (fun _ => 0xFF) OTA_FLAG_ADDR (flag_bytes example_flag)

/-- A flash that is zero everywhere except for the `pending` byte of the flag record, which
is 1: the flag sector holds no valid record (its magic is 0). -/
def flash_stale_pending : Nat → Byte := fun a => if a = OTA_FLAG_ADDR + 4 then 1 else 0

/-! ## Logged events -/

/-- The four bytes of the log record of an event `e` with parameter `p`: the event code and
the low three bytes of the parameter, least significant first. -/
def log_record (e p : Nat) : List Byte :=
  [u8 e, u8 (p % 256), u8 (p / 256 % 256), u8 (p / 65536 % 256)]

/-- The state after the calls `ota_log_event(e, p)` for the pairs `(e, p)` of `evs`, in
order. -/
def log_events (s : Ota) (evs : List (Nat × Nat)) : Ota :=
  evs.foldl (fun s ev => ota_log_event s ev.1 ev.2) s

/-- What holds of the log ring after the events `evs` were logged into an empty log: the
head and count, and every record still retained sits in the slot of its index modulo 64. -/
structure LogInv (s : Ota) (evs : List (Nat × Nat)) : Prop where
  ring : s.s_log_ring.length = 256
  head : s.s_log_head = evs.length % 64
  count : s.s_log_count = min evs.length 64
  slot : ∀ j, j < evs.length → evs.length ≤ j + 64 → ∀ t, t < 4 →
    s.s_log_ring.getD ((j % 64) * 4 + t) 0
      = (log_record (evs.getD j (0, 0)).1 (evs.getD j (0, 0)).2).getD t 0

/-! ## Device identity (device_id.cpp) and the GET_ID handler (ble_parser.cpp) -/

@[reducible] def UID_SIZE : Nat := 8

@[reducible] def CMD_GET_ID : Nat := 0x80

@[reducible] def RSP_ID : Nat := 0x81

/-- The reply record of GET_ID (`rsp_id_t`). -/
structure rsp_id_t where
  fw_version : Nat
  protocol_version : Nat
  hw_revision : Nat
  uid_len : Nat
  uid : List Byte
  deriving DecidableEq, Repr

/-- The function `device_id_read_ficr(uid_out, uid_len)`: the eight bytes written to
`uid_out` and the value written to `*uid_len`; `id0` and `id1` are the words
`FICR_DEVICEID[0]` and `FICR_DEVICEID[1]`. -/
def device_id_read_ficr (id0 id1 : Nat) : List Byte × Nat :=
  ([u8 (id0 >>> 0), u8 (id0 >>> 8), u8 (id0 >>> 16), u8 (id0 >>> 24),
    u8 (id1 >>> 0), u8 (id1 >>> 8), u8 (id1 >>> 16), u8 (id1 >>> 24)], UID_SIZE)

/-- The function `device_id_fill_rsp(rsp)`; the build constants `SMARTBALL_FW_VERSION`,
`SMARTBALL_PROTOCOL_VERSION` and `SMARTBALL_HW_REVISION`, which the sources do not define,
are the parameters `fw`, `proto` and `hw`. -/
def device_id_fill_rsp (fw proto hw id0 id1 : Nat) : rsp_id_t :=
  let r := device_id_read_ficr id0 id1
  { fw_version := u16 fw, protocol_version := (u8 proto).val, hw_revision := (u8 hw).val,
    uid := r.1, uid_len := (u8 r.2).val }

/-- The bytes of an `rsp_id_t` in memory (little-endian target): `fw_version` at offset 0,
`protocol_version` at 2, `hw_revision` at 3, `uid_len` at 4, `uid` at 5..12, and one byte of
tail padding, which nothing writes. -/
def rsp_id_bytes (r : rsp_id_t) (pad : Byte) : List Byte :=
  [u8 r.fw_version, u8 (r.fw_version >>> 8), u8 r.protocol_version, u8 r.hw_revision,
    u8 r.uid_len] ++ r.uid ++ [pad]

/-- The function `handle_get_id()`, which `frame_handler` calls on a `CMD_GET_ID` frame: the
buffers handed to `writeValue`. -/
def handle_get_id (tx_ready : Bool) (stack : Nat → Byte) (fw proto hw id0 id1 : Nat)
    (pad : Byte) : List (List Byte) :=
  let rsp := device_id_fill_rsp fw proto hw id0 id1
  ble_send_frame tx_ready stack (u8 RSP_ID) (rsp_id_bytes rsp pad) (u16 (4 + rsp.uid_len))

/-! ## Boot gate (smartball_app/src/main.c) -/

@[reducible] def N_FAIL_MAX : Nat := 3

@[reducible] def T_CONFIRM_WINDOW_SEC : Nat := 30

/-- The statics and locals of `main` in `smartball_app/src/main.c`, and how many times
`boot_write_img_confirmed()` has been called (`confirm_calls`). -/
structure BootGate where
  boot_count : Nat
  dfu_safe_mode : Bool
  health_ok : Bool
  pending_confirm : Bool
  confirm_deadline : Nat
  confirm_calls : Nat
  deriving DecidableEq, Repr

/-- What the environment answers in `main` before the loop: the boot count after the load
from settings, the result of `bt_enable`, of `boot_is_img_confirmed()`, the value of
`k_uptime_get_32()` when the deadline is computed, and what the local `confirm_deadline`
holds while it is not assigned. -/
structure BootEnv where
  loaded_count : Nat
  bt_enable_err : Int
  img_confirmed : Bool
  uptime : Nat
  unassigned_deadline : Nat

/-- What the environment answers during one iteration of the main loop: `k_uptime_get_32()`
in the confirm test, `run_health_checks()`, `boot_write_img_confirmed()`, and
`k_uptime_get_32()` in the expiry test. -/
structure LoopEnv where
  uptime_check : Nat
  health : Bool
  confirm_err : Int
  uptime_expiry : Nat

/-- The function `run_health_checks()` of the sources: a stub that reports success. The
loop below takes the result as an input (`LoopEnv.health`), of which this is one value. -/
def run_health_checks : Bool := true

/-- The function `main` up to the loop: none when `bt_enable` fails and `main` returns. -/
def main_start (e : BootEnv) : Option BootGate :=
  let boot_count := u32 (e.loaded_count + 1)
  let dfu_safe_mode := decide (boot_count ≥ N_FAIL_MAX)
  if e.bt_enable_err ≠ 0 then none
  else if e.img_confirmed then
    some { boot_count := 0, dfu_safe_mode := dfu_safe_mode, health_ok := false,
           pending_confirm := false, confirm_deadline := e.unassigned_deadline,
           confirm_calls := 0 }
  else
    some { boot_count := boot_count, dfu_safe_mode := dfu_safe_mode, health_ok := false,
           pending_confirm := true,
           confirm_deadline := u32 (u32 e.uptime + T_CONFIRM_WINDOW_SEC * 1000),
           confirm_calls := 0 }

/-- The first statement of the loop body after the sleep: the health-gated confirm. -/
def main_loop_confirm (g : BootGate) (e : LoopEnv) : BootGate :=
  if g.pending_confirm = true ∧ u32 e.uptime_check < g.confirm_deadline then
    let g := { g with health_ok := e.health }
    if g.health_ok = true then
      let g := { g with confirm_calls := g.confirm_calls + 1 }
      if e.confirm_err = 0 then { g with pending_confirm := false, boot_count := 0 }
      else g
    else g
  else g

/-- The second statement of the loop body: the expiry of the confirm window. -/
def main_loop_expire (g : BootGate) (e : LoopEnv) : BootGate :=
  if g.pending_confirm = true ∧ u32 e.uptime_expiry ≥ g.confirm_deadline then
    { g with pending_confirm := false }
  else g

/-- One iteration of the main loop. -/
def main_loop_iter (g : BootGate) (e : LoopEnv) : BootGate :=
  main_loop_expire (main_loop_confirm g e) e

/-- The state after the iterations whose answers are `envs`. -/
def main_loop (g : BootGate) (envs : List LoopEnv) : BootGate :=
  envs.foldl main_loop_iter g

/-- Boot answers of an unconfirmed image at uptime 100 ms. -/
def boot_test_image : BootEnv :=
  { loaded_count := 0, bt_enable_err := 0, img_confirmed := false, uptime := 100,
    unassigned_deadline := 0 }

/-- Loop answers at uptime `t` with the health check failing. -/
def loop_unhealthy (t : Nat) : LoopEnv :=
  { uptime_check := t, health := false, confirm_err := 0, uptime_expiry := t }

/-- Loop answers at uptime `t` with the health check passing and the confirm succeeding. -/
def loop_healthy (t : Nat) : LoopEnv :=
  { uptime_check := t, health := true, confirm_err := 0, uptime_expiry := t }

/-! ## Polls and the erases among their actions -/

/-- The flash erases among the actions, oldest first: address and size. -/
def erases : List Effect → List (Nat × Nat)
  | [] => []
  | Effect.flash_erase addr size :: rest => (addr, size) :: erases rest
  | _ :: rest => erases rest

/-- The actions `ota_poll` performs: what it appends to the trace. -/
def poll_actions (hw : Hw) (s : Ota) : List Effect :=
  (ota_poll hw s).trace.drop s.trace.length

/-- The state after consecutive `ota_poll` calls, one for each hardware answer. -/
def poll_all (s : Ota) (hws : List Hw) : Ota :=
  hws.foldl (fun s hw => ota_poll hw s) s

/-- The address at which `ota_poll` erases next: the staging base before the first erase
of a session, `s_erase_addr` afterwards. -/
def erase_start_addr (s : Ota) : Nat :=
  if s.s_erase_started = false then OTA_SLOT_B_ADDR else s.s_erase_addr

/-- The session for `example_image` right after its START frame: one sector to erase. -/
def session_started : Ota :=
  ota_feed (hw_ok 0) (ota_init (power_up (fun _ => 0xFF)) true)
    (start_frame 1 1 8 (crc32 example_image))

/-! ## Definitions for the erase range, the staging slot and the error numbering -/

/-- The value START assigns to `s_erase_total` before the 4 KiB minimum is applied:
`(total_size + (OTA_ERASE_SECTOR - 1)) & ~(OTA_ERASE_SECTOR - 1)` in 32-bit arithmetic. -/
def erase_total_rounded (total_size : Nat) : Nat :=
  u32 (total_size + (OTA_ERASE_SECTOR - 1)) &&& 0xFFFFF000

/-- A DATA frame at offset 0 with a 4-byte chunk and a wrong trailing CRC. -/
def early_data_frame : List Byte := data_frame 0 [1, 2, 3, 4] 0

/-- The address `a` is erased or programmed by the action `e`. -/
def touches : Effect → Nat → Prop
  | Effect.flash_erase addr size, a => addr ≤ a ∧ a < addr + size
  | Effect.flash_program addr bytes, a => addr ≤ a ∧ a < addr + bytes.length
  | _, _ => False

/-- The address `a` lies in the staging slot,
`[OTA_SLOT_B_ADDR, OTA_SLOT_B_ADDR + OTA_STAGING_SIZE)`. -/
def in_staging (a : Nat) : Prop :=
  OTA_SLOT_B_ADDR ≤ a ∧ a < OTA_SLOT_B_ADDR + OTA_STAGING_SIZE

/-- While the background erase is under way, `s_erase_addr` is not below the staging base. -/
def EraseInv (s : Ota) : Prop :=
  s.s_state = .OTA_PREPARE_ERASE → s.s_erase_started = true → OTA_SLOT_B_ADDR ≤ s.s_erase_addr

/-- Of the call that led from `s` to `r`: whenever it sent an RSP_OTA reply whose first byte
is a subcode `c` between 2 and 8, the error recorded in `r` has the number `c - 1`. -/
def error_recorded (s r : Ota) : Prop :=
  ∀ (p : List Byte) (c : Nat), (RSP_OTA, p) ∈ sent (r.trace.drop s.trace.length) →
    2 ≤ c → c ≤ 8 → p.head? = some (u8 c) → r.ctx.last_ota_error.toNat = c - 1

/-! ## Integer lemmas -/

theorem u8_val (x : Nat) : (u8 x).val = x % 256 := rfl

theorem u32_lt (x : Nat) : u32 x < 2 ^ 32 := Nat.mod_lt x (by decide)

theorem u16_lt (x : Nat) : u16 x < 2 ^ 16 := Nat.mod_lt x (by decide)

theorem u32_of_lt {x : Nat} (h : x < 2 ^ 32) : u32 x = x := Nat.mod_eq_of_lt h

theorem u16_of_lt {x : Nat} (h : x < 2 ^ 16) : u16 x = x := Nat.mod_eq_of_lt h

theorem le16_eq (b0 b1 : Byte) : le16 b0 b1 = b0.val + b1.val * 256 := by
  have h0 := b0.isLt
  have h1 := b1.isLt
  have e : b0.val ||| (b1.val <<< 8) = 2 ^ 8 * b1.val + b0.val := by
    rw [Nat.shiftLeft_eq, Nat.mul_add_lt_is_or (by omega) b1.val, Nat.lor_comm, Nat.mul_comm]
  unfold le16
  rw [e, u16_of_lt (by omega)]
  omega

theorem le32_eq (b0 b1 b2 b3 : Byte) :
    le32 b0 b1 b2 b3 = b0.val + b1.val * 256 + b2.val * 65536 + b3.val * 16777216 := by
  have h0 := b0.isLt
  have h1 := b1.isLt
  have h2 := b2.isLt
  have h3 := b3.isLt
  have e1 : b0.val ||| (b1.val <<< 8) = 2 ^ 8 * b1.val + b0.val := by
    rw [Nat.shiftLeft_eq, Nat.mul_add_lt_is_or (by omega) b1.val, Nat.lor_comm, Nat.mul_comm]
  have e2 : (2 ^ 8 * b1.val + b0.val) ||| (b2.val <<< 16)
      = 2 ^ 16 * b2.val + (2 ^ 8 * b1.val + b0.val) := by
    rw [Nat.shiftLeft_eq, Nat.mul_add_lt_is_or (by omega) b2.val, Nat.lor_comm, Nat.mul_comm]
  have e3 : (2 ^ 16 * b2.val + (2 ^ 8 * b1.val + b0.val)) ||| (b3.val <<< 24)
      = 2 ^ 24 * b3.val + (2 ^ 16 * b2.val + (2 ^ 8 * b1.val + b0.val)) := by
    rw [Nat.shiftLeft_eq, Nat.mul_add_lt_is_or (by omega) b3.val, Nat.lor_comm, Nat.mul_comm]
  unfold le32
  rw [e1, e2, e3, u32_of_lt (by omega)]
  omega

theorem le32_lt (b0 b1 b2 b3 : Byte) : le32 b0 b1 b2 b3 < 2 ^ 32 := u32_lt _

theorem le16_lt (b0 b1 : Byte) : le16 b0 b1 < 2 ^ 16 := u16_lt _

theorem le32_bytes_of_u32 {x : Nat} (h : x < 2 ^ 32) :
    le32 (u8 x) (u8 (x >>> 8)) (u8 (x >>> 16)) (u8 (x >>> 24)) = x := by
  rw [le32_eq]
  simp only [u8_val, Nat.shiftRight_eq_div_pow]
  omega

theorem le16_bytes_of_u16 {x : Nat} (h : x < 2 ^ 16) : le16 (u8 x) (u8 (x >>> 8)) = x := by
  rw [le16_eq]
  simp only [u8_val, Nat.shiftRight_eq_div_pow]
  omega

theorem bytes_of_u32_length (x : Nat) : (bytes_of_u32 x).length = 4 := rfl

/-! ## CRC-32 lemmas -/

theorem xor_mask_cancel (x m : Nat) : (x ^^^ m) ^^^ m = x := by
  rw [Nat.xor_assoc, Nat.xor_self, Nat.xor_zero]

theorem crc32_table_entry_lt {i : Nat} (h : i < 2 ^ 32) : crc32_table_entry i < 2 ^ 32 := by
  unfold crc32_table_entry
  generalize List.range 8 = l
  induction l generalizing i with
  | nil => simpa using h
  | cons _ l ih =>
    rw [List.foldl_cons]
    apply ih
    have hs : i >>> 1 < 2 ^ 32 := by
      rw [Nat.shiftRight_eq_div_pow]
      exact lt_of_le_of_lt (Nat.div_le_self _ _) h
    split
    · exact Nat.xor_lt_two_pow (by decide) hs
    · exact hs

theorem crc32_table_lt (init : Bool) (i : Nat) : crc32_table init (i &&& 0xFF) < 2 ^ 32 := by
  unfold crc32_table
  split
  · apply crc32_table_entry_lt
    exact lt_of_lt_of_le (Nat.and_lt_two_pow i (show 0xFF < 2 ^ 8 by decide)) (by decide)
  · decide

theorem crc32_fold_lt (init : Bool) (data : List Byte) {c : Nat} (h : c < 2 ^ 32) :
    data.foldl (fun crc b => crc32_table init ((crc ^^^ b.val) &&& 0xFF) ^^^ (crc >>> 8)) c
      < 2 ^ 32 := by
  induction data generalizing c with
  | nil => simpa using h
  | cons b l ih =>
    rw [List.foldl_cons]
    apply ih
    apply Nat.xor_lt_two_pow (crc32_table_lt init _)
    rw [Nat.shiftRight_eq_div_pow]
    exact lt_of_le_of_lt (Nat.div_le_self _ _) h

theorem crc32_update_lt (init : Bool) (data : List Byte) {c : Nat} (h : c < 2 ^ 32) :
    crc32_update (crc32_table init) c data < 2 ^ 32 := by
  unfold crc32_update
  exact Nat.xor_lt_two_pow (crc32_fold_lt init data (Nat.xor_lt_two_pow h (by decide)))
    (by decide)

theorem crc32_update_nil (tbl : Nat → Nat) (c : Nat) : crc32_update tbl c [] = c := by
  unfold crc32_update
  simp only [List.foldl_nil]
  exact xor_mask_cancel c _

theorem crc32_update_append (tbl : Nat → Nat) (c : Nat) (a b : List Byte) :
    crc32_update tbl (crc32_update tbl c a) b = crc32_update tbl c (a ++ b) := by
  unfold crc32_update
  simp only [List.foldl_append, xor_mask_cancel]

theorem crc32_lt (data : List Byte) : crc32 data < 2 ^ 32 :=
  crc32_update_lt true data (by decide)

/-! ## Flash lemmas -/

theorem flash_read_length (fl : Nat → Byte) (addr n : Nat) : (flash_read fl addr n).length = n := by
  simp [flash_read]

theorem flash_read_congr {fl fl2 : Nat → Byte} {addr n : Nat}
    (h : ∀ a, addr ≤ a → a < addr + n → fl2 a = fl a) :
    flash_read fl2 addr n = flash_read fl addr n := by
  unfold flash_read
  apply List.map_congr_left
  intro i hi
  rw [List.mem_range] at hi
  exact h (addr + i) (by omega) (by omega)

theorem flash_read_add (fl : Nat → Byte) (addr n m : Nat) :
    flash_read fl addr (n + m) = flash_read fl addr n ++ flash_read fl (addr + n) m := by
  unfold flash_read
  rw [List.range_add, List.map_append, List.map_map]
  congr 1
  apply List.map_congr_left
  intro i _
  simp [Nat.add_assoc]

theorem flash_read_program (fl : Nat → Byte) (addr : Nat) (bytes : List Byte) :
    flash_read (flash_program fl addr bytes) addr bytes.length = bytes := by
  apply List.ext_getElem
  · simp [flash_read]
  · intro i h1 h2
    simp only [flash_read, List.getElem_map, List.getElem_range, flash_program]
    have hi : i < bytes.length := h2
    rw [if_pos ⟨by omega, by omega⟩, Nat.add_sub_cancel_left, List.getD_eq_getElem _ _ hi]

theorem flash_program_outside (fl : Nat → Byte) (addr : Nat) (bytes : List Byte) (a : Nat)
    (h : a < addr ∨ addr + bytes.length ≤ a) : flash_program fl addr bytes a = fl a := by
  unfold flash_program
  rw [if_neg]
  omega

theorem flash_erase_outside (fl : Nat → Byte) (addr size a : Nat)
    (h : a < addr ∨ addr + size ≤ a) : flash_erase fl addr size a = fl a := by
  unfold flash_erase
  rw [if_neg]
  omega

theorem flash_program_split (fl : Nat → Byte) (addr n : Nat) (p : List Byte) (h : n ≤ p.length) :
    flash_program (flash_program fl addr (p.take n)) (addr + n) (p.drop n)
      = flash_program fl addr p := by
  funext a
  unfold flash_program
  simp only [List.length_take, List.length_drop, Nat.min_eq_left h]
  by_cases h1 : addr + n ≤ a ∧ a < addr + n + (p.length - n)
  · rw [if_pos h1, if_pos ⟨by omega, by omega⟩]
    simp only [List.getD_eq_getElem?_getD, List.getElem?_drop]
    congr 2
    omega
  · rw [if_neg h1]
    by_cases h2 : addr ≤ a ∧ a < addr + n
    · rw [if_pos h2, if_pos ⟨by omega, by omega⟩]
      simp only [List.getD_eq_getElem?_getD]
      rw [List.getElem?_take_of_lt (by omega)]
    · rw [if_neg h2, if_neg (by omega)]

theorem sent_append (a b : List Effect) : sent (a ++ b) = sent a ++ sent b := by
  induction a with
  | nil => rfl
  | cons e l ih => cases e <;> simp [sent, ih]

theorem program_pages_zero (y : Bool) (fuel : Nat) (fl : Nat → Byte) (tr : List Effect)
    (addr : Nat) (p : List Byte) : program_pages y fuel fl tr addr p 0 = (fl, tr) := by
  cases fuel <;> simp [program_pages]

theorem flash_program_nil (fl : Nat → Byte) (addr : Nat) : flash_program fl addr [] = fl := by
  funext a
  unfold flash_program
  rw [if_neg]
  simp

/-- The page loop programs the whole chunk at `addr` when the fuel covers `remain`, and
only appends program and yield actions to the trace. -/
theorem program_pages_spec (y : Bool) (fuel : Nat) (fl : Nat → Byte) (tr : List Effect)
    (addr : Nat) (p : List Byte) (hf : p.length ≤ fuel) (ha : addr + p.length < 2 ^ 32) :
    (program_pages y fuel fl tr addr p p.length).1 = flash_program fl addr p ∧
    ∃ l, (program_pages y fuel fl tr addr p p.length).2 = tr ++ l ∧ sent l = [] := by
  induction fuel generalizing fl tr addr p with
  | zero =>
    have hp : p = [] := List.eq_nil_of_length_eq_zero (by omega)
    subst hp
    exact ⟨by simp [program_pages, flash_program_nil], [], by simp [program_pages], rfl⟩
  | succ fuel ih =>
    by_cases hr : p.length > 0
    · obtain ⟨n, hn, hn1, hn2⟩ : ∃ n, n = (if p.length > OTA_DATA_PAGE then OTA_DATA_PAGE
          else p.length) ∧ 1 ≤ n ∧ n ≤ p.length := by
        refine ⟨_, rfl, ?_, ?_⟩ <;> simp only [OTA_DATA_PAGE] <;> split <;> omega
      have hlen : (p.drop n).length = p.length - n := by simp
      have hu : u32 (addr + n) = addr + n := u32_of_lt (by omega)
      have step : program_pages y (fuel + 1) fl tr addr p p.length
          = program_pages y fuel (flash_program fl addr (p.take n))
              (if y = true ∧ p.length - n > 0 then
                (tr ++ [Effect.flash_program addr (p.take n)]) ++ [Effect.yield]
               else tr ++ [Effect.flash_program addr (p.take n)])
              (addr + n) (p.drop n) (p.drop n).length := by
        rw [program_pages, if_pos hr]
        simp only [← hn, hu, hlen]
      rw [step]
      obtain ⟨h1, l, h2, h3⟩ := ih (flash_program fl addr (p.take n))
        (if y = true ∧ p.length - n > 0 then
          (tr ++ [Effect.flash_program addr (p.take n)]) ++ [Effect.yield]
         else tr ++ [Effect.flash_program addr (p.take n)])
        (addr + n) (p.drop n) (by omega) (by omega)
      refine ⟨by rw [h1, flash_program_split fl addr n p hn2], ?_⟩
      rw [h2]
      split
      · exact ⟨[Effect.flash_program addr (p.take n), Effect.yield] ++ l, by simp,
          by simp [sent_append, sent, h3]⟩
      · exact ⟨[Effect.flash_program addr (p.take n)] ++ l, by simp,
          by simp [sent_append, sent, h3]⟩
    · have hp : p = [] := List.eq_nil_of_length_eq_zero (by omega)
      subst hp
      exact ⟨by simp [program_pages, flash_program_nil], [], by simp [program_pages], rfl⟩

/-! ## Hooks and log leave the session alone -/

@[simp] theorem send_hook_ctx (s : Ota) (ty : Nat) (p : List Byte) :
    (send_hook s ty p).ctx = s.ctx := by unfold send_hook; split <;> rfl

@[simp] theorem send_hook_state (s : Ota) (ty : Nat) (p : List Byte) :
    (send_hook s ty p).s_state = s.s_state := by unfold send_hook; split <;> rfl

@[simp] theorem send_hook_flash (s : Ota) (ty : Nat) (p : List Byte) :
    (send_hook s ty p).flash = s.flash := by unfold send_hook; split <;> rfl

@[simp] theorem send_hook_tbl (s : Ota) (ty : Nat) (p : List Byte) :
    (send_hook s ty p).crc32_table_init = s.crc32_table_init := by unfold send_hook; split <;> rfl

@[simp] theorem send_hook_erase_total (s : Ota) (ty : Nat) (p : List Byte) :
    (send_hook s ty p).s_erase_total = s.s_erase_total := by unfold send_hook; split <;> rfl

@[simp] theorem send_hook_send (s : Ota) (ty : Nat) (p : List Byte) :
    (send_hook s ty p).s_send = s.s_send := by unfold send_hook; split <;> rfl

theorem send_hook_trace (s : Ota) (ty : Nat) (p : List Byte) (h : s.s_send = true) :
    (send_hook s ty p).trace = s.trace ++ [Effect.send ty p] := by
  unfold send_hook; rw [if_pos h]

@[simp] theorem yield_hook_ctx (s : Ota) : (yield_hook s).ctx = s.ctx := by
  unfold yield_hook; split <;> rfl

@[simp] theorem yield_hook_state (s : Ota) : (yield_hook s).s_state = s.s_state := by
  unfold yield_hook; split <;> rfl

@[simp] theorem yield_hook_flash (s : Ota) : (yield_hook s).flash = s.flash := by
  unfold yield_hook; split <;> rfl

@[simp] theorem yield_hook_tbl (s : Ota) :
    (yield_hook s).crc32_table_init = s.crc32_table_init := by unfold yield_hook; split <;> rfl

@[simp] theorem yield_hook_erase_total (s : Ota) :
    (yield_hook s).s_erase_total = s.s_erase_total := by unfold yield_hook; split <;> rfl

@[simp] theorem yield_hook_erase_addr (s : Ota) :
    (yield_hook s).s_erase_addr = s.s_erase_addr := by unfold yield_hook; split <;> rfl

@[simp] theorem yield_hook_send (s : Ota) : (yield_hook s).s_send = s.s_send := by
  unfold yield_hook; split <;> rfl

@[simp] theorem log_event_ctx (s : Ota) (e p : Nat) : (ota_log_event s e p).ctx = s.ctx := rfl

@[simp] theorem log_event_state (s : Ota) (e p : Nat) :
    (ota_log_event s e p).s_state = s.s_state := rfl

@[simp] theorem log_event_flash (s : Ota) (e p : Nat) : (ota_log_event s e p).flash = s.flash := rfl

@[simp] theorem log_event_tbl (s : Ota) (e p : Nat) :
    (ota_log_event s e p).crc32_table_init = s.crc32_table_init := rfl

@[simp] theorem log_event_erase_total (s : Ota) (e p : Nat) :
    (ota_log_event s e p).s_erase_total = s.s_erase_total := rfl

@[simp] theorem log_event_trace (s : Ota) (e p : Nat) : (ota_log_event s e p).trace = s.trace := rfl

@[simp] theorem log_event_send (s : Ota) (e p : Nat) : (ota_log_event s e p).s_send = s.s_send := rfl

@[simp] theorem write_flag_ctx (hw : Hw) (s : Ota) (f : ota_flag) :
    (ota_write_flag hw s f).ctx = s.ctx := by unfold ota_write_flag; split <;> rfl

@[simp] theorem write_flag_state (hw : Hw) (s : Ota) (f : ota_flag) :
    (ota_write_flag hw s f).s_state = s.s_state := by unfold ota_write_flag; split <;> rfl

@[simp] theorem write_flag_tbl (hw : Hw) (s : Ota) (f : ota_flag) :
    (ota_write_flag hw s f).crc32_table_init = s.crc32_table_init := by
  unfold ota_write_flag; split <;> rfl

@[simp] theorem write_flag_erase_total (hw : Hw) (s : Ota) (f : ota_flag) :
    (ota_write_flag hw s f).s_erase_total = s.s_erase_total := by
  unfold ota_write_flag; split <;> rfl

@[simp] theorem write_flag_send (hw : Hw) (s : Ota) (f : ota_flag) :
    (ota_write_flag hw s f).s_send = s.s_send := by unfold ota_write_flag; split <;> rfl

theorem flag_bytes_length (f : ota_flag) : (flag_bytes f).length = 16 := rfl

/-- The flag write changes no byte outside the flag sector. -/
theorem write_flag_flash_outside (hw : Hw) (s : Ota) (f : ota_flag) (a : Nat)
    (h : a < OTA_FLAG_ADDR ∨ OTA_FLAG_ADDR + 4096 ≤ a) :
    (ota_write_flag hw s f).flash a = s.flash a := by
  unfold ota_write_flag
  split
  · rfl
  · simp only []
    rw [flash_program_outside _ _ _ _ (by rw [flag_bytes_length]; omega),
      flash_erase_outside _ _ _ _ h]

/-! ## The session invariant -/

theorem Inv.of_eq {s t : Ota} (h : Inv s) (h1 : t.crc32_table_init = s.crc32_table_init)
    (h2 : ctx_core t.ctx = ctx_core s.ctx) (h3 : t.s_state = s.s_state)
    (h4 : t.s_erase_total = s.s_erase_total) : Inv t := by
  simp only [ctx_core, Prod.mk.injEq] at h2
  obtain ⟨e1, e2, e3, e4, e5⟩ := h2
  constructor
  · rw [h1]; exact h.tbl
  · rw [e1]; exact h.total_lt
  · rw [e2]; exact h.exp_lt
  · rw [e3]; exact h.acc_lt
  · rw [e4, e5]; exact h.br_eq
  · rw [e5, e1]; exact h.neo_le
  · rw [e1, h3]; exact h.size_ok
  · rw [e5, e3, h3]; exact h.fresh
  · rw [h4]; exact h.erase_le

theorem Inv.neo_le_staging {s : Ota} (h : Inv s) :
    s.ctx.next_expected_offset ≤ OTA_STAGING_SIZE := by
  by_cases hi : s.s_state = .OTA_IDLE
  · rw [(h.fresh (Or.inl hi)).1]; exact Nat.zero_le _
  · exact le_trans h.neo_le (h.size_ok hi).2

theorem inv_reset (s : Ota) (h : s.crc32_table_init = true) : Inv (ota_reset s) := by
  constructor <;> simp [ota_reset, ctx_zero, h]

theorem inv_init (s0 : Ota) (send_fn : Bool) : Inv (ota_init s0 send_fn) :=
  inv_reset _ rfl

theorem erase_total_bound {x : Nat} (h : x ≤ 511999) : x &&& 0xFFFFF000 ≤ 507904 := by
  have h1 : x &&& 0xFFFFF000 ≤ x := Nat.and_le_left
  have h2 : (x &&& 0xFFFFF000) % 2 ^ 12 = 0 := by
    rw [← Nat.and_pow_two_sub_one_eq_mod, Nat.and_assoc]
    have : (0xFFFFF000 : Nat) &&& (2 ^ 12 - 1) = 0 := by decide
    rw [this]
    exact Nat.and_zero x
  omega

/-! ## Every call preserves the invariant -/

theorem inv_start (s : Ota) (payload : List Byte) (paylen : Nat) (h : Inv s) :
    Inv (ota_feed_start s payload paylen) := by
  have ht := le32_lt (payload.getD 3 0) (payload.getD 4 0) (payload.getD 5 0) (payload.getD 6 0)
  have he := le32_lt (payload.getD 7 0) (payload.getD 8 0) (payload.getD 9 0) (payload.getD 10 0)
  have hb : ∀ x : Nat, x ≤ OTA_STAGING_SIZE → u32 (x + (OTA_ERASE_SECTOR - 1)) &&& 0xFFFFF000
      ≤ OTA_STAGING_SIZE := by
    intro x hx
    simp only [OTA_STAGING_SIZE, OTA_ERASE_SECTOR] at hx ⊢
    rw [u32_of_lt (by omega)]
    exact erase_total_bound (by omega)
  have h1 := h.tbl
  have h2 := h.erase_le
  have h3 := h.fresh
  unfold ota_feed_start
  simp only [set_error]
  split_ifs with c1 c2 c3 c4 c5 c6
  · exact h
  all_goals
    constructor <;> simp only [send_hook_tbl, send_hook_ctx, send_hook_state,
      send_hook_erase_total, log_event_tbl, log_event_ctx, log_event_state,
      log_event_erase_total, ota_reset, ctx_zero] <;>
    first
      | assumption
      | rfl
      | exact Nat.zero_le _
      | decide
      | (intro _; omega)
      | (intro hc; exact absurd rfl hc)
      | (intro hc; exact absurd hc c3)
      | (intro _; exact ⟨trivial, trivial⟩)
      | (apply hb; omega)

theorem data_accept_state (hw : Hw) (s : Ota) (off cl : Nat) (chunk : List Byte) :
    (ota_data_accept hw s off cl chunk).s_state = .OTA_RECEIVING := by
  unfold ota_data_accept
  simp only [send_hook_state]
  split <;> rfl

theorem data_accept_ctx (hw : Hw) (s : Ota) (off cl : Nat) (chunk : List Byte) :
    (ota_data_accept hw s off cl chunk).ctx =
      { s.ctx with
        crc32_accum := crc32_update (crc32_table s.crc32_table_init) s.ctx.crc32_accum chunk
        bytes_received := u32 (s.ctx.bytes_received + cl)
        next_expected_offset := u32 (off + cl) } := by
  unfold ota_data_accept
  simp only [send_hook_ctx]
  split <;> rfl

theorem data_accept_tbl (hw : Hw) (s : Ota) (off cl : Nat) (chunk : List Byte) :
    (ota_data_accept hw s off cl chunk).crc32_table_init = s.crc32_table_init := by
  unfold ota_data_accept
  simp only [send_hook_tbl]
  split <;> rfl

theorem data_accept_erase_total (hw : Hw) (s : Ota) (off cl : Nat) (chunk : List Byte) :
    (ota_data_accept hw s off cl chunk).s_erase_total = s.s_erase_total := by
  unfold ota_data_accept
  simp only [send_hook_erase_total]
  split <;> rfl

theorem data_accept_send (hw : Hw) (s : Ota) (off cl : Nat) (chunk : List Byte) :
    (ota_data_accept hw s off cl chunk).s_send = s.s_send := by
  unfold ota_data_accept
  simp only [send_hook_send]
  split <;> rfl

theorem inv_data_accept (hw : Hw) (s : Ota) (off cl : Nat) (chunk : List Byte) (h : Inv s)
    (hst : s.s_state = .OTA_READY_FOR_DATA ∨ s.s_state = .OTA_RECEIVING)
    (hoff : off = s.ctx.next_expected_offset) (hfit : off + cl ≤ s.ctx.total_size) :
    Inv (ota_data_accept hw s off cl chunk) := by
  have hne : s.s_state ≠ .OTA_IDLE := by
    rcases hst with e | e <;> rw [e] <;> decide
  obtain ⟨hs1, hs2⟩ := h.size_ok hne
  have h2 := h.total_lt
  have h5 := h.br_eq
  have hu1 : u32 (off + cl) = off + cl := u32_of_lt (by omega)
  have hu2 : u32 (s.ctx.bytes_received + cl) = off + cl := by
    rw [h5, ← hoff]; exact hu1
  constructor <;> simp only [data_accept_state, data_accept_ctx, data_accept_tbl,
    data_accept_erase_total, hu1, hu2]
  · exact h.tbl
  · exact h2
  · exact h.exp_lt
  · exact crc32_update_lt _ _ h.acc_lt
  · exact hfit
  · exact fun _ => ⟨hs1, hs2⟩
  · intro hc; rcases hc with e | e | e <;> cases e
  · exact h.erase_le

theorem inv_data (hw : Hw) (s : Ota) (payload : List Byte) (paylen : Nat) (h : Inv s) :
    Inv (ota_feed_data hw s payload paylen) := by
  have ho := le32_lt (payload.getD 0 0) (payload.getD 1 0) (payload.getD 2 0) (payload.getD 3 0)
  have hc := u16_lt (paylen - 8)
  unfold ota_feed_data
  generalize le32 (payload.getD 0 0) (payload.getD 1 0) (payload.getD 2 0) (payload.getD 3 0)
    = off at ho ⊢
  generalize u16 (paylen - 8) = cl at hc ⊢
  by_cases c1 : paylen < 8
  · rw [if_pos c1]; exact h
  rw [if_neg c1]
  by_cases c2 : s.s_state = .OTA_PREPARE_ERASE
  · rw [if_pos c2]; exact h.of_eq (by simp) (by simp [ctx_core]) (by simp) (by simp)
  rw [if_neg c2]
  by_cases c3 : s.s_state ≠ .OTA_READY_FOR_DATA ∧ s.s_state ≠ .OTA_RECEIVING
  · rw [if_pos c3]; exact h
  rw [if_neg c3]
  have hst : s.s_state = .OTA_READY_FOR_DATA ∨ s.s_state = .OTA_RECEIVING := by
    by_contra hn
    exact c3 ⟨fun e => hn (Or.inl e), fun e => hn (Or.inr e)⟩
  have hne : s.s_state ≠ .OTA_IDLE := by
    rcases hst with e | e <;> rw [e] <;> decide
  obtain ⟨hs1, hs2⟩ := h.size_ok hne
  have h2 := h.total_lt
  have h6 := h.neo_le
  simp only []
  by_cases c4 : u32 (off + cl) > s.ctx.total_size ∨ cl > OTA_CHUNK_MAX
  · rw [if_pos c4]
    constructor <;> simp only [send_hook_tbl, send_hook_ctx, send_hook_state,
      send_hook_erase_total, set_error]
    · exact h.tbl
    · exact h2
    · exact h.exp_lt
    · exact h.acc_lt
    · exact h.br_eq
    · exact h6
    · exact fun _ => ⟨hs1, hs2⟩
    · intro hc; rcases hc with e | e | e <;> cases e
    · exact h.erase_le
  rw [if_neg c4]
  by_cases c5 : off > s.ctx.next_expected_offset
  · rw [if_pos c5]
    exact h.of_eq (by simp [set_error, ctx_core]) (by simp [set_error, ctx_core]) (by simp [set_error, ctx_core])
      (by simp [set_error, ctx_core])
  rw [if_neg c5]
  by_cases c6 : off < s.ctx.next_expected_offset
  · rw [if_pos c6]
    exact h.of_eq (by simp) (by simp [ctx_core]) (by simp) (by simp)
  rw [if_neg c6]
  have hcap : ¬ cl > u32 (s.ctx.total_size + 2 ^ 32 - off) := by
    simp only [u32, not_or, OTA_CHUNK_MAX, OTA_STAGING_SIZE, Nat.reducePow] at c4 ho h2 hs2 ⊢
    omega
  rw [if_neg hcap]
  split
  · exact h.of_eq (by simp [set_error, ctx_core]) (by simp [set_error, ctx_core]) (by simp [set_error, ctx_core])
      (by simp [set_error, ctx_core])
  · apply inv_data_accept hw s off cl _ h hst (by omega)
    simp only [u32, not_or, OTA_CHUNK_MAX, OTA_STAGING_SIZE, Nat.reducePow] at c4 ho h2 hs2
    omega

theorem inv_write_flag (hw : Hw) (s : Ota) (f : ota_flag) (h : Inv s) :
    Inv (ota_write_flag hw s f) :=
  h.of_eq (by simp) (by simp [ctx_core]) (by simp) (by simp)

theorem inv_clear_pending_confirm (hw : Hw) (s : Ota) (h : Inv s) :
    Inv (ota_clear_pending_confirm hw s) := by
  unfold ota_clear_pending_confirm
  simp only []
  split
  · exact h
  · exact inv_write_flag hw s _ h

theorem inv_rollback_pending (hw : Hw) (s : Ota) (h : Inv s) :
    Inv (ota_rollback_pending hw s) := by
  unfold ota_rollback_pending
  simp only []
  split
  · exact h
  · exact inv_write_flag hw s _ h

theorem inv_finish (hw : Hw) (s : Ota) (h : Inv s) : Inv (ota_feed_finish hw s) := by
  unfold ota_feed_finish
  split
  · exact h
  · rename_i hst
    have hst : s.s_state = .OTA_RECEIVING := not_not.mp hst
    have hne : s.s_state ≠ .OTA_IDLE := by rw [hst]; decide
    have hsz := h.size_ok hne
    simp only [set_error]
    split_ifs
    all_goals
      constructor <;> simp only [send_hook_tbl, send_hook_ctx, send_hook_state,
        send_hook_erase_total, write_flag_tbl, write_flag_ctx, write_flag_state,
        write_flag_erase_total]
    all_goals
      first
        | exact h.tbl
        | exact h.total_lt
        | exact h.exp_lt
        | exact h.acc_lt
        | exact h.br_eq
        | exact h.neo_le
        | exact h.erase_le
        | exact fun _ => hsz
        | (intro hc; rcases hc with e | e | e <;> cases e)

theorem inv_abort (s : Ota) (h : Inv s) : Inv (ota_feed_abort s) :=
  (inv_reset s h.tbl).of_eq (by simp [ota_feed_abort]) (by simp [ota_feed_abort])
    (by simp [ota_feed_abort]) (by simp [ota_feed_abort])

theorem inv_status (s : Ota) (h : Inv s) : Inv (ota_feed_status s) :=
  h.of_eq (by simp [ota_feed_status]) (by simp [ota_feed_status, ctx_core])
    (by simp [ota_feed_status]) (by simp [ota_feed_status])

theorem inv_confirm (hw : Hw) (s : Ota) (h : Inv s) : Inv (ota_feed_confirm hw s) :=
  (inv_clear_pending_confirm hw s h).of_eq (by simp [ota_feed_confirm, ota_confirm])
    (by simp [ota_feed_confirm, ota_confirm]) (by simp [ota_feed_confirm, ota_confirm])
    (by simp [ota_feed_confirm, ota_confirm])

theorem inv_reboot (s : Ota) (h : Inv s) : Inv (ota_feed_reboot s) :=
  h.of_eq (by simp [ota_feed_reboot]) (by simp [ota_feed_reboot, ctx_core])
    (by simp [ota_feed_reboot]) (by simp [ota_feed_reboot])

theorem inv_get_log (s : Ota) (h : Inv s) : Inv (ota_feed_get_log s) :=
  h.of_eq (by simp [ota_feed_get_log]) (by simp [ota_feed_get_log])
    (by simp [ota_feed_get_log]) (by simp [ota_feed_get_log])

theorem inv_feed (hw : Hw) (s : Ota) (data : List Byte) (h : Inv s) :
    Inv (ota_feed hw s data) := by
  unfold ota_feed
  simp only []
  split
  · exact h
  split
  · exact h
  split
  · exact inv_start s _ _ h
  split
  · exact inv_data hw s _ _ h
  split
  · exact inv_finish hw s h
  split
  · exact inv_abort s h
  split
  · exact inv_status s h
  split
  · exact inv_confirm hw s h
  split
  · exact inv_reboot s h
  split
  · exact inv_get_log s h
  · exact h

theorem poll_erase_tbl (hw : Hw) (s : Ota) :
    (ota_poll_erase hw s).crc32_table_init = s.crc32_table_init := by
  unfold ota_poll_erase
  simp only []
  split <;> simp only [send_hook_tbl, yield_hook_tbl]

theorem poll_erase_core (hw : Hw) (s : Ota) :
    ctx_core (ota_poll_erase hw s).ctx = ctx_core s.ctx := by
  unfold ota_poll_erase
  simp only []
  split <;> simp only [send_hook_ctx, yield_hook_ctx, ctx_core]

theorem poll_erase_erase_total (hw : Hw) (s : Ota) :
    (ota_poll_erase hw s).s_erase_total = s.s_erase_total := by
  unfold ota_poll_erase
  simp only []
  split <;> simp only [send_hook_erase_total, yield_hook_erase_total]

theorem poll_erase_state (hw : Hw) (s : Ota) :
    (ota_poll_erase hw s).s_state = s.s_state := by
  unfold ota_poll_erase
  simp only []
  split <;> simp only [send_hook_state, yield_hook_state]

theorem poll_erase_flash (hw : Hw) (s : Ota) :
    (ota_poll_erase hw s).flash = flash_erase s.flash s.s_erase_addr (poll_erase_size s) := by
  unfold ota_poll_erase
  simp only []
  split <;> simp only [send_hook_flash, yield_hook_flash]

/-- What `ota_poll` can change of the session: nothing but the state, from
`OTA_PREPARE_ERASE` to `OTA_READY_FOR_DATA`. -/
theorem poll_core (hw : Hw) (s : Ota) :
    (ota_poll hw s).crc32_table_init = s.crc32_table_init ∧
    ctx_core (ota_poll hw s).ctx = ctx_core s.ctx ∧
    (ota_poll hw s).s_erase_total = s.s_erase_total ∧
    ((ota_poll hw s).s_state = s.s_state ∨
      (s.s_state = .OTA_PREPARE_ERASE ∧ (ota_poll hw s).s_state = .OTA_READY_FOR_DATA)) := by
  unfold ota_poll
  by_cases c1 : s.s_state ≠ .OTA_PREPARE_ERASE ∨ s.s_erase_total = 0
  · rw [if_pos c1]
    exact ⟨rfl, rfl, rfl, Or.inl rfl⟩
  rw [if_neg c1]
  simp only [not_or, not_not] at c1
  simp only []
  generalize hr : (if s.s_erase_started = false then
      { s with s_erase_started := true, s_erase_addr := OTA_SLOT_B_ADDR,
               s_last_progress_ms := hw.millis_start }
    else s) = r
  have e1 : r.crc32_table_init = s.crc32_table_init := by rw [← hr]; split <;> rfl
  have e2 : r.ctx = s.ctx := by rw [← hr]; split <;> rfl
  have e3 : r.s_erase_total = s.s_erase_total := by rw [← hr]; split <;> rfl
  have e4 : r.s_state = s.s_state := by rw [← hr]; split <;> rfl
  split
  · refine ⟨?_, ?_, ?_, Or.inr ⟨c1.1, ?_⟩⟩
    · simp only [send_hook_tbl, log_event_tbl, e1]
    · simp only [send_hook_ctx, log_event_ctx, ctx_core, e2]
    · simp only [send_hook_erase_total, log_event_erase_total, e3]
    · simp only [send_hook_state, log_event_state]
  · split
    · simp only [yield_hook_tbl, yield_hook_ctx, yield_hook_erase_total, yield_hook_state,
        e1, e2, e3, e4]
      exact ⟨trivial, trivial, trivial, Or.inl trivial⟩
    · refine ⟨?_, ?_, ?_, Or.inl ?_⟩
      · rw [poll_erase_tbl, yield_hook_tbl, e1]
      · rw [poll_erase_core, yield_hook_ctx, e2]
      · rw [poll_erase_erase_total, yield_hook_erase_total, e3]
      · rw [poll_erase_state, yield_hook_state, e4]

theorem inv_poll (hw : Hw) (s : Ota) (h : Inv s) : Inv (ota_poll hw s) := by
  obtain ⟨e1, e2, e3, e4⟩ := poll_core hw s
  rcases e4 with e4 | ⟨e4, e5⟩
  · exact h.of_eq e1 e2 e4 e3
  · have hne : s.s_state ≠ .OTA_IDLE := by rw [e4]; decide
    have hsz := h.size_ok hne
    have hfr := h.fresh (Or.inr (Or.inl e4))
    simp only [ctx_core, Prod.mk.injEq] at e2
    obtain ⟨c1, c2, c3, c4, c5⟩ := e2
    constructor
    · rw [e1]; exact h.tbl
    · rw [c1]; exact h.total_lt
    · rw [c2]; exact h.exp_lt
    · rw [c3]; exact h.acc_lt
    · rw [c4, c5]; exact h.br_eq
    · rw [c5, c1]; exact h.neo_le
    · rw [c1]; exact fun _ => hsz
    · rw [c5, c3]; exact fun _ => hfr
    · rw [e3]; exact h.erase_le

theorem inv_call (hw : Hw) (s : Ota) (c : Call) (h : Inv s) : Inv (ota_call hw s c) := by
  cases c with
  | feed data => exact inv_feed hw s data h
  | poll => exact inv_poll hw s h
  | reset => exact inv_reset s h.tbl
  | set_yield y => exact h.of_eq rfl rfl rfl rfl
  | confirm => exact inv_clear_pending_confirm hw s h
  | clear_pending_confirm => exact inv_clear_pending_confirm hw s h
  | rollback_pending => exact inv_rollback_pending hw s h
  | log_event e p => exact h.of_eq rfl rfl rfl rfl

theorem inv_run (s : Ota) (calls : List (Hw × Call)) (h : Inv s) : Inv (run s calls) := by
  induction calls generalizing s with
  | nil => exact h
  | cons x rest ih => exact ih _ (inv_call x.1 s x.2 h)

theorem Reachable.inv {s : Ota} (h : Reachable s) : Inv s := by
  obtain ⟨s0, send_fn, calls, rfl⟩ := h
  exact inv_run _ calls (inv_init s0 send_fn)

theorem run_append (s : Ota) (a b : List (Hw × Call)) : run s (a ++ b) = run (run s a) b := by
  induction a generalizing s with
  | nil => rfl
  | cons x rest ih => exact ih _

theorem Reachable.run {s : Ota} (h : Reachable s) (calls : List (Hw × Call)) :
    Reachable (run s calls) := by
  obtain ⟨s0, send_fn, pre, rfl⟩ := h
  exact ⟨s0, send_fn, pre ++ calls, run_append _ _ _⟩

theorem Reachable.call {s : Ota} (h : Reachable s) (hw : Hw) (c : Call) :
    Reachable (ota_call hw s c) :=
  h.run [(hw, c)]

/-! ## Dispatch of `ota_feed` -/

theorem feed_dispatch (hw : Hw) (s : Ota) (data : List Byte) (ty : Nat)
    (hf : is_frame ty data) :
    ota_feed hw s data =
      if ty = CMD_OTA_START then ota_feed_start s (data.drop 3) (frame_paylen data)
      else if ty = CMD_OTA_DATA then ota_feed_data hw s (data.drop 3) (frame_paylen data)
      else if ty = CMD_OTA_FINISH then ota_feed_finish hw s
      else if ty = CMD_OTA_ABORT then ota_feed_abort s
      else if ty = CMD_OTA_STATUS then ota_feed_status s
      else if ty = CMD_OTA_CONFIRM then ota_feed_confirm hw s
      else if ty = CMD_OTA_REBOOT then ota_feed_reboot s
      else if ty = CMD_OTA_GET_LOG then ota_feed_get_log s
      else s := by
  obtain ⟨h3, hty, hlen⟩ := hf
  unfold ota_feed
  simp only []
  rw [if_neg (by omega), if_neg (by unfold frame_paylen at hlen; omega), hty]
  rfl

/-- A frame that fails the length checks of `ota_feed` is ignored. -/
theorem feed_malformed (hw : Hw) (s : Ota) (data : List Byte)
    (h : data.length < 3 ∨ data.length < 3 + frame_paylen data) : ota_feed hw s data = s := by
  unfold ota_feed
  simp only []
  by_cases h3 : data.length < 3
  · rw [if_pos h3]
  · rw [if_neg h3, if_pos]
    unfold frame_paylen at h
    omega

theorem feed_data_eq (hw : Hw) (s : Ota) (data : List Byte) (hf : is_frame CMD_OTA_DATA data) :
    ota_feed hw s data = ota_feed_data hw s (data.drop 3) (frame_paylen data) := by
  rw [feed_dispatch hw s data _ hf]
  rfl

theorem feed_start_eq (hw : Hw) (s : Ota) (data : List Byte) (hf : is_frame CMD_OTA_START data) :
    ota_feed hw s data = ota_feed_start s (data.drop 3) (frame_paylen data) := by
  rw [feed_dispatch hw s data _ hf]
  rfl

theorem feed_finish_eq (hw : Hw) (s : Ota) (data : List Byte)
    (hf : is_frame CMD_OTA_FINISH data) : ota_feed hw s data = ota_feed_finish hw s := by
  rw [feed_dispatch hw s data _ hf]
  rfl

theorem feed_abort_eq (hw : Hw) (s : Ota) (data : List Byte)
    (hf : is_frame CMD_OTA_ABORT data) : ota_feed hw s data = ota_feed_abort s := by
  rw [feed_dispatch hw s data _ hf]
  rfl

/-! ## The fields of a DATA frame, as the handler reads them -/

theorem getD_drop3 (data : List Byte) (i : Nat) : (data.drop 3).getD i 0 = data.getD (3 + i) 0 := by
  simp only [List.getD_eq_getElem?_getD, List.getElem?_drop]

theorem data_chunk_length (data : List Byte) (hlen : 3 + frame_paylen data ≤ data.length)
    (h8 : 8 ≤ frame_paylen data) : (data_chunk data).length = data_chunk_len data := by
  unfold data_chunk data_chunk_len
  rw [List.length_take, List.length_drop]
  omega

theorem feed_data_accept (hw : Hw) (s : Ota) (data : List Byte) (hi : Inv s)
    (h : DataAccepted s data) :
    ota_feed hw s data =
      ota_data_accept hw s (data_offset data) (data_chunk_len data) (data_chunk data) := by
  obtain ⟨hf, h8, hst, hoff, hmax, hfit, hcrc⟩ := h
  have hp := le16_lt (data.getD 1 0) (data.getD 2 0)
  have ht := hi.total_lt
  have hcl : u16 (frame_paylen data - 8) = data_chunk_len data := by
    unfold data_chunk_len frame_paylen
    exact u16_of_lt (by omega)
  have hoffe : le32 ((data.drop 3).getD 0 0) ((data.drop 3).getD 1 0) ((data.drop 3).getD 2 0)
      ((data.drop 3).getD 3 0) = data_offset data := by
    simp only [getD_drop3]; rfl
  have hcrce : le32 ((data.drop 3).getD (frame_paylen data - 4) 0)
      ((data.drop 3).getD (frame_paylen data - 3) 0)
      ((data.drop 3).getD (frame_paylen data - 2) 0)
      ((data.drop 3).getD (frame_paylen data - 1) 0) = data_chunk_crc data := by
    simp only [getD_drop3]
    unfold data_chunk_crc
    congr 2 <;> omega
  have hchunk : ((data.drop 3).drop 4).take (data_chunk_len data) = data_chunk data := by
    unfold data_chunk
    rw [List.drop_drop]
  rw [feed_data_eq hw s data hf]
  unfold ota_feed_data
  rw [if_neg (by omega), if_neg (by rcases hst with e | e <;> rw [e] <;> decide),
    if_neg (by rcases hst with e | e <;> rw [e] <;> decide)]
  simp only [hcl, hoffe, hcrce]
  have hu : u32 (data_offset data + data_chunk_len data)
      = data_offset data + data_chunk_len data := u32_of_lt (by omega)
  rw [if_neg (by rw [hu]; omega)]
  have hcap : ¬ data_chunk_len data > u32 (s.ctx.total_size + 2 ^ 32 - data_offset data) := by
    simp only [u32, Nat.reducePow] at ht ⊢
    omega
  rw [if_neg hcap, if_neg (by omega), if_neg (by omega), hchunk, if_neg (by rw [hcrc]; simp)]

theorem data_accept_flash (hw : Hw) (s : Ota) (off : Nat) (chunk : List Byte)
    (hok : hw.flash_init_ok = true) (ha : OTA_SLOT_B_ADDR + off + chunk.length < 2 ^ 32) :
    (ota_data_accept hw s off chunk.length chunk).flash
      = flash_program s.flash (OTA_SLOT_B_ADDR + off) chunk := by
  unfold ota_data_accept
  simp only [send_hook_flash]
  rw [if_pos hok]
  have hu : u32 (OTA_SLOT_B_ADDR + off) = OTA_SLOT_B_ADDR + off := u32_of_lt (by omega)
  rw [hu]
  exact (program_pages_spec _ _ _ _ _ chunk (le_refl _) ha).1

theorem data_accept_flash_unchanged (hw : Hw) (s : Ota) (off cl : Nat) (chunk : List Byte)
    (hok : hw.flash_init_ok = false) : (ota_data_accept hw s off cl chunk).flash = s.flash := by
  unfold ota_data_accept
  simp only [send_hook_flash]
  rw [if_neg (by rw [hok]; decide)]

/-- The accept path appends program and yield actions, then the ACK. -/
theorem data_accept_trace (hw : Hw) (s : Ota) (off : Nat) (chunk : List Byte)
    (hsend : s.s_send = true) (ha : OTA_SLOT_B_ADDR + off + chunk.length < 2 ^ 32) :
    ∃ l, sent l = [] ∧ (ota_data_accept hw s off chunk.length chunk).trace
      = s.trace ++ l ++ [Effect.send RSP_OTA
          (0 :: (bytes_of_u32 (u32 (off + chunk.length)) ++ bytes_of_u32 s.ctx.total_size))] := by
  have hu : u32 (OTA_SLOT_B_ADDR + off) = OTA_SLOT_B_ADDR + off := u32_of_lt (by omega)
  unfold ota_data_accept
  by_cases hok : hw.flash_init_ok = true
  · obtain ⟨_, l, h2, h3⟩ := program_pages_spec s.s_yield chunk.length s.flash s.trace
      (OTA_SLOT_B_ADDR + off) chunk (le_refl _) ha
    refine ⟨l, h3, ?_⟩
    simp only [if_pos hok, hu, send_hook, hsend, if_true, h2]
  · refine ⟨[], rfl, ?_⟩
    simp only [if_neg hok, send_hook, hsend, if_true, List.append_nil]

theorem trace_drop_append (a b : List Effect) : (a ++ b).drop a.length = b := by
  simp

/-- A DATA frame that does not meet the conditions of the accept path changes neither the
session counters nor the flash. -/
theorem feed_data_rejected (hw : Hw) (s : Ota) (data : List Byte) (hi : Inv s)
    (hf : is_frame CMD_OTA_DATA data) (hn : ¬ DataAccepted s data) :
    ctx_core (ota_feed hw s data).ctx = ctx_core s.ctx ∧
    (ota_feed hw s data).flash = s.flash ∧
    (ota_feed hw s data).crc32_table_init = s.crc32_table_init := by
  have hp := le16_lt (data.getD 1 0) (data.getD 2 0)
  have ht := hi.total_lt
  have hol := le32_lt (data.getD 3 0) (data.getD 4 0) (data.getD 5 0) (data.getD 6 0)
  rw [feed_data_eq hw s data hf]
  unfold ota_feed_data
  by_cases c1 : frame_paylen data < 8
  · rw [if_pos c1]; exact ⟨rfl, rfl, rfl⟩
  rw [if_neg c1]
  by_cases c2 : s.s_state = .OTA_PREPARE_ERASE
  · rw [if_pos c2]
    exact ⟨by rw [send_hook_ctx], send_hook_flash _ _ _, send_hook_tbl _ _ _⟩
  rw [if_neg c2]
  by_cases c3 : s.s_state ≠ .OTA_READY_FOR_DATA ∧ s.s_state ≠ .OTA_RECEIVING
  · rw [if_pos c3]; exact ⟨rfl, rfl, rfl⟩
  rw [if_neg c3]
  have hst : s.s_state = .OTA_READY_FOR_DATA ∨ s.s_state = .OTA_RECEIVING := by
    by_contra hc
    exact c3 ⟨fun e => hc (Or.inl e), fun e => hc (Or.inr e)⟩
  have hcl : u16 (frame_paylen data - 8) = data_chunk_len data := by
    unfold data_chunk_len frame_paylen
    exact u16_of_lt (by omega)
  have hoffe : le32 ((data.drop 3).getD 0 0) ((data.drop 3).getD 1 0) ((data.drop 3).getD 2 0)
      ((data.drop 3).getD 3 0) = data_offset data := by
    simp only [getD_drop3]; rfl
  have hcrce : le32 ((data.drop 3).getD (frame_paylen data - 4) 0)
      ((data.drop 3).getD (frame_paylen data - 3) 0)
      ((data.drop 3).getD (frame_paylen data - 2) 0)
      ((data.drop 3).getD (frame_paylen data - 1) 0) = data_chunk_crc data := by
    simp only [getD_drop3]
    unfold data_chunk_crc
    congr 2 <;> omega
  have hchunk : ((data.drop 3).drop 4).take (data_chunk_len data) = data_chunk data := by
    unfold data_chunk
    rw [List.drop_drop]
  simp only [hcl, hoffe, hcrce]
  have hod : data_offset data < 2 ^ 32 := hol
  by_cases c4 : u32 (data_offset data + data_chunk_len data) > s.ctx.total_size ∨
      data_chunk_len data > OTA_CHUNK_MAX
  · rw [if_pos c4]
    exact ⟨by rw [send_hook_ctx]; rfl, send_hook_flash _ _ _, send_hook_tbl _ _ _⟩
  rw [if_neg c4]
  by_cases c5 : data_offset data > s.ctx.next_expected_offset
  · rw [if_pos c5]
    exact ⟨by rw [send_hook_ctx]; rfl, send_hook_flash _ _ _, send_hook_tbl _ _ _⟩
  rw [if_neg c5]
  by_cases c6 : data_offset data < s.ctx.next_expected_offset
  · rw [if_pos c6]
    exact ⟨by rw [send_hook_ctx], send_hook_flash _ _ _, send_hook_tbl _ _ _⟩
  rw [if_neg c6]
  have hne : s.s_state ≠ .OTA_IDLE := by
    rcases hst with e | e <;> rw [e] <;> decide
  have hsz := (hi.size_ok hne).2
  have hneo := hi.neo_le
  have hfit : data_offset data + data_chunk_len data ≤ s.ctx.total_size ∧
      data_chunk_len data ≤ OTA_CHUNK_MAX := by
    simp only [u32, not_or, OTA_CHUNK_MAX, OTA_STAGING_SIZE, Nat.reducePow] at c4 hod ht hsz ⊢
    omega
  have hcap : ¬ data_chunk_len data > u32 (s.ctx.total_size + 2 ^ 32 - data_offset data) := by
    simp only [u32, Nat.reducePow] at ht ⊢
    omega
  rw [if_neg hcap, hchunk]
  split
  · exact ⟨by rw [send_hook_ctx]; rfl, send_hook_flash _ _ _, send_hook_tbl _ _ _⟩
  · rename_i hcrc
    exact absurd ⟨hf, by omega, hst, by omega, hfit.2, hfit.1, (not_not.mp hcrc).symm⟩ hn

/-! ## What each handler does to the flash and to the session counters -/

theorem start_flash (s : Ota) (payload : List Byte) (paylen : Nat) :
    (ota_feed_start s payload paylen).flash = s.flash := by
  unfold ota_feed_start
  simp only [set_error]
  split_ifs <;> simp only [send_hook_flash, log_event_flash, ota_reset]

/-- A START frame with a full payload zeroes the session counters, whatever its size field. -/
theorem start_zeroes (s : Ota) (payload : List Byte) (paylen : Nat) (h : 11 ≤ paylen) :
    (ota_feed_start s payload paylen).ctx.bytes_received = 0 ∧
    (ota_feed_start s payload paylen).ctx.crc32_accum = 0 ∧
    (ota_feed_start s payload paylen).ctx.next_expected_offset = 0 := by
  unfold ota_feed_start
  rw [if_neg (by omega)]
  simp only [set_error]
  split_ifs <;> simp only [send_hook_ctx, log_event_ctx, and_self]

theorem abort_flash (s : Ota) : (ota_feed_abort s).flash = s.flash := by
  simp [ota_feed_abort, ota_reset]

theorem abort_zeroes (s : Ota) :
    (ota_feed_abort s).ctx.bytes_received = 0 ∧ (ota_feed_abort s).ctx.crc32_accum = 0 ∧
    (ota_feed_abort s).ctx.next_expected_offset = 0 := by
  simp [ota_feed_abort, ota_reset, ctx_zero]

theorem status_flash (s : Ota) : (ota_feed_status s).flash = s.flash := by
  simp [ota_feed_status]

theorem status_core (s : Ota) : ctx_core (ota_feed_status s).ctx = ctx_core s.ctx := by
  simp [ota_feed_status, ctx_core]

theorem reboot_flash (s : Ota) : (ota_feed_reboot s).flash = s.flash := by
  simp [ota_feed_reboot]

theorem reboot_core (s : Ota) : ctx_core (ota_feed_reboot s).ctx = ctx_core s.ctx := by
  simp [ota_feed_reboot, ctx_core]

theorem get_log_flash (s : Ota) : (ota_feed_get_log s).flash = s.flash := by
  simp [ota_feed_get_log]

theorem get_log_core (s : Ota) : ctx_core (ota_feed_get_log s).ctx = ctx_core s.ctx := by
  simp [ota_feed_get_log, ctx_core]

theorem clear_pending_confirm_ctx (hw : Hw) (s : Ota) :
    (ota_clear_pending_confirm hw s).ctx = s.ctx := by
  unfold ota_clear_pending_confirm
  simp only []
  split
  · rfl
  · exact write_flag_ctx _ _ _

theorem rollback_pending_ctx (hw : Hw) (s : Ota) : (ota_rollback_pending hw s).ctx = s.ctx := by
  unfold ota_rollback_pending
  simp only []
  split
  · rfl
  · exact write_flag_ctx _ _ _

theorem clear_pending_confirm_flash_outside (hw : Hw) (s : Ota) (a : Nat)
    (h : a < OTA_FLAG_ADDR ∨ OTA_FLAG_ADDR + 4096 ≤ a) :
    (ota_clear_pending_confirm hw s).flash a = s.flash a := by
  unfold ota_clear_pending_confirm
  simp only []
  split
  · rfl
  · exact write_flag_flash_outside _ _ _ _ h

theorem rollback_pending_flash_outside (hw : Hw) (s : Ota) (a : Nat)
    (h : a < OTA_FLAG_ADDR ∨ OTA_FLAG_ADDR + 4096 ≤ a) :
    (ota_rollback_pending hw s).flash a = s.flash a := by
  unfold ota_rollback_pending
  simp only []
  split
  · rfl
  · exact write_flag_flash_outside _ _ _ _ h

theorem confirm_ctx (hw : Hw) (s : Ota) : (ota_feed_confirm hw s).ctx = s.ctx := by
  unfold ota_feed_confirm ota_confirm
  rw [send_hook_ctx, clear_pending_confirm_ctx]

theorem confirm_flash_outside (hw : Hw) (s : Ota) (a : Nat)
    (h : a < OTA_FLAG_ADDR ∨ OTA_FLAG_ADDR + 4096 ≤ a) :
    (ota_feed_confirm hw s).flash a = s.flash a := by
  unfold ota_feed_confirm ota_confirm
  rw [send_hook_flash, clear_pending_confirm_flash_outside _ _ _ h]

/-- FINISH on the success path: flag write, state, reply, delay, reset. -/
theorem finish_success (hw : Hw) (s : Ota) (h : finish_checks s) :
    ota_feed_finish hw s =
      { send_hook { ota_write_flag hw { s with s_state := .OTA_VERIFYING } (armed_flag s) with
            s_state := .OTA_PENDING_REBOOT }
          RSP_OTA [u8 RSP_OTA_OK_FINISH] with
        trace := (send_hook
            { ota_write_flag hw { s with s_state := .OTA_VERIFYING } (armed_flag s) with
              s_state := .OTA_PENDING_REBOOT }
            RSP_OTA [u8 RSP_OTA_OK_FINISH]).trace ++ [Effect.delay 50, Effect.system_reset] } := by
  obtain ⟨h1, h2, h3, h4⟩ := h
  unfold ota_feed_finish
  rw [if_neg (by rw [h1]; decide)]
  simp only []
  rw [if_neg (by rw [h2]; simp), if_neg (by rw [h3]; simp), if_neg (by rw [h4]; simp)]
  rfl

/-- FINISH when a check fails: the flash is untouched, the counters are kept, and no
OK_FINISH is sent. -/
theorem finish_failure (hw : Hw) (s : Ota) (h : ¬ finish_checks s) :
    (ota_feed_finish hw s).flash = s.flash ∧
    ctx_core (ota_feed_finish hw s).ctx = ctx_core s.ctx ∧
    ∃ l, (ota_feed_finish hw s).trace = s.trace ++ l ∧
      Effect.send RSP_OTA [u8 RSP_OTA_OK_FINISH] ∉ l := by
  unfold ota_feed_finish
  by_cases c1 : s.s_state ≠ .OTA_RECEIVING
  · rw [if_pos c1]
    exact ⟨rfl, rfl, [], by simp, by simp⟩
  rw [if_neg c1]
  simp only [set_error]
  by_cases c2 : s.ctx.bytes_received ≠ s.ctx.total_size
  · rw [if_pos c2]
    refine ⟨send_hook_flash _ _ _, by rw [send_hook_ctx]; rfl, ?_⟩
    unfold send_hook
    split
    · exact ⟨_, rfl, by decide⟩
    · exact ⟨[], by simp, by simp⟩
  rw [if_neg c2]
  by_cases c3 : s.ctx.crc32_accum ≠ s.ctx.expected_crc32
  · rw [if_pos c3]
    refine ⟨send_hook_flash _ _ _, by rw [send_hook_ctx]; rfl, ?_⟩
    unfold send_hook
    split
    · exact ⟨_, rfl, by simp [u8, bytes_of_u32]⟩
    · exact ⟨[], by simp, by simp⟩
  rw [if_neg c3]
  by_cases c4 : flash_read32 s.flash OTA_SLOT_B_ADDR ≠ OTA_MAGIC
  · rw [if_pos c4]
    refine ⟨send_hook_flash _ _ _, by rw [send_hook_ctx]; rfl, ?_⟩
    unfold send_hook
    split
    · exact ⟨_, rfl, by decide⟩
    · exact ⟨[], by simp, by simp⟩
  exact absurd ⟨not_not.mp c1, not_not.mp c2, not_not.mp c3, not_not.mp c4⟩ h

theorem finish_core (hw : Hw) (s : Ota) :
    ctx_core (ota_feed_finish hw s).ctx = ctx_core s.ctx := by
  by_cases h : finish_checks s
  · rw [finish_success hw s h]
    simp only [send_hook_ctx, write_flag_ctx]
  · exact (finish_failure hw s h).2.1

theorem finish_flash_outside (hw : Hw) (s : Ota) (a : Nat)
    (ha : a < OTA_FLAG_ADDR ∨ OTA_FLAG_ADDR + 4096 ≤ a) :
    (ota_feed_finish hw s).flash a = s.flash a := by
  by_cases h : finish_checks s
  · rw [finish_success hw s h]
    simp only [send_hook_flash]
    exact write_flag_flash_outside _ _ _ _ ha
  · rw [(finish_failure hw s h).1]

/-- The only flash operation of `ota_poll` is an erase inside the staging slot, and only
while the state is `OTA_PREPARE_ERASE`. -/
theorem poll_flash (hw : Hw) (s : Ota) (hi : Inv s) :
    (ota_poll hw s).flash = s.flash ∨
    (s.s_state = .OTA_PREPARE_ERASE ∧ ∃ addr n,
      addr + n ≤ OTA_SLOT_B_ADDR + OTA_STAGING_SIZE ∧
      (ota_poll hw s).flash = flash_erase s.flash addr n) := by
  have het := hi.erase_le
  unfold ota_poll
  by_cases c1 : s.s_state ≠ .OTA_PREPARE_ERASE ∨ s.s_erase_total = 0
  · rw [if_pos c1]
    exact Or.inl rfl
  rw [if_neg c1]
  simp only [not_or, not_not] at c1
  simp only []
  generalize hr : (if s.s_erase_started = false then
      { s with s_erase_started := true, s_erase_addr := OTA_SLOT_B_ADDR,
               s_last_progress_ms := hw.millis_start }
    else s) = r
  have e1 : r.flash = s.flash := by rw [← hr]; split <;> rfl
  have e3 : r.s_erase_total = s.s_erase_total := by rw [← hr]; split <;> rfl
  split
  · left
    simp only [send_hook_flash, log_event_flash, e1]
  · rename_i hlt
    split
    · left
      rw [yield_hook_flash, e1]
    · right
      refine ⟨c1.1, r.s_erase_addr, poll_erase_size (yield_hook r), ?_, ?_⟩
      · unfold poll_erase_size
        rw [yield_hook_erase_addr, yield_hook_erase_total]
        simp only [e3, u32, OTA_SLOT_B_ADDR, OTA_STAGING_SIZE, OTA_ERASE_SECTOR,
          Nat.reducePow, Nat.reduceMul] at hlt het ⊢
        split <;> omega
      · rw [poll_erase_flash, yield_hook_flash, yield_hook_erase_addr, e1]

theorem poll_flash_flag_sector (hw : Hw) (s : Ota) (hi : Inv s) (a : Nat)
    (ha : OTA_FLAG_ADDR ≤ a) : (ota_poll hw s).flash a = s.flash a := by
  rcases poll_flash hw s hi with h | ⟨_, addr, n, hb, h⟩
  · rw [h]
  · rw [h]
    apply flash_erase_outside
    simp only [OTA_SLOT_B_ADDR, OTA_STAGING_SIZE, OTA_FLAG_ADDR, Nat.reduceMul] at hb ha
    omega

/-- A frame that is neither an accepted DATA frame, nor a START with a full payload, nor an
ABORT keeps the session counters, and changes no flash byte outside the flag sector. -/
theorem feed_other (hw : Hw) (s : Ota) (data : List Byte) (hi : Inv s)
    (hn : ¬ DataAccepted s data)
    (hs : ¬ (is_frame CMD_OTA_START data ∧ 11 ≤ frame_paylen data))
    (ha : ¬ is_frame CMD_OTA_ABORT data) :
    ctx_core (ota_feed hw s data).ctx = ctx_core s.ctx ∧
    ∀ a, a < OTA_FLAG_ADDR ∨ OTA_FLAG_ADDR + 4096 ≤ a →
      (ota_feed hw s data).flash a = s.flash a := by
  by_cases hm : data.length < 3 ∨ data.length < 3 + frame_paylen data
  · rw [feed_malformed hw s data hm]
    exact ⟨rfl, fun _ _ => rfl⟩
  have hf : ∀ ty, (data.getD 0 0).val = ty → is_frame ty data :=
    fun ty hty => ⟨by omega, hty, by omega⟩
  rw [feed_dispatch hw s data _ (hf _ rfl)]
  split
  · rename_i hty
    have hp : frame_paylen data < 11 := by
      by_contra hc
      exact hs ⟨hf _ hty, by omega⟩
    unfold ota_feed_start
    rw [if_pos hp]
    exact ⟨rfl, fun _ _ => rfl⟩
  split
  · rename_i hty
    have h := feed_data_rejected hw s data hi (hf _ hty) hn
    rw [feed_data_eq hw s data (hf _ hty)] at h
    exact ⟨h.1, fun _ _ => by rw [h.2.1]⟩
  split
  · exact ⟨finish_core hw s, fun a h => finish_flash_outside hw s a h⟩
  split
  · rename_i hty
    exact absurd (hf _ hty) ha
  split
  · exact ⟨status_core s, fun _ _ => by rw [status_flash]⟩
  split
  · exact ⟨by rw [confirm_ctx], fun a h => confirm_flash_outside hw s a h⟩
  split
  · exact ⟨reboot_core s, fun _ _ => by rw [reboot_flash]⟩
  split
  · exact ⟨get_log_core s, fun _ _ => by rw [get_log_flash]⟩
  · exact ⟨rfl, fun _ _ => rfl⟩

/-! ## Frames built by the host decode to their fields -/

theorem mk_frame_paylen (ty : Nat) (payload : List Byte) (h : payload.length < 2 ^ 16) :
    frame_paylen (mk_frame ty payload) = payload.length := by
  unfold frame_paylen mk_frame
  simp only [List.getD_cons_succ, List.getD_cons_zero]
  exact le16_bytes_of_u16 h

theorem mk_frame_is_frame (ty : Nat) (payload : List Byte) (hty : ty < 256)
    (h : payload.length < 2 ^ 16) : is_frame ty (mk_frame ty payload) := by
  refine ⟨by simp [mk_frame], ?_, ?_⟩
  · simp only [mk_frame, List.getD_cons_zero, u8_val]
    exact Nat.mod_eq_of_lt hty
  · rw [mk_frame_paylen ty payload h]
    simp [mk_frame]
    omega

theorem data_frame_paylen (offset : Nat) (chunk : List Byte) (crc : Nat)
    (h : chunk.length + 8 < 2 ^ 16) :
    frame_paylen (data_frame offset chunk crc) = chunk.length + 8 := by
  unfold data_frame
  rw [mk_frame_paylen _ _ (by simp [bytes_of_u32_length]; omega)]
  simp [bytes_of_u32_length]
  omega

theorem data_frame_is_frame (offset : Nat) (chunk : List Byte) (crc : Nat)
    (h : chunk.length + 8 < 2 ^ 16) : is_frame CMD_OTA_DATA (data_frame offset chunk crc) :=
  mk_frame_is_frame _ _ (by decide) (by simp [bytes_of_u32_length]; omega)

theorem data_frame_offset (offset : Nat) (chunk : List Byte) (crc : Nat) (h : offset < 2 ^ 32) :
    data_offset (data_frame offset chunk crc) = offset := by
  unfold data_offset data_frame mk_frame bytes_of_u32
  simp only [List.cons_append, List.nil_append, List.getD_cons_succ, List.getD_cons_zero]
  exact le32_bytes_of_u32 h

theorem data_frame_chunk_len (offset : Nat) (chunk : List Byte) (crc : Nat)
    (h : chunk.length + 8 < 2 ^ 16) :
    data_chunk_len (data_frame offset chunk crc) = chunk.length := by
  unfold data_chunk_len
  rw [data_frame_paylen offset chunk crc h]
  omega

theorem data_frame_chunk (offset : Nat) (chunk : List Byte) (crc : Nat)
    (h : chunk.length + 8 < 2 ^ 16) : data_chunk (data_frame offset chunk crc) = chunk := by
  unfold data_chunk
  rw [data_frame_chunk_len offset chunk crc h]
  unfold data_frame mk_frame bytes_of_u32
  simp

theorem data_frame_chunk_crc (offset : Nat) (chunk : List Byte) (crc : Nat)
    (h : chunk.length + 8 < 2 ^ 16) (hc : crc < 2 ^ 32) :
    data_chunk_crc (data_frame offset chunk crc) = crc := by
  unfold data_chunk_crc
  rw [data_frame_paylen offset chunk crc h]
  have e : ∀ k, k < 4 → (data_frame offset chunk crc).getD (3 + (chunk.length + 8) - 4 + k) 0
      = (bytes_of_u32 crc).getD k 0 := by
    intro k hk
    unfold data_frame mk_frame
    have e1 : 3 + (chunk.length + 8) - 4 + k = (chunk.length + 4 + k) + 1 + 1 + 1 := by omega
    rw [e1]
    simp only [List.getD_eq_getElem?_getD, List.getElem?_cons_succ, List.append_assoc]
    rw [List.getElem?_append_right (by simp [bytes_of_u32_length]; omega),
      List.getElem?_append_right (by simp [bytes_of_u32_length]; omega)]
    simp only [bytes_of_u32_length]
    congr 2
    omega
  have e0 := e 0 (by omega)
  have e1 := e 1 (by omega)
  have e2 := e 2 (by omega)
  have e3 := e 3 (by omega)
  have a1 : 3 + (chunk.length + 8) - 3 = 3 + (chunk.length + 8) - 4 + 1 := by omega
  have a2 : 3 + (chunk.length + 8) - 2 = 3 + (chunk.length + 8) - 4 + 2 := by omega
  have a3 : 3 + (chunk.length + 8) - 1 = 3 + (chunk.length + 8) - 4 + 3 := by omega
  rw [a1, a2, a3, e1, e2, e3]
  rw [Nat.add_zero] at e0
  rw [e0]
  exact le32_bytes_of_u32 hc

/-- A well-formed DATA frame at the expected offset, within bounds, is accepted. -/
theorem good_data_frame_accepted (s : Ota) (offset : Nat) (chunk : List Byte) (hi : Inv s)
    (hst : s.s_state = .OTA_READY_FOR_DATA ∨ s.s_state = .OTA_RECEIVING)
    (hoff : offset = s.ctx.next_expected_offset) (hmax : chunk.length ≤ OTA_CHUNK_MAX)
    (hfit : offset + chunk.length ≤ s.ctx.total_size) :
    DataAccepted s (good_data_frame offset chunk) := by
  have ht := hi.total_lt
  have hl : chunk.length + 8 < 2 ^ 16 := by simp only [OTA_CHUNK_MAX] at hmax; omega
  have ho : offset < 2 ^ 32 := by omega
  unfold good_data_frame
  refine ⟨data_frame_is_frame _ _ _ hl, ?_, hst, ?_, ?_, ?_, ?_⟩
  · rw [data_frame_paylen _ _ _ hl]; omega
  · rw [data_frame_offset _ _ _ ho]; exact hoff
  · rw [data_frame_chunk_len _ _ _ hl]; exact hmax
  · rw [data_frame_offset _ _ _ ho, data_frame_chunk_len _ _ _ hl]; exact hfit
  · rw [data_frame_chunk_crc _ _ _ hl (crc32_lt _), data_frame_chunk _ _ _ hl, hi.tbl]
    rfl

/-! ## The flag record read back after a write -/

theorem flash_program_at (fl : Nat → Byte) (addr : Nat) (bytes : List Byte) (i : Nat)
    (h : i < bytes.length) : flash_program fl addr bytes (addr + i) = bytes.getD i 0 := by
  unfold flash_program
  rw [if_pos ⟨by omega, by omega⟩, Nat.add_sub_cancel_left]

theorem read_flag_programmed (fl : Nat → Byte) (f : ota_flag) (h : flag_wf f) :
    ota_read_flag (flash_program fl OTA_FLAG_ADDR (flag_bytes f)) = f := by
  obtain ⟨h1, h2, h3, h4, h5, h6, h7⟩ := h
  have e : ∀ k, k < 16 → flash_program fl OTA_FLAG_ADDR (flag_bytes f) (OTA_FLAG_ADDR + k)
      = (flag_bytes f).getD k 0 :=
    fun k hk => flash_program_at fl _ _ k (by rw [flag_bytes_length]; exact hk)
  have e0 := e 0 (by omega)
  rw [Nat.add_zero] at e0
  unfold ota_read_flag flash_read32
  simp only [Nat.add_assoc, Nat.reduceAdd]
  rw [e0, e 1 (by omega), e 2 (by omega), e 3 (by omega), e 4 (by omega), e 5 (by omega),
    e 6 (by omega), e 7 (by omega), e 8 (by omega), e 9 (by omega), e 10 (by omega),
    e 11 (by omega), e 12 (by omega), e 13 (by omega), e 14 (by omega), e 15 (by omega)]
  simp only [flag_bytes, bytes_of_u32, List.cons_append, List.nil_append, List.getD_cons_succ,
    List.getD_cons_zero, u8_val]
  rw [le32_bytes_of_u32 h1, le32_bytes_of_u32 h6, le32_bytes_of_u32 h7,
    Nat.mod_eq_of_lt h2, Nat.mod_eq_of_lt h3, Nat.mod_eq_of_lt h4, Nat.mod_eq_of_lt h5]

theorem armed_flag_wf (s : Ota) (hi : Inv s) : flag_wf (armed_flag s) := by
  refine ⟨?_, ?_, ?_, ?_, ?_, hi.total_lt, hi.exp_lt⟩ <;> simp [armed_flag, OTA_FLAG_MAGIC]

/-- The bytes `54 4F 42 53` are `OTA_MAGIC` read as a little-endian word. -/
theorem magic_bytes (fl : Nat → Byte) (addr : Nat)
    (h : flash_read fl addr 4 = [0x54, 0x4F, 0x42, 0x53]) : flash_read32 fl addr = OTA_MAGIC := by
  simp only [flash_read, List.range_succ, List.range_zero, List.nil_append, List.map_append,
    List.map_cons, List.map_nil, List.cons_append, List.cons.injEq, Nat.add_zero, and_true]
    at h
  obtain ⟨h0, h1, h2, h3⟩ := h
  unfold flash_read32
  rw [h0, h1, h2, h3]
  decide

theorem data_accepted_offsets (hw : Hw) (s : Ota) (data : List Byte) (hi : Inv s)
    (h : DataAccepted s data) :
    (ota_feed hw s data).ctx.next_expected_offset
      = s.ctx.next_expected_offset + data_chunk_len data ∧
    (ota_feed hw s data).ctx.bytes_received = s.ctx.bytes_received + data_chunk_len data ∧
    (ota_feed hw s data).ctx.crc32_accum
      = crc32_update (crc32_table true) s.ctx.crc32_accum (data_chunk data) ∧
    s.ctx.bytes_received + data_chunk_len data ≤ OTA_STAGING_SIZE := by
  have hne : s.s_state ≠ .OTA_IDLE := by
    rcases h.state with e | e <;> rw [e] <;> decide
  have hsz := (hi.size_ok hne).2
  have ht := hi.total_lt
  have hfit := h.fits
  have hoff := h.in_order
  have hbr := hi.br_eq
  rw [feed_data_accept hw s data hi h, data_accept_ctx]
  refine ⟨?_, ?_, by rw [hi.tbl], by omega⟩
  · simp only []
    rw [u32_of_lt (by omega), hoff]
  · simp only []
    rw [u32_of_lt (by omega)]

/-! ## The staged image and the chunks accepted in the session -/

theorem session_inv_zero (s : Ota) (h1 : s.ctx.bytes_received = 0)
    (h2 : s.ctx.crc32_accum = 0) : SessionInv s [] := by
  unfold SessionInv
  rw [h1, h2]
  exact ⟨rfl, (crc32_update_nil _ 0).symm⟩

theorem session_inv_kept {s t : Ota} {log : List (List Byte)} (h : SessionInv s log)
    (hi : Inv s) (hc : ctx_core t.ctx = ctx_core s.ctx)
    (hfl : ∀ a, a < OTA_FLAG_ADDR → t.flash a = s.flash a) : SessionInv t log := by
  simp only [ctx_core, Prod.mk.injEq] at hc
  obtain ⟨_, _, e3, e4, _⟩ := hc
  have hb := hi.neo_le_staging
  rw [← hi.br_eq] at hb
  unfold SessionInv staged
  rw [e3, e4]
  refine ⟨?_, h.2⟩
  rw [← h.1]
  apply flash_read_congr
  intro a _ ha
  apply hfl
  simp only [OTA_SLOT_B_ADDR, OTA_STAGING_SIZE, OTA_FLAG_ADDR, Nat.reduceMul] at hb ha ⊢
  omega

theorem data_accepted_flash (hw : Hw) (s : Ota) (data : List Byte) (hi : Inv s)
    (h : DataAccepted s data) (hok : hw.flash_init_ok = true) :
    (ota_feed hw s data).flash
      = flash_program s.flash (OTA_SLOT_B_ADDR + data_offset data) (data_chunk data) := by
  have hlen := data_chunk_length data h.frame.2.2 h.paylen
  have hfit := h.fits
  have ht := hi.total_lt
  rw [feed_data_accept hw s data hi h, ← hlen]
  apply data_accept_flash hw s _ _ hok
  have hne : s.s_state ≠ .OTA_IDLE := by
    rcases h.state with e | e <;> rw [e] <;> decide
  have hsz := (hi.size_ok hne).2
  simp only [OTA_SLOT_B_ADDR, OTA_STAGING_SIZE, Nat.reduceMul] at hsz ⊢
  omega

theorem session_inv_accept (hw : Hw) (s : Ota) (data : List Byte) (log : List (List Byte))
    (h : SessionInv s log) (hi : Inv s) (ha : DataAccepted s data)
    (hok : hw.flash_init_ok = true) :
    SessionInv (ota_feed hw s data) (log ++ [data_chunk data]) := by
  obtain ⟨_, hbr, hacc, _⟩ := data_accepted_offsets hw s data hi ha
  have hlen := data_chunk_length data ha.frame.2.2 ha.paylen
  have hoff : data_offset data = s.ctx.bytes_received := by rw [ha.in_order, hi.br_eq]
  unfold SessionInv staged
  rw [hbr, hacc, data_accepted_flash hw s data hi ha hok, List.flatten_append, h.2, hoff]
  simp only [List.flatten_cons, List.flatten_nil, List.append_nil]
  refine ⟨?_, crc32_update_append _ _ _ _⟩
  rw [flash_read_add, ← hlen, flash_read_program, ← h.1]
  congr 1
  apply flash_read_congr
  intro a _ ha2
  exact flash_program_outside _ _ _ _ (Or.inl ha2)

theorem flag_below (a : Nat) (h : a < OTA_FLAG_ADDR) :
    a < OTA_FLAG_ADDR ∨ OTA_FLAG_ADDR + 4096 ≤ a := Or.inl h

/-- One call, with `flash.init()` succeeding, keeps the staged image and the CRC in step
with the session log. -/
theorem session_inv_call (hw : Hw) (s : Ota) (c : Call) (log : List (List Byte))
    (h : SessionInv s log) (hi : Inv s) (hok : hw.flash_init_ok = true) :
    SessionInv (ota_call hw s c) (session_log log s c) := by
  cases c with
  | feed data =>
    show SessionInv (ota_feed hw s data)
      (if DataAccepted s data then log ++ [data_chunk data]
       else if (is_frame CMD_OTA_START data ∧ 11 ≤ frame_paylen data) ∨
          is_frame CMD_OTA_ABORT data then []
       else log)
    by_cases ha : DataAccepted s data
    · rw [if_pos ha]
      exact session_inv_accept hw s data log h hi ha hok
    · rw [if_neg ha]
      by_cases hs : is_frame CMD_OTA_START data ∧ 11 ≤ frame_paylen data
      · rw [if_pos (Or.inl hs)]
        rw [feed_start_eq hw s data hs.1]
        have hz := start_zeroes s (data.drop 3) (frame_paylen data) hs.2
        exact session_inv_zero _ hz.1 hz.2.1
      by_cases hb : is_frame CMD_OTA_ABORT data
      · rw [if_pos (Or.inr hb)]
        rw [feed_abort_eq hw s data hb]
        exact session_inv_zero _ (abort_zeroes s).1 (abort_zeroes s).2.1
      rw [if_neg (by rintro (h1 | h1); exact hs h1; exact hb h1)]
      have ho := feed_other hw s data hi ha hs hb
      exact session_inv_kept h hi ho.1 (fun a ha => ho.2 a (Or.inl ha))
  | poll =>
    show SessionInv (ota_poll hw s) log
    rcases poll_flash hw s hi with hf | ⟨hst, _, _, _, _⟩
    · exact session_inv_kept h hi (poll_core hw s).2.1 (fun a _ => by rw [hf])
    · have hfr := hi.fresh (Or.inr (Or.inl hst))
      have hc := (poll_core hw s).2.1
      simp only [ctx_core, Prod.mk.injEq] at hc
      have hlog : log.flatten = [] := by
        rw [← h.1, hi.br_eq, hfr.1]; rfl
      unfold SessionInv staged
      rw [hc.2.2.2.1, hc.2.2.1, hi.br_eq, hfr.1, hfr.2, hlog]
      exact ⟨rfl, (crc32_update_nil _ 0).symm⟩
  | reset => exact session_inv_zero _ rfl rfl
  | set_yield y => exact session_inv_kept h hi rfl (fun _ _ => rfl)
  | confirm =>
    exact session_inv_kept h hi (by show ctx_core (ota_clear_pending_confirm hw s).ctx = _
                                    rw [clear_pending_confirm_ctx])
      (fun a ha => clear_pending_confirm_flash_outside hw s a (Or.inl ha))
  | clear_pending_confirm =>
    exact session_inv_kept h hi (by show ctx_core (ota_clear_pending_confirm hw s).ctx = _
                                    rw [clear_pending_confirm_ctx])
      (fun a ha => clear_pending_confirm_flash_outside hw s a (Or.inl ha))
  | rollback_pending =>
    exact session_inv_kept h hi (by show ctx_core (ota_rollback_pending hw s).ctx = _
                                    rw [rollback_pending_ctx])
      (fun a ha => rollback_pending_flash_outside hw s a (Or.inl ha))
  | log_event e p => exact session_inv_kept h hi rfl (fun _ _ => rfl)

theorem session_inv_run (s : Ota) (calls : List (Hw × Call)) (log : List (List Byte))
    (h : SessionInv s log) (hi : Inv s) (hok : flash_ok calls) :
    SessionInv (run s calls) (run_log log s calls) := by
  induction calls generalizing s log with
  | nil => exact h
  | cons x rest ih =>
    exact ih _ _ (session_inv_call x.1 s x.2 log h hi (hok x (List.mem_cons_self _ _)))
      (inv_call x.1 s x.2 hi) (fun y hy => hok y (List.mem_cons_of_mem _ hy))

theorem run_log_append (log : List (List Byte)) (s : Ota) (a b : List (Hw × Call)) :
    run_log log s (a ++ b) = run_log (run_log log s a) (run s a) b := by
  induction a generalizing s log with
  | nil => rfl
  | cons x rest ih => exact ih _ _

/-! ## Further lemmas on single calls -/

theorem call_neo_mono (hw : Hw) (s : Ota) (c : Call) (hi : Inv s)
    (hc : no_start_abort c = true) :
    s.ctx.next_expected_offset ≤ (ota_call hw s c).ctx.next_expected_offset := by
  cases c with
  | feed data =>
    simp only [no_start_abort, decide_eq_true_eq] at hc
    by_cases ha : DataAccepted s data
    · show _ ≤ (ota_feed hw s data).ctx.next_expected_offset
      rw [(data_accepted_offsets hw s data hi ha).1]
      exact Nat.le_add_right _ _
    · have h := (feed_other hw s data hi ha (fun h => hc.1 h.1.2.1) (fun h => hc.2 h.2.1)).1
      simp only [ctx_core, Prod.mk.injEq] at h
      show _ ≤ (ota_feed hw s data).ctx.next_expected_offset
      rw [h.2.2.2.2]
  | poll =>
    have h := (poll_core hw s).2.1
    simp only [ctx_core, Prod.mk.injEq] at h
    show _ ≤ (ota_poll hw s).ctx.next_expected_offset
    rw [h.2.2.2.2]
  | reset => cases hc
  | set_yield y => cases hc
  | confirm => cases hc
  | clear_pending_confirm => cases hc
  | rollback_pending => cases hc
  | log_event e p => cases hc

/-- The reply to a duplicate DATA frame (offset below `next_expected_offset`, length checks
passed): RSP_OTA with subcode 0, the offset of the frame, and `total_size`. -/
theorem duplicate_data_reply (hw : Hw) (s : Ota) (data : List Byte) (hi : Inv s)
    (hsend : s.s_send = true)
    (hst : s.s_state = .OTA_READY_FOR_DATA ∨ s.s_state = .OTA_RECEIVING)
    (hf : is_frame CMD_OTA_DATA data) (h8 : 8 ≤ frame_paylen data)
    (hmax : data_chunk_len data ≤ OTA_CHUNK_MAX)
    (hfit : data_offset data + data_chunk_len data ≤ s.ctx.total_size)
    (hdup : data_offset data < s.ctx.next_expected_offset) :
    ota_feed hw s data =
      { s with trace := s.trace ++ [Effect.send RSP_OTA
          (0 :: (bytes_of_u32 (data_offset data) ++ bytes_of_u32 s.ctx.total_size))] } := by
  have hp := le16_lt (data.getD 1 0) (data.getD 2 0)
  have ht := hi.total_lt
  have hcl : u16 (frame_paylen data - 8) = data_chunk_len data := by
    unfold data_chunk_len frame_paylen
    exact u16_of_lt (by omega)
  have hoffe : le32 ((data.drop 3).getD 0 0) ((data.drop 3).getD 1 0) ((data.drop 3).getD 2 0)
      ((data.drop 3).getD 3 0) = data_offset data := by
    simp only [getD_drop3]; rfl
  rw [feed_data_eq hw s data hf]
  unfold ota_feed_data
  rw [if_neg (by omega), if_neg (by rcases hst with e | e <;> rw [e] <;> decide),
    if_neg (by rcases hst with e | e <;> rw [e] <;> decide)]
  simp only [hcl, hoffe]
  have hu : u32 (data_offset data + data_chunk_len data)
      = data_offset data + data_chunk_len data := u32_of_lt (by omega)
  rw [if_neg (by rw [hu]; omega), if_neg (by omega), if_pos hdup]
  unfold send_hook
  rw [if_pos hsend]

theorem mem_sent {ty : Nat} {p : List Byte} {l : List Effect} (h : (ty, p) ∈ sent l) :
    Effect.send ty p ∈ l := by
  induction l with
  | nil => simp [sent] at h
  | cons e l ih =>
    cases e with
    | send ty2 p2 =>
      simp only [sent, List.mem_cons, Prod.mk.injEq] at h
      rcases h with ⟨h1, h2⟩ | h
      · rw [h1, h2]; exact List.mem_cons_self _ _
      · exact List.mem_cons_of_mem _ (ih h)
    | yield => exact List.mem_cons_of_mem _ (ih h)
    | flash_erase a n => exact List.mem_cons_of_mem _ (ih h)
    | flash_program a b => exact List.mem_cons_of_mem _ (ih h)
    | delay ms => exact List.mem_cons_of_mem _ (ih h)
    | system_reset => exact List.mem_cons_of_mem _ (ih h)

theorem finish_frame_is_frame : is_frame CMD_OTA_FINISH finish_frame := by decide

/-- With the send hook installed, a FINISH reply of OK_FINISH means all checks passed. -/
theorem finish_reply_ok_checks (hw : Hw) (s : Ota) (data : List Byte)
    (hf : is_frame CMD_OTA_FINISH data)
    (h : Effect.send RSP_OTA [0x01] ∈ feed_actions hw s data) : finish_checks s := by
  by_contra hn
  obtain ⟨_, _, l, hl, hnot⟩ := finish_failure hw s hn
  unfold feed_actions at h
  rw [feed_finish_eq hw s data hf, hl, trace_drop_append] at h
  exact hnot h

theorem write_flag_trace (hw : Hw) (s : Ota) (f : ota_flag) :
    ∃ l, (ota_write_flag hw s f).trace = s.trace ++ l ∧ sent l = [] := by
  unfold ota_write_flag
  split
  · exact ⟨[], by simp, rfl⟩
  · exact ⟨_, rfl, rfl⟩

/-- The actions of a FINISH whose checks pass. -/
theorem finish_success_actions (hw : Hw) (s : Ota) (data : List Byte)
    (hf : is_frame CMD_OTA_FINISH data) (hsend : s.s_send = true) (hc : finish_checks s) :
    sent (feed_actions hw s data) = [(RSP_OTA, [0x01])] := by
  obtain ⟨l, hl, hl2⟩ := write_flag_trace hw { s with s_state := .OTA_VERIFYING } (armed_flag s)
  have hs : ({ ota_write_flag hw { s with s_state := .OTA_VERIFYING } (armed_flag s) with
      s_state := .OTA_PENDING_REBOOT } : Ota).s_send = true := by
    show (ota_write_flag hw { s with s_state := .OTA_VERIFYING } (armed_flag s)).s_send = true
    rw [write_flag_send]
    exact hsend
  unfold feed_actions
  rw [feed_finish_eq hw s data hf, finish_success hw s hc]
  simp only []
  rw [send_hook_trace _ _ _ hs]
  simp only []
  rw [hl]
  simp only [List.append_assoc, trace_drop_append, sent_append, hl2, List.nil_append]
  rfl

theorem finish_success_flag (hw : Hw) (s : Ota) (data : List Byte) (hi : Inv s)
    (hf : is_frame CMD_OTA_FINISH data) (hok : hw.flash_init_ok = true)
    (hc : finish_checks s) : ota_read_flag (ota_feed hw s data).flash = armed_flag s := by
  rw [feed_finish_eq hw s data hf, finish_success hw s hc]
  simp only [send_hook_flash, ota_write_flag, hok, Bool.true_eq_false, if_false]
  exact read_flag_programmed _ _ (armed_flag_wf s hi)

theorem flag_sector_kept {s t : Ota}
    (h : ∀ a, OTA_FLAG_ADDR ≤ a → t.flash a = s.flash a) : flag_sector t = flag_sector s :=
  flash_read_congr (fun a ha _ => h a ha)

theorem read_flag_wf (fl : Nat → Byte) : flag_wf (ota_read_flag fl) :=
  ⟨le32_lt _ _ _ _, (fl _).isLt, (fl _).isLt, (fl _).isLt, (fl _).isLt, le32_lt _ _ _ _,
    le32_lt _ _ _ _⟩

/-- A flag write either does nothing (`flash.init()` failed) or stores the record. -/
theorem write_flag_cases (hw : Hw) (s : Ota) (f : ota_flag) (hf : flag_wf f) :
    (ota_write_flag hw s f).flash = s.flash ∨ ota_read_flag (ota_write_flag hw s f).flash = f := by
  unfold ota_write_flag
  split
  · exact Or.inl rfl
  · exact Or.inr (read_flag_programmed _ _ hf)

theorem clear_pending_confirm_cases (hw : Hw) (s : Ota) :
    (ota_clear_pending_confirm hw s).flash = s.flash ∨
    (ota_read_flag (ota_clear_pending_confirm hw s).flash).pending = 0 := by
  unfold ota_clear_pending_confirm
  simp only []
  split
  · exact Or.inl rfl
  · have hwf := read_flag_wf s.flash
    rcases write_flag_cases hw s { ota_read_flag s.flash with confirmed := 1, pending := 0 }
      ⟨hwf.1, Nat.zero_lt_succ _, Nat.succ_lt_succ (Nat.zero_lt_succ _), hwf.2.2.2.1,
        hwf.2.2.2.2.1, hwf.2.2.2.2.2.1, hwf.2.2.2.2.2.2⟩ with h | h
    · exact Or.inl h
    · exact Or.inr (by rw [h])

theorem rollback_pending_cases (hw : Hw) (s : Ota) :
    (ota_rollback_pending hw s).flash = s.flash ∨
    (ota_read_flag (ota_rollback_pending hw s).flash).pending = 0 := by
  unfold ota_rollback_pending
  simp only []
  split
  · exact Or.inl rfl
  · have hwf := read_flag_wf s.flash
    rcases write_flag_cases hw s { ota_read_flag s.flash with pending := 0, confirmed := 0 }
      ⟨hwf.1, Nat.zero_lt_succ _, Nat.zero_lt_succ _, hwf.2.2.2.1,
        hwf.2.2.2.2.1, hwf.2.2.2.2.2.1, hwf.2.2.2.2.2.2⟩ with h | h
    · exact Or.inl h
    · exact Or.inr (by rw [h])

/-- An accepted DATA frame programs below the flag sector only. -/
theorem data_accepted_flash_flag_sector (hw : Hw) (s : Ota) (data : List Byte) (hi : Inv s)
    (h : DataAccepted s data) (a : Nat) (ha : OTA_FLAG_ADDR ≤ a) :
    (ota_feed hw s data).flash a = s.flash a := by
  by_cases hok : hw.flash_init_ok = true
  · rw [data_accepted_flash hw s data hi h hok]
    apply flash_program_outside
    have hlen := data_chunk_length data h.frame.2.2 h.paylen
    have hfit := h.fits
    have hne : s.s_state ≠ .OTA_IDLE := by
      rcases h.state with e | e <;> rw [e] <;> decide
    have hsz := (hi.size_ok hne).2
    simp only [OTA_SLOT_B_ADDR, OTA_STAGING_SIZE, OTA_FLAG_ADDR, Nat.reduceMul] at hsz ha ⊢
    omega
  · rw [feed_data_accept hw s data hi h, data_accept_flash_unchanged]
    simpa using hok

/-- What `ota_feed` does to the flag sector, by frame: nothing, unless the frame is a
FINISH whose checks pass, or a CONFIRM (which stores `pending = 0`). -/
theorem feed_flag_cases (hw : Hw) (s : Ota) (data : List Byte) (hi : Inv s) :
    (∀ a, OTA_FLAG_ADDR ≤ a → (ota_feed hw s data).flash a = s.flash a) ∨
    (is_frame CMD_OTA_FINISH data ∧ finish_checks s) ∨
    (is_frame CMD_OTA_CONFIRM data ∧ (ota_read_flag (ota_feed hw s data).flash).pending = 0) := by
  by_cases hm : data.length < 3 ∨ data.length < 3 + frame_paylen data
  · rw [feed_malformed hw s data hm]
    exact Or.inl (fun _ _ => rfl)
  have hf : ∀ ty, (data.getD 0 0).val = ty → is_frame ty data :=
    fun ty hty => ⟨by omega, hty, by omega⟩
  by_cases hacc : DataAccepted s data
  · exact Or.inl (data_accepted_flash_flag_sector hw s data hi hacc)
  by_cases hfin : is_frame CMD_OTA_FINISH data
  · by_cases hc : finish_checks s
    · exact Or.inr (Or.inl ⟨hfin, hc⟩)
    · rw [feed_finish_eq hw s data hfin, (finish_failure hw s hc).1]
      exact Or.inl (fun _ _ => rfl)
  rw [feed_dispatch hw s data _ (hf _ rfl)]
  split
  · exact Or.inl (fun _ _ => by rw [start_flash])
  split
  · rename_i hty
    have h := feed_data_rejected hw s data hi (hf _ hty) hacc
    rw [feed_data_eq hw s data (hf _ hty)] at h
    exact Or.inl (fun _ _ => by rw [h.2.1])
  split
  · rename_i hty
    exact absurd (hf _ hty) hfin
  split
  · exact Or.inl (fun _ _ => by rw [abort_flash])
  split
  · exact Or.inl (fun _ _ => by rw [status_flash])
  split
  · rename_i hty
    unfold ota_feed_confirm ota_confirm
    rw [send_hook_flash]
    rcases clear_pending_confirm_cases hw s with h | h
    · exact Or.inl (fun _ _ => by rw [h])
    · exact Or.inr (Or.inr ⟨hf _ hty, h⟩)
  split
  · exact Or.inl (fun _ _ => by rw [reboot_flash])
  split
  · exact Or.inl (fun _ _ => by rw [get_log_flash])
  · exact Or.inl (fun _ _ => rfl)

/-- The effect of an accepted DATA frame: state, counters, CRC, and the one reply. -/
theorem data_accepted_effect (hw : Hw) (s : Ota) (data : List Byte) (hi : Inv s)
    (hsend : s.s_send = true) (h : DataAccepted s data) :
    (ota_feed hw s data).s_state = .OTA_RECEIVING ∧
    (ota_feed hw s data).s_send = true ∧
    (ota_feed hw s data).ctx.total_size = s.ctx.total_size ∧
    (ota_feed hw s data).ctx.expected_crc32 = s.ctx.expected_crc32 ∧
    sent (feed_actions hw s data)
      = [(RSP_OTA, 0x00 :: (bytes_of_u32 (s.ctx.next_expected_offset + data_chunk_len data)
            ++ bytes_of_u32 s.ctx.total_size))] := by
  have hlen := data_chunk_length data h.frame.2.2 h.paylen
  have hne : s.s_state ≠ .OTA_IDLE := by
    rcases h.state with e | e <;> rw [e] <;> decide
  have hsz := (hi.size_ok hne).2
  have ht := hi.total_lt
  have hfit := h.fits
  have hoff := h.in_order
  have hu1 : u32 (data_offset data + data_chunk_len data)
      = s.ctx.next_expected_offset + data_chunk_len data := by
    rw [u32_of_lt (by omega), hoff]
  have ha : OTA_SLOT_B_ADDR + data_offset data + (data_chunk data).length < 2 ^ 32 := by
    simp only [OTA_STAGING_SIZE, OTA_SLOT_B_ADDR] at hsz ⊢
    omega
  obtain ⟨l, hl, htr⟩ := data_accept_trace hw s (data_offset data) (data_chunk data) hsend ha
  rw [hlen] at htr
  unfold feed_actions
  rw [feed_data_accept hw s data hi h]
  refine ⟨data_accept_state _ _ _ _ _, ?_, ?_, ?_, ?_⟩
  · rw [data_accept_send]; exact hsend
  · rw [data_accept_ctx]
  · rw [data_accept_ctx]
  · rw [htr, List.append_assoc, trace_drop_append, sent_append, hl, hu1]
    rfl

theorem flash_read_take (fl : Nat → Byte) (addr n m : Nat) (h : n ≤ m) :
    (flash_read fl addr m).take n = flash_read fl addr n := by
  obtain ⟨k, rfl⟩ : ∃ k, m = n + k := ⟨m - n, by omega⟩
  rw [flash_read_add, List.take_left' (flash_read_length _ _ _)]

/-- One accepted step of the happy path: the frame built from `chunk` at the expected
offset `off` is accepted and acknowledged with the new offset `n` and the total `tot`, and
the session log gains the chunk. -/
theorem good_frame_step (hw : Hw) (s : Ota) (off n tot : Nat) (chunk : List Byte)
    (log : List (List Byte)) (hi : Inv s) (hg : SessionInv s log) (hsend : s.s_send = true)
    (hok : hw.flash_init_ok = true)
    (hst : s.s_state = .OTA_READY_FOR_DATA ∨ s.s_state = .OTA_RECEIVING)
    (hoff : s.ctx.next_expected_offset = off) (hn : off + chunk.length = n)
    (htot : s.ctx.total_size = tot)
    (hmax : chunk.length ≤ OTA_CHUNK_MAX) (hfit : n ≤ tot) :
    Inv (ota_feed hw s (good_data_frame off chunk)) ∧
    SessionInv (ota_feed hw s (good_data_frame off chunk)) (log ++ [chunk]) ∧
    (ota_feed hw s (good_data_frame off chunk)).s_state = .OTA_RECEIVING ∧
    (ota_feed hw s (good_data_frame off chunk)).s_send = true ∧
    (ota_feed hw s (good_data_frame off chunk)).ctx.total_size = tot ∧
    (ota_feed hw s (good_data_frame off chunk)).ctx.expected_crc32 = s.ctx.expected_crc32 ∧
    (ota_feed hw s (good_data_frame off chunk)).ctx.next_expected_offset = n ∧
    sent (feed_actions hw s (good_data_frame off chunk))
      = [(RSP_OTA, 0x00 :: (bytes_of_u32 n ++ bytes_of_u32 tot))] := by
  subst hoff hn htot
  have hl : chunk.length + 8 < 2 ^ 16 := by simp only [OTA_CHUNK_MAX] at hmax; omega
  have ha := good_data_frame_accepted s _ chunk hi hst rfl hmax hfit
  have he := data_accepted_effect hw s _ hi hsend ha
  have ho := data_accepted_offsets hw s _ hi ha
  have hs := session_inv_accept hw s _ log hg hi ha hok
  have hc : data_chunk (good_data_frame s.ctx.next_expected_offset chunk) = chunk :=
    data_frame_chunk _ _ _ hl
  have hcl : data_chunk_len (good_data_frame s.ctx.next_expected_offset chunk)
      = chunk.length := data_frame_chunk_len _ _ _ hl
  rw [hc] at hs
  rw [hcl] at he ho
  exact ⟨inv_feed hw s _ hi, hs, he.1, he.2.1, he.2.2.1, he.2.2.2.1, ho.1, he.2.2.2.2⟩

/-- A START frame built by the host sets `expected_crc32` to its CRC field. -/
theorem start_frame_expected (hw : Hw) (s : Ota) (slot version total_size crc : Nat)
    (hc : crc < 2 ^ 32) :
    (ota_feed hw s (start_frame slot version total_size crc)).ctx.expected_crc32 = crc := by
  have hf : is_frame CMD_OTA_START (start_frame slot version total_size crc) :=
    mk_frame_is_frame _ _ (by decide) (by simp [bytes_of_u32_length])
  have hp : frame_paylen (start_frame slot version total_size crc) = 11 := by
    unfold start_frame
    rw [mk_frame_paylen _ _ (by simp [bytes_of_u32_length])]
    simp [bytes_of_u32_length]
  have he : le32 (((start_frame slot version total_size crc).drop 3).getD 7 0)
      (((start_frame slot version total_size crc).drop 3).getD 8 0)
      (((start_frame slot version total_size crc).drop 3).getD 9 0)
      (((start_frame slot version total_size crc).drop 3).getD 10 0) = crc := by
    unfold start_frame mk_frame bytes_of_u32
    simp only [List.cons_append, List.nil_append, List.drop_succ_cons, List.drop_zero,
      List.getD_cons_succ, List.getD_cons_zero]
    exact le32_bytes_of_u32 hc
  rw [feed_start_eq hw s _ hf, hp]
  unfold ota_feed_start
  rw [if_neg (by decide)]
  simp only [set_error, he]
  split_ifs <;> simp only [send_hook_ctx, log_event_ctx]

theorem poll_expected (hw : Hw) (s : Ota) :
    (ota_poll hw s).ctx.expected_crc32 = s.ctx.expected_crc32 := by
  have h := (poll_core hw s).2.1
  simp only [ctx_core, Prod.mk.injEq] at h
  exact h.2.1

/-- A START frame with a full payload is never an accepted DATA frame, nor is an ABORT. -/
theorem accepted_not_restart (s : Ota) (data : List Byte) (h : DataAccepted s data) :
    restarts_session (Call.feed data) = false := by
  have hty := h.frame.2.1
  simp only [restarts_session, decide_eq_false_iff_not, not_or, not_and]
  constructor
  · intro hs
    have h2 := hs.2.1
    rw [hty] at h2
    cases h2
  · intro hs
    have h2 := hs.2.1
    rw [hty] at h2
    cases h2

theorem session_ready_reachable : Reachable session_ready := ⟨_, _, _, rfl⟩

theorem session_half_reachable : Reachable session_half :=
  session_ready_reachable.run _

theorem session_full_reachable : Reachable session_full :=
  session_half_reachable.run _

theorem session_1k_image_reachable : Reachable session_1k_image :=
  Reachable.run (Reachable.call ⟨power_up (fun _ => 0xFF), true, [], rfl⟩ (hw_ok 0)
    (Call.feed (start_frame 1 1 1024 (crc32 (image_part0 ++ image_part1 ++ image_part2)))))
    [(hw_ok 0, Call.poll), (hw_ok 0, Call.poll)]

/-! ## C1: an in-order DATA frame is accepted -/

/-- C1. In every reachable session (send hook installed) in state READY_FOR_DATA or
RECEIVING, a DATA frame whose offset is `next_expected_offset`, whose chunk length
`paylen - 8` is at most 480 with `offset + chunk_len ≤ total_size`, and whose trailing four
bytes are the CRC-32 of the chunk, makes `ota_feed` enter RECEIVING, advance
`next_expected_offset` and `bytes_received` by exactly the chunk length, fold the chunk into
`crc32_accum`, and send exactly one frame: RSP_OTA with the nine bytes
`[0x00, new next_expected_offset (LE), total_size (LE)]`. -/
theorem data_in_order_accepted (hw : Hw) (s : Ota) (data : List Byte)
    (hr : Reachable s) (hsend : s.s_send = true)
    (hst : s.s_state = .OTA_READY_FOR_DATA ∨ s.s_state = .OTA_RECEIVING)
    (hf : is_frame CMD_OTA_DATA data) (h8 : 8 ≤ frame_paylen data)
    (hoff : data_offset data = s.ctx.next_expected_offset)
    (hmax : data_chunk_len data ≤ 480)
    (hfit : data_offset data + data_chunk_len data ≤ s.ctx.total_size)
    (hcrc : data_chunk_crc data = crc32_update (crc32_table true) 0 (data_chunk data)) :
    (ota_feed hw s data).s_state = .OTA_RECEIVING ∧
    (ota_feed hw s data).ctx.next_expected_offset
      = s.ctx.next_expected_offset + data_chunk_len data ∧
    (ota_feed hw s data).ctx.bytes_received = s.ctx.bytes_received + data_chunk_len data ∧
    (ota_feed hw s data).ctx.crc32_accum
      = crc32_update (crc32_table true) s.ctx.crc32_accum (data_chunk data) ∧
    sent (feed_actions hw s data)
      = [(RSP_OTA, 0x00 :: (bytes_of_u32 (ota_feed hw s data).ctx.next_expected_offset
            ++ bytes_of_u32 s.ctx.total_size))] ∧
    (0x00 :: (bytes_of_u32 (ota_feed hw s data).ctx.next_expected_offset
            ++ bytes_of_u32 s.ctx.total_size)).length = 9 := by
  have hi := hr.inv
  have hacc : DataAccepted s data :=
    ⟨hf, h8, hst, hoff, hmax, hfit, by rw [hi.tbl]; exact hcrc⟩
  have hlen := data_chunk_length data hf.2.2 h8
  have hne : s.s_state ≠ .OTA_IDLE := by
    rcases hst with e | e <;> rw [e] <;> decide
  have hsz := (hi.size_ok hne).2
  have ht := hi.total_lt
  have hu1 : u32 (data_offset data + data_chunk_len data)
      = s.ctx.next_expected_offset + data_chunk_len data := by
    rw [u32_of_lt (by omega), hoff]
  have hu2 : u32 (s.ctx.bytes_received + data_chunk_len data)
      = s.ctx.bytes_received + data_chunk_len data := by
    rw [hi.br_eq, ← hoff]
    exact u32_of_lt (by omega)
  have ha : OTA_SLOT_B_ADDR + data_offset data + (data_chunk data).length < 2 ^ 32 := by
    simp only [OTA_STAGING_SIZE, OTA_SLOT_B_ADDR] at hsz ⊢
    omega
  have hfeed := feed_data_accept hw s data hi hacc
  obtain ⟨l, hl, htr⟩ := data_accept_trace hw s (data_offset data) (data_chunk data) hsend ha
  rw [hlen] at htr
  unfold feed_actions
  rw [hfeed]
  refine ⟨data_accept_state _ _ _ _ _, ?_, ?_, ?_, ?_, rfl⟩
  · rw [data_accept_ctx]; exact hu1
  · rw [data_accept_ctx]; exact hu2
  · rw [data_accept_ctx, hi.tbl]
  · rw [htr, List.append_assoc, trace_drop_append, sent_append, hl, data_accept_ctx]
    simp only [sent, hu1, List.nil_append]

set_option maxRecDepth 100000 in
/-- The preceding theorem applies to the second half of `example_image`. -/
theorem data_in_order_accepted_witness :
    (ota_feed (hw_ok 0) session_half (good_data_frame 4 (example_image.drop 4))).s_state
        = .OTA_RECEIVING ∧
    (ota_feed (hw_ok 0) session_half
        (good_data_frame 4 (example_image.drop 4))).ctx.next_expected_offset = 8 :=
  have h := data_in_order_accepted (hw_ok 0) session_half
    (good_data_frame 4 (example_image.drop 4)) session_half_reachable
    (by decide) (by decide) (by decide) (by decide) (by decide) (by decide) (by decide)
    (by decide)
  ⟨h.1, h.2.1.trans (by decide)⟩

/-! ## C2: the happy path of a 1 KiB image -/

set_option maxRecDepth 1000000 in
/-- C2, as stated, fails. In a session started with `total_size = 1024` that has reached
READY_FOR_DATA, the in-order DATA frame at offset 0 with a 512-byte chunk and a correct
chunk CRC is answered with RSP_OTA `[0x04]` (ERR_CHUNK), not with ACK(512, 1024), and the
state becomes ERROR: 512 exceeds `OTA_CHUNK_MAX = 480`. -/
theorem happy_path_512_byte_chunk_rejected :
    session_1k_ready.s_state = .OTA_READY_FOR_DATA ∧
    session_1k_ready.ctx.total_size = 1024 ∧
    sent (feed_actions (hw_ok 0) session_1k_ready (good_data_frame 0 (List.replicate 512 0)))
      = [(RSP_OTA, [0x04])] ∧
    sent (feed_actions (hw_ok 0) session_1k_ready (good_data_frame 0 (List.replicate 512 0)))
      ≠ [(RSP_OTA, 0x00 :: (bytes_of_u32 512 ++ bytes_of_u32 1024))] ∧
    (ota_feed (hw_ok 0) session_1k_ready (good_data_frame 0 (List.replicate 512 0))).s_state
      = .OTA_ERROR := by
  decide

/-- C2, amended. Happy-path scenario with chunks within `OTA_CHUNK_MAX`: in a session
started with `total_size = 1024` that has reached READY_FOR_DATA (send hook installed,
`flash.init()` succeeding), for every image of 480 + 480 + 64 bytes that starts with
`OTA_MAGIC` and whose CRC-32 is the `expected_crc32` of the START, the in-order DATA frame
at offset 0 with the first 480 bytes and a correct chunk CRC is acknowledged with
ACK(480, 1024), the DATA at offset 480 with the next 480 bytes with ACK(960, 1024), the
DATA at offset 960 with the last 64 bytes with ACK(1024, 1024), and FINISH then replies
OK_FINISH. -/
theorem happy_path_1k (s : Ota) (hr : Reachable s) (hsend : s.s_send = true)
    (hst : s.s_state = .OTA_READY_FOR_DATA) (htotal : s.ctx.total_size = 1024)
    (c0 c1 c2 : List Byte) (h0 : c0.length = 480) (h1 : c1.length = 480) (h2 : c2.length = 64)
    (hcrc : s.ctx.expected_crc32 = crc32 (c0 ++ c1 ++ c2))
    (hmagic : c0.take 4 = [0x54, 0x4F, 0x42, 0x53])
    (hw0 hw1 hw2 hw3 : Hw) (hok0 : hw0.flash_init_ok = true) (hok1 : hw1.flash_init_ok = true)
    (hok2 : hw2.flash_init_ok = true) :
    sent (feed_actions hw0 s (good_data_frame 0 c0))
      = [(RSP_OTA, 0x00 :: (bytes_of_u32 480 ++ bytes_of_u32 1024))] ∧
    sent (feed_actions hw1 (ota_feed hw0 s (good_data_frame 0 c0)) (good_data_frame 480 c1))
      = [(RSP_OTA, 0x00 :: (bytes_of_u32 960 ++ bytes_of_u32 1024))] ∧
    sent (feed_actions hw2
        (ota_feed hw1 (ota_feed hw0 s (good_data_frame 0 c0)) (good_data_frame 480 c1))
        (good_data_frame 960 c2))
      = [(RSP_OTA, 0x00 :: (bytes_of_u32 1024 ++ bytes_of_u32 1024))] ∧
    sent (feed_actions hw3
        (ota_feed hw2
          (ota_feed hw1 (ota_feed hw0 s (good_data_frame 0 c0)) (good_data_frame 480 c1))
          (good_data_frame 960 c2))
        finish_frame)
      = [(RSP_OTA, [0x01])] := by
  have hi := hr.inv
  have hfr := hi.fresh (Or.inr (Or.inr hst))
  have hg : SessionInv s [] := session_inv_zero s (by rw [hi.br_eq]; exact hfr.1) hfr.2
  have hn0 : s.ctx.next_expected_offset = 0 := hfr.1
  obtain ⟨i1, g1, st1, sd1, t1, x1, n1, r1⟩ := good_frame_step hw0 s 0 480 1024 c0 [] hi hg
    hsend hok0 (Or.inl hst) hn0 (by rw [h0]) htotal (by rw [h0]) (by decide)
  generalize ota_feed hw0 s (good_data_frame 0 c0) = s1 at i1 g1 st1 sd1 t1 x1 n1 r1 ⊢
  obtain ⟨i2, g2, st2, sd2, t2, x2, n2, r2⟩ := good_frame_step hw1 s1 480 960 1024 c1 _ i1 g1
    sd1 hok1 (Or.inr st1) n1 (by rw [h1]) t1 (by rw [h1]) (by decide)
  generalize ota_feed hw1 s1 (good_data_frame 480 c1) = s2 at i2 g2 st2 sd2 t2 x2 n2 r2 ⊢
  obtain ⟨i3, g3, st3, sd3, t3, x3, n3, r3⟩ := good_frame_step hw2 s2 960 1024 1024 c2 _ i2 g2
    sd2 hok2 (Or.inr st2) n2 (by rw [h2]) t2 (by rw [h2]; decide) (by decide)
  generalize ota_feed hw2 s2 (good_data_frame 960 c2) = s3 at i3 g3 st3 sd3 t3 x3 n3 r3 ⊢
  refine ⟨r1, r2, r3, ?_⟩
  have hflat : ([] ++ [c0] ++ [c1] ++ [c2] : List (List Byte)).flatten = c0 ++ c1 ++ c2 := by
    simp
  unfold SessionInv at g3
  rw [hflat] at g3
  have hbr : s3.ctx.bytes_received = 1024 := by rw [i3.br_eq, n3]
  have hc : finish_checks s3 := by
    refine ⟨st3, by rw [hbr, t3], by rw [g3.2, x3, x2, x1, hcrc], ?_⟩
    apply magic_bytes
    have hst4 : staged s3 4 = (staged s3 1024).take 4 := (flash_read_take _ _ 4 1024 (by decide)).symm
    rw [hbr] at g3
    unfold staged at hst4 g3
    rw [hst4, g3.1, List.append_assoc, List.take_append_of_le_length (by rw [h0]; decide), hmagic]
  exact finish_success_actions hw3 s3 finish_frame finish_frame_is_frame sd3 hc

set_option maxRecDepth 100000 in
/-- The preceding theorem applies to the 1 KiB image made of `image_part0`,
`image_part1` and `image_part2`: its first chunk is acknowledged with ACK(480, 1024). -/
theorem happy_path_1k_witness :
    sent (feed_actions (hw_ok 0) session_1k_image (good_data_frame 0 image_part0))
      = [(RSP_OTA, 0x00 :: (bytes_of_u32 480 ++ bytes_of_u32 1024))] :=
  (happy_path_1k session_1k_image session_1k_image_reachable
    (by decide) (by decide) (by decide) image_part0 image_part1 image_part2
    (by simp [image_part0]) (by simp [image_part1]) (by simp [image_part2])
    ((poll_expected _ _).trans ((poll_expected _ _).trans
      (start_frame_expected _ _ _ _ _ _ (crc32_lt _))))
    (by decide) (hw_ok 0) (hw_ok 0) (hw_ok 0) (hw_ok 0) rfl rfl rfl).1

/-! ## C3: bytes_received and next_expected_offset agree -/

/-- C3. In every state reached from `ota_init` (on any statics, with or without a send
hook) by any sequence of calls of the module (`ota_feed` on any frame, valid or not,
`ota_poll`, `ota_reset`, and the other entry points), with any hardware answers,
`ctx.bytes_received == ctx.next_expected_offset`. -/
theorem bytes_received_eq_next_expected_offset (s0 : Ota) (send_fn : Bool)
    (calls : List (Hw × Call)) :
    (run (ota_init s0 send_fn) calls).ctx.bytes_received
      = (run (ota_init s0 send_fn) calls).ctx.next_expected_offset :=
  (inv_run _ calls (inv_init s0 send_fn)).br_eq

/-! ## C4: next_expected_offset does not decrease without START or ABORT -/

/-- C4. From any reachable state, along every sequence of `ota_feed` / `ota_poll` calls
that contains no START and no ABORT frame, `next_expected_offset` after each call (the
`k+1`-th) is at least its value before that call: it never decreases, and no 32-bit
wrap-around occurs. -/
theorem next_expected_offset_monotone (s : Ota) (hr : Reachable s) (calls : List (Hw × Call))
    (hc : ∀ x ∈ calls, no_start_abort x.2 = true) (k : Nat) :
    (run s (calls.take k)).ctx.next_expected_offset
      ≤ (run s (calls.take (k + 1))).ctx.next_expected_offset := by
  rw [List.take_succ, run_append]
  cases hk : calls[k]? with
  | none => exact le_refl _
  | some x =>
    have hx : x ∈ calls := List.getElem?_mem hk
    exact call_neo_mono x.1 _ x.2 (hr.run _).inv (hc x hx)

set_option maxRecDepth 100000 in
/-- The preceding theorem applies to a DATA frame followed by a poll
in the example session. -/
theorem next_expected_offset_monotone_witness :
    (run session_ready
        ([(hw_ok 0, Call.feed (good_data_frame 0 (example_image.take 4))),
          (hw_ok 0, Call.poll)].take 0)).ctx.next_expected_offset
      ≤ (run session_ready
        ([(hw_ok 0, Call.feed (good_data_frame 0 (example_image.take 4))),
          (hw_ok 0, Call.poll)].take 1)).ctx.next_expected_offset :=
  next_expected_offset_monotone session_ready session_ready_reachable
    [(hw_ok 0, Call.feed (good_data_frame 0 (example_image.take 4))), (hw_ok 0, Call.poll)]
    (by decide) 0

/-! ## C5: the staging area holds the accepted chunks, in order -/

/-- C6. Flash modelled as explicit state, with `flash.init()` succeeding in every call after
the START: in every state reached from a reachable state by a START frame with its full
11-byte payload (valid or not in its size field) and then any sequence of calls,
`crc32_accum` equals `crc32_update(0, b)` where `b` is the first `bytes_received` bytes of
the staging area. -/
theorem crc32_accum_is_crc_of_staged (s : Ota) (hr : Reachable s) (hw : Hw)
    (start : List Byte) (hf : is_frame CMD_OTA_START start) (h11 : 11 ≤ frame_paylen start)
    (calls : List (Hw × Call)) (hok : flash_ok calls) :
    (run (ota_feed hw s start) calls).ctx.crc32_accum
      = crc32_update (crc32_table true) 0
          (staged (run (ota_feed hw s start) calls)
            (run (ota_feed hw s start) calls).ctx.bytes_received) := by
  have hi := inv_feed hw s start hr.inv
  have hz : SessionInv (ota_feed hw s start) [] := by
    rw [feed_start_eq hw s start hf]
    have hz := start_zeroes s (start.drop 3) (frame_paylen start) h11
    exact session_inv_zero _ hz.1 hz.2.1
  have hg := session_inv_run _ calls [] hz hi hok
  rw [hg.2, hg.1]
  rfl

set_option maxRecDepth 100000 in
/-- The preceding theorem applies to the example session. -/
theorem crc32_accum_is_crc_of_staged_witness :
    session_full.ctx.crc32_accum = crc32_update (crc32_table true) 0 (staged session_full 8) :=
  crc32_accum_is_crc_of_staged (ota_init (power_up (fun _ => 0xFF)) true) ⟨_, _, [], rfl⟩
    (hw_ok 0) (start_frame 1 1 8 (crc32 example_image)) (by decide) (by decide)
    [(hw_ok 0, Call.poll), (hw_ok 0, Call.poll),
     (hw_ok 0, Call.feed (good_data_frame 0 (example_image.take 4))),
     (hw_ok 0, Call.feed (good_data_frame 4 (example_image.drop 4)))] (by decide)

/-! ## C7: when FINISH succeeds -/

set_option maxRecDepth 1000000 in
/-- C7, as stated, fails. In `session_bad_magic` (state RECEIVING) the CRC-32 of the staged
bytes over `[0, total_size)` equals `expected_crc32`, yet FINISH replies ERR_BAD_MAGIC
(`[0x05]`) and leaves the flag record erased; in `session_short` the same CRC equality
holds, yet FINISH replies ERR_SIZE_MISMATCH (`[0x03]`). -/
theorem finish_not_iff_crc :
    (session_bad_magic.s_state = .OTA_RECEIVING ∧
      crc32 (staged session_bad_magic session_bad_magic.ctx.total_size)
        = session_bad_magic.ctx.expected_crc32 ∧
      sent (feed_actions (hw_ok 0) session_bad_magic finish_frame) = [(RSP_OTA, [0x05])] ∧
      (ota_read_flag (ota_feed (hw_ok 0) session_bad_magic finish_frame).flash).pending = 0xFF ∧
      ¬ finish_succeeds (hw_ok 0) session_bad_magic) ∧
    (session_short.s_state = .OTA_RECEIVING ∧
      crc32 (staged session_short session_short.ctx.total_size)
        = session_short.ctx.expected_crc32 ∧
      sent (feed_actions (hw_ok 0) session_short finish_frame) = [(RSP_OTA, [0x03])] ∧
      ¬ finish_succeeds (hw_ok 0) session_short) := by
  decide

/-- C7, amended. Flash modelled as explicit state with `flash.init()` succeeding in every
call since the START, send hook installed: in every session in state RECEIVING, FINISH
succeeds (replies OK_FINISH and arms the persistent flag) if and only if
`bytes_received == total_size`, the CRC-32 of the staged bytes over `[0, total_size)`
equals `expected_crc32`, and the first four staged bytes read as a little-endian word are
`OTA_MAGIC`. -/
theorem finish_succeeds_iff (s : Ota) (hr : Reachable s) (hw0 : Hw) (start : List Byte)
    (hf : is_frame CMD_OTA_START start) (h11 : 11 ≤ frame_paylen start)
    (calls : List (Hw × Call)) (hok : flash_ok calls) (hw : Hw)
    (hwok : hw.flash_init_ok = true)
    (hsend : (run (ota_feed hw0 s start) calls).s_send = true)
    (hst : (run (ota_feed hw0 s start) calls).s_state = .OTA_RECEIVING) :
    finish_succeeds hw (run (ota_feed hw0 s start) calls) ↔
      ((run (ota_feed hw0 s start) calls).ctx.bytes_received
          = (run (ota_feed hw0 s start) calls).ctx.total_size ∧
        crc32 (staged (run (ota_feed hw0 s start) calls)
            (run (ota_feed hw0 s start) calls).ctx.total_size)
          = (run (ota_feed hw0 s start) calls).ctx.expected_crc32 ∧
        flash_read32 (run (ota_feed hw0 s start) calls).flash OTA_SLOT_B_ADDR = OTA_MAGIC) := by
  have hi0 := inv_feed hw0 s start hr.inv
  have hz : SessionInv (ota_feed hw0 s start) [] := by
    rw [feed_start_eq hw0 s start hf]
    have hz := start_zeroes s (start.drop 3) (frame_paylen start) h11
    exact session_inv_zero _ hz.1 hz.2.1
  have hg := session_inv_run _ calls [] hz hi0 hok
  have hi := inv_run _ calls hi0
  generalize run (ota_feed hw0 s start) calls = t at hg hi hsend hst ⊢
  have hcrc : t.ctx.crc32_accum = crc32 (staged t t.ctx.bytes_received) := by
    rw [hg.2, hg.1]
  constructor
  · intro h
    have hmem : Effect.send RSP_OTA [0x01] ∈ feed_actions hw t finish_frame :=
      mem_sent (by rw [h.1]; exact List.mem_cons_self _ _)
    obtain ⟨_, h2, h3, h4⟩ := finish_reply_ok_checks hw t finish_frame finish_frame_is_frame hmem
    exact ⟨h2, by rw [← h2, ← hcrc, h3], h4⟩
  · rintro ⟨h2, h3, h4⟩
    have hc : finish_checks t := ⟨hst, h2, by rw [hcrc, h2, h3], h4⟩
    exact ⟨finish_success_actions hw t finish_frame finish_frame_is_frame hsend hc,
      finish_success_flag hw t finish_frame hi finish_frame_is_frame hwok hc⟩

set_option maxRecDepth 1000000 in
/-- The preceding theorem applies to the example session with its image fully
staged: FINISH succeeds there. -/
theorem finish_succeeds_iff_witness :
    finish_succeeds (hw_ok 0) session_full :=
  (finish_succeeds_iff (ota_init (power_up (fun _ => 0xFF)) true) ⟨_, _, [], rfl⟩
    (hw_ok 0) (start_frame 1 1 8 (crc32 example_image)) (by decide) (by decide)
    [(hw_ok 0, Call.poll), (hw_ok 0, Call.poll),
     (hw_ok 0, Call.feed (good_data_frame 0 (example_image.take 4))),
     (hw_ok 0, Call.feed (good_data_frame 4 (example_image.drop 4)))] (by decide) (hw_ok 0)
    (by decide) (by decide) (by decide)).mpr (by decide)

/-! ## C8: a successful FINISH arms the flag, replies, and resets -/

set_option maxRecDepth 100000 in
/-- C8, as stated, fails. `session_full` is in state RECEIVING with
`bytes_received == total_size`, `crc32_accum == expected_crc32` and the staging slot
beginning with `OTA_MAGIC`. When `flash.init()` fails in `ota_write_flag`, FINISH still
replies RSP_OTA `[0x01]`, sets the state to PENDING_REBOOT and requests the reset, but
erases and programs nothing: the flag sector stays erased and the record read back has
magic `0xFFFFFFFF` and `pending = 0xFF`, not the armed record. -/
theorem finish_acks_without_flag_when_flash_init_fails :
    session_full.s_state = .OTA_RECEIVING ∧
    session_full.ctx.bytes_received = session_full.ctx.total_size ∧
    session_full.ctx.crc32_accum = session_full.ctx.expected_crc32 ∧
    staged session_full 4 = [0x54, 0x4F, 0x42, 0x53] ∧
    feed_actions (hw_flash_fails 0) session_full finish_frame
      = [Effect.send RSP_OTA [0x01], Effect.delay 50, Effect.system_reset] ∧
    (ota_feed (hw_flash_fails 0) session_full finish_frame).s_state = .OTA_PENDING_REBOOT ∧
    (ota_read_flag (ota_feed (hw_flash_fails 0) session_full finish_frame).flash).magic
      = 0xFFFFFFFF ∧
    (ota_read_flag (ota_feed (hw_flash_fails 0) session_full finish_frame).flash).pending
      = 0xFF := by
  decide

/-- C8, amended. In every reachable session (send hook installed, `flash.init()` succeeding)
in state RECEIVING with `bytes_received == total_size`, `crc32_accum == expected_crc32` and
the first four staging bytes equal to `54 4F 42 53` (`OTA_MAGIC`, little-endian), a FINISH
frame performs exactly: erase of the flag sector, one program of the 16-byte record, the
reply RSP_OTA `[0x01]`, a 50 ms delay, the system reset, in this order. The record read back
is `{magic = 0x4F544146, pending = 1, confirmed = 0, slot = 1, reserved = 0,
size = total_size, crc32 = expected_crc32}`, and the state is PENDING_REBOOT. -/
theorem finish_arms_flag (hw : Hw) (s : Ota) (data : List Byte)
    (hr : Reachable s) (hsend : s.s_send = true) (hok : hw.flash_init_ok = true)
    (hf : is_frame CMD_OTA_FINISH data)
    (hst : s.s_state = .OTA_RECEIVING)
    (hbr : s.ctx.bytes_received = s.ctx.total_size)
    (hacc : s.ctx.crc32_accum = s.ctx.expected_crc32)
    (hmagic : staged s 4 = [0x54, 0x4F, 0x42, 0x53]) :
    ota_read_flag (ota_feed hw s data).flash =
      { magic := 0x4F544146, pending := 1, confirmed := 0, slot := 1, _res := 0,
        size := s.ctx.total_size, crc32 := s.ctx.expected_crc32 } ∧
    (ota_feed hw s data).s_state = .OTA_PENDING_REBOOT ∧
    feed_actions hw s data =
      [Effect.flash_erase OTA_FLAG_ADDR 4096,
       Effect.flash_program OTA_FLAG_ADDR (flag_bytes
         { magic := 0x4F544146, pending := 1, confirmed := 0, slot := 1, _res := 0,
           size := s.ctx.total_size, crc32 := s.ctx.expected_crc32 }),
       Effect.send RSP_OTA [0x01], Effect.delay 50, Effect.system_reset] := by
  have hi := hr.inv
  have hc : finish_checks s := ⟨hst, hbr, hacc, magic_bytes _ _ hmagic⟩
  have hwf := armed_flag_wf s hi
  unfold feed_actions
  rw [feed_finish_eq hw s data hf, finish_success hw s hc]
  simp only [send_hook, ota_write_flag, hok, hsend, if_true, Bool.true_eq_false, if_false]
  refine ⟨?_, trivial, ?_⟩
  · exact read_flag_programmed _ _ hwf
  · simp only [List.append_assoc, trace_drop_append]
    rfl

set_option maxRecDepth 100000 in
/-- The preceding theorem applies to the example session once the whole image is
staged. -/
theorem finish_arms_flag_witness :
    ota_read_flag (ota_feed (hw_ok 0) session_full finish_frame).flash =
      { magic := 0x4F544146, pending := 1, confirmed := 0, slot := 1, _res := 0,
        size := 8, crc32 := crc32 example_image } ∧
    (ota_feed (hw_ok 0) session_full finish_frame).s_state = .OTA_PENDING_REBOOT :=
  have h := finish_arms_flag (hw_ok 0) session_full finish_frame session_full_reachable
    (by decide) (by decide) (by decide) (by decide) (by decide) (by decide) (by decide)
  ⟨h.1.trans (by decide), h.2.1⟩

/-! ## C9: who writes the persistent flag sector -/

/-- C9. In every reachable state with the send hook installed: (1) `ota_feed` leaves the
flag sector byte-for-byte unchanged on every frame whose type byte is START, DATA, ABORT,
STATUS or GET_LOG, and on every FINISH frame that does not reply OK_FINISH; (2) `ota_poll`
leaves it unchanged; (3) whatever the call, if the stored record has `pending == 1`
afterwards, then either the sector is unchanged by the call, or the call is a FINISH in
state RECEIVING whose size, whole-image CRC and magic checks all passed. -/
theorem flag_sector_written_only_by_finish (hw : Hw) (s : Ota) (hr : Reachable s)
    (hsend : s.s_send = true) :
    (∀ data : List Byte,
      ((data.getD 0 0).val = CMD_OTA_START ∨ (data.getD 0 0).val = CMD_OTA_DATA ∨
        (data.getD 0 0).val = CMD_OTA_ABORT ∨ (data.getD 0 0).val = CMD_OTA_STATUS ∨
        (data.getD 0 0).val = CMD_OTA_GET_LOG ∨
        ((data.getD 0 0).val = CMD_OTA_FINISH ∧
          Effect.send RSP_OTA [0x01] ∉ feed_actions hw s data)) →
      flag_sector (ota_feed hw s data) = flag_sector s) ∧
    flag_sector (ota_poll hw s) = flag_sector s ∧
    (∀ c : Call, (ota_read_flag (ota_call hw s c).flash).pending = 1 →
      flag_sector (ota_call hw s c) = flag_sector s ∨
      ∃ data, c = Call.feed data ∧ is_frame CMD_OTA_FINISH data ∧ finish_checks s) := by
  have hi := hr.inv
  refine ⟨?_, flag_sector_kept (poll_flash_flag_sector hw s hi), ?_⟩
  · intro data hty
    rcases feed_flag_cases hw s data hi with h | ⟨hf, hc⟩ | ⟨hf, _⟩
    · exact flag_sector_kept h
    · have h2 := hf.2.1
      rcases hty with e | e | e | e | e | ⟨_, hno⟩
      · rw [h2] at e; cases e
      · rw [h2] at e; cases e
      · rw [h2] at e; cases e
      · rw [h2] at e; cases e
      · rw [h2] at e; cases e
      · have hs := finish_success_actions hw s data hf hsend hc
        exact absurd (mem_sent (by rw [hs]; exact List.mem_cons_self _ _)) hno
    · have h2 := hf.2.1
      rcases hty with e | e | e | e | e | ⟨e, _⟩ <;> (rw [h2] at e; cases e)
  · intro c hp
    cases c with
    | feed data =>
      rcases feed_flag_cases hw s data hi with h | ⟨hf, hc⟩ | ⟨_, h0⟩
      · exact Or.inl (flag_sector_kept h)
      · exact Or.inr ⟨data, rfl, hf, hc⟩
      · have hp2 : (ota_read_flag (ota_feed hw s data).flash).pending = 1 := hp
        rw [h0] at hp2
        cases hp2
    | poll => exact Or.inl (flag_sector_kept (poll_flash_flag_sector hw s hi))
    | reset => exact Or.inl rfl
    | set_yield y => exact Or.inl rfl
    | confirm =>
      rcases clear_pending_confirm_cases hw s with h | h
      · exact Or.inl (flag_sector_kept (fun _ _ => by
          show (ota_clear_pending_confirm hw s).flash _ = _
          rw [h]))
      · have hp2 : (ota_read_flag (ota_clear_pending_confirm hw s).flash).pending = 1 := hp
        rw [h] at hp2
        cases hp2
    | clear_pending_confirm =>
      rcases clear_pending_confirm_cases hw s with h | h
      · exact Or.inl (flag_sector_kept (fun _ _ => by
          show (ota_clear_pending_confirm hw s).flash _ = _
          rw [h]))
      · have hp2 : (ota_read_flag (ota_clear_pending_confirm hw s).flash).pending = 1 := hp
        rw [h] at hp2
        cases hp2
    | rollback_pending =>
      rcases rollback_pending_cases hw s with h | h
      · exact Or.inl (flag_sector_kept (fun _ _ => by
          show (ota_rollback_pending hw s).flash _ = _
          rw [h]))
      · have hp2 : (ota_read_flag (ota_rollback_pending hw s).flash).pending = 1 := hp
        rw [h] at hp2
        cases hp2
    | log_event e p => exact Or.inl rfl

set_option maxRecDepth 100000 in
/-- The preceding theorem applies to the example session: a poll
leaves the flag sector as it is. -/
theorem flag_sector_written_only_by_finish_witness :
    flag_sector (ota_poll (hw_ok 0) session_full) = flag_sector session_full :=
  (flag_sector_written_only_by_finish (hw_ok 0) session_full session_full_reachable
    (by decide)).2.1

/-! ## C10: the re-ACK of a duplicate DATA frame -/

set_option maxRecDepth 100000 in
/-- C10. In the session for a 960-byte image, once the first 480-byte chunk is
acknowledged with ACK(480, 960) (`next_expected_offset = 480`), the resent DATA frame at
offset 0 is answered with RSP_OTA `[0x00, 0 (LE), 960 (LE)]`: the reply carries the offset
of the duplicate frame, 0, where the current `next_expected_offset` is 480. -/
theorem duplicate_data_reack_carries_frame_offset :
    session_960_after_first_chunk.ctx.next_expected_offset = 480 ∧
    sent (feed_actions (hw_ok 0) session_960_ready (good_data_frame 0 chunk_480))
      = [(RSP_OTA, 0x00 :: (bytes_of_u32 480 ++ bytes_of_u32 960))] ∧
    sent (feed_actions (hw_ok 0) session_960_after_first_chunk (good_data_frame 0 chunk_480))
      = [(RSP_OTA, 0x00 :: (bytes_of_u32 0 ++ bytes_of_u32 960))] ∧
    bytes_of_u32 0 ≠ bytes_of_u32 480 := by
  have hr : Reachable session_960_ready := ⟨_, _, _, rfl⟩
  have hlen : chunk_480.length = 480 := by simp [chunk_480]
  have hl : chunk_480.length + 8 < 2 ^ 16 := by rw [hlen]; decide
  have hf := data_frame_is_frame 0 chunk_480 (crc32 chunk_480) hl
  have hp := data_frame_paylen 0 chunk_480 (crc32 chunk_480) hl
  have hcl := data_frame_chunk_len 0 chunk_480 (crc32 chunk_480) hl
  have hoff := data_frame_offset 0 chunk_480 (crc32 chunk_480) (by decide)
  rw [hlen] at hp hcl
  unfold session_960_after_first_chunk
  obtain ⟨i1, _, st1, sd1, t1, _, n1, r1⟩ := good_frame_step (hw_ok 0) session_960_ready 0 480
    960 chunk_480 [] hr.inv (session_inv_zero _ (by decide) (by decide)) (by decide) rfl
    (Or.inl (by decide)) (by decide) (by rw [hlen]) (by decide) (by rw [hlen])
    (by decide)
  refine ⟨n1, r1, ?_, by decide⟩
  unfold good_data_frame at i1 st1 sd1 t1 n1 ⊢
  generalize data_frame 0 chunk_480 (crc32 chunk_480) = frame at hf hp hcl hoff i1 st1 sd1 t1 n1 ⊢
  generalize ota_feed (hw_ok 0) session_960_ready frame = s1 at i1 st1 sd1 t1 n1 ⊢
  have hd := duplicate_data_reply (hw_ok 0) s1 frame i1 sd1 (Or.inr st1) hf
    (by rw [hp]; decide) (by rw [hcl]) (by rw [hcl, hoff, t1]; decide)
    (by rw [hoff, n1]; decide)
  unfold feed_actions
  rw [hd]
  simp only [trace_drop_append, hoff, t1]
  rfl

/-! ## The checks of the DATA handler, in terms of the fields of the frame -/

/-- In READY_FOR_DATA or RECEIVING, a DATA frame with at least 8 payload bytes goes through
the bounds check, the order checks and the chunk CRC check, in this order. -/
theorem feed_data_checked (hw : Hw) (s : Ota) (data : List Byte) (hi : Inv s)
    (hst : s.s_state = .OTA_READY_FOR_DATA ∨ s.s_state = .OTA_RECEIVING)
    (hf : is_frame CMD_OTA_DATA data) (h8 : 8 ≤ frame_paylen data) :
    ota_feed hw s data =
      if u32 (data_offset data + data_chunk_len data) > s.ctx.total_size ∨
          data_chunk_len data > OTA_CHUNK_MAX then
        send_hook { set_error s .OTA_ERR_CHUNK with s_state := .OTA_ERROR } RSP_OTA
          [u8 RSP_OTA_ERR_CHUNK]
      else if data_offset data > s.ctx.next_expected_offset then
        send_hook (set_error s .OTA_ERR_BAD_OFFSET) RSP_OTA
          (u8 RSP_OTA_ERR_BAD_OFFSET :: bytes_of_u32 s.ctx.next_expected_offset)
      else if data_offset data < s.ctx.next_expected_offset then
        send_hook s RSP_OTA
          (0 :: (bytes_of_u32 (data_offset data) ++ bytes_of_u32 s.ctx.total_size))
      else if crc32_update (crc32_table s.crc32_table_init) 0 (data_chunk data)
          ≠ data_chunk_crc data then
        send_hook (set_error s .OTA_ERR_CHUNK_CRC) RSP_OTA [u8 RSP_OTA_ERR_CHUNK_CRC]
      else ota_data_accept hw s (data_offset data) (data_chunk_len data) (data_chunk data) := by
  have hp := le16_lt (data.getD 1 0) (data.getD 2 0)
  have ht := hi.total_lt
  have hod : data_offset data < 2 ^ 32 :=
    le32_lt (data.getD 3 0) (data.getD 4 0) (data.getD 5 0) (data.getD 6 0)
  have hne : s.s_state ≠ .OTA_IDLE := by
    rcases hst with e | e <;> rw [e] <;> decide
  have hsz := (hi.size_ok hne).2
  have hcl : u16 (frame_paylen data - 8) = data_chunk_len data := by
    unfold data_chunk_len frame_paylen
    exact u16_of_lt (by omega)
  have hoffe : le32 ((data.drop 3).getD 0 0) ((data.drop 3).getD 1 0) ((data.drop 3).getD 2 0)
      ((data.drop 3).getD 3 0) = data_offset data := by
    simp only [getD_drop3]; rfl
  have hcrce : le32 ((data.drop 3).getD (frame_paylen data - 4) 0)
      ((data.drop 3).getD (frame_paylen data - 3) 0)
      ((data.drop 3).getD (frame_paylen data - 2) 0)
      ((data.drop 3).getD (frame_paylen data - 1) 0) = data_chunk_crc data := by
    simp only [getD_drop3]
    unfold data_chunk_crc
    congr 2 <;> omega
  have hchunk : ((data.drop 3).drop 4).take (data_chunk_len data) = data_chunk data := by
    unfold data_chunk
    rw [List.drop_drop]
  rw [feed_data_eq hw s data hf]
  unfold ota_feed_data
  rw [if_neg (by omega), if_neg (by rcases hst with e | e <;> rw [e] <;> decide),
    if_neg (by rcases hst with e | e <;> rw [e] <;> decide)]
  simp only [hcl, hoffe, hcrce]
  by_cases c4 : u32 (data_offset data + data_chunk_len data) > s.ctx.total_size ∨
      data_chunk_len data > OTA_CHUNK_MAX
  · rw [if_pos c4, if_pos c4]
  rw [if_neg c4, if_neg c4]
  have hcap : ¬ data_chunk_len data > u32 (s.ctx.total_size + 2 ^ 32 - data_offset data) := by
    have hlen : data_chunk_len data < 2 ^ 16 := by
      unfold data_chunk_len frame_paylen; omega
    simp only [u32, not_or, OTA_CHUNK_MAX, OTA_STAGING_SIZE, Nat.reducePow, Nat.reduceMul]
      at c4 hod ht hsz hlen ⊢
    omega
  rw [if_neg hcap, hchunk]
  rfl

/-- A frame whose offset and chunk stay within `total_size` passes the bounds check. -/
theorem bounds_check_passes (s : Ota) (data : List Byte) (hi : Inv s)
    (hmax : data_chunk_len data ≤ OTA_CHUNK_MAX)
    (hfit : data_offset data + data_chunk_len data ≤ s.ctx.total_size) :
    ¬ (u32 (data_offset data + data_chunk_len data) > s.ctx.total_size ∨
      data_chunk_len data > OTA_CHUNK_MAX) := by
  have ht := hi.total_lt
  rw [u32_of_lt (by omega)]
  omega

/-- The frames sent by a call that ends in one call of the send hook. -/
theorem sent_of_send_hook (s s1 : Ota) (ty : Nat) (p : List Byte) (hsend : s1.s_send = true)
    (htr : s1.trace = s.trace) :
    sent ((send_hook s1 ty p).trace.drop s.trace.length) = [(ty, p)] := by
  rw [send_hook_trace _ _ _ hsend, htr, trace_drop_append]
  rfl

/-! ## C11: a DATA frame below `next_expected_offset` -/

set_option maxRecDepth 100000 in
/-- C11, as stated, fails. In `session_half` (state RECEIVING, `next_expected_offset = 4`,
`total_size = 8`) the DATA frame at offset 0 with a 9-byte chunk has its offset below
`next_expected_offset`, yet `ota_feed` changes `s_state`, to ERROR: the bounds check
`offset + chunk_len > total_size` comes before the duplicate check. -/
theorem duplicate_offset_overrun_enters_error :
    session_half.s_state = .OTA_RECEIVING ∧
    session_half.ctx.next_expected_offset = 4 ∧
    session_half.ctx.total_size = 8 ∧
    is_frame CMD_OTA_DATA overrun_frame ∧
    data_offset overrun_frame = 0 ∧
    data_chunk_len overrun_frame = 9 ∧
    (ota_feed (hw_ok 0) session_half overrun_frame).s_state = .OTA_ERROR ∧
    (ota_feed (hw_ok 0) session_half overrun_frame).s_state ≠ session_half.s_state := by
  decide

/-- C11, amended. In every reachable session in state READY_FOR_DATA or RECEIVING, a DATA
frame with offset below `next_expected_offset` leaves the flash, `next_expected_offset`,
`bytes_received` and `crc32_accum` unchanged, whatever its chunk length and chunk CRC;
`s_state` is unchanged when `chunk_len ≤ 480` and `offset + chunk_len ≤ total_size`, and
becomes ERROR otherwise. -/
theorem duplicate_data_keeps_session (hw : Hw) (s : Ota) (data : List Byte)
    (hr : Reachable s)
    (hst : s.s_state = .OTA_READY_FOR_DATA ∨ s.s_state = .OTA_RECEIVING)
    (hf : is_frame CMD_OTA_DATA data) (h8 : 8 ≤ frame_paylen data)
    (hdup : data_offset data < s.ctx.next_expected_offset) :
    (ota_feed hw s data).flash = s.flash ∧
    (ota_feed hw s data).ctx.next_expected_offset = s.ctx.next_expected_offset ∧
    (ota_feed hw s data).ctx.bytes_received = s.ctx.bytes_received ∧
    (ota_feed hw s data).ctx.crc32_accum = s.ctx.crc32_accum ∧
    ((data_chunk_len data ≤ 480 ∧ data_offset data + data_chunk_len data ≤ s.ctx.total_size) →
      (ota_feed hw s data).s_state = s.s_state) ∧
    ((480 < data_chunk_len data ∨ s.ctx.total_size < data_offset data + data_chunk_len data) →
      (ota_feed hw s data).s_state = .OTA_ERROR) := by
  have hi := hr.inv
  have hn : ¬ DataAccepted s data := fun h => by
    have := h.in_order
    omega
  obtain ⟨hcore, hfl, _⟩ := feed_data_rejected hw s data hi hf hn
  simp only [ctx_core, Prod.mk.injEq] at hcore
  refine ⟨hfl, hcore.2.2.2.2, hcore.2.2.2.1, hcore.2.2.1, ?_, ?_⟩
  · rintro ⟨hmax, hfit⟩
    rw [feed_data_checked hw s data hi hst hf h8,
      if_neg (bounds_check_passes s data hi hmax hfit), if_neg (by omega), if_pos hdup,
      send_hook_state]
  · intro hbad
    have ht := hi.total_lt
    have hneo := hi.neo_le
    have hlen : data_chunk_len data < 2 ^ 16 := by
      have hp := le16_lt (data.getD 1 0) (data.getD 2 0)
      unfold data_chunk_len frame_paylen; omega
    have hc : u32 (data_offset data + data_chunk_len data) > s.ctx.total_size ∨
        data_chunk_len data > OTA_CHUNK_MAX := by
      have hne : s.s_state ≠ .OTA_IDLE := by
        rcases hst with e | e <;> rw [e] <;> decide
      have hsz := (hi.size_ok hne).2
      rw [u32_of_lt (by
        simp only [OTA_STAGING_SIZE, Nat.reducePow, Nat.reduceMul] at hsz hlen ⊢
        omega)]
      rcases hbad with h | h
      · exact Or.inr h
      · exact Or.inl h
    rw [feed_data_checked hw s data hi hst hf h8, if_pos hc, send_hook_state]

set_option maxRecDepth 100000 in
/-- The preceding theorem applies to the resent first half of `example_image` in
`session_half`. -/
theorem duplicate_data_keeps_session_witness :
    (ota_feed (hw_ok 0) session_half
        (good_data_frame 0 (example_image.take 4))).ctx.next_expected_offset = 4 ∧
    (ota_feed (hw_ok 0) session_half (good_data_frame 0 (example_image.take 4))).s_state
      = .OTA_RECEIVING :=
  have h := duplicate_data_keeps_session (hw_ok 0) session_half
    (good_data_frame 0 (example_image.take 4)) session_half_reachable
    (by decide) (by decide) (by decide) (by decide)
  ⟨h.2.1.trans (by decide), (h.2.2.2.2.1 (by decide)).trans (by decide)⟩

/-! ## C12: a DATA frame ahead of `next_expected_offset` -/

/-- C12. In every reachable session (send hook installed) in state READY_FOR_DATA or
RECEIVING, a DATA frame with `offset > next_expected_offset`, `chunk_len ≤ 480` and
`offset + chunk_len ≤ total_size` leaves `s_state` as it is (so not ERROR), leaves
`next_expected_offset`, `bytes_received`, `crc32_accum` and the flash unchanged, and is
answered with exactly one frame: RSP_OTA with the five bytes `0x07` and
`next_expected_offset` as four little-endian bytes. -/
theorem data_ahead_bad_offset (hw : Hw) (s : Ota) (data : List Byte)
    (hr : Reachable s) (hsend : s.s_send = true)
    (hst : s.s_state = .OTA_READY_FOR_DATA ∨ s.s_state = .OTA_RECEIVING)
    (hf : is_frame CMD_OTA_DATA data) (h8 : 8 ≤ frame_paylen data)
    (hgt : s.ctx.next_expected_offset < data_offset data)
    (hmax : data_chunk_len data ≤ 480)
    (hfit : data_offset data + data_chunk_len data ≤ s.ctx.total_size) :
    (ota_feed hw s data).s_state = s.s_state ∧
    (ota_feed hw s data).s_state ≠ .OTA_ERROR ∧
    (ota_feed hw s data).ctx.next_expected_offset = s.ctx.next_expected_offset ∧
    (ota_feed hw s data).ctx.bytes_received = s.ctx.bytes_received ∧
    (ota_feed hw s data).ctx.crc32_accum = s.ctx.crc32_accum ∧
    (ota_feed hw s data).flash = s.flash ∧
    sent (feed_actions hw s data)
      = [(RSP_OTA, [0x07, u8 s.ctx.next_expected_offset, u8 (s.ctx.next_expected_offset >>> 8),
          u8 (s.ctx.next_expected_offset >>> 16), u8 (s.ctx.next_expected_offset >>> 24)])] := by
  have hi := hr.inv
  have he : ota_feed hw s data = send_hook (set_error s .OTA_ERR_BAD_OFFSET) RSP_OTA
      (u8 RSP_OTA_ERR_BAD_OFFSET :: bytes_of_u32 s.ctx.next_expected_offset) := by
    rw [feed_data_checked hw s data hi hst hf h8,
      if_neg (bounds_check_passes s data hi hmax hfit), if_pos hgt]
  have hs : (ota_feed hw s data).s_state = s.s_state := by
    rw [he, send_hook_state]; rfl
  refine ⟨hs, ?_, ?_, ?_, ?_, ?_, ?_⟩
  · rw [hs]
    rcases hst with e | e <;> rw [e] <;> decide
  · rw [he, send_hook_ctx]; rfl
  · rw [he, send_hook_ctx]; rfl
  · rw [he, send_hook_ctx]; rfl
  · rw [he, send_hook_flash]; rfl
  · unfold feed_actions
    rw [he]
    exact sent_of_send_hook s _ _ _ hsend rfl

set_option maxRecDepth 100000 in
/-- The preceding theorem applies to `ahead_frame` (offset 4) in `session_ready`, where
`next_expected_offset` is 0: the reply is `07 00 00 00 00`. -/
theorem data_ahead_bad_offset_witness :
    sent (feed_actions (hw_ok 0) session_ready ahead_frame) = [(RSP_OTA, [0x07, 0, 0, 0, 0])] :=
  (data_ahead_bad_offset (hw_ok 0) session_ready ahead_frame session_ready_reachable
    (by decide) (by decide) (by decide) (by decide) (by decide) (by decide)
    (by decide)).2.2.2.2.2.2.trans (by decide)

/-! ## C13: the bounds check of the DATA handler -/

set_option maxRecDepth 100000 in
/-- C13. In `session_ready` (state READY_FOR_DATA, `total_size = 8`,
`next_expected_offset = 0`) the DATA frame with offset `0xFFFFFFFF` and a one-byte chunk has
`offset + chunk_len = 2^32 > total_size`, yet `ota_feed` answers RSP_OTA
`[0x07, 0, 0, 0, 0]` (ERR_BAD_OFFSET) and stays in READY_FOR_DATA: the 32-bit sum
`offset + chunk_len` wraps to 0 and passes the bounds check. -/
theorem data_offset_wrap_passes_bounds_check :
    session_ready.s_state = .OTA_READY_FOR_DATA ∧
    session_ready.ctx.total_size = 8 ∧
    is_frame CMD_OTA_DATA wrap_frame ∧
    data_offset wrap_frame = 0xFFFFFFFF ∧
    data_chunk_len wrap_frame = 1 ∧
    session_ready.ctx.total_size < data_offset wrap_frame + data_chunk_len wrap_frame ∧
    sent (feed_actions (hw_ok 0) session_ready wrap_frame) = [(RSP_OTA, [0x07, 0, 0, 0, 0])] ∧
    sent (feed_actions (hw_ok 0) session_ready wrap_frame) ≠ [(RSP_OTA, [0x04])] ∧
    (ota_feed (hw_ok 0) session_ready wrap_frame).s_state = .OTA_READY_FOR_DATA ∧
    (ota_feed (hw_ok 0) session_ready wrap_frame).s_state ≠ .OTA_ERROR := by
  decide

/-! ## C14: a DATA frame with a wrong chunk CRC -/

/-- C14. In every reachable session (send hook installed) in state READY_FOR_DATA or
RECEIVING, an in-order DATA frame with `chunk_len ≤ 480` and
`offset + chunk_len ≤ total_size` whose trailing `chunk_crc32` differs from the CRC-32 of
its chunk is answered with exactly one frame, RSP_OTA `[0x06]` (ERR_CHUNK_CRC), and leaves
`s_state`, `next_expected_offset`, `bytes_received`, `crc32_accum` and the flash unchanged;
the DATA frame with the same offset and chunk and the right CRC, fed next, is accepted:
the state is RECEIVING, `next_expected_offset` has advanced by the chunk length, and the one
reply is the ACK with the new `next_expected_offset` and `total_size`. -/
theorem chunk_crc_mismatch_then_retransmit (hw hw2 : Hw) (s : Ota) (data : List Byte)
    (hr : Reachable s) (hsend : s.s_send = true)
    (hst : s.s_state = .OTA_READY_FOR_DATA ∨ s.s_state = .OTA_RECEIVING)
    (hf : is_frame CMD_OTA_DATA data) (h8 : 8 ≤ frame_paylen data)
    (hoff : data_offset data = s.ctx.next_expected_offset)
    (hmax : data_chunk_len data ≤ 480)
    (hfit : data_offset data + data_chunk_len data ≤ s.ctx.total_size)
    (hcrc : data_chunk_crc data ≠ crc32_update (crc32_table true) 0 (data_chunk data)) :
    sent (feed_actions hw s data) = [(RSP_OTA, [0x06])] ∧
    (ota_feed hw s data).s_state = s.s_state ∧
    (ota_feed hw s data).ctx.next_expected_offset = s.ctx.next_expected_offset ∧
    (ota_feed hw s data).ctx.bytes_received = s.ctx.bytes_received ∧
    (ota_feed hw s data).ctx.crc32_accum = s.ctx.crc32_accum ∧
    (ota_feed hw s data).flash = s.flash ∧
    (ota_feed hw2 (ota_feed hw s data)
        (good_data_frame (data_offset data) (data_chunk data))).s_state = .OTA_RECEIVING ∧
    (ota_feed hw2 (ota_feed hw s data)
        (good_data_frame (data_offset data) (data_chunk data))).ctx.next_expected_offset
      = s.ctx.next_expected_offset + data_chunk_len data ∧
    sent (feed_actions hw2 (ota_feed hw s data)
        (good_data_frame (data_offset data) (data_chunk data)))
      = [(RSP_OTA, 0x00 :: (bytes_of_u32 (s.ctx.next_expected_offset + data_chunk_len data)
            ++ bytes_of_u32 s.ctx.total_size))] := by
  have hi := hr.inv
  have he : ota_feed hw s data
      = send_hook (set_error s .OTA_ERR_CHUNK_CRC) RSP_OTA [u8 RSP_OTA_ERR_CHUNK_CRC] := by
    rw [feed_data_checked hw s data hi hst hf h8,
      if_neg (bounds_check_passes s data hi hmax hfit), if_neg (by omega), if_neg (by omega),
      if_pos (by rw [hi.tbl]; exact fun e => hcrc e.symm)]
  have hi1 : Inv (ota_feed hw s data) := inv_feed hw s data hi
  have hs1 : (ota_feed hw s data).s_state = s.s_state := by
    rw [he, send_hook_state]; rfl
  have hc1 : (ota_feed hw s data).ctx.next_expected_offset = s.ctx.next_expected_offset := by
    rw [he, send_hook_ctx]; rfl
  have ht1 : (ota_feed hw s data).ctx.total_size = s.ctx.total_size := by
    rw [he, send_hook_ctx]; rfl
  have hsend1 : (ota_feed hw s data).s_send = true := by
    rw [he, send_hook_send]; exact hsend
  have hlen : (data_chunk data).length = data_chunk_len data :=
    data_chunk_length data hf.2.2 h8
  have hl16 : (data_chunk data).length + 8 < 2 ^ 16 := by
    rw [hlen]; omega
  have hacc : DataAccepted (ota_feed hw s data)
      (good_data_frame (data_offset data) (data_chunk data)) :=
    good_data_frame_accepted _ _ _ hi1 (by rw [hs1]; exact hst) (by rw [hc1]; exact hoff)
      (by rw [hlen]; exact hmax) (by rw [hlen, ht1]; exact hfit)
  obtain ⟨e1, _, _, _, e5⟩ := data_accepted_effect hw2 _ _ hi1 hsend1 hacc
  obtain ⟨o1, _, _, _⟩ := data_accepted_offsets hw2 _ _ hi1 hacc
  have hcl : data_chunk_len (good_data_frame (data_offset data) (data_chunk data))
      = data_chunk_len data := by
    unfold good_data_frame
    rw [data_frame_chunk_len _ _ _ hl16, hlen]
  rw [hcl, hc1] at o1 e5
  rw [ht1] at e5
  refine ⟨?_, hs1, hc1, ?_, ?_, ?_, e1, o1, e5⟩
  · unfold feed_actions
    rw [he]
    exact sent_of_send_hook s _ _ _ hsend rfl
  · rw [he, send_hook_ctx]; rfl
  · rw [he, send_hook_ctx]; rfl
  · rw [he, send_hook_flash]; rfl

set_option maxRecDepth 100000 in
/-- The preceding theorem applies to `bad_crc_frame` in `session_ready`: the reply is
`06`, and the retransmission with the right CRC is acknowledged. -/
theorem chunk_crc_mismatch_then_retransmit_witness :
    sent (feed_actions (hw_ok 0) session_ready bad_crc_frame) = [(RSP_OTA, [0x06])] ∧
    (ota_feed (hw_ok 0) (ota_feed (hw_ok 0) session_ready bad_crc_frame)
        (good_data_frame (data_offset bad_crc_frame)
          (data_chunk bad_crc_frame))).ctx.next_expected_offset = 4 :=
  have h := chunk_crc_mismatch_then_retransmit (hw_ok 0) (hw_ok 0) session_ready bad_crc_frame
    session_ready_reachable (by decide) (by decide) (by decide) (by decide) (by decide)
    (by decide) (by decide) (by decide)
  ⟨h.1, h.2.2.2.2.2.2.2.1.trans (by decide)⟩

/-! ## The START handler on a frame with a full payload -/

/-- The START handler replies once: ERR_SIZE when the size is refused, OK_START otherwise. -/
theorem start_trace (s : Ota) (payload : List Byte) (paylen : Nat) (h11 : 11 ≤ paylen)
    (hsend : s.s_send = true) :
    (ota_feed_start s payload paylen).trace = s.trace ++ [Effect.send RSP_OTA
      [if le32 (payload.getD 3 0) (payload.getD 4 0) (payload.getD 5 0) (payload.getD 6 0) = 0 ∨
          le32 (payload.getD 3 0) (payload.getD 4 0) (payload.getD 5 0) (payload.getD 6 0)
            > OTA_STAGING_SIZE
        then u8 RSP_OTA_ERR_SIZE else u8 RSP_OTA_OK_START]] := by
  unfold ota_feed_start
  rw [if_neg (by omega)]
  simp only [set_error]
  split_ifs <;> exact send_hook_trace _ _ _ hsend

/-- The state after the START handler: IDLE when the size is refused, PREPARE_ERASE
otherwise. -/
theorem start_state (s : Ota) (payload : List Byte) (paylen : Nat) (h11 : 11 ≤ paylen) :
    (ota_feed_start s payload paylen).s_state =
      if le32 (payload.getD 3 0) (payload.getD 4 0) (payload.getD 5 0) (payload.getD 6 0) = 0 ∨
          le32 (payload.getD 3 0) (payload.getD 4 0) (payload.getD 5 0) (payload.getD 6 0)
            > OTA_STAGING_SIZE
        then .OTA_IDLE else .OTA_PREPARE_ERASE := by
  unfold ota_feed_start
  rw [if_neg (by omega)]
  simp only [set_error]
  by_cases c0 : s.s_state ≠ .OTA_IDLE
  · rw [if_pos c0]
    split_ifs <;> simp only [send_hook_state, log_event_state, ota_reset]
  · rw [if_neg c0]
    split_ifs <;> simp only [send_hook_state, log_event_state]
    exact not_not.mp c0

/-- The context after the START handler accepted the size. -/
theorem start_ctx (s : Ota) (payload : List Byte) (paylen : Nat) (h11 : 11 ≤ paylen)
    (hsz : ¬ (le32 (payload.getD 3 0) (payload.getD 4 0) (payload.getD 5 0) (payload.getD 6 0) = 0 ∨
      le32 (payload.getD 3 0) (payload.getD 4 0) (payload.getD 5 0) (payload.getD 6 0)
        > OTA_STAGING_SIZE)) :
    (ota_feed_start s payload paylen).ctx =
      { (if s.s_state ≠ .OTA_IDLE then ota_reset s else s).ctx with
        slot := (payload.getD 0 0).val
        version := le16 (payload.getD 1 0) (payload.getD 2 0)
        total_size :=
          le32 (payload.getD 3 0) (payload.getD 4 0) (payload.getD 5 0) (payload.getD 6 0)
        expected_crc32 :=
          le32 (payload.getD 7 0) (payload.getD 8 0) (payload.getD 9 0) (payload.getD 10 0)
        bytes_received := 0
        crc32_accum := 0
        next_expected_offset := 0
        erase_progress_bytes := 0
        last_ota_error := .OTA_ERR_NONE } := by
  unfold ota_feed_start
  rw [if_neg (by omega)]
  simp only [set_error]
  rw [if_neg hsz]
  simp only [send_hook_ctx, log_event_ctx]
  split <;> rfl

/-- The fields of a START frame, as the handler decodes them from the payload. -/
theorem start_fields (data : List Byte) :
    ((data.drop 3).getD 0 0).val = start_slot data ∧
    le16 ((data.drop 3).getD 1 0) ((data.drop 3).getD 2 0) = start_version data ∧
    le32 ((data.drop 3).getD 3 0) ((data.drop 3).getD 4 0) ((data.drop 3).getD 5 0)
      ((data.drop 3).getD 6 0) = start_total_size data ∧
    le32 ((data.drop 3).getD 7 0) ((data.drop 3).getD 8 0) ((data.drop 3).getD 9 0)
      ((data.drop 3).getD 10 0) = start_expected_crc32 data := by
  simp only [getD_drop3, le16_eq, le32_eq]
  exact ⟨rfl, rfl, rfl, rfl⟩

/-! ## Calls that leave the state ERROR -/

theorem data_keeps_error (hw : Hw) (s : Ota) (payload : List Byte) (paylen : Nat)
    (hs : s.s_state = .OTA_ERROR) : ota_feed_data hw s payload paylen = s := by
  unfold ota_feed_data
  by_cases c : paylen < 8
  · rw [if_pos c]
  · rw [if_neg c, if_neg (by rw [hs]; decide), if_pos (by rw [hs]; decide)]

theorem finish_keeps_error (hw : Hw) (s : Ota) (hs : s.s_state = .OTA_ERROR) :
    ota_feed_finish hw s = s := by
  unfold ota_feed_finish
  rw [if_pos (by rw [hs]; decide)]

theorem status_state (s : Ota) : (ota_feed_status s).s_state = s.s_state := by
  simp [ota_feed_status]

theorem clear_pending_confirm_state (hw : Hw) (s : Ota) :
    (ota_clear_pending_confirm hw s).s_state = s.s_state := by
  unfold ota_clear_pending_confirm
  simp only []
  split
  · rfl
  · exact write_flag_state _ _ _

theorem confirm_state (hw : Hw) (s : Ota) : (ota_feed_confirm hw s).s_state = s.s_state := by
  unfold ota_feed_confirm ota_confirm
  rw [send_hook_state, clear_pending_confirm_state]

theorem reboot_state (s : Ota) : (ota_feed_reboot s).s_state = s.s_state := by
  simp [ota_feed_reboot]

theorem get_log_state (s : Ota) : (ota_feed_get_log s).s_state = s.s_state := by
  simp [ota_feed_get_log]

/-- A frame whose type byte is neither START nor ABORT leaves the state ERROR. -/
theorem feed_keeps_error (hw : Hw) (s : Ota) (data : List Byte) (hs : s.s_state = .OTA_ERROR)
    (h1 : (data.getD 0 0).val ≠ CMD_OTA_START) (h2 : (data.getD 0 0).val ≠ CMD_OTA_ABORT) :
    (ota_feed hw s data).s_state = .OTA_ERROR := by
  by_cases hm : data.length < 3 ∨ data.length < 3 + frame_paylen data
  · rw [feed_malformed hw s data hm]
    exact hs
  · have hf : is_frame (data.getD 0 0).val data := ⟨by omega, rfl, by omega⟩
    rw [feed_dispatch hw s data _ hf, if_neg h1]
    split_ifs
    · rw [data_keeps_error hw s _ _ hs]; exact hs
    · rw [finish_keeps_error hw s hs]; exact hs
    · rw [status_state]; exact hs
    · rw [confirm_state]; exact hs
    · rw [reboot_state]; exact hs
    · rw [get_log_state]; exact hs
    · exact hs

theorem poll_keeps_error (hw : Hw) (s : Ota) (hs : s.s_state = .OTA_ERROR) :
    ota_poll hw s = s := by
  unfold ota_poll
  rw [if_pos (Or.inl (by rw [hs]; decide))]

theorem call_keeps_error (hw : Hw) (s : Ota) (c : Call) (hs : s.s_state = .OTA_ERROR)
    (hc : no_start_abort c = true) : (ota_call hw s c).s_state = .OTA_ERROR := by
  cases c with
  | feed data =>
    simp only [no_start_abort, decide_eq_true_eq] at hc
    exact feed_keeps_error hw s data hs hc.1 hc.2
  | poll =>
    show (ota_poll hw s).s_state = _
    rw [poll_keeps_error hw s hs]
    exact hs
  | reset => cases hc
  | set_yield y => cases hc
  | confirm => cases hc
  | clear_pending_confirm => cases hc
  | rollback_pending => cases hc
  | log_event e p => cases hc

/-! ## C15: what a START frame does -/

/-- C15. In every state (send hook installed), for a START frame with at least 11 payload
bytes: if the `total_size` decoded little-endian from payload bytes 3..6 satisfies
`1 ≤ total_size ≤ 507904`, the state becomes PREPARE_ERASE, the context holds `slot`,
`version`, `total_size` and `expected_crc32` decoded little-endian from the payload, with
`bytes_received`, `crc32_accum`, `next_expected_offset` and `erase_progress_bytes` zero and
`last_ota_error` NONE, and the one reply is RSP_OTA `[0x00]`; otherwise the one reply is
RSP_OTA `[0x02]` (ERR_SIZE) and the state is not PREPARE_ERASE. -/
theorem start_frame_effect (hw : Hw) (s : Ota) (data : List Byte) (hsend : s.s_send = true)
    (hf : is_frame CMD_OTA_START data) (h11 : 11 ≤ frame_paylen data) :
    ((1 ≤ start_total_size data ∧ start_total_size data ≤ 507904) →
      (ota_feed hw s data).s_state = .OTA_PREPARE_ERASE ∧
      (ota_feed hw s data).ctx.slot = start_slot data ∧
      (ota_feed hw s data).ctx.version = start_version data ∧
      (ota_feed hw s data).ctx.total_size = start_total_size data ∧
      (ota_feed hw s data).ctx.expected_crc32 = start_expected_crc32 data ∧
      (ota_feed hw s data).ctx.bytes_received = 0 ∧
      (ota_feed hw s data).ctx.crc32_accum = 0 ∧
      (ota_feed hw s data).ctx.next_expected_offset = 0 ∧
      (ota_feed hw s data).ctx.erase_progress_bytes = 0 ∧
      (ota_feed hw s data).ctx.last_ota_error = .OTA_ERR_NONE ∧
      sent (feed_actions hw s data) = [(RSP_OTA, [0x00])]) ∧
    (¬ (1 ≤ start_total_size data ∧ start_total_size data ≤ 507904) →
      sent (feed_actions hw s data) = [(RSP_OTA, [0x02])] ∧
      (ota_feed hw s data).s_state ≠ .OTA_PREPARE_ERASE) := by
  obtain ⟨f1, f2, f3, f4⟩ := start_fields data
  have htr := start_trace s (data.drop 3) (frame_paylen data) h11 hsend
  have hst := start_state s (data.drop 3) (frame_paylen data) h11
  rw [f3] at htr hst
  have hcond : (start_total_size data = 0 ∨ start_total_size data > OTA_STAGING_SIZE) ↔
      ¬ (1 ≤ start_total_size data ∧ start_total_size data ≤ 507904) := by
    simp only [OTA_STAGING_SIZE, Nat.reduceMul]
    omega
  constructor
  · intro hsz
    have hn : ¬ (start_total_size data = 0 ∨ start_total_size data > OTA_STAGING_SIZE) :=
      fun h => hcond.mp h hsz
    have hctx := start_ctx s (data.drop 3) (frame_paylen data) h11 (by rw [f3]; exact hn)
    rw [f1, f2, f3, f4] at hctx
    rw [if_neg hn] at htr hst
    unfold feed_actions
    rw [feed_start_eq hw s data hf, hst, hctx, htr, trace_drop_append]
    exact ⟨rfl, rfl, rfl, rfl, rfl, rfl, rfl, rfl, rfl, rfl, rfl⟩
  · intro hsz
    have hp : start_total_size data = 0 ∨ start_total_size data > OTA_STAGING_SIZE :=
      hcond.mpr hsz
    rw [if_pos hp] at htr hst
    unfold feed_actions
    rw [feed_start_eq hw s data hf, hst, htr, trace_drop_append]
    exact ⟨rfl, by decide⟩

set_option maxRecDepth 100000 in
/-- The preceding theorem applies to the START frame of an 8-byte image, fed after
`ota_init`: the state becomes PREPARE_ERASE with `total_size = 8`. -/
theorem start_frame_effect_witness :
    (ota_feed (hw_ok 0) (ota_init (power_up (fun _ => 0xFF)) true)
        (start_frame 1 1 8 0)).s_state = .OTA_PREPARE_ERASE ∧
    (ota_feed (hw_ok 0) (ota_init (power_up (fun _ => 0xFF)) true)
        (start_frame 1 1 8 0)).ctx.total_size = 8 :=
  have h := (start_frame_effect (hw_ok 0) (ota_init (power_up (fun _ => 0xFF)) true)
    (start_frame 1 1 8 0) (by decide) (by decide) (by decide)).1 (by decide)
  ⟨h.1, h.2.2.2.1.trans (by decide)⟩

/-! ## C16: how long the state stays ERROR -/

set_option maxRecDepth 100000 in
/-- C16, as stated, fails. `session_error` is in state ERROR (its last reply was ERR_CHUNK);
the ABORT frame, which is not a START frame, takes it to IDLE. -/
theorem error_cleared_by_abort :
    session_error.s_state = .OTA_ERROR ∧
    is_frame CMD_OTA_ABORT abort_frame ∧
    ¬ is_frame CMD_OTA_START abort_frame ∧
    (run session_error [(hw_ok 0, Call.feed abort_frame)]).s_state = .OTA_IDLE ∧
    (run session_error [(hw_ok 0, Call.feed abort_frame)]).s_state ≠ .OTA_ERROR := by
  decide

/-- C16, amended. Once the state is ERROR, it is ERROR after every sequence of `ota_feed`
and `ota_poll` calls in which no frame has the type byte of START or of ABORT. -/
theorem error_sticky_without_start_abort (s : Ota) (hs : s.s_state = .OTA_ERROR)
    (calls : List (Hw × Call)) (hc : ∀ x ∈ calls, no_start_abort x.2 = true) :
    (run s calls).s_state = .OTA_ERROR := by
  induction calls generalizing s with
  | nil => exact hs
  | cons x rest ih =>
    exact ih (ota_call x.1 s x.2)
      (call_keeps_error x.1 s x.2 hs (hc x (List.mem_cons_self _ _)))
      (fun y hy => hc y (List.mem_cons_of_mem _ hy))

set_option maxRecDepth 100000 in
/-- The preceding theorem applies to `session_error`, fed a FINISH frame and polled. -/
theorem error_sticky_without_start_abort_witness :
    (run session_error [(hw_ok 0, Call.feed finish_frame), (hw_ok 0, Call.poll)]).s_state
      = .OTA_ERROR :=
  error_sticky_without_start_abort session_error (by decide)
    [(hw_ok 0, Call.feed finish_frame), (hw_ok 0, Call.poll)] (by decide)

/-! ## C17: which error replies enter ERROR -/

set_option maxRecDepth 100000 in
/-- C17. After `ota_init`, the START frame with `total_size = 0` is answered with RSP_OTA
`[0x02]` (ERR_SIZE) and `last_ota_error` is ERR_SIZE, yet the state after the call is IDLE,
not ERROR; the same holds for the START frame with `total_size = 507905`, and for the START
frame with `total_size = 0` fed to `session_half` (state RECEIVING). -/
theorem start_err_size_leaves_idle :
    sent (feed_actions (hw_ok 0) (ota_init (power_up (fun _ => 0xFF)) true)
        (start_frame 1 1 0 0)) = [(RSP_OTA, [0x02])] ∧
    (ota_feed (hw_ok 0) (ota_init (power_up (fun _ => 0xFF)) true)
        (start_frame 1 1 0 0)).ctx.last_ota_error = .OTA_ERR_SIZE ∧
    (ota_feed (hw_ok 0) (ota_init (power_up (fun _ => 0xFF)) true)
        (start_frame 1 1 0 0)).s_state = .OTA_IDLE ∧
    (ota_feed (hw_ok 0) (ota_init (power_up (fun _ => 0xFF)) true)
        (start_frame 1 1 0 0)).s_state ≠ .OTA_ERROR ∧
    sent (feed_actions (hw_ok 0) (ota_init (power_up (fun _ => 0xFF)) true)
        (start_frame 1 1 507905 0)) = [(RSP_OTA, [0x02])] ∧
    (ota_feed (hw_ok 0) (ota_init (power_up (fun _ => 0xFF)) true)
        (start_frame 1 1 507905 0)).s_state = .OTA_IDLE ∧
    session_half.s_state = .OTA_RECEIVING ∧
    sent (feed_actions (hw_ok 0) session_half (start_frame 1 1 0 0)) = [(RSP_OTA, [0x02])] ∧
    (ota_feed (hw_ok 0) session_half (start_frame 1 1 0 0)).s_state = .OTA_IDLE := by
  decide

/-! ## C18: what an ABORT frame does -/

/-- C18. In every state (send hook installed), an ABORT frame leaves the state IDLE, every
field of the session context zero (`last_ota_error` NONE), the erase bookkeeping
`s_erase_addr`, `s_erase_total`, `s_erase_started` cleared; the only action of the call is
one call of the send hook, with RSP_OTA and an empty payload; the flash (staging slot and
persistent flag alike) and the event log are unchanged. -/
theorem abort_resets_session (hw : Hw) (s : Ota) (data : List Byte) (hsend : s.s_send = true)
    (hf : is_frame CMD_OTA_ABORT data) :
    (ota_feed hw s data).s_state = .OTA_IDLE ∧
    (ota_feed hw s data).ctx = ⟨0, 0, 0, 0, 0, 0, 0, 0, .OTA_ERR_NONE, 0, 0⟩ ∧
    (ota_feed hw s data).ctx.total_size = 0 ∧
    (ota_feed hw s data).ctx.bytes_received = 0 ∧
    (ota_feed hw s data).ctx.crc32_accum = 0 ∧
    (ota_feed hw s data).ctx.next_expected_offset = 0 ∧
    (ota_feed hw s data).ctx.erase_progress_bytes = 0 ∧
    (ota_feed hw s data).ctx.last_ota_error = .OTA_ERR_NONE ∧
    (ota_feed hw s data).s_erase_addr = 0 ∧
    (ota_feed hw s data).s_erase_total = 0 ∧
    (ota_feed hw s data).s_erase_started = false ∧
    feed_actions hw s data = [Effect.send RSP_OTA []] ∧
    (ota_feed hw s data).flash = s.flash ∧
    staged (ota_feed hw s data) OTA_STAGING_SIZE = staged s OTA_STAGING_SIZE ∧
    ota_read_flag (ota_feed hw s data).flash = ota_read_flag s.flash ∧
    (ota_feed hw s data).s_log_ring = s.s_log_ring ∧
    (ota_feed hw s data).s_log_head = s.s_log_head ∧
    (ota_feed hw s data).s_log_count = s.s_log_count := by
  have he : ota_feed hw s data
      = { ota_reset s with trace := s.trace ++ [Effect.send RSP_OTA []] } := by
    rw [feed_abort_eq hw s data hf]
    unfold ota_feed_abort send_hook
    rw [if_pos (show (ota_reset s).s_send = true from hsend)]
    rfl
  unfold feed_actions staged
  rw [he]
  refine ⟨rfl, rfl, rfl, rfl, rfl, rfl, rfl, rfl, rfl, rfl, rfl, ?_, rfl, rfl, rfl, rfl, rfl, rfl⟩
  exact trace_drop_append _ _

set_option maxRecDepth 100000 in
/-- The preceding theorem applies to `abort_frame` in `session_half`. -/
theorem abort_resets_session_witness :
    (ota_feed (hw_ok 0) session_half abort_frame).s_state = .OTA_IDLE ∧
    feed_actions (hw_ok 0) session_half abort_frame = [Effect.send RSP_OTA []] :=
  have h := abort_resets_session (hw_ok 0) session_half abort_frame (by decide) (by decide)
  ⟨h.1, h.2.2.2.2.2.2.2.2.2.2.2.1⟩

/-! ## The framer: the loop over a concatenation -/

theorem feed_loop_full (p : BleParser) (h : ¬ p.s_rx_len < MAX_FRAME_SIZE) (data : List Byte) :
    ble_parser_feed_loop p data = p := by
  cases data with
  | nil => rfl
  | cons b rest =>
    unfold ble_parser_feed_loop
    rw [if_neg h]

/-- The loop over `a ++ b` goes on with `b` after `a` unless the buffer is full then. -/
theorem feed_loop_append (p : BleParser) (a b : List Byte) :
    ble_parser_feed_loop p (a ++ b) =
      if (ble_parser_feed_loop p a).s_rx_len < MAX_FRAME_SIZE then
        ble_parser_feed_loop (ble_parser_feed_loop p a) b
      else ble_parser_feed_loop p a := by
  induction a generalizing p with
  | nil =>
    by_cases h : p.s_rx_len < MAX_FRAME_SIZE
    · simp only [List.nil_append, ble_parser_feed_loop, if_pos h]
    · simp only [List.nil_append, ble_parser_feed_loop, if_neg h]
      exact feed_loop_full p h b
  | cons x a ih =>
    by_cases h : p.s_rx_len < MAX_FRAME_SIZE
    · simp only [List.cons_append, ble_parser_feed_loop, if_pos h]
      exact ih _
    · simp only [List.cons_append, ble_parser_feed_loop, if_neg h]

/-- A call whose loop ends with the buffer not full returns the state of the loop. -/
theorem feed_eq_loop (p : BleParser) (data : List Byte)
    (h : (ble_parser_feed_loop p data).s_rx_len < MAX_FRAME_SIZE) :
    ble_parser_feed p data = ble_parser_feed_loop p data := by
  unfold ble_parser_feed
  simp only []
  rw [if_neg (by omega)]

/-- If the loop over the whole stream ends with the buffer not full, feeding the stream in
parts gives the state of that loop. -/
theorem feed_parts_eq_loop (parts : List (List Byte)) (p : BleParser)
    (h : (ble_parser_feed_loop p parts.flatten).s_rx_len < MAX_FRAME_SIZE) :
    feed_parts p parts = ble_parser_feed_loop p parts.flatten := by
  induction parts generalizing p with
  | nil => rfl
  | cons a rest ih =>
    rw [List.flatten_cons, feed_loop_append] at h ⊢
    by_cases ha : (ble_parser_feed_loop p a).s_rx_len < MAX_FRAME_SIZE
    · rw [if_pos ha] at h ⊢
      show feed_parts (ble_parser_feed p a) rest = _
      rw [feed_eq_loop p a ha]
      exact ih _ h
    · rw [if_neg ha] at h
      exact absurd h ha

/-! ## The framer: bytes stored without a delivery -/

theorem rx_filled_nil (old : Nat → Byte) : rx_filled [] old = old := by
  funext i
  simp [rx_filled]

theorem rx_filled_snoc (q : List Byte) (b : Byte) (old : Nat → Byte) :
    buf_store (rx_filled q old) q.length b = rx_filled (q ++ [b]) old := by
  funext i
  show (if i = q.length then b else if i < q.length then q.getD i 0 else old i)
    = if i < (q ++ [b]).length then (q ++ [b]).getD i 0 else old i
  rw [List.length_append, List.length_singleton]
  by_cases h1 : i = q.length
  · subst h1
    rw [if_pos rfl, if_pos (by omega), List.getD_append_right _ _ _ _ (le_refl _)]
    simp
  · rw [if_neg h1]
    by_cases h2 : i < q.length
    · rw [if_pos h2, if_pos (by omega), List.getD_append _ _ _ _ h2]
    · rw [if_neg h2, if_neg (by omega)]

theorem rx_filled_lt (q : List Byte) (old : Nat → Byte) (i : Nat) (h : i < q.length) :
    rx_filled q old i = q.getD i 0 := by
  unfold rx_filled
  rw [if_pos h]

/-- The loop body on the byte `b` when the bytes `q` fill the buffer. -/
theorem feed_byte_filled (p : BleParser) (q : List Byte) (b : Byte)
    (hq : q.length < MAX_FRAME_SIZE) :
    ble_parser_feed_byte { p with s_rx_buf := rx_filled q p.s_rx_buf, s_rx_len := q.length } b =
      if FRAME_HEADER_SIZE ≤ (q ++ [b]).length ∧
          FRAME_HEADER_SIZE + le16 ((q ++ [b]).getD 1 0) ((q ++ [b]).getD 2 0)
            ≤ (q ++ [b]).length then
        { p with
          s_rx_buf := rx_filled (q ++ [b]) p.s_rx_buf
          s_rx_len := 0
          handled :=
            if p.s_handler then
              p.handled ++ [((q ++ [b]).getD 0 0,
                (List.range (le16 ((q ++ [b]).getD 1 0) ((q ++ [b]).getD 2 0))).map
                  (fun i => rx_filled (q ++ [b]) p.s_rx_buf (FRAME_HEADER_SIZE + i)),
                le16 ((q ++ [b]).getD 1 0) ((q ++ [b]).getD 2 0))]
            else p.handled }
      else
        { p with s_rx_buf := rx_filled (q ++ [b]) p.s_rx_buf, s_rx_len := (q ++ [b]).length } := by
  have hl : (q ++ [b]).length = q.length + 1 := by
    rw [List.length_append, List.length_singleton]
  have hu : u16 (q.length + 1) = q.length + 1 :=
    u16_of_lt (by simp only [MAX_FRAME_SIZE, FRAME_HEADER_SIZE, MAX_PAYLOAD_SIZE] at hq; omega)
  unfold ble_parser_feed_byte
  simp only []
  rw [rx_filled_snoc, hu, hl]
  by_cases h3 : q.length + 1 ≥ FRAME_HEADER_SIZE
  · have h0 : rx_filled (q ++ [b]) p.s_rx_buf 0 = (q ++ [b]).getD 0 0 :=
      rx_filled_lt _ _ _ (by rw [hl]; omega)
    have h1 : rx_filled (q ++ [b]) p.s_rx_buf 1 = (q ++ [b]).getD 1 0 :=
      rx_filled_lt _ _ _ (by rw [hl]; simp only [FRAME_HEADER_SIZE] at h3; omega)
    have h2 : rx_filled (q ++ [b]) p.s_rx_buf 2 = (q ++ [b]).getD 2 0 :=
      rx_filled_lt _ _ _ (by rw [hl]; simp only [FRAME_HEADER_SIZE] at h3; omega)
    rw [if_pos h3, h0, h1, h2]
    by_cases hd : q.length + 1 ≥
        FRAME_HEADER_SIZE + le16 ((q ++ [b]).getD 1 0) ((q ++ [b]).getD 2 0)
    · rw [if_pos hd, if_pos (show FRAME_HEADER_SIZE ≤ q.length + 1 ∧
        FRAME_HEADER_SIZE + le16 ((q ++ [b]).getD 1 0) ((q ++ [b]).getD 2 0) ≤ q.length + 1
        from ⟨h3, hd⟩)]
      by_cases hh : p.s_handler = true
      · rw [if_pos hh, if_pos hh]
      · rw [if_neg hh, if_neg hh]
    · rw [if_neg hd, if_neg (fun h => hd h.2)]
  · rw [if_neg h3, if_neg (fun h => h3 h.1)]

/-- The bytes `q` fill the buffer when no prefix of `q` of three bytes or more completes a
frame. -/
theorem feed_loop_fill (p : BleParser) (hp : p.s_rx_len = 0) (q : List Byte)
    (hq : q.length ≤ MAX_FRAME_SIZE)
    (hno : FRAME_HEADER_SIZE ≤ q.length →
      q.length < FRAME_HEADER_SIZE + le16 (q.getD 1 0) (q.getD 2 0)) :
    ble_parser_feed_loop p q =
      { p with s_rx_buf := rx_filled q p.s_rx_buf, s_rx_len := q.length } := by
  induction q using List.reverseRecOn with
  | nil =>
    rw [rx_filled_nil]
    show p = { p with s_rx_len := 0 }
    rw [← hp]
  | append_singleton q b ih =>
    have hl : (q ++ [b]).length = q.length + 1 := by
      rw [List.length_append, List.length_singleton]
    rw [hl] at hq
    have hno1 : FRAME_HEADER_SIZE ≤ q.length →
        q.length < FRAME_HEADER_SIZE + le16 (q.getD 1 0) (q.getD 2 0) := by
      intro h3
      have h := hno (by omega)
      rw [List.getD_append _ _ _ _ (show 1 < q.length by simp only [FRAME_HEADER_SIZE] at h3; omega),
        List.getD_append _ _ _ _ (show 2 < q.length by simp only [FRAME_HEADER_SIZE] at h3; omega)]
        at h
      omega
    have ih1 := ih (by omega) hno1
    have hlt : q.length < MAX_FRAME_SIZE := by omega
    rw [feed_loop_append, ih1, if_pos hlt]
    unfold ble_parser_feed_loop
    rw [if_pos hlt]
    unfold ble_parser_feed_loop
    rw [feed_byte_filled p q b hlt, if_neg]
    intro h
    have := hno h.1
    omega

/-! ## The framer: one frame, and a stream of frames -/

/-- A frame of at most 512 payload bytes as `ble_send_frame` writes it: type, length
(little-endian), payload. -/
theorem send_frame_bytes (stack : Nat → Byte) (ty : Byte) (payload : List Byte)
    (h : payload.length ≤ MAX_PAYLOAD_SIZE) :
    ble_send_frame true stack ty payload payload.length =
      [ty :: u8 (payload.length &&& 0xFF) :: u8 (payload.length >>> 8) :: payload] := by
  unfold ble_send_frame
  rw [if_neg (by decide)]
  simp only []
  congr 1
  apply List.ext_getElem
  · simp only [List.length_map, List.length_range, List.length_cons, FRAME_HEADER_SIZE]
    omega
  · intro i h1 h2
    rw [List.getElem_map, List.getElem_range]
    match i, h2 with
    | 0, _ => rfl
    | 1, _ => rfl
    | 2, _ => rfl
    | i + 3, h2 =>
      simp only [List.length_cons] at h2
      have hc : 0 < payload.length ∧ payload.length ≤ MAX_PAYLOAD_SIZE := ⟨by omega, h⟩
      rw [if_neg (by omega), if_neg (by omega), if_neg (by omega), if_pos hc]
      simp only [FRAME_HEADER_SIZE, Nat.add_sub_cancel, List.getElem_cons_succ]
      rw [List.getD_eq_getElem _ _ (by omega)]

/-- The length bytes of a frame decode to the payload length. -/
theorem le16_length_bytes (n : Nat) (h : n < 2 ^ 16) :
    le16 (u8 (n &&& 0xFF)) (u8 (n >>> 8)) = n := by
  have e : n &&& 0xFF = n % 2 ^ 8 := Nat.and_pow_two_sub_one_eq_mod n 8
  rw [le16_eq, u8_val, u8_val, e, Nat.shiftRight_eq_div_pow]
  omega

theorem map_rx_filled (w : List Byte) (old : Nat → Byte) (n : Nat)
    (h : w.length = FRAME_HEADER_SIZE + n) :
    (List.range n).map (fun i => rx_filled w old (FRAME_HEADER_SIZE + i))
      = w.drop FRAME_HEADER_SIZE := by
  apply List.ext_getElem
  · rw [List.length_map, List.length_range, List.length_drop]
    omega
  · intro i h1 h2
    rw [List.length_map, List.length_range] at h1
    rw [List.getElem_map, List.getElem_range, List.getElem_drop,
      rx_filled_lt _ _ _ (by omega), List.getD_eq_getElem _ _ (by omega)]

/-- From an empty buffer, the bytes of a complete frame (header and exactly the announced
payload, at most 515 bytes in all) are delivered to the handler as one frame, and the
buffer is empty again. -/
theorem feed_loop_frame (p : BleParser) (hp : p.s_rx_len = 0) (w : List Byte)
    (h3 : FRAME_HEADER_SIZE ≤ w.length)
    (hlen : w.length = FRAME_HEADER_SIZE + le16 (w.getD 1 0) (w.getD 2 0))
    (hmax : w.length ≤ MAX_FRAME_SIZE) :
    ble_parser_feed_loop p w =
      { p with
        s_rx_buf := rx_filled w p.s_rx_buf
        s_rx_len := 0
        handled :=
          if p.s_handler then
            p.handled ++ [(w.getD 0 0, w.drop FRAME_HEADER_SIZE,
              le16 (w.getD 1 0) (w.getD 2 0))]
          else p.handled } := by
  rcases List.eq_nil_or_concat w with h | ⟨q, b, h⟩
  · rw [h] at h3
    simp only [FRAME_HEADER_SIZE, List.length_nil] at h3
    omega
  · rw [List.concat_eq_append] at h
    subst h
    have hl : (q ++ [b]).length = q.length + 1 := by
      rw [List.length_append, List.length_singleton]
    have hlt : q.length < MAX_FRAME_SIZE := by omega
    have hno : FRAME_HEADER_SIZE ≤ q.length →
        q.length < FRAME_HEADER_SIZE + le16 (q.getD 1 0) (q.getD 2 0) := by
      intro hq3
      have h := hlen
      rw [List.getD_append _ _ _ _ (show 1 < q.length by
          simp only [FRAME_HEADER_SIZE] at hq3; omega),
        List.getD_append _ _ _ _ (show 2 < q.length by
          simp only [FRAME_HEADER_SIZE] at hq3; omega)] at h
      omega
    rw [feed_loop_append, feed_loop_fill p hp q (by omega) hno, if_pos hlt]
    unfold ble_parser_feed_loop
    rw [if_pos hlt]
    unfold ble_parser_feed_loop
    rw [feed_byte_filled p q b hlt, if_pos ⟨h3, by omega⟩, map_rx_filled _ _ _ hlen]

/-- The stream of a list of frames starts with the bytes of the first frame. -/
theorem frames_stream_cons (stack : Nat → Byte) (f : Byte × List Byte)
    (fs : List (Byte × List Byte)) (h : f.2.length ≤ MAX_PAYLOAD_SIZE) :
    frames_stream stack (f :: fs) =
      (f.1 :: u8 (f.2.length &&& 0xFF) :: u8 (f.2.length >>> 8) :: f.2)
        ++ frames_stream stack fs := by
  unfold frames_stream
  rw [List.flatMap_cons, send_frame_bytes stack f.1 f.2 h]
  rfl

/-- From an empty buffer with a handler installed, the loop over the stream of a list of
frames delivers each frame and ends with the buffer empty. -/
theorem feed_loop_frames (stack : Nat → Byte) (frames : List (Byte × List Byte))
    (hlen : ∀ f ∈ frames, f.2.length ≤ MAX_PAYLOAD_SIZE) (p : BleParser)
    (hp : p.s_rx_len = 0) (hh : p.s_handler = true) :
    (ble_parser_feed_loop p (frames_stream stack frames)).s_rx_len = 0 ∧
    (ble_parser_feed_loop p (frames_stream stack frames)).handled
      = p.handled ++ frames.map (fun f => (f.1, f.2, f.2.length)) := by
  induction frames generalizing p with
  | nil =>
    refine ⟨hp, ?_⟩
    show p.handled = p.handled ++ []
    rw [List.append_nil]
  | cons f fs ih =>
    have hf : f.2.length ≤ MAX_PAYLOAD_SIZE := hlen f (List.mem_cons_self _ _)
    have hl16 : le16 (u8 (f.2.length &&& 0xFF)) (u8 (f.2.length >>> 8)) = f.2.length :=
      le16_length_bytes _ (by simp only [MAX_PAYLOAD_SIZE] at hf; omega)
    have hw := feed_loop_frame p hp
      (f.1 :: u8 (f.2.length &&& 0xFF) :: u8 (f.2.length >>> 8) :: f.2)
      (by simp only [List.length_cons, FRAME_HEADER_SIZE]; omega)
      (by
        simp only [List.getD_cons_succ, List.getD_cons_zero, List.length_cons]
        rw [hl16]
        simp only [FRAME_HEADER_SIZE]
        omega)
      (by simp only [List.length_cons, MAX_FRAME_SIZE, FRAME_HEADER_SIZE,
            MAX_PAYLOAD_SIZE] at hf ⊢; omega)
    have h1 : (ble_parser_feed_loop p
        (f.1 :: u8 (f.2.length &&& 0xFF) :: u8 (f.2.length >>> 8) :: f.2)).s_rx_len = 0 := by
      rw [hw]
    have h2 : (ble_parser_feed_loop p
        (f.1 :: u8 (f.2.length &&& 0xFF) :: u8 (f.2.length >>> 8) :: f.2)).s_handler = true := by
      rw [hw]
      exact hh
    have h3 : (ble_parser_feed_loop p
        (f.1 :: u8 (f.2.length &&& 0xFF) :: u8 (f.2.length >>> 8) :: f.2)).handled
        = p.handled ++ [(f.1, f.2, f.2.length)] := by
      rw [hw]
      simp only [List.getD_cons_succ, List.getD_cons_zero, hl16, hh, if_true]
      rfl
    rw [frames_stream_cons stack f fs hf, feed_loop_append,
      if_pos (by rw [h1]; decide)]
    obtain ⟨e1, e2⟩ := ih (fun g hg => hlen g (List.mem_cons_of_mem _ hg)) _ h1 h2
    refine ⟨e1, ?_⟩
    rw [e2, h3, List.map_cons, List.append_assoc]
    rfl

/-! ## The framer: what a full buffer means -/

theorem feed_byte_buf (p : BleParser) (b : Byte) :
    (ble_parser_feed_byte p b).s_rx_buf = buf_store p.s_rx_buf p.s_rx_len b := by
  unfold ble_parser_feed_byte
  simp only []
  split_ifs <;> rfl

theorem feed_byte_len (p : BleParser) (b : Byte) :
    (ble_parser_feed_byte p b).s_rx_len =
      if u16 (p.s_rx_len + 1) ≥ FRAME_HEADER_SIZE ∧
          u16 (p.s_rx_len + 1) ≥ FRAME_HEADER_SIZE +
            le16 (buf_store p.s_rx_buf p.s_rx_len b 1) (buf_store p.s_rx_buf p.s_rx_len b 2)
      then 0 else u16 (p.s_rx_len + 1) := by
  unfold ble_parser_feed_byte
  simp only []
  by_cases h3 : u16 (p.s_rx_len + 1) ≥ FRAME_HEADER_SIZE
  · rw [if_pos h3]
    by_cases hd : u16 (p.s_rx_len + 1) ≥ FRAME_HEADER_SIZE +
        le16 (buf_store p.s_rx_buf p.s_rx_len b 1) (buf_store p.s_rx_buf p.s_rx_len b 2)
    · rw [if_pos hd, if_pos (And.intro h3 hd)]
    · rw [if_neg hd, if_neg (fun h => hd h.2)]
  · rw [if_neg h3, if_neg (fun h => h3 h.1)]

/-- After any byte, the buffer is empty or holds less than the frame its header announces. -/
theorem feed_byte_partial (p : BleParser) (b : Byte) (h : p.s_rx_len < MAX_FRAME_SIZE) :
    (ble_parser_feed_byte p b).s_rx_len ≤ MAX_FRAME_SIZE ∧
    (FRAME_HEADER_SIZE ≤ (ble_parser_feed_byte p b).s_rx_len →
      (ble_parser_feed_byte p b).s_rx_len < FRAME_HEADER_SIZE +
        le16 ((ble_parser_feed_byte p b).s_rx_buf 1) ((ble_parser_feed_byte p b).s_rx_buf 2)) := by
  have hu : u16 (p.s_rx_len + 1) = p.s_rx_len + 1 :=
    u16_of_lt (by simp only [MAX_FRAME_SIZE, FRAME_HEADER_SIZE, MAX_PAYLOAD_SIZE] at h; omega)
  rw [feed_byte_buf, feed_byte_len, hu]
  simp only [MAX_FRAME_SIZE, FRAME_HEADER_SIZE, MAX_PAYLOAD_SIZE] at h ⊢
  split_ifs with c
  · exact ⟨by omega, fun h0 => by omega⟩
  · exact ⟨by omega, fun h0 => by omega⟩

/-- When the loop ends with the buffer full, the header at the start of the buffer
announces a payload of more than 512 bytes. -/
theorem full_buffer_announces_oversize (data : List Byte) (p : BleParser)
    (hp : p.s_rx_len ≤ MAX_FRAME_SIZE)
    (hq : FRAME_HEADER_SIZE ≤ p.s_rx_len →
      p.s_rx_len < FRAME_HEADER_SIZE + le16 (p.s_rx_buf 1) (p.s_rx_buf 2))
    (hfull : MAX_FRAME_SIZE ≤ (ble_parser_feed_loop p data).s_rx_len) :
    MAX_PAYLOAD_SIZE < le16 ((ble_parser_feed_loop p data).s_rx_buf 1)
      ((ble_parser_feed_loop p data).s_rx_buf 2) := by
  induction data generalizing p with
  | nil =>
    have h : MAX_FRAME_SIZE ≤ p.s_rx_len := hfull
    have := hq (by simp only [MAX_FRAME_SIZE, FRAME_HEADER_SIZE] at h ⊢; omega)
    show MAX_PAYLOAD_SIZE < le16 (p.s_rx_buf 1) (p.s_rx_buf 2)
    simp only [MAX_FRAME_SIZE, FRAME_HEADER_SIZE, MAX_PAYLOAD_SIZE] at h this ⊢
    omega
  | cons b rest ih =>
    unfold ble_parser_feed_loop at hfull ⊢
    by_cases hlt : p.s_rx_len < MAX_FRAME_SIZE
    · rw [if_pos hlt] at hfull ⊢
      obtain ⟨i1, i2⟩ := feed_byte_partial p b hlt
      exact ih _ i1 i2 hfull
    · rw [if_neg hlt] at hfull ⊢
      have := hq (by simp only [MAX_FRAME_SIZE, FRAME_HEADER_SIZE] at hfull ⊢; omega)
      simp only [MAX_FRAME_SIZE, FRAME_HEADER_SIZE, MAX_PAYLOAD_SIZE] at hfull this ⊢
      omega

/-! ## C19: the framer round trip -/

/-- C19. For every list of frames `(type, payload)` with each payload of at most 512
bytes, feeding the concatenation of their serialisations by `ble_send_frame` (type, length
low, length high, payload) to a framer freshly initialised with a handler, split into
consecutive `ble_parser_feed` calls at arbitrary positions, calls the handler exactly once
per frame, in order, with the type, the payload bytes and the length of that frame, and
leaves the accumulation buffer empty. -/
theorem framer_round_trip (p0 : BleParser) (stack : Nat → Byte)
    (frames : List (Byte × List Byte)) (hlen : ∀ f ∈ frames, f.2.length ≤ 512)
    (parts : List (List Byte)) (hparts : parts.flatten = frames_stream stack frames) :
    (feed_parts (ble_parser_init p0 true) parts).handled
      = p0.handled ++ frames.map (fun f => (f.1, f.2, f.2.length)) ∧
    (feed_parts (ble_parser_init p0 true) parts).s_rx_len = 0 := by
  obtain ⟨e1, e2⟩ := feed_loop_frames stack frames hlen (ble_parser_init p0 true) rfl rfl
  rw [← hparts] at e1 e2
  rw [feed_parts_eq_loop parts _ (by rw [e1]; decide)]
  exact ⟨e2, e1⟩

/-- The preceding theorem applies to a SET_STREAM frame followed by a GET_STATUS frame, fed
in three parts that cut through the header of each. -/
theorem framer_round_trip_witness :
    (feed_parts (ble_parser_init parser_power_up true)
        [[0x87, 2], [0, 1, 1, 0x85, 0], [0]]).handled
      = [(0x87, [1, 1], 2), (0x85, [], 0)] :=
  (framer_round_trip parser_power_up (fun _ => 0) [(0x87, [1, 1]), (0x85, [])] (by decide)
    [[0x87, 2], [0, 1, 1, 0x85, 0], [0]] (by decide)).1

/-! ## C20: the framer and the split of the stream into calls -/

set_option maxRecDepth 1000000 in
/-- C20, as stated, fails. The stream is 515 bytes whose header announces a payload of
65535 bytes, followed by the three bytes of an empty frame of type 0x85. Passed in a single
`ble_parser_feed` call, it delivers no frame: the loop stops when the buffer is full and the
rest of the input is dropped. Passed in two calls, split after byte 515, it delivers the
frame of type 0x85. -/
theorem framer_split_changes_delivery :
    oversize_junk.length = 515 ∧
    [oversize_junk, [0x85, 0, 0]].flatten = oversize_junk ++ [0x85, 0, 0] ∧
    (ble_parser_feed (ble_parser_init parser_power_up true)
        (oversize_junk ++ [0x85, 0, 0])).handled = [] ∧
    (feed_parts (ble_parser_init parser_power_up true)
        [oversize_junk, [0x85, 0, 0]]).handled = [(0x85, [], 0)] := by
  decide

/-- C20, amended. For every byte stream and every way of splitting it into consecutive
`ble_parser_feed` calls: if the loop of the single call over the whole stream ends with
fewer than 515 bytes in the buffer, the calls of the handler are the same as in that single
call, and so is the fill count left; and the loop of the single call ends with the buffer
full only when the header in the buffer announces a payload of more than 512 bytes. -/
theorem framer_split_invariant (p0 : BleParser) (handler : Bool) (parts : List (List Byte)) :
    ((ble_parser_feed_loop (ble_parser_init p0 handler) parts.flatten).s_rx_len < 515 →
      (feed_parts (ble_parser_init p0 handler) parts).handled
        = (ble_parser_feed (ble_parser_init p0 handler) parts.flatten).handled ∧
      (feed_parts (ble_parser_init p0 handler) parts).s_rx_len
        = (ble_parser_feed (ble_parser_init p0 handler) parts.flatten).s_rx_len) ∧
    (515 ≤ (ble_parser_feed_loop (ble_parser_init p0 handler) parts.flatten).s_rx_len →
      512 < le16
        ((ble_parser_feed_loop (ble_parser_init p0 handler) parts.flatten).s_rx_buf 1)
        ((ble_parser_feed_loop (ble_parser_init p0 handler) parts.flatten).s_rx_buf 2)) := by
  constructor
  · intro h
    rw [feed_parts_eq_loop parts _ h, feed_eq_loop _ _ h]
    exact ⟨rfl, rfl⟩
  · intro h
    exact full_buffer_announces_oversize parts.flatten (ble_parser_init p0 handler)
      (Nat.zero_le _) (fun h0 => absurd (show FRAME_HEADER_SIZE ≤ 0 from h0) (by decide)) h

/-- The preceding theorem applies to a stream of two frames cut into three parts. -/
theorem framer_split_invariant_witness :
    (feed_parts (ble_parser_init parser_power_up true)
        [[0x87, 2], [0, 1, 1, 0x85, 0], [0]]).handled
      = (ble_parser_feed (ble_parser_init parser_power_up true)
        [[0x87, 2], [0, 1, 1, 0x85, 0], [0]].flatten).handled :=
  ((framer_split_invariant parser_power_up true [[0x87, 2], [0, 1, 1, 0x85, 0], [0]]).1
    (by decide)).1

/-! ## The table-driven CRC-32 and the bit-by-bit one -/

/-- The loop body of `crc32_init_table` is the bit step. -/
theorem table_step_eq (c : Nat) :
    (if c &&& 1 ≠ 0 then 0xEDB88320 ^^^ (c >>> 1) else c >>> 1) = crc32_shift c := by
  unfold crc32_shift
  rw [Nat.and_one_is_mod, Nat.shiftRight_eq_div_pow, Nat.pow_one]
  by_cases h : c % 2 = 1
  · rw [if_pos (by omega), if_pos h, Nat.xor_comm]
  · rw [if_neg (by omega), if_neg h]

theorem foldl_const_iterate (f : Nat → Nat) (l : List Nat) (i : Nat) :
    l.foldl (fun c _ => f c) i = Nat.iterate f l.length i := by
  induction l generalizing i with
  | nil => rfl
  | cons _ l ih =>
    rw [List.foldl_cons, ih, List.length_cons, Function.iterate_succ_apply]

/-- A table entry is eight bit steps of its index. -/
theorem crc32_table_entry_eq (i : Nat) : crc32_table_entry i = Nat.iterate crc32_shift 8 i := by
  unfold crc32_table_entry
  have h : (fun (c : Nat) (_ : Nat) =>
      if c &&& 1 ≠ 0 then 0xEDB88320 ^^^ (c >>> 1) else c >>> 1) = fun c _ => crc32_shift c := by
    funext c _
    exact table_step_eq c
  rw [h, foldl_const_iterate, List.length_range]

/-- The bit step is linear over XOR. -/
theorem crc32_shift_xor (x y : Nat) :
    crc32_shift (x ^^^ y) = crc32_shift x ^^^ crc32_shift y := by
  unfold crc32_shift
  rw [Nat.xor_div_two, Nat.xor_mod_two_eq]
  have hx := Nat.mod_two_eq_zero_or_one x
  have hy := Nat.mod_two_eq_zero_or_one y
  rcases hx with hx | hx <;> rcases hy with hy | hy
  · rw [if_neg (by omega), if_neg (by omega), if_neg (by omega)]
  · rw [if_pos (by omega), if_neg (by omega), if_pos (by omega), Nat.xor_assoc]
  · rw [if_pos (by omega), if_pos (by omega), if_neg (by omega), Nat.xor_assoc,
      Nat.xor_comm (y / 2), Nat.xor_assoc]
  · rw [if_neg (by omega), if_pos (by omega), if_pos (by omega), Nat.xor_assoc,
      ← Nat.xor_assoc 0xEDB88320, Nat.xor_comm 0xEDB88320 (y / 2), Nat.xor_assoc (y / 2),
      Nat.xor_self, Nat.xor_zero]

theorem crc32_shift_iterate_xor (n x y : Nat) :
    Nat.iterate crc32_shift n (x ^^^ y)
      = Nat.iterate crc32_shift n x ^^^ Nat.iterate crc32_shift n y := by
  induction n generalizing x y with
  | zero => rfl
  | succ n ih =>
    rw [Function.iterate_succ_apply, Function.iterate_succ_apply, Function.iterate_succ_apply,
      crc32_shift_xor, ih]

/-- Bits above the low `n` come down unchanged in `n` bit steps. -/
theorem crc32_shift_iterate_high (n h : Nat) : Nat.iterate crc32_shift n (2 ^ n * h) = h := by
  induction n generalizing h with
  | zero => simp
  | succ n ih =>
    rw [Function.iterate_succ_apply]
    have e : crc32_shift (2 ^ (n + 1) * h) = 2 ^ n * h := by
      unfold crc32_shift
      have : 2 ^ (n + 1) * h = 2 * (2 ^ n * h) := by rw [Nat.pow_succ]; ring
      rw [this, if_neg (by omega)]
      omega
    rw [e, ih]

/-- A number is the XOR of its low byte and the rest. -/
theorem xor_low_high (x : Nat) : x = (x &&& 0xFF) ^^^ (2 ^ 8 * (x >>> 8)) := by
  apply Nat.eq_of_testBit_eq
  intro i
  have e : (0xFF : Nat) = 2 ^ 8 - 1 := by decide
  rw [Nat.testBit_xor, Nat.testBit_and, e, Nat.testBit_two_pow_sub_one, Nat.mul_comm,
    ← Nat.shiftLeft_eq, Nat.testBit_shiftLeft, Nat.testBit_shiftRight]
  by_cases h : i < 8
  · have h8 : ¬ 8 ≤ i := by omega
    simp [h, h8]
  · have h8 : 8 + (i - 8) = i := by omega
    simp [h, h8, Nat.not_lt.mp h]

/-- The table lookup of `crc32_update` is eight bit steps. -/
theorem table_lookup_eq (crc : Nat) (b : Byte) :
    crc32_table true ((crc ^^^ b.val) &&& 0xFF) ^^^ (crc >>> 8)
      = Nat.iterate crc32_shift 8 (crc ^^^ b.val) := by
  have hhi : (crc ^^^ b.val) >>> 8 = crc >>> 8 := by
    apply Nat.eq_of_testBit_eq
    intro i
    have hb : b.val.testBit (8 + i) = false :=
      Nat.testBit_lt_two_pow (lt_of_lt_of_le b.isLt
        (Nat.pow_le_pow_right (show 0 < 2 by decide) (Nat.le_add_right 8 i)))
    rw [Nat.testBit_shiftRight, Nat.testBit_xor, Nat.testBit_shiftRight, hb]
    simp
  conv_rhs => rw [xor_low_high (crc ^^^ b.val)]
  rw [crc32_shift_iterate_xor, crc32_shift_iterate_high, hhi]
  unfold crc32_table
  rw [if_pos rfl, crc32_table_entry_eq]

/-- The table-driven fold of `crc32_update` is the bit-by-bit fold. -/
theorem crc32_fold_eq (d : List Byte) (reg : Nat) :
    d.foldl (fun crc b => crc32_table true ((crc ^^^ b.val) &&& 0xFF) ^^^ (crc >>> 8)) reg
      = d.foldl (fun reg b => Nat.iterate crc32_shift 8 (reg ^^^ b.val)) reg := by
  induction d generalizing reg with
  | nil => rfl
  | cons b l ih => rw [List.foldl_cons, List.foldl_cons, table_lookup_eq, ih]

/-! ## C21: CRC-32 over a concatenation -/

/-- C21. With the CRC table initialised, for all byte strings `a` and `b`:
`crc32_update(crc32_update(0, a), b) = crc32_update(0, a ++ b)`, and the same holds with
any value `c` in place of 0, in particular with every 32-bit one. -/
theorem crc32_update_concat (a b : List Byte) :
    crc32_update (crc32_table true) (crc32_update (crc32_table true) 0 a) b
      = crc32_update (crc32_table true) 0 (a ++ b) ∧
    (∀ c : Nat, crc32_update (crc32_table true) (crc32_update (crc32_table true) c a) b
      = crc32_update (crc32_table true) c (a ++ b)) :=
  ⟨crc32_update_append _ 0 a b, fun c => crc32_update_append _ c a b⟩

/-! ## C22: the table-driven CRC-32 is the standard CRC-32 -/

set_option maxRecDepth 100000 in
/-- C22. For every byte string `d`, the table-driven `crc32_update(0, d)` over the
initialised table equals the standard CRC-32 defined bit by bit (reflected polynomial
0xEDB88320, initial register 0xFFFFFFFF, final XOR 0xFFFFFFFF); on the check string
`123456789` it is 0xCBF43926, and on the empty string it is 0. -/
theorem crc32_update_is_standard_crc32 :
    (∀ d : List Byte, crc32_update (crc32_table true) 0 d = crc32_bitwise d) ∧
    crc32_update (crc32_table true) 0 check_string = 0xCBF43926 ∧
    crc32_update (crc32_table true) 0 [] = 0 := by
  refine ⟨fun d => ?_, by decide, by decide⟩
  unfold crc32_update crc32_bitwise
  simp only []
  rw [crc32_fold_eq]
  rfl

/-! ## The persistent flag: write, read back, clear, roll back -/

theorem write_flag_flash (hw : Hw) (s : Ota) (f : ota_flag) (hok : hw.flash_init_ok = true) :
    (ota_write_flag hw s f).flash
      = flash_program (flash_erase s.flash OTA_FLAG_ADDR 4096) OTA_FLAG_ADDR (flag_bytes f) := by
  unfold ota_write_flag
  rw [if_neg (by rw [hok]; decide)]

theorem write_flag_actions (hw : Hw) (s : Ota) (f : ota_flag) (hok : hw.flash_init_ok = true) :
    (ota_write_flag hw s f).trace = s.trace ++
      [Effect.flash_erase OTA_FLAG_ADDR 4096, Effect.flash_program OTA_FLAG_ADDR (flag_bytes f)] := by
  unfold ota_write_flag
  rw [if_neg (by rw [hok]; decide)]

theorem confirmed_flag_wf (f : ota_flag) (h : flag_wf f) (p c : Nat) (hp : p < 256)
    (hc : c < 256) : flag_wf { f with pending := p, confirmed := c } :=
  ⟨h.1, hp, hc, h.2.2.2.1, h.2.2.2.2.1, h.2.2.2.2.2.1, h.2.2.2.2.2.2⟩

/-- With a valid record stored and `flash.init()` succeeding, `ota_clear_pending_confirm`
stores the record with `pending = 0` and `confirmed = 1`. -/
theorem clear_pending_confirm_valid (hw : Hw) (s : Ota) (hok : hw.flash_init_ok = true)
    (hm : (ota_read_flag s.flash).magic = OTA_FLAG_MAGIC) :
    ota_read_flag (ota_clear_pending_confirm hw s).flash
      = { ota_read_flag s.flash with pending := 0, confirmed := 1 } := by
  unfold ota_clear_pending_confirm
  simp only []
  rw [if_neg (not_not.mpr hm), write_flag_flash _ _ _ hok]
  exact read_flag_programmed _ _
    (confirmed_flag_wf _ (read_flag_wf s.flash) 0 1 (by decide) (by decide))

/-- With a valid record stored and `flash.init()` succeeding, `ota_rollback_pending` stores
the record with `pending = 0` and `confirmed = 0`. -/
theorem rollback_pending_valid (hw : Hw) (s : Ota) (hok : hw.flash_init_ok = true)
    (hm : (ota_read_flag s.flash).magic = OTA_FLAG_MAGIC) :
    ota_read_flag (ota_rollback_pending hw s).flash
      = { ota_read_flag s.flash with pending := 0, confirmed := 0 } := by
  unfold ota_rollback_pending
  simp only []
  rw [if_neg (not_not.mpr hm), write_flag_flash _ _ _ hok]
  exact read_flag_programmed _ _
    (confirmed_flag_wf _ (read_flag_wf s.flash) 0 0 (by decide) (by decide))

theorem clear_pending_confirm_invalid (hw : Hw) (s : Ota)
    (hm : (ota_read_flag s.flash).magic ≠ OTA_FLAG_MAGIC) :
    ota_clear_pending_confirm hw s = s := by
  unfold ota_clear_pending_confirm
  simp only []
  rw [if_pos hm]

theorem rollback_pending_invalid (hw : Hw) (s : Ota)
    (hm : (ota_read_flag s.flash).magic ≠ OTA_FLAG_MAGIC) :
    ota_rollback_pending hw s = s := by
  unfold ota_rollback_pending
  simp only []
  rw [if_pos hm]

theorem feed_confirm_flash (hw : Hw) (s : Ota) (data : List Byte)
    (hf : is_frame CMD_OTA_CONFIRM data) :
    (ota_feed hw s data).flash = (ota_clear_pending_confirm hw s).flash := by
  rw [feed_dispatch hw s data _ hf, if_neg (by decide), if_neg (by decide), if_neg (by decide),
    if_neg (by decide), if_neg (by decide), if_pos rfl]
  unfold ota_feed_confirm ota_confirm
  rw [send_hook_flash]

/-! ## C23: the flag record read back after a write -/

/-- C23. For every flag record `f` whose fields fit their C types and every state of the
flash, with `flash.init()` succeeding: `ota_write_flag(f)` erases the flag sector and
programs the 16 bytes of the record in one program call, and `ota_read_flag` then returns a
record equal to `f` in every field. -/
theorem write_flag_read_back (hw : Hw) (s : Ota) (f : ota_flag)
    (hok : hw.flash_init_ok = true) (hf : flag_wf f) :
    ota_read_flag (ota_write_flag hw s f).flash = f ∧
    (ota_read_flag (ota_write_flag hw s f).flash).magic = f.magic ∧
    (ota_read_flag (ota_write_flag hw s f).flash).pending = f.pending ∧
    (ota_read_flag (ota_write_flag hw s f).flash).confirmed = f.confirmed ∧
    (ota_read_flag (ota_write_flag hw s f).flash).slot = f.slot ∧
    (ota_read_flag (ota_write_flag hw s f).flash)._res = f._res ∧
    (ota_read_flag (ota_write_flag hw s f).flash).size = f.size ∧
    (ota_read_flag (ota_write_flag hw s f).flash).crc32 = f.crc32 ∧
    (ota_write_flag hw s f).trace = s.trace ++
      [Effect.flash_erase OTA_FLAG_ADDR 4096, Effect.flash_program OTA_FLAG_ADDR (flag_bytes f)] ∧
    (flag_bytes f).length = 16 := by
  have h : ota_read_flag (ota_write_flag hw s f).flash = f := by
    rw [write_flag_flash _ _ _ hok]
    exact read_flag_programmed _ _ hf
  rw [h]
  exact ⟨rfl, rfl, rfl, rfl, rfl, rfl, rfl, rfl, write_flag_actions _ _ _ hok,
    flag_bytes_length f⟩

/-- The preceding theorem applies to `example_flag`, written over an erased flash. -/
theorem write_flag_read_back_witness :
    ota_read_flag (ota_write_flag (hw_ok 0) (power_up (fun _ => 0xFF)) example_flag).flash
      = example_flag :=
  (write_flag_read_back (hw_ok 0) (power_up (fun _ => 0xFF)) example_flag rfl
    ⟨by decide, by decide, by decide, by decide, by decide, by decide, by decide⟩).1

/-! ## C24: clearing and rolling back the pending flag -/

set_option maxRecDepth 100000 in
/-- C24, as stated, fails. On an erased flag sector (every byte 0xFF, so no valid magic),
`ota_clear_pending_confirm`, the CONFIRM command and `ota_rollback_pending` all return at
the magic check without writing: the stored record still reads `pending = 0xFF` and
`confirmed = 0xFF`. -/
theorem clear_pending_on_erased_sector_writes_nothing :
    (ota_read_flag (ota_clear_pending_confirm (hw_ok 0)
        (ota_init (power_up (fun _ => 0xFF)) true)).flash).pending = 0xFF ∧
    (ota_read_flag (ota_clear_pending_confirm (hw_ok 0)
        (ota_init (power_up (fun _ => 0xFF)) true)).flash).confirmed = 0xFF ∧
    (ota_read_flag (ota_feed (hw_ok 0) (ota_init (power_up (fun _ => 0xFF)) true)
        confirm_frame).flash).pending = 0xFF ∧
    (ota_read_flag (ota_feed (hw_ok 0) (ota_init (power_up (fun _ => 0xFF)) true)
        confirm_frame).flash).confirmed = 0xFF ∧
    (ota_read_flag (ota_rollback_pending (hw_ok 0)
        (ota_init (power_up (fun _ => 0xFF)) true)).flash).pending = 0xFF ∧
    (ota_read_flag (ota_rollback_pending (hw_ok 0)
        (ota_init (power_up (fun _ => 0xFF)) true)).flash).confirmed = 0xFF := by
  decide

/-- C24, amended. With `flash.init()` succeeding, for every content of the flag sector whose
magic is `OTA_FLAG_MAGIC`: after `ota_clear_pending_confirm`, and after a CONFIRM command,
the stored record has `pending = 0` and `confirmed = 1`, and after `ota_rollback_pending`
it has `pending = 0` and `confirmed = 0`, with magic, slot, size and crc32 unchanged in
each case; for every content whose magic is not `OTA_FLAG_MAGIC` the three operations leave
the flash as it is. -/
theorem clear_and_rollback_pending (hw : Hw) (s : Ota) (data : List Byte)
    (hok : hw.flash_init_ok = true) (hf : is_frame CMD_OTA_CONFIRM data) :
    ((ota_read_flag s.flash).magic = OTA_FLAG_MAGIC →
      ota_read_flag (ota_clear_pending_confirm hw s).flash
        = { ota_read_flag s.flash with pending := 0, confirmed := 1 } ∧
      ota_read_flag (ota_feed hw s data).flash
        = { ota_read_flag s.flash with pending := 0, confirmed := 1 } ∧
      ota_read_flag (ota_rollback_pending hw s).flash
        = { ota_read_flag s.flash with pending := 0, confirmed := 0 }) ∧
    ((ota_read_flag s.flash).magic ≠ OTA_FLAG_MAGIC →
      (ota_clear_pending_confirm hw s).flash = s.flash ∧
      (ota_feed hw s data).flash = s.flash ∧
      (ota_rollback_pending hw s).flash = s.flash) := by
  constructor
  · intro hm
    refine ⟨clear_pending_confirm_valid hw s hok hm, ?_, rollback_pending_valid hw s hok hm⟩
    rw [feed_confirm_flash hw s data hf]
    exact clear_pending_confirm_valid hw s hok hm
  · intro hm
    rw [feed_confirm_flash hw s data hf, clear_pending_confirm_invalid hw s hm,
      rollback_pending_invalid hw s hm]
    exact ⟨rfl, rfl, rfl⟩

set_option maxRecDepth 100000 in
/-- The preceding theorem applies to a flash whose flag sector holds `example_flag`:
after `ota_clear_pending_confirm` the record read is confirmed and no longer pending. -/
theorem clear_and_rollback_pending_witness :
    ota_read_flag (ota_clear_pending_confirm (hw_ok 0) (power_up flash_with_flag)).flash
      = { example_flag with pending := 0, confirmed := 1 } :=
  ((clear_and_rollback_pending (hw_ok 0) (power_up flash_with_flag) confirm_frame rfl
    (by decide)).1 (by decide)).1.trans (by decide)

/-! ## The event log -/

theorem getD_set_byte (l : List Byte) (i j : Nat) (a : Byte) (hi : i < l.length) :
    (l.set i a).getD j 0 = if j = i then a else l.getD j 0 := by
  by_cases h : j = i
  · subst h
    rw [if_pos rfl, List.getD_eq_getElem _ _ (by rw [List.length_set]; exact hi)]
    simp
  · rw [if_neg h]
    simp only [List.getD_eq_getElem?_getD]
    rw [List.getElem?_set_ne (fun e => h e.symm)]

/-- The ring after one record was stored at byte position `p0`. -/
theorem ring_store (ring : List Byte) (p0 : Nat) (a b c d : Byte) (h : p0 + 3 < ring.length)
    (q : Nat) :
    ((((ring.set p0 a).set (p0 + 1) b).set (p0 + 2) c).set (p0 + 3) d).getD q 0 =
      if q = p0 + 3 then d else if q = p0 + 2 then c else if q = p0 + 1 then b
      else if q = p0 then a else ring.getD q 0 := by
  rw [getD_set_byte _ _ _ _ (by simp only [List.length_set]; omega),
    getD_set_byte _ _ _ _ (by simp only [List.length_set]; omega),
    getD_set_byte _ _ _ _ (by simp only [List.length_set]; omega),
    getD_set_byte _ _ _ _ (by omega)]

theorem log_record_eq (e p : Nat) :
    log_record e p = [u8 e, u8 p, u8 (p >>> 8), u8 (p >>> 16)] := by
  unfold log_record
  have h1 : u8 (p % 256) = u8 p := by
    apply Fin.ext
    simp only [u8_val]
    omega
  have h2 : u8 (p / 256 % 256) = u8 (p >>> 8) := by
    apply Fin.ext
    simp only [u8_val, Nat.shiftRight_eq_div_pow]
    omega
  have h3 : u8 (p / 65536 % 256) = u8 (p >>> 16) := by
    apply Fin.ext
    simp only [u8_val, Nat.shiftRight_eq_div_pow]
    omega
  rw [h1, h2, h3]

theorem log_inv_empty (s : Ota) (hring : s.s_log_ring.length = 256) (hhead : s.s_log_head = 0)
    (hcount : s.s_log_count = 0) : LogInv s [] :=
  ⟨hring, hhead, hcount, fun j hj => absurd hj (Nat.not_lt_zero j)⟩

/-- Logging one more event keeps the ring in step with the list of events. -/
theorem log_inv_step (s : Ota) (evs : List (Nat × Nat)) (e p : Nat) (h : LogInv s evs) :
    LogInv (ota_log_event s e p) (evs ++ [(e, p)]) := by
  obtain ⟨hring, hhead, hcount, hslot⟩ := h
  have hl : (evs ++ [(e, p)]).length = evs.length + 1 := by
    rw [List.length_append, List.length_singleton]
  have hp0 : s.s_log_head * OTA_LOG_ENTRY_SIZE + 3 < s.s_log_ring.length := by
    rw [hring, hhead]
    simp only [OTA_LOG_ENTRY_SIZE]
    omega
  refine ⟨?_, ?_, ?_, ?_⟩
  · show (List.set _ _ _).length = 256
    simp only [List.length_set]
    exact hring
  · show (s.s_log_head + 1) % OTA_LOG_ENTRIES = _
    rw [hl, hhead]
    simp only [OTA_LOG_ENTRIES]
    omega
  · show (if s.s_log_count < OTA_LOG_ENTRIES then s.s_log_count + 1 else s.s_log_count) = _
    rw [hl, hcount]
    simp only [OTA_LOG_ENTRIES]
    split <;> omega
  · intro j hj hk t ht
    rw [hl] at hj hk
    show List.getD (List.set _ _ _) _ 0 = _
    rw [ring_store _ _ _ _ _ _ hp0, hhead]
    simp only [OTA_LOG_ENTRY_SIZE]
    by_cases hjk : j = evs.length
    · subst hjk
      rw [List.getD_append_right _ _ _ _ (le_refl _), Nat.sub_self, List.getD_cons_zero,
        log_record_eq]
      have ht4 : t = 0 ∨ t = 1 ∨ t = 2 ∨ t = 3 := by omega
      rcases ht4 with e0 | e0 | e0 | e0 <;> subst e0
      · rw [if_neg (by omega), if_neg (by omega), if_neg (by omega), if_pos (by omega)]
        rfl
      · rw [if_neg (by omega), if_neg (by omega), if_pos (by omega)]
        rfl
      · rw [if_neg (by omega), if_pos (by omega)]
        rfl
      · rw [if_pos (by omega)]
        rfl
    · have hj2 : j < evs.length := by omega
      rw [List.getD_append _ _ _ _ hj2, if_neg (by omega), if_neg (by omega), if_neg (by omega),
        if_neg (by omega)]
      exact hslot j hj2 (by omega) t ht

theorem log_events_snoc (s : Ota) (evs : List (Nat × Nat)) (e p : Nat) :
    log_events s (evs ++ [(e, p)]) = ota_log_event (log_events s evs) e p := by
  unfold log_events
  rw [List.foldl_append]
  rfl

theorem log_inv_events (s : Ota) (evs : List (Nat × Nat)) (h : LogInv s []) :
    LogInv (log_events s evs) evs := by
  induction evs using List.reverseRecOn with
  | nil => exact h
  | append_singleton evs ev ih =>
    rw [log_events_snoc]
    exact log_inv_step _ _ _ _ ih

theorem take_eq_map_range (l : List (Nat × Nat)) (n : Nat) (h : n ≤ l.length) :
    l.take n = (List.range n).map (fun i => l.getD i (0, 0)) := by
  apply List.ext_getElem
  · rw [List.length_take, List.length_map, List.length_range]
    omega
  · intro i h1 h2
    rw [List.length_take] at h1
    rw [List.getElem_take, List.getElem_map, List.getElem_range,
      List.getD_eq_getElem _ _ (by omega)]

theorem flatMap_range_congr (n : Nat) (f g : Nat → List Byte) (h : ∀ i, i < n → f i = g i) :
    (List.range n).flatMap f = (List.range n).flatMap g := by
  rw [List.flatMap_def, List.flatMap_def]
  congr 1
  apply List.map_congr_left
  intro i hi
  exact h i (List.mem_range.mp hi)

/-- The readout of a ring that is in step with the events `evs`: the count returned and the
bytes copied. -/
theorem get_log_of_inv (s : Ota) (evs : List (Nat × Nat)) (h : LogInv s evs)
    (max_entries : Nat) :
    (ota_get_log s max_entries).2 = min max_entries (min evs.length 64) ∧
    (ota_get_log s max_entries).1 =
      ((evs.drop (evs.length - min evs.length 64)).take
        (min max_entries (min evs.length 64))).flatMap (fun ev => log_record ev.1 ev.2) := by
  obtain ⟨hring, hhead, hcount, hslot⟩ := h
  have hn : (if max_entries ≤ s.s_log_count then max_entries else s.s_log_count)
      = min max_entries (min evs.length 64) := by
    rw [hcount]
    split <;> omega
  unfold ota_get_log
  simp only []
  rw [hn]
  refine ⟨rfl, ?_⟩
  rw [take_eq_map_range _ _ (by rw [List.length_drop]; omega), List.flatMap_map]
  apply flatMap_range_congr
  intro i hi
  have hj : evs.length - min evs.length 64 + i < evs.length := by omega
  have hidx : (s.s_log_head + OTA_LOG_ENTRIES - s.s_log_count + i) % OTA_LOG_ENTRIES
      = (evs.length - min evs.length 64 + i) % 64 := by
    rw [hhead, hcount]
    simp only [OTA_LOG_ENTRIES]
    omega
  have hstart : ((s.s_log_head + OTA_LOG_ENTRIES - s.s_log_count) % OTA_LOG_ENTRIES + i)
      % OTA_LOG_ENTRIES = (evs.length - min evs.length 64 + i) % 64 := by
    rw [← hidx]
    simp only [OTA_LOG_ENTRIES]
    omega
  rw [hstart]
  have hr : List.range OTA_LOG_ENTRY_SIZE = [0, 1, 2, 3] := by decide
  rw [hr]
  simp only [List.map_cons, List.map_nil, OTA_LOG_ENTRY_SIZE]
  have hd : (evs.drop (evs.length - min evs.length 64)).getD i (0, 0)
      = evs.getD (evs.length - min evs.length 64 + i) (0, 0) := by
    simp only [List.getD_eq_getElem?_getD, List.getElem?_drop]
  rw [hd]
  have h0 := hslot _ hj (by omega) 0 (by omega)
  have h1 := hslot _ hj (by omega) 1 (by omega)
  have h2 := hslot _ hj (by omega) 2 (by omega)
  have h3 := hslot _ hj (by omega) 3 (by omega)
  rw [h0, h1, h2, h3]
  rfl

/-! ## C25: the event log keeps the last 64 events, oldest first -/

/-- C25. Starting from an empty log (256-byte ring, head and count zero), after the calls
`ota_log_event(e, p)` for the `k` pairs of `evs`, `ota_get_log(buf, max_entries)` returns
`n = min(max_entries, min(k, 64))` and fills `buf` with the 4-byte records, in logging
order, of the first `n` of the last `min(k, 64)` events, each record being the event code
and the three low bytes of the parameter, least significant first; so when more than 64
events were logged the `k - 64` oldest are the ones lost. -/
theorem get_log_returns_last_events (s : Ota) (hring : s.s_log_ring.length = 256)
    (hhead : s.s_log_head = 0) (hcount : s.s_log_count = 0) (evs : List (Nat × Nat))
    (max_entries : Nat) :
    (ota_get_log (log_events s evs) max_entries).2 = min max_entries (min evs.length 64) ∧
    (ota_get_log (log_events s evs) max_entries).1 =
      ((evs.drop (evs.length - min evs.length 64)).take
        (min max_entries (min evs.length 64))).flatMap (fun ev => log_record ev.1 ev.2) :=
  get_log_of_inv _ evs (log_inv_events s evs (log_inv_empty s hring hhead hcount)) max_entries

set_option maxRecDepth 100000 in
/-- The preceding theorem applies to the log at power-up after the events START(8) and
READY(4096): both records are read out, START first. -/
theorem get_log_returns_last_events_witness :
    (ota_get_log (log_events (power_up (fun _ => 0xFF)) [(1, 8), (4, 4096)]) 64).1
      = [1, 8, 0, 0, 4, 0, 16, 0] :=
  (get_log_returns_last_events (power_up (fun _ => 0xFF)) (by decide) rfl rfl
    [(1, 8), (4, 4096)] 64).2.trans (by decide)

/-! ## C26: the STATUS reply -/

theorem feed_status_eq (hw : Hw) (s : Ota) (data : List Byte)
    (hf : is_frame CMD_OTA_STATUS data) : ota_feed hw s data = ota_feed_status s := by
  rw [feed_dispatch hw s data _ hf, if_neg (by decide), if_neg (by decide), if_neg (by decide),
    if_neg (by decide), if_pos rfl]

/-- The STATUS handler: the two slot fields are set from the flag, and one reply is sent. -/
theorem status_unfold (s : Ota) (hsend : s.s_send = true) :
    ota_feed_status s =
      { s with
        ctx := { s.ctx with
          active_slot :=
            if (ota_read_flag s.flash).slot = 1 ∧ (ota_read_flag s.flash).confirmed ≠ 0
            then 1 else 0
          pending_slot :=
            if (ota_read_flag s.flash).pending ≠ 0 ∧ (ota_read_flag s.flash).confirmed = 0
            then 1 else 0 }
        trace := s.trace ++ [Effect.send RSP_OTA
          ([u8 s.s_state.toNat] ++ bytes_of_u32 s.ctx.next_expected_offset ++
            bytes_of_u32 s.ctx.bytes_received ++ bytes_of_u32 s.ctx.total_size ++
            bytes_of_u32 s.ctx.erase_progress_bytes ++
            [u8 s.ctx.last_ota_error.toNat,
              u8 (if (ota_read_flag s.flash).slot = 1 ∧ (ota_read_flag s.flash).confirmed ≠ 0
                then 1 else 0),
              u8 (if (ota_read_flag s.flash).pending ≠ 0 ∧
                  (ota_read_flag s.flash).confirmed = 0 then 1 else 0)] ++
            bytes_of_u32 s.ctx.expected_crc32)] } := by
  unfold ota_feed_status send_hook
  simp only []
  rw [if_pos hsend]

/-- C26. In every state (send hook installed), a STATUS frame makes `ota_feed` send exactly
one frame and perform no other action: RSP_OTA with 24 bytes, byte 0 the state, bytes 1-4
`next_expected_offset`, 5-8 `bytes_received`, 9-12 `total_size`, 13-16
`erase_progress_bytes` (each the four little-endian bytes of the field), byte 17
`last_ota_error`, byte 18 `active_slot`, byte 19 `pending_slot`, bytes 20-23
`expected_crc32`; `s_state`, the session counters and the flash (persistent flag included)
are unchanged. -/
theorem status_reply_layout (hw : Hw) (s : Ota) (data : List Byte) (hsend : s.s_send = true)
    (hf : is_frame CMD_OTA_STATUS data) :
    ∃ rsp : List Byte,
      feed_actions hw s data = [Effect.send RSP_OTA rsp] ∧
      rsp.length = 24 ∧
      rsp.getD 0 0 = u8 s.s_state.toNat ∧
      (rsp.drop 1).take 4 = [u8 s.ctx.next_expected_offset, u8 (s.ctx.next_expected_offset >>> 8),
        u8 (s.ctx.next_expected_offset >>> 16), u8 (s.ctx.next_expected_offset >>> 24)] ∧
      (rsp.drop 5).take 4 = [u8 s.ctx.bytes_received, u8 (s.ctx.bytes_received >>> 8),
        u8 (s.ctx.bytes_received >>> 16), u8 (s.ctx.bytes_received >>> 24)] ∧
      (rsp.drop 9).take 4 = [u8 s.ctx.total_size, u8 (s.ctx.total_size >>> 8),
        u8 (s.ctx.total_size >>> 16), u8 (s.ctx.total_size >>> 24)] ∧
      (rsp.drop 13).take 4 = [u8 s.ctx.erase_progress_bytes,
        u8 (s.ctx.erase_progress_bytes >>> 8), u8 (s.ctx.erase_progress_bytes >>> 16),
        u8 (s.ctx.erase_progress_bytes >>> 24)] ∧
      rsp.getD 17 0 = u8 s.ctx.last_ota_error.toNat ∧
      rsp.getD 18 0 = u8 (ota_feed hw s data).ctx.active_slot ∧
      rsp.getD 19 0 = u8 (ota_feed hw s data).ctx.pending_slot ∧
      (rsp.drop 20).take 4 = [u8 s.ctx.expected_crc32, u8 (s.ctx.expected_crc32 >>> 8),
        u8 (s.ctx.expected_crc32 >>> 16), u8 (s.ctx.expected_crc32 >>> 24)] ∧
      (ota_feed hw s data).s_state = s.s_state ∧
      (ota_feed hw s data).ctx.next_expected_offset = s.ctx.next_expected_offset ∧
      (ota_feed hw s data).ctx.bytes_received = s.ctx.bytes_received ∧
      (ota_feed hw s data).ctx.total_size = s.ctx.total_size ∧
      (ota_feed hw s data).ctx.erase_progress_bytes = s.ctx.erase_progress_bytes ∧
      (ota_feed hw s data).ctx.crc32_accum = s.ctx.crc32_accum ∧
      (ota_feed hw s data).ctx.expected_crc32 = s.ctx.expected_crc32 ∧
      (ota_feed hw s data).ctx.last_ota_error = s.ctx.last_ota_error ∧
      (ota_feed hw s data).flash = s.flash ∧
      ota_read_flag (ota_feed hw s data).flash = ota_read_flag s.flash := by
  unfold feed_actions
  rw [feed_status_eq hw s data hf, status_unfold s hsend]
  refine ⟨_, trace_drop_append _ _, ?_, ?_⟩
  · simp [bytes_of_u32]
  · exact ⟨rfl, rfl, rfl, rfl, rfl, rfl, rfl, rfl, rfl, rfl, rfl, rfl, rfl, rfl, rfl, rfl, rfl,
      rfl, rfl⟩

set_option maxRecDepth 100000 in
/-- The preceding theorem applies to `status_frame` in `session_half`. -/
theorem status_reply_layout_witness :
    ∃ rsp : List Byte,
      feed_actions (hw_ok 0) session_half status_frame = [Effect.send RSP_OTA rsp] ∧
      rsp.length = 24 :=
  have ⟨rsp, h1, h2, _⟩ := status_reply_layout (hw_ok 0) session_half status_frame
    (by decide) (by decide)
  ⟨rsp, h1, h2⟩

/-! ## C27: the pending_slot byte of the STATUS reply -/

set_option maxRecDepth 100000 in
/-- C27. With a flag sector that holds no valid record (magic 0) but whose `pending` byte is
1 and `confirmed` byte is 0, `ota_is_pending_confirm()` is false, yet the STATUS reply has
`pending_slot` (byte 19) equal to 1: the STATUS handler tests `pending` and `confirmed`
without testing the magic. -/
theorem status_pending_slot_ignores_magic :
    (ota_read_flag flash_stale_pending).magic = 0 ∧
    (ota_read_flag flash_stale_pending).pending = 1 ∧
    (ota_read_flag flash_stale_pending).confirmed = 0 ∧
    ota_is_pending_confirm (ota_init (power_up flash_stale_pending) true) = false ∧
    (ota_feed (hw_ok 0) (ota_init (power_up flash_stale_pending) true)
        status_frame).ctx.pending_slot = 1 ∧
    (sent (feed_actions (hw_ok 0) (ota_init (power_up flash_stale_pending) true)
        status_frame)).map (fun r => (r.1, r.2.getD 19 0)) = [(RSP_OTA, 1)] := by
  decide

/-! ## C28: the reply to GET_ID -/

theorem u8_u16 (x : Nat) : u8 (u16 x) = u8 x := by
  apply Fin.ext
  simp only [u8_val, u16]
  omega

theorem u8_u16_shift (x : Nat) : u8 (u16 x >>> 8) = u8 (x >>> 8) := by
  apply Fin.ext
  simp only [u8_val, u16, Nat.shiftRight_eq_div_pow]
  omega

theorem u8_u8 (x : Nat) : u8 (u8 x).val = u8 x := by
  apply Fin.ext
  simp only [u8_val]
  omega

set_option maxRecDepth 100000 in
/-- C28. On GET_ID, with the TX characteristic subscribed, `handle_get_id` sends one frame of
type RSP_ID (0x81) whose length field and payload length are 12 = 4 + uid_len, not
5 + uid_len = 13: the payload is `fw_version` (two bytes, little-endian),
`protocol_version`, `hw_revision`, `uid_len = 8` and only the first seven UID bytes; the
eighth UID byte, bits 24..31 of the second DEVICEID word, is not sent. For the DEVICEID
words 0x04030201 and 0x08070605 the UID bytes sent are 01..07. -/
theorem get_id_reply_lacks_last_uid_byte (stack : Nat → Byte) (fw proto hw id0 id1 : Nat)
    (pad : Byte) :
    handle_get_id true stack fw proto hw id0 id1 pad =
      [[0x81, 12, 0, u8 fw, u8 (fw >>> 8), u8 proto, u8 hw, 8,
        u8 id0, u8 (id0 >>> 8), u8 (id0 >>> 16), u8 (id0 >>> 24),
        u8 id1, u8 (id1 >>> 8), u8 (id1 >>> 16)]] ∧
    (device_id_fill_rsp fw proto hw id0 id1).uid_len = 8 ∧
    (device_id_fill_rsp fw proto hw id0 id1).uid.length = 8 ∧
    (device_id_fill_rsp fw proto hw id0 id1).uid.getD 7 0 = u8 (id1 >>> 24) ∧
    handle_get_id true (fun _ => 0) 0x0102 2 1 0x04030201 0x08070605 0 =
      [[0x81, 12, 0, 2, 1, 2, 1, 8, 1, 2, 3, 4, 5, 6, 7]] := by
  refine ⟨?_, rfl, rfl, rfl, by decide⟩
  have h : handle_get_id true stack fw proto hw id0 id1 pad =
      [[0x81, 12, 0, u8 (u16 fw), u8 (u16 fw >>> 8), u8 (u8 proto).val, u8 (u8 hw).val, 8,
        u8 (id0 >>> 0), u8 (id0 >>> 8), u8 (id0 >>> 16), u8 (id0 >>> 24),
        u8 (id1 >>> 0), u8 (id1 >>> 8), u8 (id1 >>> 16)]] := by
    have hlen : u16 (4 + (device_id_fill_rsp fw proto hw id0 id1).uid_len) = 12 := rfl
    unfold handle_get_id
    simp only []
    rw [hlen]
    unfold ble_send_frame
    rw [if_neg (by decide)]
    have hr : List.range (FRAME_HEADER_SIZE + 12)
        = [0, 1, 2, 3, 4, 5, 6, 7, 8, 9, 10, 11, 12, 13, 14] := by decide
    simp only []
    rw [hr]
    rfl
  rw [h, u8_u16, u8_u16_shift, u8_u8, u8_u8, Nat.shiftRight_zero, Nat.shiftRight_zero]

/-! ## The boot gate -/

theorem confirm_deadline_kept (g : BootGate) (e : LoopEnv) :
    (main_loop_iter g e).confirm_deadline = g.confirm_deadline := by
  unfold main_loop_iter main_loop_expire main_loop_confirm
  simp only []
  split_ifs <;> rfl

/-- The confirm is called at most once per iteration, and only while pending with the
uptime below the deadline. -/
theorem confirm_called_only_in_window (g : BootGate) (e : LoopEnv) :
    (main_loop_iter g e).confirm_calls = g.confirm_calls ∨
    ((main_loop_iter g e).confirm_calls = g.confirm_calls + 1 ∧
      g.pending_confirm = true ∧ u32 e.uptime_check < g.confirm_deadline ∧ e.health = true) := by
  unfold main_loop_iter main_loop_expire main_loop_confirm
  simp only []
  split_ifs with c1 c2 c3 c4 c5 c6 c7 <;>
    first
      | exact Or.inl rfl
      | exact Or.inr ⟨rfl, c1.1, c1.2, c2⟩

theorem not_pending_iter (g : BootGate) (e : LoopEnv) (h : g.pending_confirm = false) :
    main_loop_iter g e = g := by
  unfold main_loop_iter main_loop_expire main_loop_confirm
  simp only []
  have hn : ∀ q : Prop, ¬ (g.pending_confirm = true ∧ q) := fun q c => by
    have h1 := c.1
    rw [h] at h1
    cases h1
  rw [if_neg (hn _), if_neg (hn _)]

/-- Once `pending_confirm` is false, no iteration changes anything. -/
theorem not_pending_loop (g : BootGate) (envs : List LoopEnv) (h : g.pending_confirm = false) :
    main_loop g envs = g := by
  unfold main_loop
  induction envs with
  | nil => rfl
  | cons e rest ih => rw [List.foldl_cons, not_pending_iter g e h, ih]

/-- The expiry test clears `pending_confirm` when it reads an uptime at or past the
deadline. -/
theorem expire_clears (g : BootGate) (e : LoopEnv)
    (h : u32 e.uptime_expiry ≥ (main_loop_confirm g e).confirm_deadline) :
    (main_loop_iter g e).pending_confirm = false := by
  unfold main_loop_iter main_loop_expire
  by_cases hp : (main_loop_confirm g e).pending_confirm = true
  · rw [if_pos ⟨hp, h⟩]
  · rw [if_neg (fun c => hp c.1)]
    exact Bool.eq_false_iff.mpr hp

theorem confirm_part_deadline (g : BootGate) (e : LoopEnv) :
    (main_loop_confirm g e).confirm_deadline = g.confirm_deadline := by
  unfold main_loop_confirm
  simp only []
  split_ifs <;> rfl

theorem confirm_part_skipped (g : BootGate) (e : LoopEnv)
    (h : ¬ u32 e.uptime_check < g.confirm_deadline) : main_loop_confirm g e = g := by
  unfold main_loop_confirm
  rw [if_neg (fun c => h c.2)]

theorem main_loop_deadline (g : BootGate) (envs : List LoopEnv) :
    (main_loop g envs).confirm_deadline = g.confirm_deadline := by
  unfold main_loop
  induction envs generalizing g with
  | nil => rfl
  | cons e rest ih => rw [List.foldl_cons, ih, confirm_deadline_kept]

theorem main_loop_append (g : BootGate) (pre : List LoopEnv) (e : LoopEnv)
    (post : List LoopEnv) :
    main_loop g (pre ++ e :: post) = main_loop (main_loop_iter (main_loop g pre) e) post := by
  unfold main_loop
  rw [List.foldl_append, List.foldl_cons]

/-- What `main` sets up before the loop, by the answer of `boot_is_img_confirmed()`. -/
theorem main_start_cases (b : BootEnv) (g0 : BootGate) (h : main_start b = some g0) :
    g0.confirm_calls = 0 ∧
    (b.img_confirmed = true → g0.pending_confirm = false) ∧
    (b.img_confirmed = false → g0.pending_confirm = true ∧
      g0.confirm_deadline = u32 (u32 b.uptime + 30000)) := by
  unfold main_start at h
  simp only [] at h
  split_ifs at h with c1 c2
  · cases Option.some.inj h
    exact ⟨rfl, fun _ => rfl, fun c => by rw [c2] at c; cases c⟩
  · cases Option.some.inj h
    exact ⟨rfl, fun c => absurd c c2, fun _ => ⟨rfl, rfl⟩⟩

/-! ## C29: the confirm window of the boot gate -/

/-- C29. In the main loop of the boot gate, with the uptime reads, the health check result
and the result of the confirm as inputs: (1) an iteration calls `boot_write_img_confirmed`
only when the image was not confirmed at boot, `pending_confirm` is set and the uptime read
is below `confirm_deadline`, which is the uptime at boot plus 30000 ms (in 32-bit
arithmetic); (2) once the expiry test of an iteration reads an uptime at or past the
deadline, no later iteration calls it; (3) likewise once the confirm test reads an uptime at
or past the deadline and the expiry test of that iteration reads no earlier uptime, and that
iteration does not call it either; (4) when the image is already confirmed at boot, no
iteration calls it and no iteration changes the state. -/
theorem confirm_only_within_window (b : BootEnv) (g0 : BootGate)
    (hstart : main_start b = some g0) (pre : List LoopEnv) (e : LoopEnv)
    (post : List LoopEnv) :
    ((main_loop_iter (main_loop g0 pre) e).confirm_calls ≠ (main_loop g0 pre).confirm_calls →
      b.img_confirmed = false ∧
      (main_loop g0 pre).pending_confirm = true ∧
      u32 e.uptime_check < (main_loop g0 pre).confirm_deadline ∧
      (main_loop g0 pre).confirm_deadline = (b.uptime % 2 ^ 32 + 30000) % 2 ^ 32 ∧
      (b.uptime + 30000 < 2 ^ 32 → (main_loop g0 pre).confirm_deadline = b.uptime + 30000)) ∧
    (u32 e.uptime_expiry ≥ (main_loop g0 pre).confirm_deadline →
      (main_loop g0 (pre ++ e :: post)).confirm_calls
        = (main_loop g0 (pre ++ [e])).confirm_calls) ∧
    (u32 e.uptime_check ≥ (main_loop g0 pre).confirm_deadline →
      u32 e.uptime_expiry ≥ u32 e.uptime_check →
      (main_loop g0 (pre ++ e :: post)).confirm_calls = (main_loop g0 pre).confirm_calls) ∧
    (b.img_confirmed = true →
      (main_loop g0 (pre ++ e :: post)).confirm_calls = 0 ∧
      main_loop g0 (pre ++ e :: post) = g0) := by
  obtain ⟨h0, hc, hn⟩ := main_start_cases b g0 hstart
  have hd : (main_loop g0 pre).confirm_deadline = g0.confirm_deadline :=
    main_loop_deadline g0 pre
  refine ⟨?_, ?_, ?_, ?_⟩
  · intro hcall
    rcases confirm_called_only_in_window (main_loop g0 pre) e with h | ⟨_, hp, hw, _⟩
    · exact absurd h hcall
    · have hb : b.img_confirmed = false := by
        cases hbc : b.img_confirmed
        · rfl
        · rw [not_pending_loop g0 pre (hc hbc), hc hbc] at hp
          cases hp
      have hdl := (hn hb).2
      refine ⟨hb, hp, hw, ?_, ?_⟩
      · rw [hd, hdl]
        rfl
      · intro hlt
        have hu : u32 b.uptime = b.uptime := u32_of_lt (by omega)
        rw [hd, hdl, hu, u32_of_lt hlt]
  · intro hexp
    have hp : (main_loop_iter (main_loop g0 pre) e).pending_confirm = false :=
      expire_clears _ e (by rw [confirm_part_deadline]; exact hexp)
    rw [main_loop_append, not_pending_loop _ post hp, main_loop_append]
    rfl
  · intro hchk hmono
    have hskip : main_loop_confirm (main_loop g0 pre) e = main_loop g0 pre :=
      confirm_part_skipped _ e (by omega)
    have hp : (main_loop_iter (main_loop g0 pre) e).pending_confirm = false :=
      expire_clears _ e (by rw [confirm_part_deadline]; omega)
    rw [main_loop_append, not_pending_loop _ post hp]
    unfold main_loop_iter main_loop_expire
    rw [hskip]
    split_ifs <;> rfl
  · intro hbc
    rw [not_pending_loop g0 _ (hc hbc)]
    exact ⟨h0, rfl⟩

/-- The preceding theorem applies to an unconfirmed image booted at uptime 100 ms whose
health check fails until the window has expired: the healthy iteration at 32 s does not call
the confirm. -/
theorem confirm_only_within_window_witness :
    (main_loop_iter (main_loop_iter
        { boot_count := 1, dfu_safe_mode := false, health_ok := false, pending_confirm := true,
          confirm_deadline := 30100, confirm_calls := 0 }
        (loop_unhealthy 31000)) (loop_healthy 32000)).confirm_calls = 0 :=
  have h := (confirm_only_within_window boot_test_image
    { boot_count := 1, dfu_safe_mode := false, health_ok := false, pending_confirm := true,
      confirm_deadline := 30100, confirm_calls := 0 } (by decide) [] (loop_unhealthy 31000)
    [loop_healthy 32000]).2.1 (by decide)
  h.trans (by decide)

/-! ## The background erase, sector by sector -/

theorem erases_append (a b : List Effect) : erases (a ++ b) = erases a ++ erases b := by
  induction a with
  | nil => rfl
  | cons e l ih => cases e <;> simp [erases, ih]

theorem yield_hook_trace_eq (s : Ota) :
    (yield_hook s).trace = s.trace ++ (if s.s_yield = true then [Effect.yield] else []) := by
  unfold yield_hook
  split
  · rfl
  · exact (List.append_nil _).symm

theorem send_hook_trace_eq (s : Ota) (ty : Nat) (p : List Byte) :
    (send_hook s ty p).trace
      = s.trace ++ (if s.s_send = true then [Effect.send ty p] else []) := by
  unfold send_hook
  split
  · rfl
  · exact (List.append_nil _).symm

@[simp] theorem yield_hook_started (s : Ota) :
    (yield_hook s).s_erase_started = s.s_erase_started := by unfold yield_hook; split <;> rfl

@[simp] theorem send_hook_started (s : Ota) (ty : Nat) (p : List Byte) :
    (send_hook s ty p).s_erase_started = s.s_erase_started := by unfold send_hook; split <;> rfl

@[simp] theorem send_hook_erase_addr (s : Ota) (ty : Nat) (p : List Byte) :
    (send_hook s ty p).s_erase_addr = s.s_erase_addr := by unfold send_hook; split <;> rfl

@[simp] theorem yield_hook_yield (s : Ota) : (yield_hook s).s_yield = s.s_yield := by
  unfold yield_hook; split <;> rfl

theorem poll_erase_addr (hw : Hw) (s : Ota) :
    (ota_poll_erase hw s).s_erase_addr = u32 (s.s_erase_addr + poll_erase_size s) := by
  unfold ota_poll_erase
  simp only []
  split <;> simp only [send_hook_erase_addr, yield_hook_erase_addr]

theorem poll_erase_progress (hw : Hw) (s : Ota) :
    (ota_poll_erase hw s).ctx.erase_progress_bytes
      = u32 ((2 ^ 32 - OTA_SLOT_B_ADDR) + u32 (s.s_erase_addr + poll_erase_size s)) := by
  unfold ota_poll_erase
  simp only []
  split <;> simp only [send_hook_ctx, yield_hook_ctx]

theorem poll_erase_started (hw : Hw) (s : Ota) :
    (ota_poll_erase hw s).s_erase_started = s.s_erase_started := by
  unfold ota_poll_erase
  simp only []
  split <;> simp only [send_hook_started, yield_hook_started]

theorem poll_erase_send (hw : Hw) (s : Ota) :
    (ota_poll_erase hw s).s_send = s.s_send := by
  unfold ota_poll_erase
  simp only []
  split <;> simp only [send_hook_send, yield_hook_send]

/-- The erase step issues exactly one erase, at `s_erase_addr`. -/
theorem poll_erase_trace (hw : Hw) (s : Ota) :
    ∃ l, (ota_poll_erase hw s).trace
        = s.trace ++ Effect.flash_erase s.s_erase_addr (poll_erase_size s) :: l ∧
      erases l = [] := by
  unfold ota_poll_erase
  simp only []
  split
  · simp only [send_hook_trace_eq, yield_hook_trace_eq, List.append_assoc]
    exact ⟨_, rfl, by split_ifs <;> rfl⟩
  · simp only [send_hook_trace_eq, yield_hook_trace_eq, List.append_assoc]
    exact ⟨_, rfl, by split_ifs <;> rfl⟩

theorem poll_erase_log (hw : Hw) (s : Ota) :
    (ota_poll_erase hw s).s_log_ring = s.s_log_ring ∧
    (ota_poll_erase hw s).s_log_head = s.s_log_head ∧
    (ota_poll_erase hw s).s_log_count = s.s_log_count := by
  unfold ota_poll_erase send_hook yield_hook
  simp only []
  split_ifs <;> exact ⟨rfl, rfl, rfl⟩

/-- The mask `0xFFFFF000` rounds a 32-bit value down to a multiple of 4096. -/
theorem and_sector_mask (x : Nat) (hx : x < 2 ^ 32) : x &&& 0xFFFFF000 = x / 4096 * 4096 := by
  have hm : (0xFFFFF000 : Nat) = (2 ^ 20 - 1) <<< 12 := by decide
  have hd : x / 4096 * 4096 = (x >>> 12) <<< 12 := by
    rw [Nat.shiftLeft_eq, Nat.shiftRight_eq_div_pow]
  rw [hd, hm]
  apply Nat.eq_of_testBit_eq
  intro i
  rw [Nat.testBit_and, Nat.testBit_shiftLeft, Nat.testBit_shiftLeft, Nat.testBit_shiftRight,
    Nat.testBit_two_pow_sub_one]
  by_cases h12 : 12 ≤ i
  · have e : 12 + (i - 12) = i := by omega
    rw [e]
    by_cases h32 : i < 32
    · have : i - 12 < 20 := by omega
      simp [h12, this]
    · have hf : x.testBit i = false :=
        Nat.testBit_lt_two_pow (lt_of_lt_of_le hx
          (Nat.pow_le_pow_right (show 0 < 2 by decide) (by omega)))
      simp [hf]
  · simp [h12]

/-- One poll that erases: in PREPARE_ERASE with a whole sector left before the end of the
erase range and `flash.init()` succeeding, `ota_poll` erases that sector and advances. -/
theorem poll_erasing (hw : Hw) (s : Ota) (hs : s.s_state = .OTA_PREPARE_ERASE)
    (hok : hw.flash_init_ok = true)
    (hle : s.s_erase_total ≤ OTA_STAGING_SIZE)
    (hge : OTA_SLOT_B_ADDR ≤ erase_start_addr s)
    (hfull : erase_start_addr s + OTA_ERASE_SECTOR ≤ OTA_SLOT_B_ADDR + s.s_erase_total) :
    (ota_poll hw s).s_state = .OTA_PREPARE_ERASE ∧
    (ota_poll hw s).s_erase_total = s.s_erase_total ∧
    (ota_poll hw s).s_send = s.s_send ∧
    (ota_poll hw s).s_erase_started = true ∧
    (ota_poll hw s).s_erase_addr = erase_start_addr s + OTA_ERASE_SECTOR ∧
    OTA_SLOT_B_ADDR + (ota_poll hw s).ctx.erase_progress_bytes
      = erase_start_addr s + OTA_ERASE_SECTOR ∧
    (ota_poll hw s).flash = flash_erase s.flash (erase_start_addr s) OTA_ERASE_SECTOR ∧
    erases (poll_actions hw s) = [(erase_start_addr s, OTA_ERASE_SECTOR)] ∧
    ((ota_poll hw s).s_log_ring = s.s_log_ring ∧ (ota_poll hw s).s_log_head = s.s_log_head ∧
      (ota_poll hw s).s_log_count = s.s_log_count) := by
  have hT : s.s_erase_total ≠ 0 := by
    simp only [OTA_SLOT_B_ADDR, OTA_ERASE_SECTOR] at hfull hge
    omega
  have c1 : ¬ (s.s_state ≠ .OTA_PREPARE_ERASE ∨ s.s_erase_total = 0) := by
    simp only [not_or, not_not]
    exact ⟨hs, hT⟩
  unfold poll_actions ota_poll
  rw [if_neg c1]
  simp only []
  generalize hr : (if s.s_erase_started = false then
      { s with s_erase_started := true, s_erase_addr := OTA_SLOT_B_ADDR,
               s_last_progress_ms := hw.millis_start }
    else s) = r
  have e1 : r.flash = s.flash := by rw [← hr]; split <;> rfl
  have e2 : r.s_state = s.s_state := by rw [← hr]; split <;> rfl
  have e3 : r.s_erase_total = s.s_erase_total := by rw [← hr]; split <;> rfl
  have e4 : r.s_send = s.s_send := by rw [← hr]; split <;> rfl
  have e5 : r.trace = s.trace := by rw [← hr]; split <;> rfl
  have e6 : r.s_erase_started = true := by
    rw [← hr]
    split
    · rfl
    · rename_i h
      simpa using h
  have e7 : r.s_erase_addr = erase_start_addr s := by
    rw [← hr]
    unfold erase_start_addr
    split <;> rfl
  have e8 : r.s_log_ring = s.s_log_ring ∧ r.s_log_head = s.s_log_head ∧
      r.s_log_count = s.s_log_count := by rw [← hr]; split <;> exact ⟨rfl, rfl, rfl⟩
  have hsz : poll_erase_size (yield_hook r) = OTA_ERASE_SECTOR := by
    unfold poll_erase_size
    rw [yield_hook_erase_addr, yield_hook_erase_total, e3, e7]
    simp only [u32, OTA_SLOT_B_ADDR, OTA_STAGING_SIZE, OTA_ERASE_SECTOR,
      Nat.reducePow, Nat.reduceMul] at hle hge hfull ⊢
    rw [if_neg (by omega)]
  have hlt : ¬ r.s_erase_addr ≥ u32 (OTA_SLOT_B_ADDR + r.s_erase_total) := by
    rw [e3, e7]
    simp only [u32, OTA_SLOT_B_ADDR, OTA_STAGING_SIZE, OTA_ERASE_SECTOR,
      Nat.reducePow, Nat.reduceMul] at hle hge hfull ⊢
    omega
  rw [if_neg hlt, if_neg (by rw [hok]; decide)]
  have haddr : (ota_poll_erase hw (yield_hook r)).s_erase_addr
      = erase_start_addr s + OTA_ERASE_SECTOR := by
    rw [poll_erase_addr, hsz, yield_hook_erase_addr, e7]
    simp only [u32, OTA_SLOT_B_ADDR, OTA_STAGING_SIZE, OTA_ERASE_SECTOR,
      Nat.reducePow, Nat.reduceMul] at hle hge hfull ⊢
    omega
  refine ⟨?_, ?_, ?_, ?_, haddr, ?_, ?_, ?_, ?_⟩
  · rw [poll_erase_state, yield_hook_state, e2, hs]
  · rw [poll_erase_erase_total, yield_hook_erase_total, e3]
  · rw [poll_erase_send, yield_hook_send, e4]
  · rw [poll_erase_started, yield_hook_started, e6]
  · rw [poll_erase_progress, hsz, yield_hook_erase_addr, e7]
    simp only [u32, OTA_SLOT_B_ADDR, OTA_STAGING_SIZE, OTA_ERASE_SECTOR,
      Nat.reducePow, Nat.reduceMul] at hle hge hfull ⊢
    omega
  · rw [poll_erase_flash, hsz, yield_hook_flash, yield_hook_erase_addr, e1, e7]
  · obtain ⟨l, hl, hnil⟩ := poll_erase_trace hw (yield_hook r)
    rw [hl, yield_hook_trace_eq, e5, List.append_assoc, List.drop_left, erases_append,
      hsz, yield_hook_erase_addr, e7]
    have : erases (if r.s_yield = true then [Effect.yield] else []) = [] := by
      split <;> rfl
    rw [this]
    show (erase_start_addr s, OTA_ERASE_SECTOR) :: erases l = _
    rw [hnil]
  · obtain ⟨a, b, c⟩ := poll_erase_log hw (yield_hook r)
    rw [a, b, c]
    unfold yield_hook
    split <;> exact e8

/-- The poll that finds the erase range done: it erases nothing, makes the state
READY_FOR_DATA, logs event 4 and sends MSG_OTA_READY with the payload `[0]`. -/
theorem poll_completes (hw : Hw) (s : Ota) (hs : s.s_state = .OTA_PREPARE_ERASE)
    (hT : s.s_erase_total ≠ 0) (hsend : s.s_send = true)
    (hdone : erase_start_addr s ≥ u32 (OTA_SLOT_B_ADDR + s.s_erase_total)) :
    (ota_poll hw s).s_state = .OTA_READY_FOR_DATA ∧
    poll_actions hw s = [Effect.send MSG_OTA_READY [0]] ∧
    (ota_poll hw s).flash = s.flash ∧
    (ota_poll hw s).ctx.erase_progress_bytes = s.s_erase_total ∧
    ((ota_poll hw s).s_log_ring = (ota_log_event s 4 s.s_erase_total).s_log_ring ∧
      (ota_poll hw s).s_log_head = (ota_log_event s 4 s.s_erase_total).s_log_head ∧
      (ota_poll hw s).s_log_count = (ota_log_event s 4 s.s_erase_total).s_log_count) := by
  have c1 : ¬ (s.s_state ≠ .OTA_PREPARE_ERASE ∨ s.s_erase_total = 0) := by
    simp only [not_or, not_not]
    exact ⟨hs, hT⟩
  unfold poll_actions ota_poll
  rw [if_neg c1]
  simp only []
  generalize hr : (if s.s_erase_started = false then
      { s with s_erase_started := true, s_erase_addr := OTA_SLOT_B_ADDR,
               s_last_progress_ms := hw.millis_start }
    else s) = r
  have e1 : r.flash = s.flash := by rw [← hr]; split <;> rfl
  have e3 : r.s_erase_total = s.s_erase_total := by rw [← hr]; split <;> rfl
  have e4 : r.s_send = s.s_send := by rw [← hr]; split <;> rfl
  have e5 : r.trace = s.trace := by rw [← hr]; split <;> rfl
  have e7 : r.s_erase_addr = erase_start_addr s := by
    rw [← hr]
    unfold erase_start_addr
    split <;> rfl
  have e8 : r.s_log_ring = s.s_log_ring ∧ r.s_log_head = s.s_log_head ∧
      r.s_log_count = s.s_log_count := by rw [← hr]; split <;> exact ⟨rfl, rfl, rfl⟩
  have hd : r.s_erase_addr ≥ u32 (OTA_SLOT_B_ADDR + r.s_erase_total) := by
    rw [e3, e7]
    exact hdone
  rw [if_pos hd]
  refine ⟨?_, ?_, ?_, ?_, ?_⟩
  · simp only [send_hook_state, log_event_state]
  · show List.drop s.trace.length (send_hook _ MSG_OTA_READY [0]).trace = _
    rw [send_hook_trace_eq]
    show List.drop s.trace.length (r.trace ++ (if r.s_send = true then _ else [])) = _
    rw [e5, e4, if_pos hsend, List.drop_left]
  · show (send_hook _ MSG_OTA_READY [0]).flash = _
    rw [send_hook_flash]
    exact e1
  · simp only [send_hook_ctx, log_event_ctx, e3]
  · obtain ⟨a, b, c⟩ := e8
    unfold send_hook ota_log_event
    simp only [e3, a, b, c]
    split <;> exact ⟨rfl, rfl, rfl⟩

/-- What an accepted START sets up for the background erase: the erase range is the image
size rounded up to whole sectors, and no erase has started. -/
theorem start_erase (s : Ota) (payload : List Byte) (paylen : Nat) (h11 : 11 ≤ paylen)
    (hsz : ¬ (le32 (payload.getD 3 0) (payload.getD 4 0) (payload.getD 5 0) (payload.getD 6 0) = 0 ∨
      le32 (payload.getD 3 0) (payload.getD 4 0) (payload.getD 5 0) (payload.getD 6 0)
        > OTA_STAGING_SIZE)) :
    (ota_feed_start s payload paylen).s_erase_total
      = (le32 (payload.getD 3 0) (payload.getD 4 0) (payload.getD 5 0) (payload.getD 6 0)
          + (OTA_ERASE_SECTOR - 1)) / OTA_ERASE_SECTOR * OTA_ERASE_SECTOR ∧
    (ota_feed_start s payload paylen).s_erase_started = false ∧
    (ota_feed_start s payload paylen).s_send = s.s_send := by
  unfold ota_feed_start
  rw [if_neg (by omega)]
  simp only [set_error]
  rw [if_neg hsz]
  generalize le32 (payload.getD 3 0) (payload.getD 4 0) (payload.getD 5 0) (payload.getD 6 0)
    = n at hsz ⊢
  have hn : 1 ≤ n ∧ n ≤ 507904 := by
    simp only [OTA_STAGING_SIZE, Nat.reduceMul] at hsz
    omega
  have hu : u32 (n + (OTA_ERASE_SECTOR - 1)) = n + 4095 := by
    show u32 (n + 4095) = n + 4095
    apply u32_of_lt
    simp only [Nat.reducePow]
    omega
  have hm := and_sector_mask (n + 4095) (by simp only [Nat.reducePow]; omega)
  simp only [send_hook_erase_total, log_event_erase_total, send_hook_started, send_hook_send,
    log_event_send, hu, hm]
  have h4 : ¬ (n + 4095) / 4096 * 4096 < OTA_ERASE_SECTOR := by
    simp only [OTA_ERASE_SECTOR]
    omega
  rw [if_neg h4]
  refine ⟨rfl, rfl, ?_⟩
  split <;> rfl

theorem poll_all_snoc (s : Ota) (hws : List Hw) (hw : Hw) :
    poll_all s (hws ++ [hw]) = ota_poll hw (poll_all s hws) := by
  unfold poll_all
  rw [List.foldl_append]
  rfl

/-- The erase schedule: after `i` polls with `flash.init()` succeeding, `i` at most the
number of sectors, the next sector to erase is the `i`-th one of the staging slot. -/
theorem poll_all_erasing (s : Ota) (hs : s.s_state = .OTA_PREPARE_ERASE)
    (hst : s.s_erase_started = false) (hp : s.ctx.erase_progress_bytes = 0)
    (hle : s.s_erase_total ≤ OTA_STAGING_SIZE)
    (hws : List Hw) (hok : ∀ h ∈ hws, h.flash_init_ok = true)
    (hlen : hws.length ≤ s.s_erase_total / OTA_ERASE_SECTOR) :
    (poll_all s hws).s_state = .OTA_PREPARE_ERASE ∧
    (poll_all s hws).s_erase_total = s.s_erase_total ∧
    (poll_all s hws).s_send = s.s_send ∧
    erase_start_addr (poll_all s hws) = OTA_SLOT_B_ADDR + OTA_ERASE_SECTOR * hws.length ∧
    (poll_all s hws).ctx.erase_progress_bytes = OTA_ERASE_SECTOR * hws.length ∧
    (0 < hws.length → (poll_all s hws).s_erase_addr
      = OTA_SLOT_B_ADDR + OTA_ERASE_SECTOR * hws.length) := by
  induction hws using List.reverseRecOn with
  | nil =>
    refine ⟨hs, rfl, rfl, ?_, hp, ?_⟩
    · unfold erase_start_addr
      show (if s.s_erase_started = false then OTA_SLOT_B_ADDR else s.s_erase_addr) = _
      rw [if_pos hst]
      rfl
    · intro h
      exact absurd h (by decide)
  | append_singleton l hw ih =>
    have hl : (l ++ [hw]).length = l.length + 1 := by
      rw [List.length_append]
      rfl
    rw [hl] at hlen ⊢
    obtain ⟨i1, i2, i3, i4, i5, _⟩ := ih (fun h hh => hok h (List.mem_append_left _ hh))
      (by omega)
    rw [poll_all_snoc]
    have hwok : hw.flash_init_ok = true := hok hw (List.mem_append_right _ (List.mem_singleton_self hw))
    have hk : OTA_ERASE_SECTOR * (l.length + 1) ≤ s.s_erase_total := by
      have := Nat.div_mul_le_self s.s_erase_total OTA_ERASE_SECTOR
      have h2 : (l.length + 1) * OTA_ERASE_SECTOR
          ≤ s.s_erase_total / OTA_ERASE_SECTOR * OTA_ERASE_SECTOR :=
        Nat.mul_le_mul_right _ hlen
      rw [Nat.mul_comm]
      omega
    obtain ⟨p1, p2, p3, p4, p5, p6, _, _, _⟩ := poll_erasing hw (poll_all s l) i1 hwok
      (by rw [i2]; exact hle) (by rw [i4]; omega)
      (by
        rw [i4, i2]
        simp only [OTA_SLOT_B_ADDR, OTA_ERASE_SECTOR] at hk ⊢
        omega)
    have ha : (ota_poll hw (poll_all s l)).s_erase_addr
        = OTA_SLOT_B_ADDR + OTA_ERASE_SECTOR * (l.length + 1) := by
      rw [p5, i4]
      simp only [OTA_SLOT_B_ADDR, OTA_ERASE_SECTOR]
      omega
    refine ⟨p1, p2.trans i2, p3.trans i3, ?_, ?_, fun _ => ha⟩
    · unfold erase_start_addr
      rw [p4, if_neg (by decide)]
      exact ha
    · rw [i4] at p6
      simp only [OTA_SLOT_B_ADDR, OTA_ERASE_SECTOR] at p6 ⊢
      omega

/-- An `ota_poll` call in a state other than PREPARE_ERASE does nothing. -/
theorem poll_other_state (hw : Hw) (s : Ota) (hs : s.s_state ≠ .OTA_PREPARE_ERASE) :
    ota_poll hw s = s := by
  unfold ota_poll
  rw [if_pos (Or.inl hs)]

/-! ## C30: the background erase after START -/

set_option maxRecDepth 100000 in
/-- C30, as stated, fails. After the START frame of an 8-byte image the erase range is one
sector (`s_erase_total = 4096`). The first poll, which is the `s_erase_total / 4096`-th,
erases that sector and brings `s_erase_addr` to the end of the range, yet leaves the state
PREPARE_ERASE and sends no MSG_OTA_READY; the second poll erases nothing, makes the state
READY_FOR_DATA and sends MSG_OTA_READY. -/
theorem last_sector_poll_leaves_prepare_erase :
    session_started.s_state = .OTA_PREPARE_ERASE ∧
    session_started.s_erase_total = 4096 ∧
    session_started.s_erase_total / 4096 = 1 ∧
    erases (poll_actions (hw_ok 0) session_started) = [(OTA_SLOT_B_ADDR, 4096)] ∧
    (ota_poll (hw_ok 0) session_started).s_erase_addr
      = OTA_SLOT_B_ADDR + session_started.s_erase_total ∧
    (ota_poll (hw_ok 0) session_started).s_state = .OTA_PREPARE_ERASE ∧
    (ota_poll (hw_ok 0) session_started).s_state ≠ .OTA_READY_FOR_DATA ∧
    Effect.send MSG_OTA_READY [0] ∉ (ota_poll (hw_ok 0) session_started).trace ∧
    (ota_poll (hw_ok 0) (ota_poll (hw_ok 0) session_started)).s_state = .OTA_READY_FOR_DATA ∧
    poll_actions (hw_ok 0) (ota_poll (hw_ok 0) session_started)
      = [Effect.send MSG_OTA_READY [0]] := by
  decide

/-- C30, amended. After a START frame with an accepted size (send hook installed) the erase
range `s_erase_total` is a whole number of sectors, `k = s_erase_total / 4096 ≥ 1`. Of the
following polls, with `flash.init()` succeeding, the `(i+1)`-th for `i < k` erases exactly
the sector at `STAGING_BASE + 4096 * i`, advances `s_erase_addr` and `erase_progress_bytes`
by 4096, keeps the log and leaves the state PREPARE_ERASE; the `(k+1)`-th poll erases
nothing, makes the state READY_FOR_DATA, sends MSG_OTA_READY with the payload `[0]` as its
only action and logs event 4 with `s_erase_total`. In every other state `ota_poll` does
nothing. -/
theorem poll_erases_then_ready (hw0 : Hw) (s0 : Ota) (start : List Byte)
    (hf : is_frame CMD_OTA_START start) (h11 : 11 ≤ frame_paylen start)
    (hsz : 1 ≤ start_total_size start ∧ start_total_size start ≤ OTA_STAGING_SIZE)
    (hsend : s0.s_send = true)
    (hws : List Hw) (hok : ∀ h ∈ hws, h.flash_init_ok = true) (hw : Hw) :
    ((ota_feed hw0 s0 start).s_erase_total % OTA_ERASE_SECTOR = 0 ∧
      1 ≤ (ota_feed hw0 s0 start).s_erase_total / OTA_ERASE_SECTOR) ∧
    (hws.length < (ota_feed hw0 s0 start).s_erase_total / OTA_ERASE_SECTOR →
      hw.flash_init_ok = true →
      erases (poll_actions hw (poll_all (ota_feed hw0 s0 start) hws))
        = [(OTA_SLOT_B_ADDR + OTA_ERASE_SECTOR * hws.length, OTA_ERASE_SECTOR)] ∧
      (ota_poll hw (poll_all (ota_feed hw0 s0 start) hws)).flash
        = flash_erase (poll_all (ota_feed hw0 s0 start) hws).flash
            (OTA_SLOT_B_ADDR + OTA_ERASE_SECTOR * hws.length) OTA_ERASE_SECTOR ∧
      (0 < hws.length → (poll_all (ota_feed hw0 s0 start) hws).s_erase_addr
        = OTA_SLOT_B_ADDR + OTA_ERASE_SECTOR * hws.length) ∧
      (ota_poll hw (poll_all (ota_feed hw0 s0 start) hws)).s_erase_addr
        = OTA_SLOT_B_ADDR + OTA_ERASE_SECTOR * hws.length + OTA_ERASE_SECTOR ∧
      (poll_all (ota_feed hw0 s0 start) hws).ctx.erase_progress_bytes
        = OTA_ERASE_SECTOR * hws.length ∧
      (ota_poll hw (poll_all (ota_feed hw0 s0 start) hws)).ctx.erase_progress_bytes
        = OTA_ERASE_SECTOR * hws.length + OTA_ERASE_SECTOR ∧
      (ota_poll hw (poll_all (ota_feed hw0 s0 start) hws)).s_log_ring
        = (poll_all (ota_feed hw0 s0 start) hws).s_log_ring ∧
      (ota_poll hw (poll_all (ota_feed hw0 s0 start) hws)).s_log_head
        = (poll_all (ota_feed hw0 s0 start) hws).s_log_head ∧
      (ota_poll hw (poll_all (ota_feed hw0 s0 start) hws)).s_log_count
        = (poll_all (ota_feed hw0 s0 start) hws).s_log_count ∧
      (ota_poll hw (poll_all (ota_feed hw0 s0 start) hws)).s_state = .OTA_PREPARE_ERASE) ∧
    (hws.length = (ota_feed hw0 s0 start).s_erase_total / OTA_ERASE_SECTOR →
      (ota_poll hw (poll_all (ota_feed hw0 s0 start) hws)).s_state = .OTA_READY_FOR_DATA ∧
      poll_actions hw (poll_all (ota_feed hw0 s0 start) hws)
        = [Effect.send MSG_OTA_READY [0]] ∧
      (ota_poll hw (poll_all (ota_feed hw0 s0 start) hws)).flash
        = (poll_all (ota_feed hw0 s0 start) hws).flash ∧
      (ota_poll hw (poll_all (ota_feed hw0 s0 start) hws)).ctx.erase_progress_bytes
        = (ota_feed hw0 s0 start).s_erase_total ∧
      (ota_poll hw (poll_all (ota_feed hw0 s0 start) hws)).s_log_ring
        = (ota_log_event (poll_all (ota_feed hw0 s0 start) hws) 4
            (ota_feed hw0 s0 start).s_erase_total).s_log_ring ∧
      (ota_poll hw (poll_all (ota_feed hw0 s0 start) hws)).s_log_head
        = (ota_log_event (poll_all (ota_feed hw0 s0 start) hws) 4
            (ota_feed hw0 s0 start).s_erase_total).s_log_head ∧
      (ota_poll hw (poll_all (ota_feed hw0 s0 start) hws)).s_log_count
        = (ota_log_event (poll_all (ota_feed hw0 s0 start) hws) 4
            (ota_feed hw0 s0 start).s_erase_total).s_log_count) ∧
    (∀ (s : Ota) (h : Hw), s.s_state ≠ .OTA_PREPARE_ERASE → ota_poll h s = s) := by
  obtain ⟨_, _, hts, _⟩ := start_fields start
  have hsz2 : ¬ (le32 ((start.drop 3).getD 3 0) ((start.drop 3).getD 4 0)
      ((start.drop 3).getD 5 0) ((start.drop 3).getD 6 0) = 0 ∨
      le32 ((start.drop 3).getD 3 0) ((start.drop 3).getD 4 0)
        ((start.drop 3).getD 5 0) ((start.drop 3).getD 6 0) > OTA_STAGING_SIZE) := by
    rw [hts]
    omega
  have hstate : (ota_feed hw0 s0 start).s_state = .OTA_PREPARE_ERASE := by
    rw [feed_start_eq hw0 s0 start hf, start_state _ _ _ h11, if_neg hsz2]
  have hprog : (ota_feed hw0 s0 start).ctx.erase_progress_bytes = 0 := by
    rw [feed_start_eq hw0 s0 start hf, start_ctx _ _ _ h11 hsz2]
  obtain ⟨hT, hstarted, hsnd⟩ := start_erase s0 (start.drop 3) (frame_paylen start) h11 hsz2
  rw [← feed_start_eq hw0 s0 start hf] at hT hstarted hsnd
  rw [hts] at hT
  generalize ota_feed hw0 s0 start = s1 at hstate hprog hT hstarted hsnd ⊢
  generalize start_total_size start = n at hsz hT
  have hTle : s1.s_erase_total ≤ OTA_STAGING_SIZE := by
    rw [hT]
    simp only [OTA_STAGING_SIZE, OTA_ERASE_SECTOR, Nat.reduceMul] at hsz ⊢
    omega
  have hTmul : s1.s_erase_total % OTA_ERASE_SECTOR = 0 := by
    rw [hT]
    exact Nat.mul_mod_left _ _
  have hTpos : 1 ≤ s1.s_erase_total / OTA_ERASE_SECTOR := by
    rw [hT]
    simp only [OTA_ERASE_SECTOR]
    omega
  refine ⟨⟨hTmul, hTpos⟩, ?_, ?_, fun s h hs => poll_other_state h s hs⟩
  · intro hlt hwok
    obtain ⟨i1, i2, i3, i4, i5, i6⟩ := poll_all_erasing s1 hstate hstarted hprog hTle hws hok
      (le_of_lt hlt)
    have hk : OTA_ERASE_SECTOR * (hws.length + 1) ≤ s1.s_erase_total := by
      have := Nat.div_mul_le_self s1.s_erase_total OTA_ERASE_SECTOR
      have h2 : (hws.length + 1) * OTA_ERASE_SECTOR
          ≤ s1.s_erase_total / OTA_ERASE_SECTOR * OTA_ERASE_SECTOR :=
        Nat.mul_le_mul_right _ hlt
      rw [Nat.mul_comm]
      omega
    obtain ⟨p1, _, _, _, p5, p6, p7, p8, p9, p10, p11⟩ :=
      poll_erasing hw (poll_all s1 hws) i1 hwok
        (by rw [i2]; exact hTle) (by rw [i4]; omega)
        (by
          rw [i4, i2]
          simp only [OTA_SLOT_B_ADDR, OTA_ERASE_SECTOR] at hk ⊢
          omega)
    rw [i4] at p5 p6 p7 p8
    refine ⟨p8, p7, i6, p5, i5, ?_, p9, p10, p11, p1⟩
    simp only [OTA_SLOT_B_ADDR, OTA_ERASE_SECTOR] at p6 ⊢
    omega
  · intro heq
    obtain ⟨i1, i2, i3, i4, _, _⟩ := poll_all_erasing s1 hstate hstarted hprog hTle hws hok
      (le_of_eq heq)
    have hT0 : (poll_all s1 hws).s_erase_total ≠ 0 := by
      rw [i2]
      simp only [OTA_ERASE_SECTOR] at hTpos
      omega
    have hfull : OTA_ERASE_SECTOR * hws.length = s1.s_erase_total := by
      rw [heq, Nat.mul_comm]
      exact Nat.div_mul_cancel (Nat.dvd_of_mod_eq_zero hTmul)
    obtain ⟨q1, q2, q3, q4, q5, q6, q7⟩ := poll_completes hw (poll_all s1 hws) i1 hT0
      ((i3.trans hsnd).trans hsend)
      (by
        rw [i4, i2, hfull]
        exact Nat.mod_le _ _)
    rw [i2] at q4 q5 q6 q7
    exact ⟨q1, q2, q3, q4, q5, q6, q7⟩

set_option maxRecDepth 100000 in
/-- The preceding theorem applies to the START frame of the 8-byte `example_image`, fed after
`ota_init`: the erase range is one sector, the first poll erases it, and the second poll is
the one that makes the state READY_FOR_DATA. -/
theorem poll_erases_then_ready_witness :
    erases (poll_actions (hw_ok 0) (poll_all session_started []))
      = [(OTA_SLOT_B_ADDR + OTA_ERASE_SECTOR * 0, OTA_ERASE_SECTOR)] ∧
    (ota_poll (hw_ok 0) (poll_all session_started [hw_ok 0])).s_state = .OTA_READY_FOR_DATA ∧
    poll_actions (hw_ok 0) (poll_all session_started [hw_ok 0])
      = [Effect.send MSG_OTA_READY [0]] :=
  have h0 := (poll_erases_then_ready (hw_ok 0) (ota_init (power_up (fun _ => 0xFF)) true)
    (start_frame 1 1 8 (crc32 example_image)) (by decide) (by decide) (by decide) (by decide)
    [] (by decide) (hw_ok 0)).2.1 (by decide) (by decide)
  have h := (poll_erases_then_ready (hw_ok 0) (ota_init (power_up (fun _ => 0xFF)) true)
    (start_frame 1 1 8 (crc32 example_image)) (by decide) (by decide) (by decide) (by decide)
    [hw_ok 0] (by decide) (hw_ok 0)).2.2.1 (by decide)
  ⟨h0.1, h.1, h.2.1⟩

/-! ## C31: a DATA frame during the background erase -/

/-- C31. For every DATA frame with `paylen >= 8` fed while the state is PREPARE_ERASE (send
hook installed), whatever its offset, length and CRC: `ota_feed` performs one action, the
send of MSG_OTA_PROGRESS (0x91) with the four little-endian bytes of `erase_progress_bytes`;
it sends no RSP_OTA, and the state (still PREPARE_ERASE, not ERROR), the session context
and the flash are unchanged. -/
theorem data_during_erase_sends_progress (hw : Hw) (s : Ota) (data : List Byte)
    (hs : s.s_state = .OTA_PREPARE_ERASE) (hsend : s.s_send = true)
    (hf : is_frame CMD_OTA_DATA data) (h8 : 8 ≤ frame_paylen data) :
    feed_actions hw s data
      = [Effect.send MSG_OTA_PROGRESS
          [u8 s.ctx.erase_progress_bytes, u8 (s.ctx.erase_progress_bytes >>> 8),
           u8 (s.ctx.erase_progress_bytes >>> 16), u8 (s.ctx.erase_progress_bytes >>> 24)]] ∧
    MSG_OTA_PROGRESS = 0x91 ∧
    (∀ p, (RSP_OTA, p) ∉ sent (feed_actions hw s data)) ∧
    (ota_feed hw s data).s_state = .OTA_PREPARE_ERASE ∧
    (ota_feed hw s data).s_state ≠ .OTA_ERROR ∧
    (ota_feed hw s data).ctx = s.ctx ∧
    (ota_feed hw s data).flash = s.flash ∧
    ota_feed hw s data = { s with trace := s.trace ++ feed_actions hw s data } := by
  have he : ota_feed hw s data
      = { s with trace := s.trace ++ [Effect.send MSG_OTA_PROGRESS
          (bytes_of_u32 s.ctx.erase_progress_bytes)] } := by
    rw [feed_data_eq hw s data hf]
    unfold ota_feed_data send_hook
    rw [if_neg (by omega), if_pos hs, if_pos hsend]
  have ha : feed_actions hw s data = [Effect.send MSG_OTA_PROGRESS
      (bytes_of_u32 s.ctx.erase_progress_bytes)] := by
    unfold feed_actions
    rw [he]
    exact trace_drop_append _ _
  refine ⟨ha, rfl, ?_, ?_, ?_, ?_, ?_, ?_⟩
  · intro p hp
    rw [ha] at hp
    simp [sent, MSG_OTA_PROGRESS, RSP_OTA] at hp
  · rw [he]; exact hs
  · rw [he, show ({ s with trace := _ } : Ota).s_state = s.s_state from rfl, hs]; decide
  · rw [he]
  · rw [he]
  · rw [ha]; exact he

set_option maxRecDepth 100000 in
/-- The preceding theorem applies to `early_data_frame` in `session_started`, which is in
PREPARE_ERASE with no sector erased yet: the reply is PROGRESS with the bytes of 0. -/
theorem data_during_erase_sends_progress_witness :
    feed_actions (hw_ok 0) session_started early_data_frame
      = [Effect.send MSG_OTA_PROGRESS [0, 0, 0, 0]] :=
  (data_during_erase_sends_progress (hw_ok 0) session_started early_data_frame
    (by decide) (by decide) (by decide) (by decide)).1.trans (by decide)

/-! ## C32: the erase range computed by START -/

/-- C32. For every START frame whose `total_size` is between 1 and `OTA_STAGING_SIZE`, the
`s_erase_total` that START computes as `(total_size + 4095) & ~4095` is a multiple of 4096,
is at least `total_size`, is at most every multiple of 4096 that is at least `total_size`,
is at least 4096 and at most `OTA_STAGING_SIZE`; the 4 KiB minimum does not apply, so
`s_erase_total` is the rounded value itself. -/
theorem start_erase_total_least_multiple (hw : Hw) (s : Ota) (data : List Byte)
    (hf : is_frame CMD_OTA_START data) (h11 : 11 ≤ frame_paylen data)
    (hsz : 1 ≤ start_total_size data ∧ start_total_size data ≤ OTA_STAGING_SIZE) :
    (ota_feed hw s data).s_erase_total = erase_total_rounded (start_total_size data) ∧
    ¬ erase_total_rounded (start_total_size data) < OTA_ERASE_SECTOR ∧
    (ota_feed hw s data).s_erase_total % 4096 = 0 ∧
    start_total_size data ≤ (ota_feed hw s data).s_erase_total ∧
    (∀ m, m % 4096 = 0 → start_total_size data ≤ m → (ota_feed hw s data).s_erase_total ≤ m) ∧
    4096 ≤ (ota_feed hw s data).s_erase_total ∧
    (ota_feed hw s data).s_erase_total ≤ OTA_STAGING_SIZE := by
  obtain ⟨_, _, hts, _⟩ := start_fields data
  have hsz2 : ¬ (le32 ((data.drop 3).getD 3 0) ((data.drop 3).getD 4 0)
      ((data.drop 3).getD 5 0) ((data.drop 3).getD 6 0) = 0 ∨
      le32 ((data.drop 3).getD 3 0) ((data.drop 3).getD 4 0)
        ((data.drop 3).getD 5 0) ((data.drop 3).getD 6 0) > OTA_STAGING_SIZE) := by
    rw [hts]
    omega
  obtain ⟨hT, _, _⟩ := start_erase s (data.drop 3) (frame_paylen data) h11 hsz2
  rw [← feed_start_eq hw s data hf] at hT
  rw [hts] at hT
  generalize start_total_size data = n at hsz hT ⊢
  generalize (ota_feed hw s data).s_erase_total = T at hT ⊢
  have hn : 1 ≤ n ∧ n ≤ 507904 := by
    simp only [OTA_STAGING_SIZE, Nat.reduceMul] at hsz
    exact hsz
  have hr : erase_total_rounded n = (n + 4095) / 4096 * 4096 := by
    unfold erase_total_rounded
    have hu : u32 (n + (OTA_ERASE_SECTOR - 1)) = n + 4095 := by
      show u32 (n + 4095) = n + 4095
      apply u32_of_lt
      simp only [Nat.reducePow]
      omega
    rw [hu]
    exact and_sector_mask (n + 4095) (by simp only [Nat.reducePow]; omega)
  simp only [OTA_ERASE_SECTOR, OTA_STAGING_SIZE, Nat.reduceMul, Nat.reduceSub] at hT ⊢
  rw [hr, hT]
  refine ⟨rfl, by omega, by omega, by omega, ?_, by omega, by omega⟩
  intro m hm hle
  omega

set_option maxRecDepth 100000 in
/-- The preceding theorem applies to the START frame of an 8-byte image fed after
`ota_init`: the erase range is one sector. -/
theorem start_erase_total_least_multiple_witness :
    (ota_feed (hw_ok 0) (ota_init (power_up (fun _ => 0xFF)) true)
        (start_frame 1 1 8 0)).s_erase_total = 4096 :=
  (start_erase_total_least_multiple (hw_ok 0) (ota_init (power_up (fun _ => 0xFF)) true)
    (start_frame 1 1 8 0) (by decide) (by decide) (by decide)).1.trans (by decide)

/-! ## The erase address stays in the staging slot -/

theorem erase_inv_of_eq {s t : Ota} (h : EraseInv s) (h1 : t.s_state = s.s_state)
    (h2 : t.s_erase_started = s.s_erase_started) (h3 : t.s_erase_addr = s.s_erase_addr) :
    EraseInv t := by
  unfold EraseInv at h ⊢
  rw [h1, h2, h3]
  exact h

theorem erase_inv_of_state {t : Ota} (h : t.s_state ≠ .OTA_PREPARE_ERASE) : EraseInv t :=
  fun hs => absurd hs h

theorem erase_inv_of_not_started {t : Ota} (h : t.s_erase_started = false) : EraseInv t := by
  intro _ hst
  rw [h] at hst
  cases hst

@[simp] theorem write_flag_started (hw : Hw) (s : Ota) (f : ota_flag) :
    (ota_write_flag hw s f).s_erase_started = s.s_erase_started := by
  unfold ota_write_flag; split <;> rfl

@[simp] theorem write_flag_erase_addr (hw : Hw) (s : Ota) (f : ota_flag) :
    (ota_write_flag hw s f).s_erase_addr = s.s_erase_addr := by
  unfold ota_write_flag; split <;> rfl

theorem erase_inv_start (s : Ota) (payload : List Byte) (paylen : Nat) (he : EraseInv s) :
    EraseInv (ota_feed_start s payload paylen) := by
  by_cases h11 : paylen < 11
  · unfold ota_feed_start
    rw [if_pos h11]
    exact he
  · have h11 : 11 ≤ paylen := by omega
    by_cases hsz : le32 (payload.getD 3 0) (payload.getD 4 0) (payload.getD 5 0)
        (payload.getD 6 0) = 0 ∨
      le32 (payload.getD 3 0) (payload.getD 4 0) (payload.getD 5 0) (payload.getD 6 0)
        > OTA_STAGING_SIZE
    · apply erase_inv_of_state
      rw [start_state _ _ _ h11, if_pos hsz]
      decide
    · exact erase_inv_of_not_started (start_erase s payload paylen h11 hsz).2.1

theorem erase_inv_data (hw : Hw) (s : Ota) (payload : List Byte) (paylen : Nat)
    (he : EraseInv s) : EraseInv (ota_feed_data hw s payload paylen) := by
  unfold ota_feed_data
  by_cases c1 : paylen < 8
  · rw [if_pos c1]; exact he
  rw [if_neg c1]
  by_cases c2 : s.s_state = .OTA_PREPARE_ERASE
  · rw [if_pos c2]
    exact erase_inv_of_eq he (by simp) (by simp) (by simp)
  rw [if_neg c2]
  by_cases c3 : s.s_state ≠ .OTA_READY_FOR_DATA ∧ s.s_state ≠ .OTA_RECEIVING
  · rw [if_pos c3]; exact he
  rw [if_neg c3]
  apply erase_inv_of_state
  simp only [set_error]
  split_ifs <;>
    first
      | (rw [data_accept_state]; decide)
      | (simp only [send_hook_state]; first | decide | exact c2)

theorem erase_inv_finish (hw : Hw) (s : Ota) (he : EraseInv s) :
    EraseInv (ota_feed_finish hw s) := by
  unfold ota_feed_finish
  split
  · exact he
  · apply erase_inv_of_state
    simp only [set_error]
    split_ifs <;> simp only [send_hook_state] <;> decide

theorem erase_inv_clear_pending_confirm (hw : Hw) (s : Ota) (he : EraseInv s) :
    EraseInv (ota_clear_pending_confirm hw s) := by
  unfold ota_clear_pending_confirm
  simp only []
  split
  · exact he
  · exact erase_inv_of_eq he (write_flag_state _ _ _) (write_flag_started _ _ _)
      (write_flag_erase_addr _ _ _)

theorem erase_inv_rollback_pending (hw : Hw) (s : Ota) (he : EraseInv s) :
    EraseInv (ota_rollback_pending hw s) := by
  unfold ota_rollback_pending
  simp only []
  split
  · exact he
  · exact erase_inv_of_eq he (write_flag_state _ _ _) (write_flag_started _ _ _)
      (write_flag_erase_addr _ _ _)

theorem erase_inv_status (s : Ota) (he : EraseInv s) : EraseInv (ota_feed_status s) := by
  have h2 : (ota_feed_status s).s_erase_started = s.s_erase_started := by
    simp [ota_feed_status]
  have h3 : (ota_feed_status s).s_erase_addr = s.s_erase_addr := by
    simp [ota_feed_status]
  exact erase_inv_of_eq he (status_state s) h2 h3

theorem erase_inv_confirm (hw : Hw) (s : Ota) (he : EraseInv s) :
    EraseInv (ota_feed_confirm hw s) := by
  unfold ota_feed_confirm ota_confirm
  exact erase_inv_of_eq (erase_inv_clear_pending_confirm hw s he) (send_hook_state _ _ _)
    (send_hook_started _ _ _) (send_hook_erase_addr _ _ _)

theorem erase_inv_reboot (s : Ota) (he : EraseInv s) : EraseInv (ota_feed_reboot s) := by
  have h2 : (ota_feed_reboot s).s_erase_started = s.s_erase_started := by
    simp [ota_feed_reboot, ota_log_event]
  have h3 : (ota_feed_reboot s).s_erase_addr = s.s_erase_addr := by
    simp [ota_feed_reboot, ota_log_event]
  exact erase_inv_of_eq he (reboot_state s) h2 h3

theorem erase_inv_get_log (s : Ota) (he : EraseInv s) : EraseInv (ota_feed_get_log s) := by
  have h2 : (ota_feed_get_log s).s_erase_started = s.s_erase_started := by
    simp [ota_feed_get_log]
  have h3 : (ota_feed_get_log s).s_erase_addr = s.s_erase_addr := by
    simp [ota_feed_get_log]
  exact erase_inv_of_eq he (get_log_state s) h2 h3

theorem erase_inv_abort (s : Ota) : EraseInv (ota_feed_abort s) := by
  apply erase_inv_of_state
  unfold ota_feed_abort
  rw [send_hook_state]
  exact fun h => ota_state_t.noConfusion h

theorem erase_inv_feed (hw : Hw) (s : Ota) (data : List Byte) (he : EraseInv s) :
    EraseInv (ota_feed hw s data) := by
  unfold ota_feed
  simp only []
  split
  · exact he
  split
  · exact he
  split
  · exact erase_inv_start s _ _ he
  split
  · exact erase_inv_data hw s _ _ he
  split
  · exact erase_inv_finish hw s he
  split
  · exact erase_inv_abort s
  split
  · exact erase_inv_status s he
  split
  · exact erase_inv_confirm hw s he
  split
  · exact erase_inv_reboot s he
  split
  · exact erase_inv_get_log s he
  · exact he

theorem erase_inv_poll (hw : Hw) (s : Ota) (hi : Inv s) (he : EraseInv s) :
    EraseInv (ota_poll hw s) := by
  have het := hi.erase_le
  unfold ota_poll
  by_cases c1 : s.s_state ≠ .OTA_PREPARE_ERASE ∨ s.s_erase_total = 0
  · rw [if_pos c1]
    exact he
  rw [if_neg c1]
  simp only [not_or, not_not] at c1
  simp only []
  generalize hr : (if s.s_erase_started = false then
      { s with s_erase_started := true, s_erase_addr := OTA_SLOT_B_ADDR,
               s_last_progress_ms := hw.millis_start }
    else s) = r
  have e3 : r.s_erase_total = s.s_erase_total := by rw [← hr]; split <;> rfl
  have e7 : OTA_SLOT_B_ADDR ≤ r.s_erase_addr := by
    rw [← hr]
    split
    · exact le_refl _
    · rename_i h
      exact he c1.1 (by simpa using h)
  split
  · apply erase_inv_of_state
    simp only [send_hook_state, log_event_state]
    decide
  · rename_i hlt
    split
    · intro _ _
      rw [yield_hook_erase_addr]
      exact e7
    · intro _ _
      rw [poll_erase_addr, yield_hook_erase_addr]
      unfold poll_erase_size
      rw [yield_hook_erase_addr, yield_hook_erase_total]
      simp only [e3, u32, OTA_SLOT_B_ADDR, OTA_STAGING_SIZE, OTA_ERASE_SECTOR,
        Nat.reducePow, Nat.reduceMul] at hlt het e7 ⊢
      split <;> omega

theorem erase_inv_call (hw : Hw) (s : Ota) (c : Call) (hi : Inv s) (he : EraseInv s) :
    EraseInv (ota_call hw s c) := by
  cases c with
  | feed data => exact erase_inv_feed hw s data he
  | poll => exact erase_inv_poll hw s hi he
  | reset => exact erase_inv_of_state (by simp [ota_call, ota_reset])
  | set_yield y => exact erase_inv_of_eq he rfl rfl rfl
  | confirm => exact erase_inv_clear_pending_confirm hw s he
  | clear_pending_confirm => exact erase_inv_clear_pending_confirm hw s he
  | rollback_pending => exact erase_inv_rollback_pending hw s he
  | log_event e p => exact erase_inv_of_eq he rfl rfl rfl

theorem erase_inv_run (s : Ota) (calls : List (Hw × Call)) (hi : Inv s) (he : EraseInv s) :
    EraseInv (run s calls) := by
  induction calls generalizing s with
  | nil => exact he
  | cons x rest ih => exact ih _ (inv_call x.1 s x.2 hi) (erase_inv_call x.1 s x.2 hi he)

theorem Reachable.erase_inv {s : Ota} (h : Reachable s) : EraseInv s := by
  obtain ⟨s0, send_fn, calls, rfl⟩ := h
  exact erase_inv_run _ calls (inv_init s0 send_fn)
    (erase_inv_of_state (by simp [ota_init, ota_reset]))

/-! ## Flash operations of the DATA handler and of the poll -/

/-- The page loop appends only program and yield actions, and with the address range
`[addr, addr + remain)` below 2^32 it touches and changes that range only. -/
theorem program_pages_actions (y : Bool) (fuel : Nat) :
    ∀ (fl : Nat → Byte) (tr : List Effect) (addr : Nat) (p : List Byte) (remain : Nat),
      ∃ l, (program_pages y fuel fl tr addr p remain).2 = tr ++ l ∧ sent l = [] ∧
        (addr + remain < 2 ^ 32 →
          (∀ e ∈ l, ∀ a, touches e a → addr ≤ a ∧ a < addr + remain) ∧
          ∀ a, (a < addr ∨ addr + remain ≤ a) →
            (program_pages y fuel fl tr addr p remain).1 a = fl a) := by
  induction fuel with
  | zero =>
    intro fl tr addr p remain
    refine ⟨[], by simp [program_pages], rfl, fun _ => ⟨?_, ?_⟩⟩
    · intro e he
      cases he
    · intro a _
      simp [program_pages]
  | succ fuel ih =>
    intro fl tr addr p remain
    by_cases hr : remain > 0
    · obtain ⟨n, hn, hn1, hn2⟩ : ∃ n, n = (if remain > OTA_DATA_PAGE then OTA_DATA_PAGE
          else remain) ∧ 1 ≤ n ∧ n ≤ remain := by
        refine ⟨_, rfl, ?_, ?_⟩ <;> simp only [OTA_DATA_PAGE] <;> split <;> omega
      have step : program_pages y (fuel + 1) fl tr addr p remain
          = program_pages y fuel (flash_program fl addr (p.take n))
              (if y = true ∧ remain - n > 0 then
                (tr ++ [Effect.flash_program addr (p.take n)]) ++ [Effect.yield]
               else tr ++ [Effect.flash_program addr (p.take n)])
              (u32 (addr + n)) (p.drop n) (remain - n) := by
        rw [program_pages, if_pos hr]
        simp only [← hn]
      have hpre : ∃ m, (if y = true ∧ remain - n > 0 then
            (tr ++ [Effect.flash_program addr (p.take n)]) ++ [Effect.yield]
           else tr ++ [Effect.flash_program addr (p.take n)])
            = tr ++ (Effect.flash_program addr (p.take n) :: m) ∧
          (m = [] ∨ m = [Effect.yield]) := by
        split
        · exact ⟨[Effect.yield], by simp, Or.inr rfl⟩
        · exact ⟨[], rfl, Or.inl rfl⟩
      generalize (if y = true ∧ remain - n > 0 then
            (tr ++ [Effect.flash_program addr (p.take n)]) ++ [Effect.yield]
           else tr ++ [Effect.flash_program addr (p.take n)]) = tr2 at step hpre
      obtain ⟨m, hm, hm2⟩ := hpre
      rw [step]
      obtain ⟨l, h2, h3, h4⟩ := ih (flash_program fl addr (p.take n)) tr2
        (u32 (addr + n)) (p.drop n) (remain - n)
      have hlen : (p.take n).length ≤ n := by
        rw [List.length_take]
        exact Nat.min_le_left _ _
      have hprog : ∀ a, touches (Effect.flash_program addr (p.take n)) a →
          addr ≤ a ∧ a < addr + remain := by
        intro a ht
        have ht2 : addr ≤ a ∧ a < addr + (p.take n).length := ht
        omega
      have hsm : sent m = [] := by
        rcases hm2 with rfl | rfl <;> rfl
      refine ⟨Effect.flash_program addr (p.take n) :: (m ++ l), ?_, ?_, ?_⟩
      · rw [h2, hm]
        simp
      · show sent (m ++ l) = []
        rw [sent_append, hsm, h3]
        rfl
      · intro hb
        have hu : u32 (addr + n) = addr + n := u32_of_lt (by omega)
        rw [hu] at h4
        obtain ⟨h5, h6⟩ := h4 (by omega)
        refine ⟨?_, ?_⟩
        · intro e he a ht
          simp only [List.mem_cons, List.mem_append] at he
          rcases he with rfl | he | he
          · exact hprog a ht
          · rcases hm2 with rfl | rfl
            · cases he
            · rw [List.mem_singleton] at he
              rw [he] at ht
              exact absurd ht (fun h => h)
          · have := h5 e he a ht
            omega
        · intro a ha
          rw [hu, h6 a (by omega)]
          exact flash_program_outside _ _ _ _ (by omega)
    · refine ⟨[], by simp [program_pages, hr], rfl, fun _ => ⟨?_, ?_⟩⟩
      · intro e he
        cases he
      · intro a _
        simp [program_pages, hr]

/-- A call that ends in one call of the send hook, with nothing else appended to the trace,
performs no flash operation. -/
theorem send_hook_no_touch (s t : Ota) (ty : Nat) (p : List Byte) (h : t.trace = s.trace) :
    ∀ e ∈ (send_hook t ty p).trace.drop s.trace.length, ∀ a, ¬ touches e a := by
  rw [send_hook_trace_eq, h, List.drop_left]
  intro e he a ht
  split at he
  · rw [List.mem_singleton] at he
    rw [he] at ht
    exact ht
  · cases he

theorem no_actions_no_touch (s : Ota) :
    ∀ e ∈ s.trace.drop s.trace.length, ∀ a, ¬ touches e a := by
  rw [List.drop_length]
  intro e he
  cases he

/-- The accept path of the DATA handler touches and changes only the bytes
`[OTA_SLOT_B_ADDR + off, OTA_SLOT_B_ADDR + off + cl)`. -/
theorem data_accept_in_range (hw : Hw) (s : Ota) (off cl : Nat) (chunk : List Byte)
    (hb : OTA_SLOT_B_ADDR + off + cl < 2 ^ 32) :
    (∀ e ∈ (ota_data_accept hw s off cl chunk).trace.drop s.trace.length, ∀ a, touches e a →
      OTA_SLOT_B_ADDR + off ≤ a ∧ a < OTA_SLOT_B_ADDR + off + cl) ∧
    ∀ a, (a < OTA_SLOT_B_ADDR + off ∨ OTA_SLOT_B_ADDR + off + cl ≤ a) →
      (ota_data_accept hw s off cl chunk).flash a = s.flash a := by
  have hu : u32 (OTA_SLOT_B_ADDR + off) = OTA_SLOT_B_ADDR + off := u32_of_lt (by omega)
  unfold ota_data_accept
  simp only [send_hook_flash, send_hook_trace_eq]
  by_cases hok : hw.flash_init_ok = true
  · obtain ⟨l, h2, _, h4⟩ := program_pages_actions s.s_yield cl s.flash s.trace
      (OTA_SLOT_B_ADDR + off) chunk cl
    obtain ⟨h5, h6⟩ := h4 hb
    simp only [if_pos hok, hu, h2, List.append_assoc, List.drop_left]
    refine ⟨?_, h6⟩
    intro e he a ht
    rw [List.mem_append] at he
    rcases he with he | he
    · exact h5 e he a ht
    · split at he
      · rw [List.mem_singleton] at he
        rw [he] at ht
        exact absurd ht (fun h => h)
      · cases he
  · simp only [if_neg hok, List.drop_left]
    refine ⟨?_, fun _ _ => trivial⟩
    intro e he a ht
    split at he
    · rw [List.mem_singleton] at he
      rw [he] at ht
      exact absurd ht (fun h => h)
    · cases he

/-- The DATA handler erases nothing, and what it programs lies in the staging slot. -/
theorem data_in_staging (hw : Hw) (s : Ota) (payload : List Byte) (paylen : Nat)
    (hi : Inv s) :
    (∀ e ∈ (ota_feed_data hw s payload paylen).trace.drop s.trace.length, ∀ a,
      touches e a → in_staging a) ∧
    ∀ a, ¬ in_staging a → (ota_feed_data hw s payload paylen).flash a = s.flash a := by
  have ho := le32_lt (payload.getD 0 0) (payload.getD 1 0) (payload.getD 2 0) (payload.getD 3 0)
  have hc := u16_lt (paylen - 8)
  have hsame : (∀ e ∈ s.trace.drop s.trace.length, ∀ a, touches e a → in_staging a) ∧
      ∀ a, ¬ in_staging a → s.flash a = s.flash a :=
    ⟨fun e he a ht => absurd ht (no_actions_no_touch s e he a), fun _ _ => rfl⟩
  have hsend : ∀ (t : Ota) (ty : Nat) (p : List Byte), t.trace = s.trace → t.flash = s.flash →
      (∀ e ∈ (send_hook t ty p).trace.drop s.trace.length, ∀ a, touches e a → in_staging a) ∧
      ∀ a, ¬ in_staging a → (send_hook t ty p).flash a = s.flash a := by
    intro t ty p h1 h2
    refine ⟨fun e he a ht => absurd ht (send_hook_no_touch s t ty p h1 e he a), fun a _ => ?_⟩
    rw [send_hook_flash, h2]
  unfold ota_feed_data
  generalize le32 (payload.getD 0 0) (payload.getD 1 0) (payload.getD 2 0) (payload.getD 3 0)
    = off at ho ⊢
  generalize u16 (paylen - 8) = cl at hc ⊢
  by_cases c1 : paylen < 8
  · rw [if_pos c1]; exact hsame
  rw [if_neg c1]
  by_cases c2 : s.s_state = .OTA_PREPARE_ERASE
  · rw [if_pos c2]; exact hsend s _ _ rfl rfl
  rw [if_neg c2]
  by_cases c3 : s.s_state ≠ .OTA_READY_FOR_DATA ∧ s.s_state ≠ .OTA_RECEIVING
  · rw [if_pos c3]; exact hsame
  rw [if_neg c3]
  have hst : s.s_state = .OTA_READY_FOR_DATA ∨ s.s_state = .OTA_RECEIVING := by
    by_contra hn
    exact c3 ⟨fun e => hn (Or.inl e), fun e => hn (Or.inr e)⟩
  have hne : s.s_state ≠ .OTA_IDLE := by
    rcases hst with e | e <;> rw [e] <;> decide
  obtain ⟨hs1, hs2⟩ := hi.size_ok hne
  have h6 := hi.neo_le
  simp only [set_error]
  by_cases c4 : u32 (off + cl) > s.ctx.total_size ∨ cl > OTA_CHUNK_MAX
  · rw [if_pos c4]; exact hsend _ _ _ rfl rfl
  rw [if_neg c4]
  generalize hcl2 : (if cl > u32 (s.ctx.total_size + 2 ^ 32 - off) then
      u16 (u32 (s.ctx.total_size + 2 ^ 32 - off)) else cl) = cl2
  by_cases c5 : off > s.ctx.next_expected_offset
  · rw [if_pos c5]; exact hsend _ _ _ rfl rfl
  rw [if_neg c5]
  by_cases c6 : off < s.ctx.next_expected_offset
  · rw [if_pos c6]; exact hsend _ _ _ rfl rfl
  rw [if_neg c6]
  split
  · exact hsend _ _ _ rfl rfl
  · have hle : cl2 ≤ cl := by
      rw [← hcl2]
      split
      · rename_i hgt
        exact le_trans (Nat.mod_le _ _) (le_of_lt hgt)
      · exact le_refl _
    have hfit : off + cl ≤ s.ctx.total_size := by
      simp only [u32, not_or, OTA_CHUNK_MAX, OTA_STAGING_SIZE, Nat.reducePow, Nat.reduceMul]
        at c4 ho hc hs2 ⊢
      omega
    have hb : OTA_SLOT_B_ADDR + off + cl2 < 2 ^ 32 := by
      simp only [OTA_SLOT_B_ADDR, OTA_STAGING_SIZE, Nat.reducePow, Nat.reduceMul] at hs2 ⊢
      omega
    obtain ⟨h7, h8⟩ := data_accept_in_range hw s off cl2 ((payload.drop 4).take cl2) hb
    refine ⟨?_, ?_⟩
    · intro e he a ht
      have := h7 e he a ht
      unfold in_staging
      simp only [OTA_SLOT_B_ADDR, OTA_STAGING_SIZE, Nat.reduceMul] at hs2 this ⊢
      omega
    · intro a ha
      apply h8
      unfold in_staging at ha
      simp only [OTA_SLOT_B_ADDR, OTA_STAGING_SIZE, Nat.reduceMul] at hs2 ha ⊢
      omega

/-- The erase step touches only the range it erases. -/
theorem poll_erase_touch (hw : Hw) (s : Ota) :
    ∃ l, (ota_poll_erase hw s).trace = s.trace ++ l ∧
      ∀ e ∈ l, ∀ a, touches e a →
        s.s_erase_addr ≤ a ∧ a < s.s_erase_addr + poll_erase_size s := by
  have hmem : ∀ (l : List Effect), (∀ e ∈ l, ∀ a, ¬ touches e a) →
      ∀ e ∈ Effect.flash_erase s.s_erase_addr (poll_erase_size s) :: l, ∀ a, touches e a →
        s.s_erase_addr ≤ a ∧ a < s.s_erase_addr + poll_erase_size s := by
    intro l hl e he a ht
    rw [List.mem_cons] at he
    rcases he with rfl | he
    · exact ht
    · exact absurd ht (hl e he a)
  have hnone : ∀ (c1 c2 : Prop) [Decidable c1] [Decidable c2] (ty : Nat) (p : List Byte),
      ∀ e ∈ (if c1 then [Effect.yield] else []) ++ (if c2 then [Effect.send ty p] else []),
        ∀ a, ¬ touches e a := by
    intro c1 c2 _ _ ty p e he a ht
    rw [List.mem_append] at he
    rcases he with he | he <;> split at he
    · rw [List.mem_singleton] at he
      rw [he] at ht
      exact ht
    · cases he
    · rw [List.mem_singleton] at he
      rw [he] at ht
      exact ht
    · cases he
  unfold ota_poll_erase
  simp only []
  split
  · simp only [send_hook_trace_eq, yield_hook_trace_eq, List.append_assoc]
    exact ⟨_, rfl, hmem _ (hnone _ _ _ _)⟩
  · simp only [send_hook_trace_eq, yield_hook_trace_eq, List.append_assoc]
    refine ⟨_, rfl, hmem _ ?_⟩
    intro e he a ht
    split at he
    · have h1 : e = Effect.yield := by simpa using he
      rw [h1] at ht
      exact ht
    · simp at he

/-- What `ota_poll` erases lies in the staging slot, and it programs nothing. -/
theorem poll_in_staging (hw : Hw) (s : Ota) (hi : Inv s) (he : EraseInv s) :
    (∀ e ∈ poll_actions hw s, ∀ a, touches e a → in_staging a) ∧
    ∀ a, ¬ in_staging a → (ota_poll hw s).flash a = s.flash a := by
  have het := hi.erase_le
  unfold poll_actions ota_poll
  by_cases c1 : s.s_state ≠ .OTA_PREPARE_ERASE ∨ s.s_erase_total = 0
  · rw [if_pos c1]
    exact ⟨fun e he a ht => absurd ht (no_actions_no_touch s e he a), fun _ _ => rfl⟩
  rw [if_neg c1]
  simp only [not_or, not_not] at c1
  simp only []
  generalize hr : (if s.s_erase_started = false then
      { s with s_erase_started := true, s_erase_addr := OTA_SLOT_B_ADDR,
               s_last_progress_ms := hw.millis_start }
    else s) = r
  have e1 : r.flash = s.flash := by rw [← hr]; split <;> rfl
  have e3 : r.s_erase_total = s.s_erase_total := by rw [← hr]; split <;> rfl
  have e5 : r.trace = s.trace := by rw [← hr]; split <;> rfl
  have e7 : OTA_SLOT_B_ADDR ≤ r.s_erase_addr := by
    rw [← hr]
    split
    · exact le_refl _
    · rename_i h
      exact he c1.1 (by simpa using h)
  split
  · refine ⟨?_, fun a _ => ?_⟩
    · intro e hmem a ht
      refine absurd ht (send_hook_no_touch s _ MSG_OTA_READY [0] ?_ e hmem a)
      exact e5
    · show (send_hook _ MSG_OTA_READY [0]).flash a = _
      rw [send_hook_flash]
      exact congrFun e1 a
  · rename_i hlt
    have hy : ∀ e ∈ (yield_hook r).trace.drop s.trace.length, ∀ a, ¬ touches e a := by
      rw [yield_hook_trace_eq, e5, List.drop_left]
      intro e hmem a ht
      split at hmem
      · rw [List.mem_singleton] at hmem
        rw [hmem] at ht
        exact ht
      · cases hmem
    split
    · refine ⟨fun e hmem a ht => absurd ht (hy e hmem a), fun a _ => ?_⟩
      rw [yield_hook_flash]
      exact congrFun e1 a
    · have hrange : r.s_erase_addr + poll_erase_size (yield_hook r)
          ≤ OTA_SLOT_B_ADDR + OTA_STAGING_SIZE := by
        unfold poll_erase_size
        rw [yield_hook_erase_addr, yield_hook_erase_total]
        simp only [e3, u32, OTA_SLOT_B_ADDR, OTA_STAGING_SIZE, OTA_ERASE_SECTOR,
          Nat.reducePow, Nat.reduceMul] at hlt het e7 ⊢
        split <;> omega
      refine ⟨?_, ?_⟩
      · obtain ⟨l, hl, hl2⟩ := poll_erase_touch hw (yield_hook r)
        rw [hl, yield_hook_trace_eq, e5, List.append_assoc, List.drop_left]
        rw [yield_hook_erase_addr] at hl2
        intro e hmem a ht
        rw [List.mem_append] at hmem
        rcases hmem with hmem | hmem
        · split at hmem
          · rw [List.mem_singleton] at hmem
            rw [hmem] at ht
            exact absurd ht (fun h => h)
          · cases hmem
        · have := hl2 e hmem a ht
          unfold in_staging
          omega
      · intro a ha
        rw [poll_erase_flash, yield_hook_flash, yield_hook_erase_addr, e1]
        apply flash_erase_outside
        unfold in_staging at ha
        omega

/-! ## C33: the session's flash operations stay in the staging slot -/

/-- C33. In every state reachable from `ota_init`: (1) in PREPARE_ERASE, READY_FOR_DATA and
RECEIVING, `next_expected_offset <= total_size <= OTA_STAGING_SIZE`; (2) every address that
an action of an `ota_poll` call erases or programs lies in the staging slot, and so does
every address that an action of `ota_feed` on a DATA frame erases or programs; (3) these
calls leave every byte of the flash outside the staging slot as it was; (4) the staging slot
is `[0x80000, 0xFC000)`, which has no address in common with slot A
(`[OTA_SLOT_A_ADDR, OTA_SLOT_B_ADDR)`) or with the flag sector at `0xFE000`. -/
theorem poll_and_data_stay_in_staging (s : Ota) (hr : Reachable s) :
    ((s.s_state = .OTA_PREPARE_ERASE ∨ s.s_state = .OTA_READY_FOR_DATA ∨
        s.s_state = .OTA_RECEIVING) →
      s.ctx.next_expected_offset ≤ s.ctx.total_size ∧ s.ctx.total_size ≤ OTA_STAGING_SIZE) ∧
    (∀ (hw : Hw) (e : Effect), e ∈ poll_actions hw s → ∀ a, touches e a → in_staging a) ∧
    (∀ (hw : Hw) (data : List Byte) (e : Effect), is_frame CMD_OTA_DATA data →
      e ∈ feed_actions hw s data → ∀ a, touches e a → in_staging a) ∧
    (∀ (hw : Hw) (a : Nat), ¬ in_staging a → (ota_poll hw s).flash a = s.flash a) ∧
    (∀ (hw : Hw) (data : List Byte) (a : Nat), is_frame CMD_OTA_DATA data → ¬ in_staging a →
      (ota_feed hw s data).flash a = s.flash a) ∧
    (∀ a, in_staging a ↔ 0x80000 ≤ a ∧ a < 0xFC000) ∧
    (∀ a, in_staging a → ¬ (OTA_SLOT_A_ADDR ≤ a ∧ a < OTA_SLOT_B_ADDR) ∧
      ¬ (OTA_FLAG_ADDR ≤ a ∧ a < OTA_FLAG_ADDR + 4096)) := by
  have hi := hr.inv
  have he := hr.erase_inv
  refine ⟨?_, ?_, ?_, ?_, ?_, ?_, ?_⟩
  · intro hst
    have hne : s.s_state ≠ .OTA_IDLE := by
      rcases hst with e | e | e <;> rw [e] <;> decide
    exact ⟨hi.neo_le, (hi.size_ok hne).2⟩
  · intro hw e hmem
    exact (poll_in_staging hw s hi he).1 e hmem
  · intro hw data e hf hmem
    unfold feed_actions at hmem
    rw [feed_data_eq hw s data hf] at hmem
    exact (data_in_staging hw s _ _ hi).1 e hmem
  · intro hw a ha
    exact (poll_in_staging hw s hi he).2 a ha
  · intro hw data a hf ha
    rw [feed_data_eq hw s data hf]
    exact (data_in_staging hw s _ _ hi).2 a ha
  · intro a
    unfold in_staging
    simp only [OTA_SLOT_B_ADDR, OTA_STAGING_SIZE, Nat.reduceMul, Nat.reduceAdd]
  · intro a ha
    unfold in_staging at ha
    simp only [OTA_SLOT_A_ADDR, OTA_SLOT_B_ADDR, OTA_STAGING_SIZE, OTA_FLAG_ADDR,
      Nat.reduceMul, Nat.reduceAdd] at ha ⊢
    omega

set_option maxRecDepth 100000 in
/-- The preceding theorem applies to `session_half`, which is in state RECEIVING with 4 of
8 bytes received. -/
theorem poll_and_data_stay_in_staging_witness :
    session_half.ctx.next_expected_offset ≤ session_half.ctx.total_size ∧
    session_half.ctx.total_size ≤ OTA_STAGING_SIZE :=
  (poll_and_data_stay_in_staging session_half session_half_reachable).1
    (Or.inr (Or.inr (by decide)))

/-! ## The pending flag after clear, confirm and rollback -/

theorem is_pending_confirm_of_pending_zero (s : Ota)
    (h : (ota_read_flag s.flash).pending = 0) : ota_is_pending_confirm s = false := by
  simp [ota_is_pending_confirm, h]

theorem is_pending_confirm_of_bad_magic (s : Ota)
    (h : (ota_read_flag s.flash).magic ≠ OTA_FLAG_MAGIC) : ota_is_pending_confirm s = false := by
  unfold ota_is_pending_confirm
  simp only [decide_eq_false_iff_not, not_and]
  intro hm
  exact absurd hm h

theorem write_flag_init_fails (hw : Hw) (s : Ota) (f : ota_flag)
    (h : hw.flash_init_ok = false) : ota_write_flag hw s f = s := by
  unfold ota_write_flag
  rw [if_pos h]

theorem clear_pending_confirm_init_fails (hw : Hw) (s : Ota)
    (h : hw.flash_init_ok = false) : ota_clear_pending_confirm hw s = s := by
  unfold ota_clear_pending_confirm
  simp only []
  split
  · rfl
  · exact write_flag_init_fails hw s _ h

theorem rollback_pending_init_fails (hw : Hw) (s : Ota)
    (h : hw.flash_init_ok = false) : ota_rollback_pending hw s = s := by
  unfold ota_rollback_pending
  simp only []
  split
  · rfl
  · exact write_flag_init_fails hw s _ h

/-- After `ota_clear_pending_confirm` with `flash.init()` succeeding no image is pending, and
a second call, whatever `flash.init()` returns in it, leaves the stored record as it is. -/
theorem clear_pending_confirm_twice (hw hw2 : Hw) (s : Ota) (hok : hw.flash_init_ok = true) :
    ota_is_pending_confirm (ota_clear_pending_confirm hw s) = false ∧
    ota_read_flag (ota_clear_pending_confirm hw2 (ota_clear_pending_confirm hw s)).flash
      = ota_read_flag (ota_clear_pending_confirm hw s).flash := by
  by_cases hm : (ota_read_flag s.flash).magic = OTA_FLAG_MAGIC
  · have h1 := clear_pending_confirm_valid hw s hok hm
    refine ⟨is_pending_confirm_of_pending_zero _ (by rw [h1]), ?_⟩
    have hm1 : (ota_read_flag (ota_clear_pending_confirm hw s).flash).magic = OTA_FLAG_MAGIC := by
      rw [h1]
      exact hm
    by_cases hok2 : hw2.flash_init_ok = true
    · rw [clear_pending_confirm_valid hw2 _ hok2 hm1, h1]
    · rw [clear_pending_confirm_init_fails hw2 _ (by simpa using hok2)]
  · rw [clear_pending_confirm_invalid hw s hm, clear_pending_confirm_invalid hw2 s hm]
    exact ⟨is_pending_confirm_of_bad_magic s hm, rfl⟩

/-- After `ota_rollback_pending` with `flash.init()` succeeding no image is pending, and a
second call, whatever `flash.init()` returns in it, leaves the stored record as it is. -/
theorem rollback_pending_twice (hw hw2 : Hw) (s : Ota) (hok : hw.flash_init_ok = true) :
    ota_is_pending_confirm (ota_rollback_pending hw s) = false ∧
    ota_read_flag (ota_rollback_pending hw2 (ota_rollback_pending hw s)).flash
      = ota_read_flag (ota_rollback_pending hw s).flash := by
  by_cases hm : (ota_read_flag s.flash).magic = OTA_FLAG_MAGIC
  · have h1 := rollback_pending_valid hw s hok hm
    refine ⟨is_pending_confirm_of_pending_zero _ (by rw [h1]), ?_⟩
    have hm1 : (ota_read_flag (ota_rollback_pending hw s).flash).magic = OTA_FLAG_MAGIC := by
      rw [h1]
      exact hm
    by_cases hok2 : hw2.flash_init_ok = true
    · rw [rollback_pending_valid hw2 _ hok2 hm1, h1]
    · rw [rollback_pending_init_fails hw2 _ (by simpa using hok2)]
  · rw [rollback_pending_invalid hw s hm, rollback_pending_invalid hw2 s hm]
    exact ⟨is_pending_confirm_of_bad_magic s hm, rfl⟩

/-! ## C34: no image is pending after clear, confirm or rollback -/

set_option maxRecDepth 100000 in
/-- C34, as stated, fails. With the pending record `example_flag` stored and `flash.init()`
failing, `ota_clear_pending_confirm`, `ota_confirm` and `ota_rollback_pending` write
nothing and `ota_is_pending_confirm()` is still true after each of them; and a second
`ota_clear_pending_confirm` in which `flash.init()` succeeds stores `pending = 0` where the
first application left `pending = 1`. -/
theorem pending_stays_when_flash_init_fails :
    ota_is_pending_confirm (power_up flash_with_flag) = true ∧
    ota_is_pending_confirm
      (ota_clear_pending_confirm (hw_flash_fails 0) (power_up flash_with_flag)) = true ∧
    ota_is_pending_confirm (ota_confirm (hw_flash_fails 0) (power_up flash_with_flag)) = true ∧
    ota_is_pending_confirm
      (ota_rollback_pending (hw_flash_fails 0) (power_up flash_with_flag)) = true ∧
    (ota_read_flag
        (ota_clear_pending_confirm (hw_flash_fails 0) (power_up flash_with_flag)).flash).pending
      = 1 ∧
    (ota_read_flag (ota_clear_pending_confirm (hw_ok 0)
        (ota_clear_pending_confirm (hw_flash_fails 0) (power_up flash_with_flag))).flash).pending
      = 0 := by
  decide

/-- C34, amended. For every content of the flag sector, with `flash.init()` succeeding in
the first application: `ota_is_pending_confirm()` is false after
`ota_clear_pending_confirm()`, after `ota_confirm()` and after `ota_rollback_pending()`;
applying any of the three a second time, whatever `flash.init()` returns then, leaves the
stored record as the first application left it; and on a sector whose magic is not
`OTA_FLAG_MAGIC` each of the three changes nothing at all. -/
theorem pending_false_after_clear_confirm_rollback (hw hw2 : Hw) (s : Ota)
    (hok : hw.flash_init_ok = true) :
    ota_is_pending_confirm (ota_clear_pending_confirm hw s) = false ∧
    ota_is_pending_confirm (ota_confirm hw s) = false ∧
    ota_is_pending_confirm (ota_rollback_pending hw s) = false ∧
    ota_read_flag (ota_clear_pending_confirm hw2 (ota_clear_pending_confirm hw s)).flash
      = ota_read_flag (ota_clear_pending_confirm hw s).flash ∧
    ota_read_flag (ota_confirm hw2 (ota_confirm hw s)).flash
      = ota_read_flag (ota_confirm hw s).flash ∧
    ota_read_flag (ota_rollback_pending hw2 (ota_rollback_pending hw s)).flash
      = ota_read_flag (ota_rollback_pending hw s).flash ∧
    ((ota_read_flag s.flash).magic ≠ OTA_FLAG_MAGIC →
      ota_clear_pending_confirm hw s = s ∧ ota_confirm hw s = s ∧
      ota_rollback_pending hw s = s) := by
  obtain ⟨c1, c2⟩ := clear_pending_confirm_twice hw hw2 s hok
  obtain ⟨r1, r2⟩ := rollback_pending_twice hw hw2 s hok
  exact ⟨c1, c1, r1, c2, c2, r2, fun hm =>
    ⟨clear_pending_confirm_invalid hw s hm, clear_pending_confirm_invalid hw s hm,
      rollback_pending_invalid hw s hm⟩⟩

set_option maxRecDepth 100000 in
/-- The preceding theorem applies to a flash whose flag sector holds the pending record
`example_flag`: an image is pending before `ota_confirm` and none is after it. -/
theorem pending_false_after_clear_confirm_rollback_witness :
    ota_is_pending_confirm (power_up flash_with_flag) = true ∧
    ota_is_pending_confirm (ota_confirm (hw_ok 0) (power_up flash_with_flag)) = false :=
  ⟨by decide, (pending_false_after_clear_confirm_rollback (hw_ok 0) (hw_ok 0)
    (power_up flash_with_flag) rfl).2.1⟩

/-! ## The error recorded with each error reply -/

theorem error_recorded_of_sent (s r : Ota) (l : List Effect) (htr : r.trace = s.trace ++ l)
    (h : ∀ (p : List Byte) (c : Nat), (RSP_OTA, p) ∈ sent l → 2 ≤ c → c ≤ 8 →
      p.head? = some (u8 c) → r.ctx.last_ota_error.toNat = c - 1) : error_recorded s r := by
  unfold error_recorded
  rw [htr, List.drop_left]
  exact h

theorem error_recorded_same (s r : Ota) (h : r.trace = s.trace) : error_recorded s r := by
  apply error_recorded_of_sent s r [] (by rw [h, List.append_nil])
  intro p c hm
  simp [sent] at hm

theorem error_recorded_send (s t : Ota) (ty : Nat) (p : List Byte) (l : List Effect)
    (htr : t.trace = s.trace ++ l) (hl : sent l = [])
    (hok : ty = RSP_OTA → ∀ c, 2 ≤ c → c ≤ 8 → p.head? = some (u8 c) →
      t.ctx.last_ota_error.toNat = c - 1) :
    error_recorded s (send_hook t ty p) := by
  apply error_recorded_of_sent s _ (l ++ if t.s_send = true then [Effect.send ty p] else [])
  · rw [send_hook_trace_eq, htr, List.append_assoc]
  · intro q c hm h2 h8 hq
    rw [sent_append, hl, List.nil_append] at hm
    split at hm
    · simp only [sent, List.mem_singleton, Prod.mk.injEq] at hm
      obtain ⟨hty, hqp⟩ := hm
      rw [send_hook_ctx]
      rw [hqp] at hq
      exact hok hty.symm c h2 h8 hq
    · simp [sent] at hm

theorem head_byte (b : Byte) (c : Nat) (r : List Byte) (hc : c ≤ 8)
    (h : (b :: r).head? = some (u8 c)) : c = b.val := by
  simp only [List.head?_cons, Option.some.injEq] at h
  have h1 := congrArg Fin.val h
  simp only [u8_val] at h1
  omega

theorem error_recorded_start (s : Ota) (payload : List Byte) (paylen : Nat) :
    error_recorded s (ota_feed_start s payload paylen) := by
  unfold ota_feed_start
  by_cases c0 : paylen < 11
  · rw [if_pos c0]
    exact error_recorded_same s s rfl
  rw [if_neg c0]
  simp only [set_error]
  have htr : (if s.s_state ≠ .OTA_IDLE then ota_reset s else s).trace = s.trace := by
    split <;> rfl
  generalize (if s.s_state ≠ .OTA_IDLE then ota_reset s else s) = r at htr ⊢
  split
  · refine error_recorded_send s _ _ _ [] ?_ rfl ?_
    · rw [List.append_nil]; exact htr
    · intro _ c h2 h8 hp
      have hc := head_byte _ c _ h8 hp
      subst hc
      rfl
  · refine error_recorded_send s _ _ _ [] ?_ rfl ?_
    · simp only [log_event_trace, List.append_nil]
      split <;> exact htr
    · intro _ c h2 h8 hp
      have hc := head_byte _ c _ h8 hp
      subst hc
      exact absurd h2 (by decide)

theorem error_recorded_accept (hw : Hw) (s : Ota) (off cl : Nat) (chunk : List Byte) :
    error_recorded s (ota_data_accept hw s off cl chunk) := by
  obtain ⟨l, h2, h3, _⟩ := program_pages_actions s.s_yield cl s.flash s.trace
    (u32 (OTA_SLOT_B_ADDR + off)) chunk cl
  unfold ota_data_accept
  by_cases hok : hw.flash_init_ok = true
  · simp only [if_pos hok]
    refine error_recorded_send s _ _ _ l h2 h3 ?_
    intro _ c h2 h8 hp
    have hc := head_byte _ c _ h8 hp
    subst hc
    exact absurd h2 (by decide)
  · simp only [if_neg hok]
    refine error_recorded_send s _ _ _ [] (List.append_nil _).symm rfl ?_
    intro _ c h2 h8 hp
    have hc := head_byte _ c _ h8 hp
    subst hc
    exact absurd h2 (by decide)

theorem error_recorded_data (hw : Hw) (s : Ota) (payload : List Byte) (paylen : Nat) :
    error_recorded s (ota_feed_data hw s payload paylen) := by
  unfold ota_feed_data
  by_cases c1 : paylen < 8
  · rw [if_pos c1]; exact error_recorded_same s s rfl
  rw [if_neg c1]
  by_cases c2 : s.s_state = .OTA_PREPARE_ERASE
  · rw [if_pos c2]
    exact error_recorded_send s s _ _ [] (List.append_nil _).symm rfl
      (fun hty => absurd hty (by decide))
  rw [if_neg c2]
  by_cases c3 : s.s_state ≠ .OTA_READY_FOR_DATA ∧ s.s_state ≠ .OTA_RECEIVING
  · rw [if_pos c3]; exact error_recorded_same s s rfl
  rw [if_neg c3]
  simp only [set_error]
  split_ifs
  all_goals
    first
      | exact error_recorded_accept hw s _ _ _
      | (refine error_recorded_send s _ _ _ [] (List.append_nil _).symm rfl ?_
         intro _ c h2 h8 hp
         have hc := head_byte _ c _ h8 hp
         subst hc
         first
           | rfl
           | exact absurd h2 (by decide))

theorem error_recorded_finish (hw : Hw) (s : Ota) :
    error_recorded s (ota_feed_finish hw s) := by
  unfold ota_feed_finish
  by_cases c1 : s.s_state ≠ .OTA_RECEIVING
  · rw [if_pos c1]; exact error_recorded_same s s rfl
  rw [if_neg c1]
  simp only [set_error]
  by_cases c2 : s.ctx.bytes_received ≠ s.ctx.total_size
  · rw [if_pos c2]
    refine error_recorded_send s _ _ _ [] (List.append_nil _).symm rfl ?_
    intro _ c h2 h8 hp
    have hc := head_byte _ c _ h8 hp
    subst hc
    rfl
  rw [if_neg c2]
  by_cases c3 : s.ctx.crc32_accum ≠ s.ctx.expected_crc32
  · rw [if_pos c3]
    refine error_recorded_send s _ _ _ [] (List.append_nil _).symm rfl ?_
    intro _ c h2 h8 hp
    have hc := head_byte _ c _ h8 hp
    subst hc
    rfl
  rw [if_neg c3]
  by_cases c4 : flash_read32 s.flash OTA_SLOT_B_ADDR ≠ OTA_MAGIC
  · rw [if_pos c4]
    refine error_recorded_send s _ _ _ [] (List.append_nil _).symm rfl ?_
    intro _ c h2 h8 hp
    have hc := head_byte _ c _ h8 hp
    subst hc
    rfl
  rw [if_neg c4]
  obtain ⟨l, hl, hl2⟩ := write_flag_trace hw { s with s_state := .OTA_VERIFYING }
    { magic := OTA_FLAG_MAGIC, pending := 1, confirmed := 0, slot := 1, _res := 0,
      size := s.ctx.total_size, crc32 := s.ctx.expected_crc32 }
  refine error_recorded_of_sent s _
    (l ++ ((if s.s_send = true then [Effect.send RSP_OTA [u8 RSP_OTA_OK_FINISH]] else []) ++
      [Effect.delay 50, Effect.system_reset])) ?_ ?_
  · simp only [send_hook_trace_eq, write_flag_send, hl, List.append_assoc]
  · intro p c hm h2 h8 hp
    rw [sent_append, hl2, List.nil_append, sent_append] at hm
    split at hm
    · simp only [sent, List.append_nil, List.mem_singleton, Prod.mk.injEq] at hm
      rw [hm.2] at hp
      have hc := head_byte _ c _ h8 hp
      subst hc
      exact absurd h2 (by decide)
    · simp [sent] at hm

/-- For START, DATA and FINISH frames, the error recorded matches the subcode sent. -/
theorem error_recorded_feed (hw : Hw) (s : Ota) (data : List Byte)
    (hty : is_frame CMD_OTA_START data ∨ is_frame CMD_OTA_DATA data ∨
      is_frame CMD_OTA_FINISH data) : error_recorded s (ota_feed hw s data) := by
  rcases hty with hf | hf | hf
  · rw [feed_start_eq hw s data hf]
    exact error_recorded_start s _ _
  · rw [feed_data_eq hw s data hf]
    exact error_recorded_data hw s _ _
  · rw [feed_finish_eq hw s data hf]
    exact error_recorded_finish hw s

theorem start_send (s : Ota) (payload : List Byte) (paylen : Nat) :
    (ota_feed_start s payload paylen).s_send = s.s_send := by
  unfold ota_feed_start
  simp only [set_error]
  split_ifs <;> simp only [send_hook_send, log_event_send, ota_reset]

theorem data_send (hw : Hw) (s : Ota) (payload : List Byte) (paylen : Nat) :
    (ota_feed_data hw s payload paylen).s_send = s.s_send := by
  unfold ota_feed_data
  simp only [set_error]
  split_ifs <;> simp only [send_hook_send, data_accept_send]

theorem finish_send (hw : Hw) (s : Ota) : (ota_feed_finish hw s).s_send = s.s_send := by
  unfold ota_feed_finish
  simp only [set_error]
  split_ifs <;> simp only [send_hook_send, write_flag_send]

/-- The `last_error` byte of a STATUS reply is the number of the recorded `ota_error_t`. -/
theorem status_last_error_byte (hw : Hw) (s : Ota) (st : List Byte) (hsend : s.s_send = true)
    (hf : is_frame CMD_OTA_STATUS st) :
    ∃ rsp : List Byte, feed_actions hw s st = [Effect.send RSP_OTA rsp] ∧ rsp.length = 24 ∧
      rsp.getD 17 0 = u8 s.ctx.last_ota_error.toNat := by
  unfold feed_actions
  rw [feed_status_eq hw s st hf, status_unfold s hsend]
  refine ⟨_, trace_drop_append _ _, ?_, ?_⟩
  · simp [bytes_of_u32]
  · rfl

/-! ## C35: the numbering of `last_error` -/

/-- C35. With the send hook installed, for every START, DATA or FINISH frame: when `ota_feed`
sends an RSP_OTA reply whose first byte is an error subcode `c` in 2..8, the `last_error`
recorded in the context is the `ota_error_t` number `c - 1`, and a STATUS frame fed
immediately afterwards is answered with 24 bytes of which byte 17 is `c - 1`; when a START
frame is answered with OK_START, `last_error` is `OTA_ERR_NONE`, number 0, and byte 17 of
that STATUS reply is 0. Each RSP_OTA error subcode is the number of the `ota_error_t`
enumerator of the same name plus one. -/
theorem last_error_is_subcode_minus_one (hw : Hw) (s : Ota) (data : List Byte)
    (hsend : s.s_send = true)
    (hty : is_frame CMD_OTA_START data ∨ is_frame CMD_OTA_DATA data ∨
      is_frame CMD_OTA_FINISH data) :
    (∀ (p : List Byte) (c : Nat), (RSP_OTA, p) ∈ sent (feed_actions hw s data) →
      2 ≤ c → c ≤ 8 → p.head? = some (u8 c) →
      (ota_feed hw s data).ctx.last_ota_error.toNat = c - 1 ∧
      ∀ (hw2 : Hw) (st : List Byte), is_frame CMD_OTA_STATUS st →
        ∃ rsp : List Byte, feed_actions hw2 (ota_feed hw s data) st = [Effect.send RSP_OTA rsp] ∧
          rsp.length = 24 ∧ rsp.getD 17 0 = u8 (c - 1)) ∧
    (is_frame CMD_OTA_START data →
      (RSP_OTA, [u8 RSP_OTA_OK_START]) ∈ sent (feed_actions hw s data) →
      (ota_feed hw s data).ctx.last_ota_error = .OTA_ERR_NONE ∧
      (ota_feed hw s data).ctx.last_ota_error.toNat = 0 ∧
      ∀ (hw2 : Hw) (st : List Byte), is_frame CMD_OTA_STATUS st →
        ∃ rsp : List Byte, feed_actions hw2 (ota_feed hw s data) st = [Effect.send RSP_OTA rsp] ∧
          rsp.length = 24 ∧ rsp.getD 17 0 = 0) ∧
    (RSP_OTA_ERR_SIZE = ota_error_t.OTA_ERR_SIZE.toNat + 1 ∧
      RSP_OTA_ERR_SIZE_MISMATCH = ota_error_t.OTA_ERR_SIZE_MISMATCH.toNat + 1 ∧
      RSP_OTA_ERR_CHUNK = ota_error_t.OTA_ERR_CHUNK.toNat + 1 ∧
      RSP_OTA_ERR_BAD_MAGIC = ota_error_t.OTA_ERR_BAD_MAGIC.toNat + 1 ∧
      RSP_OTA_ERR_CHUNK_CRC = ota_error_t.OTA_ERR_CHUNK_CRC.toNat + 1 ∧
      RSP_OTA_ERR_BAD_OFFSET = ota_error_t.OTA_ERR_BAD_OFFSET.toNat + 1 ∧
      RSP_OTA_ERR_CRC_MISMATCH = ota_error_t.OTA_ERR_CRC_MISMATCH.toNat + 1) := by
  have hsend2 : (ota_feed hw s data).s_send = true := by
    rcases hty with hf | hf | hf
    · rw [feed_start_eq hw s data hf, start_send]; exact hsend
    · rw [feed_data_eq hw s data hf, data_send]; exact hsend
    · rw [feed_finish_eq hw s data hf, finish_send]; exact hsend
  refine ⟨?_, ?_, ⟨rfl, rfl, rfl, rfl, rfl, rfl, rfl⟩⟩
  · intro p c hm h2 h8 hp
    have he : (ota_feed hw s data).ctx.last_ota_error.toNat = c - 1 :=
      error_recorded_feed hw s data hty p c hm h2 h8 hp
    refine ⟨he, ?_⟩
    intro hw2 st hst
    obtain ⟨rsp, h1, h3, h4⟩ := status_last_error_byte hw2 _ st hsend2 hst
    exact ⟨rsp, h1, h3, by rw [h4, he]⟩
  · intro hf hm
    have hnone : (ota_feed hw s data).ctx.last_ota_error = .OTA_ERR_NONE := by
      unfold feed_actions at hm
      rw [feed_start_eq hw s data hf] at hm ⊢
      by_cases h11 : frame_paylen data < 11
      · have hs : ota_feed_start s (data.drop 3) (frame_paylen data) = s := by
          unfold ota_feed_start
          rw [if_pos h11]
        rw [hs, List.drop_length] at hm
        simp [sent] at hm
      · have h11 : 11 ≤ frame_paylen data := by omega
        rw [start_trace s _ _ h11 hsend, trace_drop_append] at hm
        by_cases hsz : le32 ((data.drop 3).getD 3 0) ((data.drop 3).getD 4 0)
            ((data.drop 3).getD 5 0) ((data.drop 3).getD 6 0) = 0 ∨
          le32 ((data.drop 3).getD 3 0) ((data.drop 3).getD 4 0)
            ((data.drop 3).getD 5 0) ((data.drop 3).getD 6 0) > OTA_STAGING_SIZE
        · rw [if_pos hsz] at hm
          simp only [sent, List.mem_singleton, Prod.mk.injEq, List.cons.injEq, and_true,
            true_and] at hm
          exact absurd hm (by decide)
        · rw [start_ctx s _ _ h11 hsz]
    refine ⟨hnone, by rw [hnone]; rfl, ?_⟩
    intro hw2 st hst
    obtain ⟨rsp, h1, h3, h4⟩ := status_last_error_byte hw2 _ st hsend2 hst
    exact ⟨rsp, h1, h3, by rw [h4, hnone]; rfl⟩

set_option maxRecDepth 100000 in
/-- The preceding theorem applies to `overrun_frame` in `session_half`: the reply is ERR_CHUNK
(subcode 4) and the error recorded is `OTA_ERR_CHUNK`, number 3. -/
theorem last_error_is_subcode_minus_one_witness :
    (RSP_OTA, [u8 RSP_OTA_ERR_CHUNK]) ∈ sent (feed_actions (hw_ok 0) session_half overrun_frame) ∧
    (ota_feed (hw_ok 0) session_half overrun_frame).ctx.last_ota_error.toNat = 4 - 1 :=
  ⟨by decide, ((last_error_is_subcode_minus_one (hw_ok 0) session_half overrun_frame
    (by decide) (Or.inr (Or.inl (by decide)))).1 [u8 RSP_OTA_ERR_CHUNK] 4 (by decide)
    (by decide) (by decide) rfl).1⟩

end SmartBall
